import Mathlib

/-!
# PluginLoader: the plugin registry (`plugin::impl`)

A shallow embedding of `src/plugins/PluginLoaderCore.hpp` and
`src/plugins/PluginLoaderCore.cpp`, of the logging sink of
`src/plugins/Console.h` and `src/plugins/Console.cpp`, and of the loader
handle, which is modelled from the specification (`PluginLoader.hpp` is not
among the sources).

* Pointers are addresses (`Nat`); a nullable `PluginLoader*` is an `Option`.
* Meta-objects live in a heap (`Registry.metaObjects`) and the directory, the
  graveyard and the loaded-library table hold addresses, as in the source, so
  that one object reachable from two places is one object.
* `std::map` is a key-ordered association list; `std::vector` is a `List`.
* The process-wide singletons are the fields of `Registry`; every operation
  takes the registry and returns the new one.
* The mutexes are not modelled: every operation runs to completion.
* Calls of `plugin::log` are recorded by their level only; the formatting of
  the text is not modelled, except that the evaluation of the argument
  `loader->getLibraryPath()` through a null `loader` is an outcome of its own.
* `assert`s are not part of the control flow.
-/

namespace plugin

/-- The set of priorities for message logging (`Console.h`). -/
inductive LogLevel where
  | CONSOLE_LOG_DEBUG
  | CONSOLE_LOG_INFO
  | CONSOLE_LOG_WARN
  | CONSOLE_LOG_ERROR
  | CONSOLE_LOG_NONE
deriving DecidableEq, Repr

/-- The exception kinds raised by the registry (`Exceptions.hpp`). -/
inductive PluginLoaderException where
  | LibraryLoadException
  | LibraryUnloadException
  | CreateClassException
deriving DecidableEq, Repr

namespace impl

abbrev LibraryPath := String
abbrev ClassName := String
abbrev BaseClassName := String

/-- A `PluginLoader*`: `none` is `nullptr`, `some a` the loader at address `a`. -/
abbrev PluginLoaderPtr := Option Nat

/-- An `AbstractMetaObjectBase*` obtained from `new`; never null. -/
abbrev MetaObjectPtr := Nat

/-- A `SharedLibrary*` obtained from `new`; never null. -/
abbrev SharedLibraryPtr := Nat

/-- Modelled from the spec: `MetaObject.hpp` is not among the sources. A
meta-object knows its derived-class name, the human name of its base, its
base-interface identity (`typeid(Base).name()`, which is also the `Base` of its
dynamic type `AbstractMetaObject<Base>`), its associated library path and its
owning-loader multiset. -/
structure AbstractMetaObjectBase where
  class_name : ClassName
  base_class_name : String
  typeid_base_class_name : BaseClassName
  associated_library_path : LibraryPath
  associated_plugin_loaders : List PluginLoaderPtr
deriving DecidableEq, Repr

/-- The state of a `SharedLibrary` object (`SharedLibrary.cpp`): the OS module
handle (`none` when `_handle` is 0) and the path. -/
structure SharedLibrary where
  handle : Option Nat
  path : String
deriving DecidableEq, Repr

/-! ## `std::map<std::string, _>` -/

/-- The order of `std::string` keys: lexicographic on the characters. -/
def keyLt (a b : String) : Prop := a.data < b.data

instance keyLt.decidable : DecidableRel keyLt :=
  fun a b => inferInstanceAs (Decidable (a.data < b.data))

/-- Lookup in a list of entries: the value of the first entry with key `k`. -/
def mapFind {β : Type} : List (String × β) → String → Option β
  | [], _ => none
  | (k', v) :: rest, k => if k' = k then some v else mapFind rest k

/-- Assignment in a key-ordered list of entries: assign at an existing key, or
insert at the key's place. -/
def mapAssign {β : Type} : List (String × β) → String → β → List (String × β)
  | [], k, v => [(k, v)]
  | (k', v') :: rest, k, v =>
    if k' = k then (k', v) :: rest
    else if keyLt k k' then (k, v) :: (k', v') :: rest
    else (k', v') :: mapAssign rest k v

theorem keyLt_irrefl (a : String) : ¬ keyLt a a := lt_irrefl a.data

theorem keyLt_trans {a b c : String} (h₁ : keyLt a b) (h₂ : keyLt b c) : keyLt a c :=
  lt_trans (α := List Char) h₁ h₂

theorem keyLt_of_not {a b : String} (hne : b ≠ a) (h : ¬ keyLt a b) : keyLt b a := by
  rcases lt_trichotomy a.data b.data with h' | h' | h'
  · exact absurd h' h
  · exact absurd (String.ext h').symm hne
  · exact h'

theorem mapAssign_keys_mem {β : Type} (l : List (String × β)) (k : String) (v : β)
    (e : String × β) (he : e ∈ mapAssign l k v) : e.1 = k ∨ e ∈ l := by
  induction l with
  | nil =>
    simp only [mapAssign, List.mem_singleton] at he
    exact Or.inl (by rw [he])
  | cons hd tl ih =>
    obtain ⟨k', v'⟩ := hd
    simp only [mapAssign] at he
    split_ifs at he with h1 h2
    · rcases List.mem_cons.mp he with h | h
      · exact Or.inl (by rw [h]; exact h1)
      · exact Or.inr (List.mem_cons_of_mem _ h)
    · rcases List.mem_cons.mp he with h | h
      · exact Or.inl (by rw [h])
      · exact Or.inr h
    · rcases List.mem_cons.mp he with h | h
      · exact Or.inr (by rw [h]; exact List.mem_cons_self _ _)
      · rcases ih h with h' | h'
        · exact Or.inl h'
        · exact Or.inr (List.mem_cons_of_mem _ h')

theorem mapAssign_pairwise {β : Type} (l : List (String × β)) (k : String) (v : β)
    (h : l.Pairwise (fun a b => keyLt a.1 b.1)) :
    (mapAssign l k v).Pairwise (fun a b => keyLt a.1 b.1) := by
  induction l with
  | nil => simp [mapAssign]
  | cons hd tl ih =>
    obtain ⟨k', v'⟩ := hd
    rw [List.pairwise_cons] at h
    simp only [mapAssign]
    split_ifs with h1 h2
    · exact List.pairwise_cons.mpr ⟨h.1, h.2⟩
    · refine List.pairwise_cons.mpr ⟨?_, List.pairwise_cons.mpr ⟨h.1, h.2⟩⟩
      intro e he
      rcases List.mem_cons.mp he with rfl | he'
      · exact h2
      · exact keyLt_trans h2 (h.1 e he')
    · refine List.pairwise_cons.mpr ⟨?_, ih h.2⟩
      intro e he
      rcases mapAssign_keys_mem tl k v e he with h' | h'
      · rw [h']
        exact keyLt_of_not h1 h2
      · exact h.1 e h'

/-- A `std::map<std::string, T>`: its entries in key order, the keys strictly
increasing. -/
structure StdMap (β : Type) where
  entries : List (String × β)
  ordered : entries.Pairwise (fun a b => keyLt a.1 b.1)

namespace StdMap

/-- The empty map. -/
def empty {β : Type} : StdMap β := ⟨[], List.Pairwise.nil⟩

/-- Member `m.find(k)`: the value stored at `k`, if any (`none` is `m.end()`). -/
def find {β : Type} (m : StdMap β) (k : String) : Option β := mapFind m.entries k

/-- Assignment `m[k] = v`. -/
def assign {β : Type} (m : StdMap β) (k : String) (v : β) : StdMap β :=
  ⟨mapAssign m.entries k v, mapAssign_pairwise m.entries k v m.ordered⟩

/-- The keys, in iteration order. -/
def keys {β : Type} (m : StdMap β) : List String := m.entries.map Prod.fst

/-- Member `m.size()`. -/
def size {β : Type} (m : StdMap β) : Nat := m.entries.length

end StdMap

abbrev FactoryMap := StdMap MetaObjectPtr
abbrev BaseToFactoryMapMap := StdMap FactoryMap
abbrev LibraryPair := LibraryPath × SharedLibraryPtr
abbrev LibraryVector := List LibraryPair
abbrev MetaObjectVector := List MetaObjectPtr

/-! ## Global storage -/

/-- The process-wide singletons of `PluginLoaderCore.hpp`, with the heap of
meta-objects and of `SharedLibrary` objects they point into, and the record of
the calls of `plugin::log`. -/
structure Registry where
  /-- the memory of the meta-objects, by address -/
  metaObjects : MetaObjectPtr → AbstractMetaObjectBase
  /-- the address the next `new MetaObject` returns -/
  nextMetaObject : Nat
  /-- the meta-objects on which `delete` was called, in order -/
  deletedMetaObjects : List MetaObjectPtr
  /-- the memory of the `SharedLibrary` objects, by address -/
  sharedLibraries : SharedLibraryPtr → SharedLibrary
  /-- the address the next `new SharedLibrary` returns -/
  nextSharedLibrary : Nat
  /-- the `SharedLibrary` objects on which `delete` was called, in order -/
  deletedSharedLibraries : List SharedLibraryPtr
  /-- `getGlobalPluginBaseToFactoryMapMap()` -/
  factoryMapMap : BaseToFactoryMapMap
  /-- `getMetaObjectGraveyard()` -/
  graveyard : MetaObjectVector
  /-- `getLoadedLibraryVector()` -/
  loadedLibraryVector : LibraryVector
  /-- `getCurrentlyLoadingLibraryNameReference()` -/
  currentlyLoadingLibraryName : String
  /-- `getCurrentlyActivePluginLoaderReference()` -/
  currentlyActivePluginLoader : PluginLoaderPtr
  /-- `hasANonPurePluginLibraryBeenOpenedReference()` -/
  hasANonPurePluginLibraryBeenOpened : Bool
  /-- the levels of the calls of `plugin::log`, oldest first -/
  logged : List LogLevel

/-- The outcome of a registry operation. -/
inductive Outcome (α : Type) where
  /-- normal return with a value, in the given registry -/
  | returned (value : α) (st : Registry)
  /-- an exception leaves the operation, in the given registry -/
  | thrown (e : PluginLoaderException) (st : Registry)
  /-- a member of `PluginLoader` was used through a null pointer -/
  | nullDereference

namespace Registry

/-- The registry of a fresh process: static initialisation of the singletons. -/
def initial : Registry where
  metaObjects := fun _ => ⟨"", "", "UNSET", "Unknown", []⟩
  nextMetaObject := 1
  deletedMetaObjects := []
  sharedLibraries := fun _ => ⟨none, ""⟩
  nextSharedLibrary := 1
  deletedSharedLibraries := []
  factoryMapMap := StdMap.empty
  graveyard := []
  loadedLibraryVector := []
  currentlyLoadingLibraryName := ""
  currentlyActivePluginLoader := none
  hasANonPurePluginLibraryBeenOpened := false
  logged := []

/-- A call of `plugin::log` at the given level. -/
def log (st : Registry) (level : LogLevel) : Registry :=
  { st with logged := st.logged ++ [level] }

/-- Function `logDebug`. -/
def logDebug (st : Registry) : Registry := st.log LogLevel.CONSOLE_LOG_DEBUG

/-- Function `logWarn`. -/
def logWarn (st : Registry) : Registry := st.log LogLevel.CONSOLE_LOG_WARN

/-- Function `logError`. -/
def logError (st : Registry) : Registry := st.log LogLevel.CONSOLE_LOG_ERROR

/-- Store a meta-object at an address. -/
def writeMetaObject (st : Registry) (p : MetaObjectPtr) (mo : AbstractMetaObjectBase) :
    Registry :=
  { st with metaObjects := fun q => if q = p then mo else st.metaObjects q }

end Registry

/-! ## Meta-object operations -/

/-- Modelled from the spec: `MetaObject.hpp` is not among the sources.
`new MetaObject<Derived, Base>(class_name, base_class_name)`: a meta-object at a
fresh address, with no owner yet; `Base` is `typeid(Base).name()`. -/
def newMetaObject (st : Registry) (Base : BaseClassName) (class_name base_class_name : String) :
    MetaObjectPtr × Registry :=
  (st.nextMetaObject,
    { st.writeMetaObject st.nextMetaObject ⟨class_name, base_class_name, Base, "Unknown", []⟩ with
      nextMetaObject := st.nextMetaObject + 1 })

/-- Modelled from the spec: `MetaObject.hpp` is not among the sources.
`meta_obj->addOwningPluginLoader(loader)`: add one occurrence to the multiset. -/
def addOwningPluginLoader (st : Registry) (p : MetaObjectPtr) (loader : PluginLoaderPtr) :
    Registry :=
  st.writeMetaObject p
    { st.metaObjects p with
      associated_plugin_loaders := (st.metaObjects p).associated_plugin_loaders ++ [loader] }

/-- Modelled from the spec: `MetaObject.hpp` is not among the sources.
`meta_obj->removeOwningPluginLoader(loader)`: remove one occurrence. -/
def removeOwningPluginLoader (st : Registry) (p : MetaObjectPtr) (loader : PluginLoaderPtr) :
    Registry :=
  st.writeMetaObject p
    { st.metaObjects p with
      associated_plugin_loaders := (st.metaObjects p).associated_plugin_loaders.erase loader }

/-- Modelled from the spec: `MetaObject.hpp` is not among the sources.
`meta_obj->setAssociatedLibraryPath(path)`. -/
def setAssociatedLibraryPath (st : Registry) (p : MetaObjectPtr) (path : LibraryPath) :
    Registry :=
  st.writeMetaObject p { st.metaObjects p with associated_library_path := path }

/-- Modelled from the spec: `MetaObject.hpp` is not among the sources.
`meta_obj->isOwnedBy(loader)`: the multiset contains that loader reference
(the null entry when asked with null). -/
def isOwnedBy (st : Registry) (p : MetaObjectPtr) (loader : PluginLoaderPtr) : Bool :=
  decide (loader ∈ (st.metaObjects p).associated_plugin_loaders)

/-- Modelled from the spec: `MetaObject.hpp` is not among the sources.
`meta_obj->isOwnedByAnybody()`: the multiset is non-empty. -/
def isOwnedByAnybody (st : Registry) (p : MetaObjectPtr) : Bool :=
  !(st.metaObjects p).associated_plugin_loaders.isEmpty

/-- Member `meta_obj->getAssociatedLibraryPath()`. -/
def getAssociatedLibraryPath (st : Registry) (p : MetaObjectPtr) : LibraryPath :=
  (st.metaObjects p).associated_library_path

/-- Cast `dynamic_cast<AbstractMetaObject<Base> *>(p)`: the pointer when the
meta-object is one for `Base`, null otherwise. -/
def dynamicCast (st : Registry) (Base : BaseClassName) (p : MetaObjectPtr) :
    Option MetaObjectPtr :=
  if (st.metaObjects p).typeid_base_class_name = Base then some p else none

/-! ## Global data area -/

/-- Function `getFactoryMapForBaseClass(typeid_base_class_name)`: an absent inner map is
created empty first. The reference it returns is `factoryMapOf` of the result. -/
def getFactoryMapForBaseClass (st : Registry) (typeid_base_class_name : BaseClassName) :
    Registry :=
  match st.factoryMapMap.find typeid_base_class_name with
  | none =>
    { st with factoryMapMap := st.factoryMapMap.assign typeid_base_class_name StdMap.empty }
  | some _ => st

/-- The inner map `factoryMapMap[base_class_name]`, read. -/
def factoryMapOf (st : Registry) (base_class_name : BaseClassName) : FactoryMap :=
  (st.factoryMapMap.find base_class_name).getD StdMap.empty

/-- An assignment `factoryMap[class_name] = p` through the reference to the
inner map of `base_class_name`. -/
def assignFactory (st : Registry) (base_class_name : BaseClassName) (class_name : ClassName)
    (p : MetaObjectPtr) : Registry :=
  { st with
    factoryMapMap :=
      st.factoryMapMap.assign base_class_name
        ((factoryMapOf st base_class_name).assign class_name p) }

/-- Function `hasANonPurePluginLibraryBeenOpened(hasIt)`, the setter of the flag. -/
def hasANonPurePluginLibraryBeenOpened (st : Registry) (hasIt : Bool) : Registry :=
  { st with hasANonPurePluginLibraryBeenOpened := hasIt }

/-! ## Plugin functions (`PluginLoaderCore.hpp`) -/

/-- Function `registerPlugin<Derived, Base>(class_name, base_class_name)`; `Base` is
`typeid(Base).name()`. -/
def registerPlugin (st : Registry) (Base : BaseClassName) (class_name base_class_name : String) :
    Registry :=
  let st := st.logDebug
  let st :=
    if st.currentlyActivePluginLoader = none then
      hasANonPurePluginLibraryBeenOpened st.logDebug true
    else st
  -- Create factory
  let (new_factory, st) := newMetaObject st Base class_name base_class_name
  let st := addOwningPluginLoader st new_factory st.currentlyActivePluginLoader
  let st := setAssociatedLibraryPath st new_factory st.currentlyLoadingLibraryName
  -- Add it to global factory map map
  let st := getFactoryMapForBaseClass st Base
  let st :=
    if ((factoryMapOf st Base).find class_name).isSome then st.logWarn else st
  let st := assignFactory st Base class_name new_factory
  st.logDebug

/-- Function `createInstance<Base>(derived_class_name, loader)`. The value returned is
the address of the meta-object whose `create()` made the new instance. -/
def createInstance (st : Registry) (Base : BaseClassName) (derived_class_name : ClassName)
    (loader : PluginLoaderPtr) : Outcome MetaObjectPtr :=
  let st := getFactoryMapForBaseClass st Base
  let found := (factoryMapOf st Base).find derived_class_name
  let factory : Option MetaObjectPtr :=
    match found with
    | some p => dynamicCast st Base p
    | none => none
  let st := if found.isSome then st else st.logError
  match factory with
  | some f =>
    if isOwnedBy st f loader then
      Outcome.returned f st.logDebug
    else if isOwnedBy st f none then
      Outcome.returned f st.logDebug.logDebug
    else
      Outcome.thrown PluginLoaderException.CreateClassException st
  | none => Outcome.thrown PluginLoaderException.CreateClassException st

/-- The loop of `getAvailableClasses` over the entries of the factory map, with
the two vectors it fills. -/
def getAvailableClassesLoop (st : Registry) (loader : PluginLoaderPtr) :
    List (ClassName × MetaObjectPtr) → List String → List String → List String × List String
  | [], classes, classes_with_no_owner => (classes, classes_with_no_owner)
  | (name, factory) :: rest, classes, classes_with_no_owner =>
    if isOwnedBy st factory loader then
      getAvailableClassesLoop st loader rest (classes ++ [name]) classes_with_no_owner
    else if isOwnedBy st factory none then
      getAvailableClassesLoop st loader rest classes (classes_with_no_owner ++ [name])
    else
      getAvailableClassesLoop st loader rest classes classes_with_no_owner

/-- Function `getAvailableClasses<Base>(loader)`: the vector returned and the registry
afterwards. -/
def getAvailableClasses (st : Registry) (Base : BaseClassName) (loader : PluginLoaderPtr) :
    List String × Registry :=
  let st := getFactoryMapForBaseClass st Base
  let (classes, classes_with_no_owner) :=
    getAvailableClassesLoop st loader (factoryMapOf st Base).entries [] []
  (classes ++ classes_with_no_owner, st)

/-! ## MetaObject search/insert/removal/query (`PluginLoaderCore.cpp`) -/

/-- Function `allMetaObjects(factories)`: the meta-objects of one factory map. -/
def allMetaObjectsOf (factories : FactoryMap) : MetaObjectVector :=
  factories.entries.map Prod.snd

/-- Function `allMetaObjects()`: the meta-objects of all factory maps, map by map. -/
def allMetaObjects (st : Registry) : MetaObjectVector :=
  (st.factoryMapMap.entries.map (fun it => allMetaObjectsOf it.2)).flatten

/-- Function `filterAllMetaObjectsOwnedBy(to_filter, owner)`. -/
def filterAllMetaObjectsOwnedBy (st : Registry) (to_filter : MetaObjectVector)
    (owner : PluginLoaderPtr) : MetaObjectVector :=
  to_filter.filter (fun f => isOwnedBy st f owner)

/-- Function `filterAllMetaObjectsAssociatedWithLibrary(to_filter, library_path)`. -/
def filterAllMetaObjectsAssociatedWithLibrary (st : Registry) (to_filter : MetaObjectVector)
    (library_path : LibraryPath) : MetaObjectVector :=
  to_filter.filter (fun f => decide (getAssociatedLibraryPath st f = library_path))

/-- Function `allMetaObjectsForPluginLoader(owner)`. -/
def allMetaObjectsForPluginLoader (st : Registry) (owner : PluginLoaderPtr) : MetaObjectVector :=
  filterAllMetaObjectsOwnedBy st (allMetaObjects st) owner

/-- Function `allMetaObjectsForLibrary(library_path)`. -/
def allMetaObjectsForLibrary (st : Registry) (library_path : LibraryPath) : MetaObjectVector :=
  filterAllMetaObjectsAssociatedWithLibrary st (allMetaObjects st) library_path

/-- Function `allMetaObjectsForLibraryOwnedBy(library_path, owner)`. -/
def allMetaObjectsForLibraryOwnedBy (st : Registry) (library_path : LibraryPath)
    (owner : PluginLoaderPtr) : MetaObjectVector :=
  filterAllMetaObjectsOwnedBy st (allMetaObjectsForLibrary st library_path) owner

/-- Function `insertMetaObjectIntoGraveyard(meta_obj)`. -/
def insertMetaObjectIntoGraveyard (st : Registry) (meta_obj : MetaObjectPtr) : Registry :=
  let st := st.logDebug
  { st with graveyard := st.graveyard ++ [meta_obj] }

/-- Function `areThereAnyExistingMetaObjectsForLibrary(library_path)`. -/
def areThereAnyExistingMetaObjectsForLibrary (st : Registry) (library_path : LibraryPath) :
    Bool :=
  !(allMetaObjectsForLibrary st library_path).isEmpty

/-! ## Loaded Library Vector manipulation -/

/-- Function `findLoadedLibrary(library_path)`: the position of the first entry
with that path, `none` for `open_libraries.end()`. -/
def findLoadedLibrary (st : Registry) (library_path : LibraryPath) : Option Nat :=
  st.loadedLibraryVector.findIdx? (fun it => decide (it.1 = library_path))

/-! ## Global data area, setters -/

/-- Function `setCurrentlyActivePluginLoader(loader)`. -/
def setCurrentlyActivePluginLoader (st : Registry) (loader : PluginLoaderPtr) : Registry :=
  { st with currentlyActivePluginLoader := loader }

/-- Function `setCurrentlyLoadingLibraryName(library_name)`. -/
def setCurrentlyLoadingLibraryName (st : Registry) (library_name : String) : Registry :=
  { st with currentlyLoadingLibraryName := library_name }

/-! ## Remaining core functions -/

/-- Function `isLibraryLoadedByAnybody(library_path)`. -/
def isLibraryLoadedByAnybody (st : Registry) (library_path : LibraryPath) : Bool :=
  (findLoadedLibrary st library_path).isSome

/-- The loop of `addPluginLoaderOwnerForAllExistingMetaObjectsForLibrary` over
`all_meta_objs`. Each round first builds the arguments of `logDebug`, among them
`nullptr == loader ? loader->getLibraryPath().c_str() : "NULL"`, which goes
through `loader` exactly when it is null: `none` is that null dereference. -/
def addPluginLoaderOwnerLoop (loader : PluginLoaderPtr) :
    MetaObjectVector → Registry → Option Registry
  | [], st => some st
  | meta_obj :: rest, st =>
    match loader with
    | none => none
    | some _ =>
      addPluginLoaderOwnerLoop loader rest (addOwningPluginLoader st.logDebug meta_obj loader)

/-- Function `addPluginLoaderOwnerForAllExistingMetaObjectsForLibrary(library_path, loader)`;
`none` is the null dereference. -/
def addPluginLoaderOwnerForAllExistingMetaObjectsForLibrary (st : Registry)
    (library_path : LibraryPath) (loader : PluginLoaderPtr) : Option Registry :=
  addPluginLoaderOwnerLoop loader (allMetaObjectsForLibrary st library_path) st

/-- The loop of `revivePreviouslyCreateMetaobjectsFromGraveyard` over the
graveyard; `none` is the null dereference in the arguments of `logDebug`. -/
def reviveLoop (library_path : LibraryPath) (loader : PluginLoaderPtr) :
    MetaObjectVector → Registry → Option Registry
  | [], st => some st
  | obj :: rest, st =>
    if getAssociatedLibraryPath st obj = library_path then
      match loader with
      | none => none
      | some _ =>
        let st := st.logDebug
        let st := addOwningPluginLoader st obj loader
        let key := (st.metaObjects obj).typeid_base_class_name
        let st := getFactoryMapForBaseClass st key
        let st := assignFactory st key (st.metaObjects obj).class_name obj
        reviveLoop library_path loader rest st
    else reviveLoop library_path loader rest st

/-- Function `revivePreviouslyCreateMetaobjectsFromGraveyard(library_path, loader)`;
`none` is the null dereference. -/
def revivePreviouslyCreateMetaobjectsFromGraveyard (st : Registry)
    (library_path : LibraryPath) (loader : PluginLoaderPtr) : Option Registry :=
  reviveLoop library_path loader st.graveyard st

/-- Statement `delete (obj)` on a meta-object. -/
def deleteMetaObject (st : Registry) (obj : MetaObjectPtr) : Registry :=
  { st with deletedMetaObjects := st.deletedMetaObjects ++ [obj] }

/-- The loop of `purgeGraveyardOfMetaobjects` over the graveyard: the entries
that stay, in order, and the registry; `none` is the null dereference in the
arguments of `logDebug`. -/
def purgeLoop (library_path : LibraryPath) (loader : PluginLoaderPtr) (delete_objs : Bool)
    (all_meta_objs : MetaObjectVector) :
    MetaObjectVector → Registry → Option (MetaObjectVector × Registry)
  | [], st => some ([], st)
  | obj :: rest, st =>
    if getAssociatedLibraryPath st obj = library_path then
      match loader with
      | none => none
      | some _ =>
        let st := st.logDebug
        let is_address_in_graveyard_same_as_global_factory_map := decide (obj ∈ all_meta_objs)
        let st :=
          if delete_objs then
            if is_address_in_graveyard_same_as_global_factory_map then st.logDebug
            else deleteMetaObject st.logDebug obj
          else st
        purgeLoop library_path loader delete_objs all_meta_objs rest st
    else
      (purgeLoop library_path loader delete_objs all_meta_objs rest st).map
        (fun r => (obj :: r.1, r.2))

/-- Function `purgeGraveyardOfMetaobjects(library_path, loader, delete_objs)`;
`none` is the null dereference. -/
def purgeGraveyardOfMetaobjects (st : Registry) (library_path : LibraryPath)
    (loader : PluginLoaderPtr) (delete_objs : Bool) : Option Registry :=
  let all_meta_objs := allMetaObjects st
  (purgeLoop library_path loader delete_objs all_meta_objs st.graveyard st).map
    (fun r => { r.2 with graveyard := r.1 })

/-- One static initialiser emitted by `PLUGIN_LOADER_REGISTER_CLASS(Derived, Base)`:
a call `registerPlugin<Derived, Base>(#Derived, #Base)`; `Base` is
`typeid(Base).name()`. -/
structure Registration where
  Base : BaseClassName
  class_name : String
  base_class_name : String
deriving DecidableEq, Repr

/-- Modelled from the spec: the OS loader is outside the sources. What
`::LoadLibraryA(path)` does in one call: it fails (null handle, nothing run), or
it returns a non-null module handle after running the static initialisers of
the library. -/
inductive LoadLibraryA where
  | failed
  | loaded (hmodule : Nat) (initialisers : List Registration)
deriving DecidableEq, Repr

/-- The static initialisers of a library, run in order. -/
def runInitialisers : List Registration → Registry → Registry
  | [], st => st
  | r :: rest, st => runInitialisers rest (registerPlugin st r.Base r.class_name r.base_class_name)

/-- Modelled from the spec: `SharedLibrary.hpp` is not among the sources.
`new SharedLibrary(library_path)`: the constructor calls `load(path)` of
`SharedLibrary.cpp`, which throws `LibraryLoadException` when the OS returns no
handle and records handle and path otherwise. -/
def newSharedLibrary (st : Registry) (library_path : LibraryPath) (os : LoadLibraryA) :
    Outcome SharedLibraryPtr :=
  match os with
  | LoadLibraryA.failed => Outcome.thrown PluginLoaderException.LibraryLoadException st
  | LoadLibraryA.loaded hmodule initialisers =>
    let st := runInitialisers initialisers st
    let library := st.nextSharedLibrary
    Outcome.returned library
      { st with
        sharedLibraries := fun q =>
          if q = library then ⟨some hmodule, library_path⟩ else st.sharedLibraries q
        nextSharedLibrary := library + 1 }

/-- The graveyard scenario of `loadLibrary`, after a successful open; `none` is
the null dereference. -/
def loadLibraryGraveyard (st : Registry) (library_path : LibraryPath)
    (loader : PluginLoaderPtr) : Option Registry :=
  let num_lib_objs := (allMetaObjectsForLibrary st library_path).length
  if num_lib_objs = 0 then
    let st := st.logDebug
    match revivePreviouslyCreateMetaobjectsFromGraveyard st library_path loader with
    | none => none
    | some st => purgeGraveyardOfMetaobjects st library_path loader false
  else
    purgeGraveyardOfMetaobjects st.logDebug library_path loader true

/-- The registry in which the graveyard scenario of `loadLibrary` starts: the
ambients set, the library opened, the ambients cleared. -/
def afterOpen (st : Registry) (library_path : LibraryPath) (loader : PluginLoaderPtr)
    (os : LoadLibraryA) : Outcome SharedLibraryPtr :=
  let st := setCurrentlyActivePluginLoader st loader
  let st := setCurrentlyLoadingLibraryName st library_path
  match newSharedLibrary st library_path os with
  | Outcome.thrown e st =>
    let st := setCurrentlyLoadingLibraryName st ""
    let st := setCurrentlyActivePluginLoader st none
    Outcome.thrown e st
  | Outcome.nullDereference => Outcome.nullDereference
  | Outcome.returned library_handle st =>
    let st := setCurrentlyLoadingLibraryName st ""
    let st := setCurrentlyActivePluginLoader st none
    Outcome.returned library_handle st

/-- Function `loadLibrary(library_path, loader)`, with what the OS does when the
library is opened. -/
def loadLibrary (st : Registry) (library_path : LibraryPath) (loader : PluginLoaderPtr)
    (os : LoadLibraryA) : Outcome Unit :=
  let st := st.logDebug
  -- If it's already open, just update existing metaobjects to have an additional owner.
  if isLibraryLoadedByAnybody st library_path then
    let st := st.logDebug
    match addPluginLoaderOwnerForAllExistingMetaObjectsForLibrary st library_path loader with
    | none => Outcome.nullDereference
    | some st => Outcome.returned () st
  else
    match afterOpen st library_path loader os with
    | Outcome.thrown e st => Outcome.thrown e st
    | Outcome.nullDereference => Outcome.nullDereference
    | Outcome.returned library_handle st =>
      let st := st.logDebug
      -- Graveyard scenario
      match loadLibraryGraveyard st library_path loader with
      | none => Outcome.nullDereference
      | some st =>
        -- Insert library into global loaded library vector
        Outcome.returned ()
          { st with
            loadedLibraryVector := st.loadedLibraryVector ++ [(library_path, library_handle)] }

/-! ## The directory, read -/

/-- The meta-object the directory holds at key `(Base, name)`, if any. -/
def lookup (st : Registry) (Base : BaseClassName) (name : ClassName) : Option MetaObjectPtr :=
  (factoryMapOf st Base).find name

/-- The owner multiset of the meta-object at `p`. -/
def owners (st : Registry) (p : MetaObjectPtr) : List PluginLoaderPtr :=
  (st.metaObjects p).associated_plugin_loaders

/-- Every meta-object stored in the inner map of a base identity is an
`AbstractMetaObject` of that base: the `dynamic_cast` of `createInstance`
succeeds on it. -/
def directoryWellTyped (st : Registry) : Bool :=
  st.factoryMapMap.entries.all fun it =>
    it.2.entries.all fun f => decide ((st.metaObjects f.2).typeid_base_class_name = it.1)

/-! ## Unloading (`PluginLoaderCore.cpp`, `SharedLibrary.cpp`) -/

/-- Member `m.erase(it)` for the entry at key `k`. -/
def StdMap.erase {β : Type} (m : StdMap β) (k : String) : StdMap β :=
  ⟨m.entries.filter (fun e => !decide (e.1 = k)), List.Pairwise.filter _ m.ordered⟩

/-- Member `SharedLibrary::unload()`: the OS handle, if any, is freed and reset. -/
def SharedLibrary.unload (lib : SharedLibrary) : SharedLibrary :=
  { lib with handle := none }

/-- Member `SharedLibrary::isLoaded()`. -/
def SharedLibrary.isLoaded (lib : SharedLibrary) : Bool := lib.handle.isSome

/-- The erasure `factories.erase(factory_itr_copy)` through the reference to the
inner map of `base_class_name`. -/
def eraseFactory (st : Registry) (base_class_name : BaseClassName) (class_name : ClassName) :
    Registry :=
  { st with
    factoryMapMap :=
      st.factoryMapMap.assign base_class_name
        ((factoryMapOf st base_class_name).erase class_name) }

/-- The loop of `destroyMetaObjectsForLibrary(library_path, factories, loader)`
over the entries of `factories`, the inner map of `base_class_name`. -/
def destroyMetaObjectsForLibraryLoop (library_path : LibraryPath)
    (base_class_name : BaseClassName) (loader : PluginLoaderPtr) :
    List (ClassName × MetaObjectPtr) → Registry → Registry
  | [], st => st
  | (class_name, meta_obj) :: rest, st =>
    if getAssociatedLibraryPath st meta_obj = library_path ∧
        isOwnedBy st meta_obj loader = true then
      let st := removeOwningPluginLoader st meta_obj loader
      if !isOwnedByAnybody st meta_obj then
        let st := eraseFactory st base_class_name class_name
        -- Insert into graveyard
        let st := insertMetaObjectIntoGraveyard st meta_obj
        destroyMetaObjectsForLibraryLoop library_path base_class_name loader rest st
      else
        destroyMetaObjectsForLibraryLoop library_path base_class_name loader rest st
    else
      destroyMetaObjectsForLibraryLoop library_path base_class_name loader rest st

/-- Function `destroyMetaObjectsForLibrary(library_path, factories, loader)`,
`factories` being the inner map of `base_class_name`. -/
def destroyMetaObjectsForLibraryIn (st : Registry) (library_path : LibraryPath)
    (base_class_name : BaseClassName) (loader : PluginLoaderPtr) : Registry :=
  destroyMetaObjectsForLibraryLoop library_path base_class_name loader
    (factoryMapOf st base_class_name).entries st

/-- The walk of `destroyMetaObjectsForLibrary(library_path, loader)` through
all factory maps, by their keys. -/
def destroyMetaObjectsForLibraryWalk (library_path : LibraryPath) (loader : PluginLoaderPtr) :
    List BaseClassName → Registry → Registry
  | [], st => st
  | base_class_name :: rest, st =>
    destroyMetaObjectsForLibraryWalk library_path loader rest
      (destroyMetaObjectsForLibraryIn st library_path base_class_name loader)

/-- Function `destroyMetaObjectsForLibrary(library_path, loader)`. -/
def destroyMetaObjectsForLibrary (st : Registry) (library_path : LibraryPath)
    (loader : PluginLoaderPtr) : Registry :=
  let st := st.logDebug
  -- We have to walk through all FactoryMaps to be sure
  let st := destroyMetaObjectsForLibraryWalk library_path loader st.factoryMapMap.keys st
  st.logDebug

/-- Statement `delete (library)` on a `SharedLibrary`. -/
def deleteSharedLibrary (st : Registry) (library : SharedLibraryPtr) : Registry :=
  { st with deletedSharedLibraries := st.deletedSharedLibraries ++ [library] }

/-- Function `unloadLibrary(library_path, loader)`; `unloadRaises` tells whether
`library->unload()` raises a `std::runtime_error` when it is called. -/
def unloadLibrary (st : Registry) (library_path : LibraryPath) (loader : PluginLoaderPtr)
    (unloadRaises : Bool) : Outcome Unit :=
  if st.hasANonPurePluginLibraryBeenOpened then
    Outcome.returned () st.logDebug
  else
    let st := st.logDebug
    match findLoadedLibrary st library_path with
    | some itr =>
      let library := (st.loadedLibraryVector.getD itr (library_path, 0)).2
      let library_path := (st.loadedLibraryVector.getD itr (library_path, 0)).1
      let st := destroyMetaObjectsForLibrary st library_path loader
      -- Remove from loaded library list as well if no more factories associated with said library
      if !areThereAnyExistingMetaObjectsForLibrary st library_path then
        let st := st.logDebug
        if unloadRaises then
          let st := deleteSharedLibrary st library
          Outcome.thrown PluginLoaderException.LibraryUnloadException st
        else
          let st :=
            { st with
              sharedLibraries := fun q =>
                if q = library then (st.sharedLibraries library).unload
                else st.sharedLibraries q }
          let st := deleteSharedLibrary st library
          Outcome.returned () { st with loadedLibraryVector := st.loadedLibraryVector.eraseIdx itr }
      else
        Outcome.returned () st.logDebug
    | none => Outcome.thrown PluginLoaderException.LibraryUnloadException st

/-- Function `getAllLibrariesUsedByPluginLoader(loader)`. -/
def getAllLibrariesUsedByPluginLoader (st : Registry) (loader : PluginLoaderPtr) :
    List String :=
  (allMetaObjectsForPluginLoader st loader).foldl
    (fun all_libs meta_obj =>
      if getAssociatedLibraryPath st meta_obj ∈ all_libs then all_libs
      else all_libs ++ [getAssociatedLibraryPath st meta_obj])
    []

/-- Function `isLibraryLoaded(library_path, loader)`. -/
def isLibraryLoaded (st : Registry) (library_path : LibraryPath) (loader : PluginLoaderPtr) :
    Bool :=
  let is_lib_loaded_by_anyone := isLibraryLoadedByAnybody st library_path
  let num_meta_objs_for_lib := (allMetaObjectsForLibrary st library_path).length
  let num_meta_objs_for_lib_bound_to_loader :=
    (allMetaObjectsForLibraryOwnedBy st library_path loader).length
  let are_meta_objs_bound_to_loader :=
    if 0 = num_meta_objs_for_lib then true
    else decide (num_meta_objs_for_lib_bound_to_loader ≤ num_meta_objs_for_lib)
  is_lib_loaded_by_anyone && are_meta_objs_bound_to_loader

/-! ## Definitions used to state the claims -/

/-- The registry an outcome leaves, or `fallback` after a null dereference. -/
def Outcome.registry {α : Type} (o : Outcome α) (fallback : Registry) : Registry :=
  match o with
  | Outcome.returned _ st => st
  | Outcome.thrown _ st => st
  | Outcome.nullDereference => fallback

/-- The listing as the specification words it: the derived names in the inner
map of `Base` whose meta-object is owned by `loader`, followed by the derived
names in that map whose meta-object is owned by null. -/
def listingOwnedThenOwnedByNull (st : Registry) (Base : BaseClassName)
    (loader : PluginLoaderPtr) : List String :=
  ((factoryMapOf st Base).entries.filter (fun e => isOwnedBy st e.2 loader)).map Prod.fst ++
    ((factoryMapOf st Base).entries.filter (fun e => isOwnedBy st e.2 none)).map Prod.fst

/-- A registry reached from the initial one: library `P1`, which registers
`Cat` for base `4Base`, is loaded with a null loader and then with loader 1. -/
def registryNullThenLoader : Registry :=
  ((loadLibrary
      ((loadLibrary Registry.initial "P1" none
        (LoadLibraryA.loaded 7 [⟨"4Base", "Cat", "Base"⟩])).registry Registry.initial)
      "P1" (some 1) LoadLibraryA.failed).registry Registry.initial)

/-- One round of the revive loop on an entry of the path, with a non-null
loader. -/
def reviveRound (st : Registry) (obj : MetaObjectPtr) (l : Nat) : Registry :=
  assignFactory
    (getFactoryMapForBaseClass (addOwningPluginLoader st.logDebug obj (some l))
      (st.metaObjects obj).typeid_base_class_name)
    (st.metaObjects obj).typeid_base_class_name (st.metaObjects obj).class_name obj

/-- The graveyard entry `g` is one of path `P` that the revive loop stores at
key `(B, n)`. -/
def revivedAt (st : Registry) (P : LibraryPath) (B : BaseClassName) (n : ClassName)
    (g : MetaObjectPtr) : Bool :=
  decide ((st.metaObjects g).associated_library_path = P) &&
    (decide ((st.metaObjects g).typeid_base_class_name = B) &&
      decide ((st.metaObjects g).class_name = n))

/-- The registry in which the graveyard scenario of `loadLibrary(library_path,
loader)` starts when the library was not open and the open succeeds: the
static initialisers have run and the ambients are cleared. -/
def registryAfterOpen (st : Registry) (library_path : LibraryPath) (loader : PluginLoaderPtr)
    (os : LoadLibraryA) : Registry :=
  (afterOpen st.logDebug library_path loader os).registry st

/-- A registry reached from the initial one: loader 1 has loaded library `P1`,
whose initialisers register `Dog` and `Cat` for base `4Base`. -/
def registryCatDog : Registry :=
  (loadLibrary Registry.initial "P1" (some 1)
    (LoadLibraryA.loaded 7 [⟨"4Base", "Dog", "Base"⟩, ⟨"4Base", "Cat", "Base"⟩])).registry
    Registry.initial

/-- A registry in which a library is being opened for loader 1: the ambients
are set. -/
def registryWhileLoading : Registry :=
  setCurrentlyLoadingLibraryName (setCurrentlyActivePluginLoader Registry.initial (some 1)) "P1"

/-- A registry reached from the initial one, with one meta-object in the
graveyard: loader 1 has loaded library `P1`, whose initialisers register `Cat`
for base `4Base` (at address 1), and has unloaded it again. -/
def registryCatBuried : Registry :=
  (unloadLibrary
    ((loadLibrary Registry.initial "P1" (some 1)
      (LoadLibraryA.loaded 7 [⟨"4Base", "Cat", "Base"⟩])).registry Registry.initial)
    "P1" (some 1) false).registry Registry.initial

/-! ## Reachable registries and their invariants -/

/-- The operation with outcome `o` ends, by return or by exception, in
registry `st'`. -/
def Outcome.leaves {α : Type} (o : Outcome α) (st' : Registry) : Prop :=
  (∃ v, o = Outcome.returned v st') ∨ (∃ e, o = Outcome.thrown e st')

/-- The registries a process can be in between two operations: the initial
one, and those left by `registerPlugin` (outside any load), `loadLibrary`,
`unloadLibrary`, `createInstance` and `getAvailableClasses`, whatever the OS
does. -/
inductive Reachable : Registry → Prop where
  | initial : Reachable Registry.initial
  | registerPlugin {st : Registry} (Base : BaseClassName) (class_name base_class_name : String) :
      Reachable st → Reachable (registerPlugin st Base class_name base_class_name)
  | loadLibrary {st st' : Registry} (library_path : LibraryPath) (loader : PluginLoaderPtr)
      (os : LoadLibraryA) :
      Reachable st → (loadLibrary st library_path loader os).leaves st' → Reachable st'
  | unloadLibrary {st st' : Registry} (library_path : LibraryPath) (loader : PluginLoaderPtr)
      (unloadRaises : Bool) :
      Reachable st → (unloadLibrary st library_path loader unloadRaises).leaves st' →
      Reachable st'
  | createInstance {st st' : Registry} (Base : BaseClassName) (derived_class_name : ClassName)
      (loader : PluginLoaderPtr) :
      Reachable st → (createInstance st Base derived_class_name loader).leaves st' →
      Reachable st'
  | getAvailableClasses {st : Registry} (Base : BaseClassName) (loader : PluginLoaderPtr) :
      Reachable st → Reachable (getAvailableClasses st Base loader).2

/-- The identity of a meta-object, which no operation changes after the
registration: base-interface identity, derived-class name, library path. -/
def identityOf (st : Registry) (q : MetaObjectPtr) : BaseClassName × ClassName × LibraryPath :=
  ((st.metaObjects q).typeid_base_class_name, (st.metaObjects q).class_name,
    (st.metaObjects q).associated_library_path)

/-- Every directory entry holds an allocated meta-object and sits at the key
made of the base-interface identity and derived-class name of its meta-object. -/
def directoryOwnKeys (st : Registry) : Prop :=
  ∀ B n p, lookup st B n = some p →
    (st.metaObjects p).typeid_base_class_name = B ∧ (st.metaObjects p).class_name = n ∧
      p < st.nextMetaObject

/-- Every graveyard entry is an allocated meta-object. -/
def graveyardAllocated (st : Registry) : Prop :=
  ∀ g, g ∈ st.graveyard → g < st.nextMetaObject

/-- Between two operations no library is being opened: the ambients are clear. -/
def ambientsCleared (st : Registry) : Prop :=
  st.currentlyActivePluginLoader = none ∧ st.currentlyLoadingLibraryName = ""

/-- No two graveyard entries have the same identity. -/
def graveyardIdentitiesDistinct (st : Registry) : Prop :=
  (st.graveyard.map (identityOf st)).Nodup

/-- While no non-pure library has been opened, no graveyard entry has the
identity of a meta-object of the directory. -/
def graveyardApartFromDirectory (st : Registry) : Prop :=
  st.hasANonPurePluginLibraryBeenOpened = false →
    ∀ g, g ∈ st.graveyard → ∀ B n p, lookup st B n = some p →
      identityOf st g ≠ identityOf st p

/-- The sweep of `destroyMetaObjectsForLibrary(P, L)` edits the meta-object at
`p`: its library path is `P` and `L` is among its owners. -/
def sweptBy (st : Registry) (P : LibraryPath) (L : PluginLoaderPtr) (p : MetaObjectPtr) : Bool :=
  decide (getAssociatedLibraryPath st p = P) && isOwnedBy st p L

/-- The sweep of `destroyMetaObjectsForLibrary(P, L)` moves the meta-object at
`p` to the graveyard: it edits it, and no owner is left once one occurrence of
`L` is removed. -/
def buriedBy (st : Registry) (P : LibraryPath) (L : PluginLoaderPtr) (p : MetaObjectPtr) : Bool :=
  sweptBy st P L p && ((st.metaObjects p).associated_plugin_loaders.erase L).isEmpty

/-- No path has two entries in the loaded-library table. -/
def libraryPathsDistinct (st : Registry) : Prop :=
  (st.loadedLibraryVector.map Prod.fst).Nodup


/-- Every meta-object of the directory has an owner (a null entry counts). -/
def directoryOwned (st : Registry) : Prop :=
  ∀ B n p, lookup st B n = some p → owners st p ≠ []


/-- While no non-pure library has been opened, every directory meta-object
carries the path of a library of the loaded-library table. -/
def directoryPathsLoaded (st : Registry) : Prop :=
  st.hasANonPurePluginLibraryBeenOpened = false →
    ∀ B n p, lookup st B n = some p →
      (st.metaObjects p).associated_library_path ∈ st.loadedLibraryVector.map Prod.fst

/-- While no non-pure library has been opened, no graveyard meta-object has
an owner. -/
def graveyardUnowned (st : Registry) : Prop :=
  st.hasANonPurePluginLibraryBeenOpened = false → ∀ g, g ∈ st.graveyard → owners st g = []

/-- While no non-pure library has been opened, the directory meta-objects of
one library path have the same owners. -/
def directoryOwnersUniform (st : Registry) : Prop :=
  st.hasANonPurePluginLibraryBeenOpened = false →
    ∀ B n p B₂ n₂ q, lookup st B n = some p → lookup st B₂ n₂ = some q →
      (st.metaObjects p).associated_library_path = (st.metaObjects q).associated_library_path →
      owners st p = owners st q

/-- While no non-pure library has been opened, no graveyard meta-object
carries the path of a library of the loaded-library table. -/
def graveyardPathsClosed (st : Registry) : Prop :=
  st.hasANonPurePluginLibraryBeenOpened = false →
    ∀ g, g ∈ st.graveyard →
      (st.metaObjects g).associated_library_path ∉ st.loadedLibraryVector.map Prod.fst

/-- The registries a process can be in between two operations when no close
of a library raises, as `SharedLibrary::unload` of `SharedLibrary.cpp`, which
raises nothing. -/
inductive ReachableClosing : Registry → Prop where
  | initial : ReachableClosing Registry.initial
  | registerPlugin {st : Registry} (Base : BaseClassName) (class_name base_class_name : String) :
      ReachableClosing st → ReachableClosing (registerPlugin st Base class_name base_class_name)
  | loadLibrary {st st' : Registry} (library_path : LibraryPath) (loader : PluginLoaderPtr)
      (os : LoadLibraryA) :
      ReachableClosing st → (loadLibrary st library_path loader os).leaves st' →
      ReachableClosing st'
  | unloadLibrary {st st' : Registry} (library_path : LibraryPath) (loader : PluginLoaderPtr) :
      ReachableClosing st → (unloadLibrary st library_path loader false).leaves st' →
      ReachableClosing st'
  | createInstance {st st' : Registry} (Base : BaseClassName) (derived_class_name : ClassName)
      (loader : PluginLoaderPtr) :
      ReachableClosing st → (createInstance st Base derived_class_name loader).leaves st' →
      ReachableClosing st'
  | getAvailableClasses {st : Registry} (Base : BaseClassName) (loader : PluginLoaderPtr) :
      ReachableClosing st → ReachableClosing (getAvailableClasses st Base loader).2

/-! ## Concrete registries of the logging and purge claims -/

/-- A registry in which the non-pure flag is set: in a fresh process a library
registers `Cow` outside any load. -/
def registryOrphan : Registry :=
  registerPlugin Registry.initial "4Base" "Cow" "Base"

/-- A registry reached from the initial one: after `registryCatBuried` (`Cat`
of `P1`, at address 1, is in the graveyard and `P1` is closed) a library
registers `Cow` outside any load, which sets the non-pure flag. -/
def registryCatBuriedOrphan : Registry :=
  registerPlugin registryCatBuried "4Base" "Cow" "Base"

/-- The registry in which `loadLibrary("P1", loader 1)` calls
`purgeGraveyardOfMetaobjects("P1", loader 1, true)` when it starts in
`registryCatBuriedOrphan` and the initialisers of `P1` run again. -/
def registryCatBuriedOrphanAtPurge : Registry :=
  (registryAfterOpen registryCatBuriedOrphan "P1" (some 1)
    (LoadLibraryA.loaded 8 [⟨"4Base", "Cat", "Base"⟩])).logDebug.logDebug

/-- A registry reached from the initial one: after `registryCatBuried`, loader
2 loads library `P2`, whose initialisers register `Cat` for base `4Base` (at
address 2). -/
def registryCatOfP2 : Registry :=
  (loadLibrary registryCatBuried "P2" (some 2)
    (LoadLibraryA.loaded 8 [⟨"4Base", "Cat", "Base"⟩])).registry Registry.initial

/-- A registry reached from the initial one: after `registryCatOfP2`, loader 1
loads `P1` again and its initialisers do not run again. -/
def registryCatRevivedOver : Registry :=
  (loadLibrary registryCatOfP2 "P1" (some 1) (LoadLibraryA.loaded 9 [])).registry
    Registry.initial

end impl

/-! ## The logging sink (`Console.h`, `Console.cpp`) -/

/-- The value of a `LogLevel` enumerator. -/
def LogLevel.toNat : LogLevel → Nat
  | LogLevel.CONSOLE_LOG_DEBUG => 0
  | LogLevel.CONSOLE_LOG_INFO => 1
  | LogLevel.CONSOLE_LOG_WARN => 2
  | LogLevel.CONSOLE_LOG_ERROR => 3
  | LogLevel.CONSOLE_LOG_NONE => 4

/-- An `OutputHandler*`: `none` is `NULL`, `some a` the handler at address `a`. -/
abbrev OutputHandlerPtr := Option Nat

/-- One call `output_handler_->log(text, level, filename, line)` of the virtual
member `OutputHandler::log`, on the handler at address `handler`. -/
structure LogCall where
  handler : Nat
  text : String
  level : LogLevel
  filename : String
  line : Int
deriving DecidableEq, Repr

/-- Struct `DefaultOutputHandler` of `Console.cpp`, the process-wide state of
the logging, with the calls of `OutputHandler::log` made through it, oldest
first. The mutex `lock_` is not modelled: every function runs to completion. -/
structure DefaultOutputHandler where
  output_handler_ : OutputHandlerPtr
  previous_output_handler_ : OutputHandlerPtr
  logLevel_ : LogLevel
  delivered : List LogCall
deriving DecidableEq, Repr

/-- The address of the member `std_output_handler_`, an `OutputHandlerSTD`. -/
def std_output_handler_ : Nat := 0

/-- The constructor `DefaultOutputHandler(void)`: the state `getDOH()` starts
with. -/
def DefaultOutputHandler.initial : DefaultOutputHandler where
  output_handler_ := some std_output_handler_
  previous_output_handler_ := some std_output_handler_
  logLevel_ := LogLevel.CONSOLE_LOG_WARN
  delivered := []

/-- Macro `MAX_BUFFER_SIZE`. -/
def MAX_BUFFER_SIZE : Nat := 1024

/-- Function `noOutputHandler()`. -/
def noOutputHandler (doh : DefaultOutputHandler) : DefaultOutputHandler :=
  let doh := { doh with previous_output_handler_ := doh.output_handler_ }
  { doh with output_handler_ := none }

/-- Function `restorePreviousOutputHandler()`: the two pointers are swapped. -/
def restorePreviousOutputHandler (doh : DefaultOutputHandler) : DefaultOutputHandler :=
  { doh with
    previous_output_handler_ := doh.output_handler_
    output_handler_ := doh.previous_output_handler_ }

/-- Function `useOutputHandler(oh)`. -/
def useOutputHandler (doh : DefaultOutputHandler) (oh : OutputHandlerPtr) :
    DefaultOutputHandler :=
  let doh := { doh with previous_output_handler_ := doh.output_handler_ }
  { doh with output_handler_ := oh }

/-- Function `getOutputHandler()`. -/
def getOutputHandler (doh : DefaultOutputHandler) : OutputHandlerPtr :=
  doh.output_handler_

/-- Function `log(file, line, level, m, ...)`; `m` is the message as `vsnprintf`
formats it, of which the buffer keeps `MAX_BUFFER_SIZE - 1` characters. -/
def log (doh : DefaultOutputHandler) (file : String) (line : Int) (level : LogLevel)
    (m : String) : DefaultOutputHandler :=
  match doh.output_handler_ with
  | some oh =>
    if doh.logLevel_.toNat ≤ level.toNat then
      let buf := m.take (MAX_BUFFER_SIZE - 1)
      { doh with delivered := doh.delivered ++ [⟨oh, buf, level, file, line⟩] }
    else doh
  | none => doh

/-- Function `setLogLevel(level)`. -/
def setLogLevel (doh : DefaultOutputHandler) (level : LogLevel) : DefaultOutputHandler :=
  { doh with logLevel_ := level }

/-- Function `getLogLevel()`. -/
def getLogLevel (doh : DefaultOutputHandler) : LogLevel :=
  doh.logLevel_

/-! ## The loader handle -/

/-- Modelled from the spec: `PluginLoader.hpp` is not among the sources. A
loader handle (§3): the address the registry knows it by, the library path it
is bound to, its lazy flag and its load count. -/
structure PluginLoader where
  address : Nat
  library_path : String
  lazy : Bool
  load_count : Nat
deriving DecidableEq, Repr

namespace PluginLoader

/-- Modelled from the spec: `PluginLoader.hpp` is not among the sources.
Operation `loadLibrary()` of §4.6: "If load count == 0, call registry
load-library. Always increment load count. Cap the count at some sensible
maximum"; the maximum, which the spec leaves open, is `cap`. A registry load
that does not return leaves the count as it was. -/
def loadLibrary (cap : Nat) (lh : PluginLoader) (st : impl.Registry) (os : impl.LoadLibraryA) :
    PluginLoader × impl.Outcome Unit :=
  if lh.load_count = 0 then
    match impl.loadLibrary st lh.library_path (some lh.address) os with
    | impl.Outcome.returned _ st =>
      ({ lh with load_count := min (lh.load_count + 1) cap }, impl.Outcome.returned () st)
    | impl.Outcome.thrown e st => (lh, impl.Outcome.thrown e st)
    | impl.Outcome.nullDereference => (lh, impl.Outcome.nullDereference)
  else
    ({ lh with load_count := min (lh.load_count + 1) cap }, impl.Outcome.returned () st)

/-- Modelled from the spec: `PluginLoader.hpp` is not among the sources.
Operation `unloadLibrary()` of §4.6: "If load count > 0, decrement. If it
reaches 0, call registry unload-library. If the count is already 0, do
nothing." -/
def unloadLibrary (lh : PluginLoader) (st : impl.Registry) (unloadRaises : Bool) :
    PluginLoader × impl.Outcome Unit :=
  if 0 < lh.load_count then
    let lh := { lh with load_count := lh.load_count - 1 }
    if lh.load_count = 0 then
      (lh, impl.unloadLibrary st lh.library_path (some lh.address) unloadRaises)
    else (lh, impl.Outcome.returned () st)
  else (lh, impl.Outcome.returned () st)

/-- Modelled from the spec: `PluginLoader.hpp` is not among the sources.
Operation `isLibraryLoaded()` of §4.6: "True iff load count > 0 and the LLT
contains this path and the MOs for this path owned by this loader are
consistent", the last two being `impl::isLibraryLoaded(path, this)`. -/
def isLibraryLoaded (lh : PluginLoader) (st : impl.Registry) : Bool :=
  decide (0 < lh.load_count) && impl.isLibraryLoaded st lh.library_path (some lh.address)

/-- Modelled from the spec: `PluginLoader.hpp` is not among the sources.
Operation `createInstance(name)` of §4.6: "On lazy loaders, if load count was
0, trigger loadLibrary first; then attach an auxiliary reference that holds a
loader reference for the lifetime of the instance". The instance is created by
the registry, for this loader, and every instance holds one unit of the load
count (§9: "the loader simply knows N hooks outstanding through its load
count"): for the instance that triggers the lazy load it is the unit that
`loadLibrary` took (§8: "Lazy load via createInstance followed by destroying
the instance returns count to 0"), for every other instance it is added, with
the cap of `loadLibrary`, once the registry has created the instance. The
value is the address of the meta-object that made the instance; the instance
carries the holder that `destroyInstance` destroys. -/
def createInstance (cap : Nat) (lh : PluginLoader) (st : impl.Registry) (Base : impl.BaseClassName)
    (derived_class_name : impl.ClassName) (os : impl.LoadLibraryA) :
    PluginLoader × impl.Outcome impl.MetaObjectPtr :=
  if lh.lazy = true ∧ lh.load_count = 0 then
    match lh.loadLibrary cap st os with
    | (lh, impl.Outcome.returned _ st) =>
      (lh, impl.createInstance st Base derived_class_name (some lh.address))
    | (lh, impl.Outcome.thrown e st) => (lh, impl.Outcome.thrown e st)
    | (lh, impl.Outcome.nullDereference) => (lh, impl.Outcome.nullDereference)
  else
    match impl.createInstance st Base derived_class_name (some lh.address) with
    | impl.Outcome.returned p st =>
      ({ lh with load_count := min (lh.load_count + 1) cap }, impl.Outcome.returned p st)
    | impl.Outcome.thrown e st => (lh, impl.Outcome.thrown e st)
    | impl.Outcome.nullDereference => (lh, impl.Outcome.nullDereference)

/-- Modelled from the spec: `PluginLoader.hpp` is not among the sources.
Operation `createUniqueInstance(name)` of §4.6: "As above but with exclusive
ownership; same lifetime-tying mechanism." -/
def createUniqueInstance (cap : Nat) (lh : PluginLoader) (st : impl.Registry)
    (Base : impl.BaseClassName) (derived_class_name : impl.ClassName) (os : impl.LoadLibraryA) :
    PluginLoader × impl.Outcome impl.MetaObjectPtr :=
  lh.createInstance cap st Base derived_class_name os

/-- Modelled from the spec: `PluginLoader.hpp` is not among the sources. The
destruction of an instance (§9): the holder attached to it "carries one
decrement obligation and invokes `unloadLibrary` when destroyed"; it gives
back the unit of the load count that `createInstance` took for the instance. -/
def destroyInstance (lh : PluginLoader) (st : impl.Registry) (unloadRaises : Bool) :
    PluginLoader × impl.Outcome Unit :=
  lh.unloadLibrary st unloadRaises

/-- Calls of `loadLibrary()` in a row, `n` of them, up to the first that does
not return. -/
def loadLibraryTimes (cap : Nat) (os : impl.LoadLibraryA) :
    Nat → PluginLoader → impl.Registry → PluginLoader × impl.Outcome Unit
  | 0, lh, st => (lh, impl.Outcome.returned () st)
  | n + 1, lh, st =>
    match lh.loadLibrary cap st os with
    | (lh, impl.Outcome.returned _ st) => loadLibraryTimes cap os n lh st
    | r => r

/-- Calls of `unloadLibrary()` in a row, `n` of them, up to the first that does
not return. -/
def unloadLibraryTimes (unloadRaises : Bool) :
    Nat → PluginLoader → impl.Registry → PluginLoader × impl.Outcome Unit
  | 0, lh, st => (lh, impl.Outcome.returned () st)
  | n + 1, lh, st =>
    match lh.unloadLibrary st unloadRaises with
    | (lh, impl.Outcome.returned _ st) => unloadLibraryTimes unloadRaises n lh st
    | r => r

end PluginLoader

namespace impl

/-! ## Steps of a process on the registry -/

/-- One step of a process on the registry: a registration, a load, an unload,
an instance creation, a listing, each ending by return or by exception, or one
of the queries `isLibraryLoaded` and `isLibraryLoadedByAnybody`, which return
a value and write nothing. -/
inductive Step : Registry → Registry → Prop where
  | registerPlugin (st : Registry) (Base : BaseClassName) (class_name base_class_name : String) :
      Step st (registerPlugin st Base class_name base_class_name)
  | loadLibrary {st st' : Registry} (library_path : LibraryPath) (loader : PluginLoaderPtr)
      (os : LoadLibraryA) :
      (loadLibrary st library_path loader os).leaves st' → Step st st'
  | unloadLibrary {st st' : Registry} (library_path : LibraryPath) (loader : PluginLoaderPtr)
      (unloadRaises : Bool) :
      (unloadLibrary st library_path loader unloadRaises).leaves st' → Step st st'
  | createInstance {st st' : Registry} (Base : BaseClassName) (derived_class_name : ClassName)
      (loader : PluginLoaderPtr) :
      (createInstance st Base derived_class_name loader).leaves st' → Step st st'
  | getAvailableClasses (st : Registry) (Base : BaseClassName) (loader : PluginLoaderPtr) :
      Step st (getAvailableClasses st Base loader).2
  | isLibraryLoaded (st : Registry) (library_path : LibraryPath) (loader : PluginLoaderPtr) :
      Step st st
  | isLibraryLoadedByAnybody (st : Registry) (library_path : LibraryPath) : Step st st

/-- The purge `purgeGraveyardOfMetaobjects(library_path, loader, delete_objs)`
started in `st` reaches `assert(hasANonPurePluginLibraryBeenOpened() == false)`,
the statement before `delete (obj)`: deletion is asked for and the graveyard
holds an entry of the path that is not in the directory. -/
def purgeReachesDelete (st : Registry) (library_path : LibraryPath) (delete_objs : Bool) :
    Bool :=
  delete_objs &&
    st.graveyard.any fun obj =>
      decide (getAssociatedLibraryPath st obj = library_path) &&
        !decide (obj ∈ allMetaObjects st)

/-- A registry reached from the initial one: after `registryCatDog`, loader 1
unloads `P1` and the close of the library raises. -/
def registryCatDogCloseRaised : Registry :=
  (unloadLibrary registryCatDog "P1" (some 1) true).registry Registry.initial

/-- A registry reached from the initial one: in a fresh process `Cat` for base
`4Base` is registered twice. -/
def registryCatTwice : Registry :=
  registerPlugin (registerPlugin Registry.initial "4Base" "Cat" "Base") "4Base" "Cat" "Base"

/-- A registry reached from the initial one: after `registryOrphan`, where the
non-pure flag is set, loader 1 loads `P1`, whose initialisers register `Cat`. -/
def registryOrphanLoaded : Registry :=
  (loadLibrary registryOrphan "P1" (some 1)
    (LoadLibraryA.loaded 7 [⟨"4Base", "Cat", "Base"⟩])).registry Registry.initial

/-- Every entry of the loaded-library table points to a `SharedLibrary` that
has been allocated, is loaded and has not been deleted; no two entries point
to the same one; and every deleted `SharedLibrary` had been allocated. -/
def tableHandlesLive (st : Registry) : Prop :=
  (∀ e, e ∈ st.loadedLibraryVector →
      e.2 < st.nextSharedLibrary ∧ (st.sharedLibraries e.2).isLoaded = true ∧
        e.2 ∉ st.deletedSharedLibraries) ∧
    (st.loadedLibraryVector.map Prod.snd).Nodup ∧
    ∀ d, d ∈ st.deletedSharedLibraries → d < st.nextSharedLibrary

end impl

/-! ## The sinks of `Console.cpp` -/

/-- The table `LogLevelString[4]`. -/
def LogLevelString : List String := ["Debug:   ", "Info:    ", "Warning: ", "Error:   "]

/-- What `std::cerr` and `std::cout` have received, line by line. -/
structure StandardStreams where
  cerr : List String
  cout : List String
deriving DecidableEq, Repr

/-- Member `OutputHandlerSTD::log(text, level, filename, line)`; `none` when
`LogLevelString[level]` is an access outside the table. -/
def OutputHandlerSTD.log (streams : StandardStreams) (text : String) (level : LogLevel)
    (filename : String) (line : Int) : Option StandardStreams :=
  if LogLevel.CONSOLE_LOG_WARN.toNat ≤ level.toNat then
    match LogLevelString[level.toNat]? with
    | none => none
    | some label =>
      some { streams with
        cerr := streams.cerr ++
          [label ++ text, "         at line " ++ toString line ++ " in " ++ filename] }
  else
    match LogLevelString[level.toNat]? with
    | none => none
    | some label => some { streams with cout := streams.cout ++ [label ++ text] }

/-- Class `OutputHandlerFile`: the lines written to `file_`, `none` when
`file_` is null. -/
structure OutputHandlerFile where
  file_ : Option (List String)
deriving DecidableEq, Repr

/-- Member `OutputHandlerFile::log(text, level, filename, line)`; `none` when
`LogLevelString[level]` is an access outside the table. -/
def OutputHandlerFile.log (oh : OutputHandlerFile) (text : String) (level : LogLevel)
    (filename : String) (line : Int) : Option OutputHandlerFile :=
  match oh.file_ with
  | some written =>
    match LogLevelString[level.toNat]? with
    | none => none
    | some label =>
      let written := written ++ [label ++ text]
      if LogLevel.CONSOLE_LOG_WARN.toNat ≤ level.toNat then
        some ⟨some (written ++ ["         at line " ++ toString line ++ " in " ++ filename])⟩
      else some ⟨some written⟩
  | none => some oh

namespace impl


/-- The address `p` is one a registration has constructed a meta-object at:
`new MetaObject` has returned it. -/
def registered (st : Registry) (p : MetaObjectPtr) : Prop :=
  1 ≤ p ∧ p < st.nextMetaObject

/-! ## The directory entries that are overwritten -/

/-- The directory entry that `factoryMap[class_name] = new_factory` of
`registerPlugin<Derived, Base>` overwrites: the meta-object that is at the key
of the registration, if there is one (the colliding registration). -/
def registerPluginReplaced (st : Registry) (Base : BaseClassName) (class_name : String) :
    List MetaObjectPtr :=
  (lookup st Base class_name).toList

/-- The directory entries that the static initialisers of a library overwrite,
one registration after the other. -/
def runInitialisersReplaced : List Registration → Registry → List MetaObjectPtr
  | [], _ => []
  | r :: rest, st =>
    registerPluginReplaced st r.Base r.class_name ++
      runInitialisersReplaced rest (registerPlugin st r.Base r.class_name r.base_class_name)

/-- The directory entries that the loop of
`revivePreviouslyCreateMetaobjectsFromGraveyard` overwrites: at each
`factory[obj->className()] = obj`, the meta-object that is at that key, if
there is one and it is not `obj` itself. -/
def reviveLoopReplaced (library_path : LibraryPath) (loader : PluginLoaderPtr) :
    MetaObjectVector → Registry → List MetaObjectPtr
  | [], _ => []
  | obj :: rest, st =>
    if getAssociatedLibraryPath st obj = library_path then
      match loader with
      | none => []
      | some l =>
        ((lookup st (st.metaObjects obj).typeid_base_class_name
            (st.metaObjects obj).class_name).filter fun q => decide (q ≠ obj)).toList ++
          reviveLoopReplaced library_path loader rest (reviveRound st obj l)
    else reviveLoopReplaced library_path loader rest st

/-- The directory entries that the open of a library overwrites: those its
static initialisers overwrite, which run with the ambients set. -/
def afterOpenReplaced (st : Registry) (library_path : LibraryPath) (loader : PluginLoaderPtr)
    (os : LoadLibraryA) : List MetaObjectPtr :=
  match os with
  | LoadLibraryA.failed => []
  | LoadLibraryA.loaded _ initialisers =>
    runInitialisersReplaced initialisers
      (setCurrentlyLoadingLibraryName (setCurrentlyActivePluginLoader st loader) library_path)

/-- The directory entries that the graveyard scenario of a load overwrites:
those of the revive loop, when the directory holds no meta-object of the
library; the purge writes nothing in the directory. -/
def loadLibraryGraveyardReplaced (st : Registry) (library_path : LibraryPath)
    (loader : PluginLoaderPtr) : List MetaObjectPtr :=
  if (allMetaObjectsForLibrary st library_path).length = 0 then
    reviveLoopReplaced library_path loader st.logDebug.graveyard st.logDebug
  else []

/-- The directory entries that `loadLibrary(library_path, loader)` overwrites:
none when the library is already open, else those of the open and of the
graveyard scenario that follows it. -/
def loadLibraryReplaced (st : Registry) (library_path : LibraryPath) (loader : PluginLoaderPtr)
    (os : LoadLibraryA) : List MetaObjectPtr :=
  if isLibraryLoadedByAnybody st.logDebug library_path then []
  else
    afterOpenReplaced st.logDebug library_path loader os ++
      match afterOpen st.logDebug library_path loader os with
      | Outcome.returned _ opened => loadLibraryGraveyardReplaced opened.logDebug library_path loader
      | Outcome.thrown _ _ => []
      | Outcome.nullDereference => []

/-- The registries a process reaches from the initial one, as `Reachable`, each
with the meta-objects that have been overwritten in the directory on the way:
by a colliding registration or by the revival of a graveyard meta-object of
the same key. Unloads and lookups overwrite nothing. -/
inductive ReachableReplacing : Registry → List MetaObjectPtr → Prop where
  | initial : ReachableReplacing Registry.initial []
  | registerPlugin {st : Registry} {replaced : List MetaObjectPtr} (Base : BaseClassName)
      (class_name base_class_name : String) :
      ReachableReplacing st replaced →
      ReachableReplacing (registerPlugin st Base class_name base_class_name)
        (replaced ++ registerPluginReplaced st Base class_name)
  | loadLibrary {st st' : Registry} {replaced : List MetaObjectPtr} (library_path : LibraryPath)
      (loader : PluginLoaderPtr) (os : LoadLibraryA) :
      ReachableReplacing st replaced → (loadLibrary st library_path loader os).leaves st' →
      ReachableReplacing st' (replaced ++ loadLibraryReplaced st library_path loader os)
  | unloadLibrary {st st' : Registry} {replaced : List MetaObjectPtr}
      (library_path : LibraryPath) (loader : PluginLoaderPtr) (unloadRaises : Bool) :
      ReachableReplacing st replaced →
      (unloadLibrary st library_path loader unloadRaises).leaves st' →
      ReachableReplacing st' replaced
  | createInstance {st st' : Registry} {replaced : List MetaObjectPtr} (Base : BaseClassName)
      (derived_class_name : ClassName) (loader : PluginLoaderPtr) :
      ReachableReplacing st replaced →
      (createInstance st Base derived_class_name loader).leaves st' →
      ReachableReplacing st' replaced
  | getAvailableClasses {st : Registry} {replaced : List MetaObjectPtr} (Base : BaseClassName)
      (loader : PluginLoaderPtr) :
      ReachableReplacing st replaced →
      ReachableReplacing (getAvailableClasses st Base loader).2 replaced

/-- Every registered meta-object is in the directory, in the graveyard, freed
by the purge, or one of `replaced`. -/
def registeredKept (st : Registry) (replaced : List MetaObjectPtr) : Prop :=
  ∀ p, registered st p →
    p ∈ allMetaObjects st ∨ p ∈ st.graveyard ∨ p ∈ st.deletedMetaObjects ∨ p ∈ replaced

/-- A registry reached from the initial one: after `registryCatBuried` (`Cat`
of `P1`, at address 1, is in the graveyard and `P1` is closed) loader 1 loads
`P1` again and its initialisers run again, registering `Cat` at address 2. -/
def registryCatReloaded : Registry :=
  (loadLibrary registryCatBuried "P1" (some 1)
    (LoadLibraryA.loaded 8 [⟨"4Base", "Cat", "Base"⟩])).registry Registry.initial


/-- A registry reached from the initial one: loader 2 has loaded library `P1`,
whose initialisers register `Dog` and `Cat` for base `4Base`. -/
def registryCatDogOfLoader2 : Registry :=
  (loadLibrary Registry.initial "P1" (some 2)
    (LoadLibraryA.loaded 7 [⟨"4Base", "Dog", "Base"⟩, ⟨"4Base", "Cat", "Base"⟩])).registry
    Registry.initial

/-- A registry reached from the initial one: after `registryCatDogOfLoader2`,
loader 1 loads `P1`, which is open already. -/
def registryCatDogOfBoth : Registry :=
  (loadLibrary registryCatDogOfLoader2 "P1" (some 1)
    (LoadLibraryA.loaded 7 [⟨"4Base", "Dog", "Base"⟩, ⟨"4Base", "Cat", "Base"⟩])).registry
    Registry.initial

/-! ## Lemmas on maps -/

theorem mapFind_mapAssign_self {β : Type} (l : List (String × β)) (k : String) (v : β) :
    mapFind (mapAssign l k v) k = some v := by
  induction l with
  | nil => simp [mapAssign, mapFind]
  | cons hd tl ih =>
    obtain ⟨k', v'⟩ := hd
    simp only [mapAssign]
    split_ifs with h1 h2
    · simp [mapFind, h1]
    · simp [mapFind]
    · simp [mapFind, h1, ih]

theorem mapFind_mapAssign_of_ne {β : Type} (l : List (String × β)) (k k₂ : String) (v : β)
    (hne : k₂ ≠ k) : mapFind (mapAssign l k v) k₂ = mapFind l k₂ := by
  induction l with
  | nil => simp [mapAssign, mapFind, Ne.symm hne]
  | cons hd tl ih =>
    obtain ⟨k', v'⟩ := hd
    simp only [mapAssign]
    split_ifs with h1 h2
    · have : k' ≠ k₂ := fun e => hne (e ▸ h1)
      simp [mapFind, this]
    · simp [mapFind, Ne.symm hne]
    · simp [mapFind, ih]

theorem mapFind_mem {β : Type} (l : List (String × β)) (k : String) (v : β)
    (h : mapFind l k = some v) : (k, v) ∈ l := by
  induction l with
  | nil => simp [mapFind] at h
  | cons hd tl ih =>
    obtain ⟨k', v'⟩ := hd
    simp only [mapFind] at h
    split_ifs at h with h1
    · simp only [Option.some.injEq] at h
      simp [h1, h]
    · exact List.mem_cons_of_mem _ (ih h)

theorem mapFind_of_mem {β : Type} (l : List (String × β)) (k : String) (v : β)
    (hl : l.Pairwise (fun a b => keyLt a.1 b.1)) (h : (k, v) ∈ l) : mapFind l k = some v := by
  induction l with
  | nil => simp at h
  | cons hd tl ih =>
    obtain ⟨k', v'⟩ := hd
    rw [List.pairwise_cons] at hl
    simp only [mapFind]
    rcases List.mem_cons.mp h with h' | h'
    · simp only [Prod.mk.injEq] at h'
      simp [h'.1, h'.2]
    · have hlt : keyLt k' k := hl.1 (k, v) h'
      have hne : k' ≠ k := fun e => keyLt_irrefl k (e ▸ hlt)
      simp [hne, ih hl.2 h']

namespace StdMap

@[simp] theorem find_empty {β : Type} (k : String) : (empty : StdMap β).find k = none := rfl

@[simp] theorem find_assign_self {β : Type} (m : StdMap β) (k : String) (v : β) :
    (m.assign k v).find k = some v := mapFind_mapAssign_self m.entries k v

theorem find_assign_of_ne {β : Type} (m : StdMap β) (k k₂ : String) (v : β) (hne : k₂ ≠ k) :
    (m.assign k v).find k₂ = m.find k₂ := mapFind_mapAssign_of_ne m.entries k k₂ v hne

theorem find_assign {β : Type} (m : StdMap β) (k k₂ : String) (v : β) :
    (m.assign k v).find k₂ = if k₂ = k then some v else m.find k₂ := by
  split_ifs with h
  · rw [h]; exact find_assign_self m k v
  · exact find_assign_of_ne m k k₂ v h

theorem mem_entries_iff {β : Type} (m : StdMap β) (k : String) (v : β) :
    (k, v) ∈ m.entries ↔ m.find k = some v :=
  ⟨mapFind_of_mem m.entries k v m.ordered, mapFind_mem m.entries k v⟩

end StdMap

/-! ## Frame lemmas: the fields an elementary step leaves alone -/

@[simp] theorem logDebug_eq (st : Registry) : st.logDebug = st.log LogLevel.CONSOLE_LOG_DEBUG := rfl

@[simp] theorem logWarn_eq (st : Registry) : st.logWarn = st.log LogLevel.CONSOLE_LOG_WARN := rfl

@[simp] theorem logError_eq (st : Registry) : st.logError = st.log LogLevel.CONSOLE_LOG_ERROR := rfl

@[simp] theorem log_metaObjects (st : Registry) (l : LogLevel) :
    (st.log l).metaObjects = st.metaObjects := rfl

@[simp] theorem log_nextMetaObject (st : Registry) (l : LogLevel) :
    (st.log l).nextMetaObject = st.nextMetaObject := rfl

@[simp] theorem log_deletedMetaObjects (st : Registry) (l : LogLevel) :
    (st.log l).deletedMetaObjects = st.deletedMetaObjects := rfl

@[simp] theorem log_sharedLibraries (st : Registry) (l : LogLevel) :
    (st.log l).sharedLibraries = st.sharedLibraries := rfl

@[simp] theorem log_nextSharedLibrary (st : Registry) (l : LogLevel) :
    (st.log l).nextSharedLibrary = st.nextSharedLibrary := rfl

@[simp] theorem log_deletedSharedLibraries (st : Registry) (l : LogLevel) :
    (st.log l).deletedSharedLibraries = st.deletedSharedLibraries := rfl

@[simp] theorem log_factoryMapMap (st : Registry) (l : LogLevel) :
    (st.log l).factoryMapMap = st.factoryMapMap := rfl

@[simp] theorem log_graveyard (st : Registry) (l : LogLevel) :
    (st.log l).graveyard = st.graveyard := rfl

@[simp] theorem log_loadedLibraryVector (st : Registry) (l : LogLevel) :
    (st.log l).loadedLibraryVector = st.loadedLibraryVector := rfl

@[simp] theorem log_currentlyLoadingLibraryName (st : Registry) (l : LogLevel) :
    (st.log l).currentlyLoadingLibraryName = st.currentlyLoadingLibraryName := rfl

@[simp] theorem log_currentlyActivePluginLoader (st : Registry) (l : LogLevel) :
    (st.log l).currentlyActivePluginLoader = st.currentlyActivePluginLoader := rfl

@[simp] theorem log_hasANonPurePluginLibraryBeenOpened (st : Registry) (l : LogLevel) :
    (st.log l).hasANonPurePluginLibraryBeenOpened = st.hasANonPurePluginLibraryBeenOpened := rfl

@[simp] theorem writeMetaObject_nextMetaObject (st : Registry) (p : MetaObjectPtr) (mo : AbstractMetaObjectBase) :
    (st.writeMetaObject p mo).nextMetaObject = st.nextMetaObject := rfl

@[simp] theorem writeMetaObject_deletedMetaObjects (st : Registry) (p : MetaObjectPtr) (mo : AbstractMetaObjectBase) :
    (st.writeMetaObject p mo).deletedMetaObjects = st.deletedMetaObjects := rfl

@[simp] theorem writeMetaObject_sharedLibraries (st : Registry) (p : MetaObjectPtr) (mo : AbstractMetaObjectBase) :
    (st.writeMetaObject p mo).sharedLibraries = st.sharedLibraries := rfl

@[simp] theorem writeMetaObject_nextSharedLibrary (st : Registry) (p : MetaObjectPtr) (mo : AbstractMetaObjectBase) :
    (st.writeMetaObject p mo).nextSharedLibrary = st.nextSharedLibrary := rfl

@[simp] theorem writeMetaObject_deletedSharedLibraries (st : Registry) (p : MetaObjectPtr) (mo : AbstractMetaObjectBase) :
    (st.writeMetaObject p mo).deletedSharedLibraries = st.deletedSharedLibraries := rfl

@[simp] theorem writeMetaObject_factoryMapMap (st : Registry) (p : MetaObjectPtr) (mo : AbstractMetaObjectBase) :
    (st.writeMetaObject p mo).factoryMapMap = st.factoryMapMap := rfl

@[simp] theorem writeMetaObject_graveyard (st : Registry) (p : MetaObjectPtr) (mo : AbstractMetaObjectBase) :
    (st.writeMetaObject p mo).graveyard = st.graveyard := rfl

@[simp] theorem writeMetaObject_loadedLibraryVector (st : Registry) (p : MetaObjectPtr) (mo : AbstractMetaObjectBase) :
    (st.writeMetaObject p mo).loadedLibraryVector = st.loadedLibraryVector := rfl

@[simp] theorem writeMetaObject_currentlyLoadingLibraryName (st : Registry) (p : MetaObjectPtr) (mo : AbstractMetaObjectBase) :
    (st.writeMetaObject p mo).currentlyLoadingLibraryName = st.currentlyLoadingLibraryName := rfl

@[simp] theorem writeMetaObject_currentlyActivePluginLoader (st : Registry) (p : MetaObjectPtr) (mo : AbstractMetaObjectBase) :
    (st.writeMetaObject p mo).currentlyActivePluginLoader = st.currentlyActivePluginLoader := rfl

@[simp] theorem writeMetaObject_hasANonPurePluginLibraryBeenOpened (st : Registry) (p : MetaObjectPtr) (mo : AbstractMetaObjectBase) :
    (st.writeMetaObject p mo).hasANonPurePluginLibraryBeenOpened = st.hasANonPurePluginLibraryBeenOpened := rfl

@[simp] theorem writeMetaObject_logged (st : Registry) (p : MetaObjectPtr) (mo : AbstractMetaObjectBase) :
    (st.writeMetaObject p mo).logged = st.logged := rfl

@[simp] theorem newMetaObject_deletedMetaObjects (st : Registry) (B : BaseClassName) (cn bn : String) :
    (newMetaObject st B cn bn).2.deletedMetaObjects = st.deletedMetaObjects := rfl

@[simp] theorem newMetaObject_sharedLibraries (st : Registry) (B : BaseClassName) (cn bn : String) :
    (newMetaObject st B cn bn).2.sharedLibraries = st.sharedLibraries := rfl

@[simp] theorem newMetaObject_nextSharedLibrary (st : Registry) (B : BaseClassName) (cn bn : String) :
    (newMetaObject st B cn bn).2.nextSharedLibrary = st.nextSharedLibrary := rfl

@[simp] theorem newMetaObject_deletedSharedLibraries (st : Registry) (B : BaseClassName) (cn bn : String) :
    (newMetaObject st B cn bn).2.deletedSharedLibraries = st.deletedSharedLibraries := rfl

@[simp] theorem newMetaObject_factoryMapMap (st : Registry) (B : BaseClassName) (cn bn : String) :
    (newMetaObject st B cn bn).2.factoryMapMap = st.factoryMapMap := rfl

@[simp] theorem newMetaObject_graveyard (st : Registry) (B : BaseClassName) (cn bn : String) :
    (newMetaObject st B cn bn).2.graveyard = st.graveyard := rfl

@[simp] theorem newMetaObject_loadedLibraryVector (st : Registry) (B : BaseClassName) (cn bn : String) :
    (newMetaObject st B cn bn).2.loadedLibraryVector = st.loadedLibraryVector := rfl

@[simp] theorem newMetaObject_currentlyLoadingLibraryName (st : Registry) (B : BaseClassName) (cn bn : String) :
    (newMetaObject st B cn bn).2.currentlyLoadingLibraryName = st.currentlyLoadingLibraryName := rfl

@[simp] theorem newMetaObject_currentlyActivePluginLoader (st : Registry) (B : BaseClassName) (cn bn : String) :
    (newMetaObject st B cn bn).2.currentlyActivePluginLoader = st.currentlyActivePluginLoader := rfl

@[simp] theorem newMetaObject_hasANonPurePluginLibraryBeenOpened (st : Registry) (B : BaseClassName) (cn bn : String) :
    (newMetaObject st B cn bn).2.hasANonPurePluginLibraryBeenOpened = st.hasANonPurePluginLibraryBeenOpened := rfl

@[simp] theorem newMetaObject_logged (st : Registry) (B : BaseClassName) (cn bn : String) :
    (newMetaObject st B cn bn).2.logged = st.logged := rfl

@[simp] theorem addOwningPluginLoader_nextMetaObject (st : Registry) (p : MetaObjectPtr) (L : PluginLoaderPtr) :
    (addOwningPluginLoader st p L).nextMetaObject = st.nextMetaObject := rfl

@[simp] theorem addOwningPluginLoader_deletedMetaObjects (st : Registry) (p : MetaObjectPtr) (L : PluginLoaderPtr) :
    (addOwningPluginLoader st p L).deletedMetaObjects = st.deletedMetaObjects := rfl

@[simp] theorem addOwningPluginLoader_sharedLibraries (st : Registry) (p : MetaObjectPtr) (L : PluginLoaderPtr) :
    (addOwningPluginLoader st p L).sharedLibraries = st.sharedLibraries := rfl

@[simp] theorem addOwningPluginLoader_nextSharedLibrary (st : Registry) (p : MetaObjectPtr) (L : PluginLoaderPtr) :
    (addOwningPluginLoader st p L).nextSharedLibrary = st.nextSharedLibrary := rfl

@[simp] theorem addOwningPluginLoader_deletedSharedLibraries (st : Registry) (p : MetaObjectPtr) (L : PluginLoaderPtr) :
    (addOwningPluginLoader st p L).deletedSharedLibraries = st.deletedSharedLibraries := rfl

@[simp] theorem addOwningPluginLoader_factoryMapMap (st : Registry) (p : MetaObjectPtr) (L : PluginLoaderPtr) :
    (addOwningPluginLoader st p L).factoryMapMap = st.factoryMapMap := rfl

@[simp] theorem addOwningPluginLoader_graveyard (st : Registry) (p : MetaObjectPtr) (L : PluginLoaderPtr) :
    (addOwningPluginLoader st p L).graveyard = st.graveyard := rfl

@[simp] theorem addOwningPluginLoader_loadedLibraryVector (st : Registry) (p : MetaObjectPtr) (L : PluginLoaderPtr) :
    (addOwningPluginLoader st p L).loadedLibraryVector = st.loadedLibraryVector := rfl

@[simp] theorem addOwningPluginLoader_currentlyLoadingLibraryName (st : Registry) (p : MetaObjectPtr) (L : PluginLoaderPtr) :
    (addOwningPluginLoader st p L).currentlyLoadingLibraryName = st.currentlyLoadingLibraryName := rfl

@[simp] theorem addOwningPluginLoader_currentlyActivePluginLoader (st : Registry) (p : MetaObjectPtr) (L : PluginLoaderPtr) :
    (addOwningPluginLoader st p L).currentlyActivePluginLoader = st.currentlyActivePluginLoader := rfl

@[simp] theorem addOwningPluginLoader_hasANonPurePluginLibraryBeenOpened (st : Registry) (p : MetaObjectPtr) (L : PluginLoaderPtr) :
    (addOwningPluginLoader st p L).hasANonPurePluginLibraryBeenOpened = st.hasANonPurePluginLibraryBeenOpened := rfl

@[simp] theorem addOwningPluginLoader_logged (st : Registry) (p : MetaObjectPtr) (L : PluginLoaderPtr) :
    (addOwningPluginLoader st p L).logged = st.logged := rfl

@[simp] theorem removeOwningPluginLoader_nextMetaObject (st : Registry) (p : MetaObjectPtr) (L : PluginLoaderPtr) :
    (removeOwningPluginLoader st p L).nextMetaObject = st.nextMetaObject := rfl

@[simp] theorem removeOwningPluginLoader_deletedMetaObjects (st : Registry) (p : MetaObjectPtr) (L : PluginLoaderPtr) :
    (removeOwningPluginLoader st p L).deletedMetaObjects = st.deletedMetaObjects := rfl

@[simp] theorem removeOwningPluginLoader_sharedLibraries (st : Registry) (p : MetaObjectPtr) (L : PluginLoaderPtr) :
    (removeOwningPluginLoader st p L).sharedLibraries = st.sharedLibraries := rfl

@[simp] theorem removeOwningPluginLoader_nextSharedLibrary (st : Registry) (p : MetaObjectPtr) (L : PluginLoaderPtr) :
    (removeOwningPluginLoader st p L).nextSharedLibrary = st.nextSharedLibrary := rfl

@[simp] theorem removeOwningPluginLoader_deletedSharedLibraries (st : Registry) (p : MetaObjectPtr) (L : PluginLoaderPtr) :
    (removeOwningPluginLoader st p L).deletedSharedLibraries = st.deletedSharedLibraries := rfl

@[simp] theorem removeOwningPluginLoader_factoryMapMap (st : Registry) (p : MetaObjectPtr) (L : PluginLoaderPtr) :
    (removeOwningPluginLoader st p L).factoryMapMap = st.factoryMapMap := rfl

@[simp] theorem removeOwningPluginLoader_graveyard (st : Registry) (p : MetaObjectPtr) (L : PluginLoaderPtr) :
    (removeOwningPluginLoader st p L).graveyard = st.graveyard := rfl

@[simp] theorem removeOwningPluginLoader_loadedLibraryVector (st : Registry) (p : MetaObjectPtr) (L : PluginLoaderPtr) :
    (removeOwningPluginLoader st p L).loadedLibraryVector = st.loadedLibraryVector := rfl

@[simp] theorem removeOwningPluginLoader_currentlyLoadingLibraryName (st : Registry) (p : MetaObjectPtr) (L : PluginLoaderPtr) :
    (removeOwningPluginLoader st p L).currentlyLoadingLibraryName = st.currentlyLoadingLibraryName := rfl

@[simp] theorem removeOwningPluginLoader_currentlyActivePluginLoader (st : Registry) (p : MetaObjectPtr) (L : PluginLoaderPtr) :
    (removeOwningPluginLoader st p L).currentlyActivePluginLoader = st.currentlyActivePluginLoader := rfl

@[simp] theorem removeOwningPluginLoader_hasANonPurePluginLibraryBeenOpened (st : Registry) (p : MetaObjectPtr) (L : PluginLoaderPtr) :
    (removeOwningPluginLoader st p L).hasANonPurePluginLibraryBeenOpened = st.hasANonPurePluginLibraryBeenOpened := rfl

@[simp] theorem removeOwningPluginLoader_logged (st : Registry) (p : MetaObjectPtr) (L : PluginLoaderPtr) :
    (removeOwningPluginLoader st p L).logged = st.logged := rfl

@[simp] theorem setAssociatedLibraryPath_nextMetaObject (st : Registry) (p : MetaObjectPtr) (path : LibraryPath) :
    (setAssociatedLibraryPath st p path).nextMetaObject = st.nextMetaObject := rfl

@[simp] theorem setAssociatedLibraryPath_deletedMetaObjects (st : Registry) (p : MetaObjectPtr) (path : LibraryPath) :
    (setAssociatedLibraryPath st p path).deletedMetaObjects = st.deletedMetaObjects := rfl

@[simp] theorem setAssociatedLibraryPath_sharedLibraries (st : Registry) (p : MetaObjectPtr) (path : LibraryPath) :
    (setAssociatedLibraryPath st p path).sharedLibraries = st.sharedLibraries := rfl

@[simp] theorem setAssociatedLibraryPath_nextSharedLibrary (st : Registry) (p : MetaObjectPtr) (path : LibraryPath) :
    (setAssociatedLibraryPath st p path).nextSharedLibrary = st.nextSharedLibrary := rfl

@[simp] theorem setAssociatedLibraryPath_deletedSharedLibraries (st : Registry) (p : MetaObjectPtr) (path : LibraryPath) :
    (setAssociatedLibraryPath st p path).deletedSharedLibraries = st.deletedSharedLibraries := rfl

@[simp] theorem setAssociatedLibraryPath_factoryMapMap (st : Registry) (p : MetaObjectPtr) (path : LibraryPath) :
    (setAssociatedLibraryPath st p path).factoryMapMap = st.factoryMapMap := rfl

@[simp] theorem setAssociatedLibraryPath_graveyard (st : Registry) (p : MetaObjectPtr) (path : LibraryPath) :
    (setAssociatedLibraryPath st p path).graveyard = st.graveyard := rfl

@[simp] theorem setAssociatedLibraryPath_loadedLibraryVector (st : Registry) (p : MetaObjectPtr) (path : LibraryPath) :
    (setAssociatedLibraryPath st p path).loadedLibraryVector = st.loadedLibraryVector := rfl

@[simp] theorem setAssociatedLibraryPath_currentlyLoadingLibraryName (st : Registry) (p : MetaObjectPtr) (path : LibraryPath) :
    (setAssociatedLibraryPath st p path).currentlyLoadingLibraryName = st.currentlyLoadingLibraryName := rfl

@[simp] theorem setAssociatedLibraryPath_currentlyActivePluginLoader (st : Registry) (p : MetaObjectPtr) (path : LibraryPath) :
    (setAssociatedLibraryPath st p path).currentlyActivePluginLoader = st.currentlyActivePluginLoader := rfl

@[simp] theorem setAssociatedLibraryPath_hasANonPurePluginLibraryBeenOpened (st : Registry) (p : MetaObjectPtr) (path : LibraryPath) :
    (setAssociatedLibraryPath st p path).hasANonPurePluginLibraryBeenOpened = st.hasANonPurePluginLibraryBeenOpened := rfl

@[simp] theorem setAssociatedLibraryPath_logged (st : Registry) (p : MetaObjectPtr) (path : LibraryPath) :
    (setAssociatedLibraryPath st p path).logged = st.logged := rfl

@[simp] theorem getFactoryMapForBaseClass_metaObjects (st : Registry) (B : BaseClassName) :
    (getFactoryMapForBaseClass st B).metaObjects = st.metaObjects := by
  unfold getFactoryMapForBaseClass; split <;> rfl

@[simp] theorem getFactoryMapForBaseClass_nextMetaObject (st : Registry) (B : BaseClassName) :
    (getFactoryMapForBaseClass st B).nextMetaObject = st.nextMetaObject := by
  unfold getFactoryMapForBaseClass; split <;> rfl

@[simp] theorem getFactoryMapForBaseClass_deletedMetaObjects (st : Registry) (B : BaseClassName) :
    (getFactoryMapForBaseClass st B).deletedMetaObjects = st.deletedMetaObjects := by
  unfold getFactoryMapForBaseClass; split <;> rfl

@[simp] theorem getFactoryMapForBaseClass_sharedLibraries (st : Registry) (B : BaseClassName) :
    (getFactoryMapForBaseClass st B).sharedLibraries = st.sharedLibraries := by
  unfold getFactoryMapForBaseClass; split <;> rfl

@[simp] theorem getFactoryMapForBaseClass_nextSharedLibrary (st : Registry) (B : BaseClassName) :
    (getFactoryMapForBaseClass st B).nextSharedLibrary = st.nextSharedLibrary := by
  unfold getFactoryMapForBaseClass; split <;> rfl

@[simp] theorem getFactoryMapForBaseClass_deletedSharedLibraries (st : Registry) (B : BaseClassName) :
    (getFactoryMapForBaseClass st B).deletedSharedLibraries = st.deletedSharedLibraries := by
  unfold getFactoryMapForBaseClass; split <;> rfl

@[simp] theorem getFactoryMapForBaseClass_graveyard (st : Registry) (B : BaseClassName) :
    (getFactoryMapForBaseClass st B).graveyard = st.graveyard := by
  unfold getFactoryMapForBaseClass; split <;> rfl

@[simp] theorem getFactoryMapForBaseClass_loadedLibraryVector (st : Registry) (B : BaseClassName) :
    (getFactoryMapForBaseClass st B).loadedLibraryVector = st.loadedLibraryVector := by
  unfold getFactoryMapForBaseClass; split <;> rfl

@[simp] theorem getFactoryMapForBaseClass_currentlyLoadingLibraryName (st : Registry) (B : BaseClassName) :
    (getFactoryMapForBaseClass st B).currentlyLoadingLibraryName = st.currentlyLoadingLibraryName := by
  unfold getFactoryMapForBaseClass; split <;> rfl

@[simp] theorem getFactoryMapForBaseClass_currentlyActivePluginLoader (st : Registry) (B : BaseClassName) :
    (getFactoryMapForBaseClass st B).currentlyActivePluginLoader = st.currentlyActivePluginLoader := by
  unfold getFactoryMapForBaseClass; split <;> rfl

@[simp] theorem getFactoryMapForBaseClass_hasANonPurePluginLibraryBeenOpened (st : Registry) (B : BaseClassName) :
    (getFactoryMapForBaseClass st B).hasANonPurePluginLibraryBeenOpened = st.hasANonPurePluginLibraryBeenOpened := by
  unfold getFactoryMapForBaseClass; split <;> rfl

@[simp] theorem getFactoryMapForBaseClass_logged (st : Registry) (B : BaseClassName) :
    (getFactoryMapForBaseClass st B).logged = st.logged := by
  unfold getFactoryMapForBaseClass; split <;> rfl

@[simp] theorem assignFactory_metaObjects (st : Registry) (B : BaseClassName) (n : ClassName) (p : MetaObjectPtr) :
    (assignFactory st B n p).metaObjects = st.metaObjects := rfl

@[simp] theorem assignFactory_nextMetaObject (st : Registry) (B : BaseClassName) (n : ClassName) (p : MetaObjectPtr) :
    (assignFactory st B n p).nextMetaObject = st.nextMetaObject := rfl

@[simp] theorem assignFactory_deletedMetaObjects (st : Registry) (B : BaseClassName) (n : ClassName) (p : MetaObjectPtr) :
    (assignFactory st B n p).deletedMetaObjects = st.deletedMetaObjects := rfl

@[simp] theorem assignFactory_sharedLibraries (st : Registry) (B : BaseClassName) (n : ClassName) (p : MetaObjectPtr) :
    (assignFactory st B n p).sharedLibraries = st.sharedLibraries := rfl

@[simp] theorem assignFactory_nextSharedLibrary (st : Registry) (B : BaseClassName) (n : ClassName) (p : MetaObjectPtr) :
    (assignFactory st B n p).nextSharedLibrary = st.nextSharedLibrary := rfl

@[simp] theorem assignFactory_deletedSharedLibraries (st : Registry) (B : BaseClassName) (n : ClassName) (p : MetaObjectPtr) :
    (assignFactory st B n p).deletedSharedLibraries = st.deletedSharedLibraries := rfl

@[simp] theorem assignFactory_graveyard (st : Registry) (B : BaseClassName) (n : ClassName) (p : MetaObjectPtr) :
    (assignFactory st B n p).graveyard = st.graveyard := rfl

@[simp] theorem assignFactory_loadedLibraryVector (st : Registry) (B : BaseClassName) (n : ClassName) (p : MetaObjectPtr) :
    (assignFactory st B n p).loadedLibraryVector = st.loadedLibraryVector := rfl

@[simp] theorem assignFactory_currentlyLoadingLibraryName (st : Registry) (B : BaseClassName) (n : ClassName) (p : MetaObjectPtr) :
    (assignFactory st B n p).currentlyLoadingLibraryName = st.currentlyLoadingLibraryName := rfl

@[simp] theorem assignFactory_currentlyActivePluginLoader (st : Registry) (B : BaseClassName) (n : ClassName) (p : MetaObjectPtr) :
    (assignFactory st B n p).currentlyActivePluginLoader = st.currentlyActivePluginLoader := rfl

@[simp] theorem assignFactory_hasANonPurePluginLibraryBeenOpened (st : Registry) (B : BaseClassName) (n : ClassName) (p : MetaObjectPtr) :
    (assignFactory st B n p).hasANonPurePluginLibraryBeenOpened = st.hasANonPurePluginLibraryBeenOpened := rfl

@[simp] theorem assignFactory_logged (st : Registry) (B : BaseClassName) (n : ClassName) (p : MetaObjectPtr) :
    (assignFactory st B n p).logged = st.logged := rfl

@[simp] theorem setCurrentlyActivePluginLoader_metaObjects (st : Registry) (L : PluginLoaderPtr) :
    (setCurrentlyActivePluginLoader st L).metaObjects = st.metaObjects := rfl

@[simp] theorem setCurrentlyActivePluginLoader_nextMetaObject (st : Registry) (L : PluginLoaderPtr) :
    (setCurrentlyActivePluginLoader st L).nextMetaObject = st.nextMetaObject := rfl

@[simp] theorem setCurrentlyActivePluginLoader_deletedMetaObjects (st : Registry) (L : PluginLoaderPtr) :
    (setCurrentlyActivePluginLoader st L).deletedMetaObjects = st.deletedMetaObjects := rfl

@[simp] theorem setCurrentlyActivePluginLoader_sharedLibraries (st : Registry) (L : PluginLoaderPtr) :
    (setCurrentlyActivePluginLoader st L).sharedLibraries = st.sharedLibraries := rfl

@[simp] theorem setCurrentlyActivePluginLoader_nextSharedLibrary (st : Registry) (L : PluginLoaderPtr) :
    (setCurrentlyActivePluginLoader st L).nextSharedLibrary = st.nextSharedLibrary := rfl

@[simp] theorem setCurrentlyActivePluginLoader_deletedSharedLibraries (st : Registry) (L : PluginLoaderPtr) :
    (setCurrentlyActivePluginLoader st L).deletedSharedLibraries = st.deletedSharedLibraries := rfl

@[simp] theorem setCurrentlyActivePluginLoader_factoryMapMap (st : Registry) (L : PluginLoaderPtr) :
    (setCurrentlyActivePluginLoader st L).factoryMapMap = st.factoryMapMap := rfl

@[simp] theorem setCurrentlyActivePluginLoader_graveyard (st : Registry) (L : PluginLoaderPtr) :
    (setCurrentlyActivePluginLoader st L).graveyard = st.graveyard := rfl

@[simp] theorem setCurrentlyActivePluginLoader_loadedLibraryVector (st : Registry) (L : PluginLoaderPtr) :
    (setCurrentlyActivePluginLoader st L).loadedLibraryVector = st.loadedLibraryVector := rfl

@[simp] theorem setCurrentlyActivePluginLoader_currentlyLoadingLibraryName (st : Registry) (L : PluginLoaderPtr) :
    (setCurrentlyActivePluginLoader st L).currentlyLoadingLibraryName = st.currentlyLoadingLibraryName := rfl

@[simp] theorem setCurrentlyActivePluginLoader_hasANonPurePluginLibraryBeenOpened (st : Registry) (L : PluginLoaderPtr) :
    (setCurrentlyActivePluginLoader st L).hasANonPurePluginLibraryBeenOpened = st.hasANonPurePluginLibraryBeenOpened := rfl

@[simp] theorem setCurrentlyActivePluginLoader_logged (st : Registry) (L : PluginLoaderPtr) :
    (setCurrentlyActivePluginLoader st L).logged = st.logged := rfl

@[simp] theorem setCurrentlyLoadingLibraryName_metaObjects (st : Registry) (name : String) :
    (setCurrentlyLoadingLibraryName st name).metaObjects = st.metaObjects := rfl

@[simp] theorem setCurrentlyLoadingLibraryName_nextMetaObject (st : Registry) (name : String) :
    (setCurrentlyLoadingLibraryName st name).nextMetaObject = st.nextMetaObject := rfl

@[simp] theorem setCurrentlyLoadingLibraryName_deletedMetaObjects (st : Registry) (name : String) :
    (setCurrentlyLoadingLibraryName st name).deletedMetaObjects = st.deletedMetaObjects := rfl

@[simp] theorem setCurrentlyLoadingLibraryName_sharedLibraries (st : Registry) (name : String) :
    (setCurrentlyLoadingLibraryName st name).sharedLibraries = st.sharedLibraries := rfl

@[simp] theorem setCurrentlyLoadingLibraryName_nextSharedLibrary (st : Registry) (name : String) :
    (setCurrentlyLoadingLibraryName st name).nextSharedLibrary = st.nextSharedLibrary := rfl

@[simp] theorem setCurrentlyLoadingLibraryName_deletedSharedLibraries (st : Registry) (name : String) :
    (setCurrentlyLoadingLibraryName st name).deletedSharedLibraries = st.deletedSharedLibraries := rfl

@[simp] theorem setCurrentlyLoadingLibraryName_factoryMapMap (st : Registry) (name : String) :
    (setCurrentlyLoadingLibraryName st name).factoryMapMap = st.factoryMapMap := rfl

@[simp] theorem setCurrentlyLoadingLibraryName_graveyard (st : Registry) (name : String) :
    (setCurrentlyLoadingLibraryName st name).graveyard = st.graveyard := rfl

@[simp] theorem setCurrentlyLoadingLibraryName_loadedLibraryVector (st : Registry) (name : String) :
    (setCurrentlyLoadingLibraryName st name).loadedLibraryVector = st.loadedLibraryVector := rfl

@[simp] theorem setCurrentlyLoadingLibraryName_currentlyActivePluginLoader (st : Registry) (name : String) :
    (setCurrentlyLoadingLibraryName st name).currentlyActivePluginLoader = st.currentlyActivePluginLoader := rfl

@[simp] theorem setCurrentlyLoadingLibraryName_hasANonPurePluginLibraryBeenOpened (st : Registry) (name : String) :
    (setCurrentlyLoadingLibraryName st name).hasANonPurePluginLibraryBeenOpened = st.hasANonPurePluginLibraryBeenOpened := rfl

@[simp] theorem setCurrentlyLoadingLibraryName_logged (st : Registry) (name : String) :
    (setCurrentlyLoadingLibraryName st name).logged = st.logged := rfl

@[simp] theorem setNonPure_metaObjects (st : Registry) (b : Bool) :
    (hasANonPurePluginLibraryBeenOpened st b).metaObjects = st.metaObjects := rfl

@[simp] theorem setNonPure_nextMetaObject (st : Registry) (b : Bool) :
    (hasANonPurePluginLibraryBeenOpened st b).nextMetaObject = st.nextMetaObject := rfl

@[simp] theorem setNonPure_deletedMetaObjects (st : Registry) (b : Bool) :
    (hasANonPurePluginLibraryBeenOpened st b).deletedMetaObjects = st.deletedMetaObjects := rfl

@[simp] theorem setNonPure_sharedLibraries (st : Registry) (b : Bool) :
    (hasANonPurePluginLibraryBeenOpened st b).sharedLibraries = st.sharedLibraries := rfl

@[simp] theorem setNonPure_nextSharedLibrary (st : Registry) (b : Bool) :
    (hasANonPurePluginLibraryBeenOpened st b).nextSharedLibrary = st.nextSharedLibrary := rfl

@[simp] theorem setNonPure_deletedSharedLibraries (st : Registry) (b : Bool) :
    (hasANonPurePluginLibraryBeenOpened st b).deletedSharedLibraries = st.deletedSharedLibraries := rfl

@[simp] theorem setNonPure_factoryMapMap (st : Registry) (b : Bool) :
    (hasANonPurePluginLibraryBeenOpened st b).factoryMapMap = st.factoryMapMap := rfl

@[simp] theorem setNonPure_graveyard (st : Registry) (b : Bool) :
    (hasANonPurePluginLibraryBeenOpened st b).graveyard = st.graveyard := rfl

@[simp] theorem setNonPure_loadedLibraryVector (st : Registry) (b : Bool) :
    (hasANonPurePluginLibraryBeenOpened st b).loadedLibraryVector = st.loadedLibraryVector := rfl

@[simp] theorem setNonPure_currentlyLoadingLibraryName (st : Registry) (b : Bool) :
    (hasANonPurePluginLibraryBeenOpened st b).currentlyLoadingLibraryName = st.currentlyLoadingLibraryName := rfl

@[simp] theorem setNonPure_currentlyActivePluginLoader (st : Registry) (b : Bool) :
    (hasANonPurePluginLibraryBeenOpened st b).currentlyActivePluginLoader = st.currentlyActivePluginLoader := rfl

@[simp] theorem setNonPure_logged (st : Registry) (b : Bool) :
    (hasANonPurePluginLibraryBeenOpened st b).logged = st.logged := rfl

@[simp] theorem deleteMetaObject_metaObjects (st : Registry) (p : MetaObjectPtr) :
    (deleteMetaObject st p).metaObjects = st.metaObjects := rfl

@[simp] theorem deleteMetaObject_nextMetaObject (st : Registry) (p : MetaObjectPtr) :
    (deleteMetaObject st p).nextMetaObject = st.nextMetaObject := rfl

@[simp] theorem deleteMetaObject_sharedLibraries (st : Registry) (p : MetaObjectPtr) :
    (deleteMetaObject st p).sharedLibraries = st.sharedLibraries := rfl

@[simp] theorem deleteMetaObject_nextSharedLibrary (st : Registry) (p : MetaObjectPtr) :
    (deleteMetaObject st p).nextSharedLibrary = st.nextSharedLibrary := rfl

@[simp] theorem deleteMetaObject_deletedSharedLibraries (st : Registry) (p : MetaObjectPtr) :
    (deleteMetaObject st p).deletedSharedLibraries = st.deletedSharedLibraries := rfl

@[simp] theorem deleteMetaObject_factoryMapMap (st : Registry) (p : MetaObjectPtr) :
    (deleteMetaObject st p).factoryMapMap = st.factoryMapMap := rfl

@[simp] theorem deleteMetaObject_graveyard (st : Registry) (p : MetaObjectPtr) :
    (deleteMetaObject st p).graveyard = st.graveyard := rfl

@[simp] theorem deleteMetaObject_loadedLibraryVector (st : Registry) (p : MetaObjectPtr) :
    (deleteMetaObject st p).loadedLibraryVector = st.loadedLibraryVector := rfl

@[simp] theorem deleteMetaObject_currentlyLoadingLibraryName (st : Registry) (p : MetaObjectPtr) :
    (deleteMetaObject st p).currentlyLoadingLibraryName = st.currentlyLoadingLibraryName := rfl

@[simp] theorem deleteMetaObject_currentlyActivePluginLoader (st : Registry) (p : MetaObjectPtr) :
    (deleteMetaObject st p).currentlyActivePluginLoader = st.currentlyActivePluginLoader := rfl

@[simp] theorem deleteMetaObject_hasANonPurePluginLibraryBeenOpened (st : Registry) (p : MetaObjectPtr) :
    (deleteMetaObject st p).hasANonPurePluginLibraryBeenOpened = st.hasANonPurePluginLibraryBeenOpened := rfl

@[simp] theorem deleteMetaObject_logged (st : Registry) (p : MetaObjectPtr) :
    (deleteMetaObject st p).logged = st.logged := rfl

@[simp] theorem insertMetaObjectIntoGraveyard_metaObjects (st : Registry) (p : MetaObjectPtr) :
    (insertMetaObjectIntoGraveyard st p).metaObjects = st.metaObjects := rfl

@[simp] theorem insertMetaObjectIntoGraveyard_nextMetaObject (st : Registry) (p : MetaObjectPtr) :
    (insertMetaObjectIntoGraveyard st p).nextMetaObject = st.nextMetaObject := rfl

@[simp] theorem insertMetaObjectIntoGraveyard_deletedMetaObjects (st : Registry) (p : MetaObjectPtr) :
    (insertMetaObjectIntoGraveyard st p).deletedMetaObjects = st.deletedMetaObjects := rfl

@[simp] theorem insertMetaObjectIntoGraveyard_sharedLibraries (st : Registry) (p : MetaObjectPtr) :
    (insertMetaObjectIntoGraveyard st p).sharedLibraries = st.sharedLibraries := rfl

@[simp] theorem insertMetaObjectIntoGraveyard_nextSharedLibrary (st : Registry) (p : MetaObjectPtr) :
    (insertMetaObjectIntoGraveyard st p).nextSharedLibrary = st.nextSharedLibrary := rfl

@[simp] theorem insertMetaObjectIntoGraveyard_deletedSharedLibraries (st : Registry) (p : MetaObjectPtr) :
    (insertMetaObjectIntoGraveyard st p).deletedSharedLibraries = st.deletedSharedLibraries := rfl

@[simp] theorem insertMetaObjectIntoGraveyard_factoryMapMap (st : Registry) (p : MetaObjectPtr) :
    (insertMetaObjectIntoGraveyard st p).factoryMapMap = st.factoryMapMap := rfl

@[simp] theorem insertMetaObjectIntoGraveyard_loadedLibraryVector (st : Registry) (p : MetaObjectPtr) :
    (insertMetaObjectIntoGraveyard st p).loadedLibraryVector = st.loadedLibraryVector := rfl

@[simp] theorem insertMetaObjectIntoGraveyard_currentlyLoadingLibraryName (st : Registry) (p : MetaObjectPtr) :
    (insertMetaObjectIntoGraveyard st p).currentlyLoadingLibraryName = st.currentlyLoadingLibraryName := rfl

@[simp] theorem insertMetaObjectIntoGraveyard_currentlyActivePluginLoader (st : Registry) (p : MetaObjectPtr) :
    (insertMetaObjectIntoGraveyard st p).currentlyActivePluginLoader = st.currentlyActivePluginLoader := rfl

@[simp] theorem insertMetaObjectIntoGraveyard_hasANonPurePluginLibraryBeenOpened (st : Registry) (p : MetaObjectPtr) :
    (insertMetaObjectIntoGraveyard st p).hasANonPurePluginLibraryBeenOpened = st.hasANonPurePluginLibraryBeenOpened := rfl

@[simp] theorem log_logged (st : Registry) (l : LogLevel) :
    (st.log l).logged = st.logged ++ [l] := rfl

@[simp] theorem writeMetaObject_get (st : Registry) (p q : MetaObjectPtr)
    (mo : AbstractMetaObjectBase) :
    (st.writeMetaObject p mo).metaObjects q = if q = p then mo else st.metaObjects q := rfl

@[simp] theorem newMetaObject_fst (st : Registry) (B : BaseClassName) (cn bn : String) :
    (newMetaObject st B cn bn).1 = st.nextMetaObject := rfl

@[simp] theorem newMetaObject_next (st : Registry) (B : BaseClassName) (cn bn : String) :
    (newMetaObject st B cn bn).2.nextMetaObject = st.nextMetaObject + 1 := rfl

@[simp] theorem newMetaObject_get (st : Registry) (B : BaseClassName) (cn bn : String)
    (q : MetaObjectPtr) :
    (newMetaObject st B cn bn).2.metaObjects q =
      if q = st.nextMetaObject then ⟨cn, bn, B, "Unknown", []⟩ else st.metaObjects q := rfl

@[simp] theorem addOwningPluginLoader_get (st : Registry) (p q : MetaObjectPtr)
    (L : PluginLoaderPtr) :
    (addOwningPluginLoader st p L).metaObjects q =
      if q = p then
        { st.metaObjects p with
          associated_plugin_loaders := (st.metaObjects p).associated_plugin_loaders ++ [L] }
      else st.metaObjects q := rfl

@[simp] theorem removeOwningPluginLoader_get (st : Registry) (p q : MetaObjectPtr)
    (L : PluginLoaderPtr) :
    (removeOwningPluginLoader st p L).metaObjects q =
      if q = p then
        { st.metaObjects p with
          associated_plugin_loaders := (st.metaObjects p).associated_plugin_loaders.erase L }
      else st.metaObjects q := rfl

@[simp] theorem setAssociatedLibraryPath_get (st : Registry) (p q : MetaObjectPtr)
    (path : LibraryPath) :
    (setAssociatedLibraryPath st p path).metaObjects q =
      if q = p then { st.metaObjects p with associated_library_path := path }
      else st.metaObjects q := rfl

@[simp] theorem setCurrentlyActivePluginLoader_get (st : Registry) (L : PluginLoaderPtr) :
    (setCurrentlyActivePluginLoader st L).currentlyActivePluginLoader = L := rfl

@[simp] theorem setCurrentlyLoadingLibraryName_get (st : Registry) (name : String) :
    (setCurrentlyLoadingLibraryName st name).currentlyLoadingLibraryName = name := rfl

@[simp] theorem setNonPure_get (st : Registry) (b : Bool) :
    (hasANonPurePluginLibraryBeenOpened st b).hasANonPurePluginLibraryBeenOpened = b := rfl

@[simp] theorem deleteMetaObject_deleted (st : Registry) (p : MetaObjectPtr) :
    (deleteMetaObject st p).deletedMetaObjects = st.deletedMetaObjects ++ [p] := rfl

@[simp] theorem insertMetaObjectIntoGraveyard_get (st : Registry) (p : MetaObjectPtr) :
    (insertMetaObjectIntoGraveyard st p).graveyard = st.graveyard ++ [p] := rfl

@[simp] theorem insertMetaObjectIntoGraveyard_logged (st : Registry) (p : MetaObjectPtr) :
    (insertMetaObjectIntoGraveyard st p).logged =
      st.logged ++ [LogLevel.CONSOLE_LOG_DEBUG] := rfl

@[simp] theorem assignFactory_factoryMapMap (st : Registry) (B : BaseClassName) (n : ClassName)
    (p : MetaObjectPtr) :
    (assignFactory st B n p).factoryMapMap =
      st.factoryMapMap.assign B
        (((st.factoryMapMap.find B).getD StdMap.empty).assign n p) := rfl

@[simp] theorem eraseFactory_metaObjects (st : Registry) (B : BaseClassName) (n : ClassName) :
    (eraseFactory st B n).metaObjects = st.metaObjects := rfl

@[simp] theorem eraseFactory_nextMetaObject (st : Registry) (B : BaseClassName) (n : ClassName) :
    (eraseFactory st B n).nextMetaObject = st.nextMetaObject := rfl

@[simp] theorem eraseFactory_deletedMetaObjects (st : Registry) (B : BaseClassName) (n : ClassName) :
    (eraseFactory st B n).deletedMetaObjects = st.deletedMetaObjects := rfl

@[simp] theorem eraseFactory_sharedLibraries (st : Registry) (B : BaseClassName) (n : ClassName) :
    (eraseFactory st B n).sharedLibraries = st.sharedLibraries := rfl

@[simp] theorem eraseFactory_nextSharedLibrary (st : Registry) (B : BaseClassName) (n : ClassName) :
    (eraseFactory st B n).nextSharedLibrary = st.nextSharedLibrary := rfl

@[simp] theorem eraseFactory_deletedSharedLibraries (st : Registry) (B : BaseClassName) (n : ClassName) :
    (eraseFactory st B n).deletedSharedLibraries = st.deletedSharedLibraries := rfl

@[simp] theorem eraseFactory_graveyard (st : Registry) (B : BaseClassName) (n : ClassName) :
    (eraseFactory st B n).graveyard = st.graveyard := rfl

@[simp] theorem eraseFactory_loadedLibraryVector (st : Registry) (B : BaseClassName) (n : ClassName) :
    (eraseFactory st B n).loadedLibraryVector = st.loadedLibraryVector := rfl

@[simp] theorem eraseFactory_currentlyLoadingLibraryName (st : Registry) (B : BaseClassName) (n : ClassName) :
    (eraseFactory st B n).currentlyLoadingLibraryName = st.currentlyLoadingLibraryName := rfl

@[simp] theorem eraseFactory_currentlyActivePluginLoader (st : Registry) (B : BaseClassName) (n : ClassName) :
    (eraseFactory st B n).currentlyActivePluginLoader = st.currentlyActivePluginLoader := rfl

@[simp] theorem eraseFactory_hasANonPurePluginLibraryBeenOpened (st : Registry) (B : BaseClassName) (n : ClassName) :
    (eraseFactory st B n).hasANonPurePluginLibraryBeenOpened = st.hasANonPurePluginLibraryBeenOpened := rfl

@[simp] theorem eraseFactory_logged (st : Registry) (B : BaseClassName) (n : ClassName) :
    (eraseFactory st B n).logged = st.logged := rfl

@[simp] theorem deleteSharedLibrary_metaObjects (st : Registry) (p : SharedLibraryPtr) :
    (deleteSharedLibrary st p).metaObjects = st.metaObjects := rfl

@[simp] theorem deleteSharedLibrary_nextMetaObject (st : Registry) (p : SharedLibraryPtr) :
    (deleteSharedLibrary st p).nextMetaObject = st.nextMetaObject := rfl

@[simp] theorem deleteSharedLibrary_deletedMetaObjects (st : Registry) (p : SharedLibraryPtr) :
    (deleteSharedLibrary st p).deletedMetaObjects = st.deletedMetaObjects := rfl

@[simp] theorem deleteSharedLibrary_sharedLibraries (st : Registry) (p : SharedLibraryPtr) :
    (deleteSharedLibrary st p).sharedLibraries = st.sharedLibraries := rfl

@[simp] theorem deleteSharedLibrary_nextSharedLibrary (st : Registry) (p : SharedLibraryPtr) :
    (deleteSharedLibrary st p).nextSharedLibrary = st.nextSharedLibrary := rfl

@[simp] theorem deleteSharedLibrary_factoryMapMap (st : Registry) (p : SharedLibraryPtr) :
    (deleteSharedLibrary st p).factoryMapMap = st.factoryMapMap := rfl

@[simp] theorem deleteSharedLibrary_graveyard (st : Registry) (p : SharedLibraryPtr) :
    (deleteSharedLibrary st p).graveyard = st.graveyard := rfl

@[simp] theorem deleteSharedLibrary_loadedLibraryVector (st : Registry) (p : SharedLibraryPtr) :
    (deleteSharedLibrary st p).loadedLibraryVector = st.loadedLibraryVector := rfl

@[simp] theorem deleteSharedLibrary_currentlyLoadingLibraryName (st : Registry) (p : SharedLibraryPtr) :
    (deleteSharedLibrary st p).currentlyLoadingLibraryName = st.currentlyLoadingLibraryName := rfl

@[simp] theorem deleteSharedLibrary_currentlyActivePluginLoader (st : Registry) (p : SharedLibraryPtr) :
    (deleteSharedLibrary st p).currentlyActivePluginLoader = st.currentlyActivePluginLoader := rfl

@[simp] theorem deleteSharedLibrary_hasANonPurePluginLibraryBeenOpened (st : Registry) (p : SharedLibraryPtr) :
    (deleteSharedLibrary st p).hasANonPurePluginLibraryBeenOpened = st.hasANonPurePluginLibraryBeenOpened := rfl

@[simp] theorem deleteSharedLibrary_logged (st : Registry) (p : SharedLibraryPtr) :
    (deleteSharedLibrary st p).logged = st.logged := rfl

@[simp] theorem deleteSharedLibrary_deleted (st : Registry) (p : SharedLibraryPtr) :
    (deleteSharedLibrary st p).deletedSharedLibraries = st.deletedSharedLibraries ++ [p] := rfl

@[simp] theorem eraseFactory_factoryMapMap (st : Registry) (B : BaseClassName) (n : ClassName) :
    (eraseFactory st B n).factoryMapMap =
      st.factoryMapMap.assign B (((st.factoryMapMap.find B).getD StdMap.empty).erase n) := rfl

@[simp] theorem factoryMapOf_getFactoryMapForBaseClass (st : Registry) (B B₂ : BaseClassName) :
    factoryMapOf (getFactoryMapForBaseClass st B) B₂ = factoryMapOf st B₂ := by
  unfold getFactoryMapForBaseClass
  split
  · rename_i h
    simp only [factoryMapOf]
    by_cases hb : B₂ = B
    · subst hb
      simp [h]
    · rw [StdMap.find_assign_of_ne _ _ _ _ hb]
  · rfl

@[simp] theorem factoryMapOf_log (st : Registry) (l : LogLevel) (B : BaseClassName) :
    factoryMapOf (st.log l) B = factoryMapOf st B := rfl

@[simp] theorem lookup_getFactoryMapForBaseClass (st : Registry) (B B₂ : BaseClassName)
    (n : ClassName) : lookup (getFactoryMapForBaseClass st B) B₂ n = lookup st B₂ n := by
  simp [lookup]

@[simp] theorem isOwnedBy_getFactoryMapForBaseClass (st : Registry) (B : BaseClassName)
    (p : MetaObjectPtr) (L : PluginLoaderPtr) :
    isOwnedBy (getFactoryMapForBaseClass st B) p L = isOwnedBy st p L := by
  simp [isOwnedBy]

theorem isOwnedBy_iff (st : Registry) (p : MetaObjectPtr) (L : PluginLoaderPtr) :
    isOwnedBy st p L = true ↔ L ∈ owners st p := by
  simp [isOwnedBy, owners]

theorem lookup_mem (st : Registry) (B : BaseClassName) (n : ClassName) (p : MetaObjectPtr)
    (h : lookup st B n = some p) :
    ∃ fm, (B, fm) ∈ st.factoryMapMap.entries ∧ (n, p) ∈ fm.entries := by
  unfold lookup factoryMapOf at h
  cases hf : st.factoryMapMap.find B with
  | none => rw [hf] at h; simp at h
  | some fm =>
    rw [hf] at h
    exact ⟨fm, (StdMap.mem_entries_iff _ _ _).mpr hf, (StdMap.mem_entries_iff _ _ _).mpr h⟩

theorem typeid_of_lookup (st : Registry) (hwt : directoryWellTyped st = true)
    (B : BaseClassName) (n : ClassName) (p : MetaObjectPtr) (h : lookup st B n = some p) :
    (st.metaObjects p).typeid_base_class_name = B := by
  obtain ⟨fm, h1, h2⟩ := lookup_mem st B n p h
  simp only [directoryWellTyped, List.all_eq_true, decide_eq_true_eq] at hwt
  exact hwt (B, fm) h1 (n, p) h2

/-- The outcome of `createInstance`, case by case. -/
theorem createInstance_eq (st : Registry) (B : BaseClassName) (n : ClassName)
    (L : PluginLoaderPtr) :
    createInstance st B n L =
      match lookup st B n with
      | none =>
        Outcome.thrown PluginLoaderException.CreateClassException
          (getFactoryMapForBaseClass st B).logError
      | some p =>
        if (st.metaObjects p).typeid_base_class_name = B then
          if L ∈ owners st p then
            Outcome.returned p (getFactoryMapForBaseClass st B).logDebug
          else if none ∈ owners st p then
            Outcome.returned p (getFactoryMapForBaseClass st B).logDebug.logDebug
          else
            Outcome.thrown PluginLoaderException.CreateClassException
              (getFactoryMapForBaseClass st B)
        else
          Outcome.thrown PluginLoaderException.CreateClassException
            (getFactoryMapForBaseClass st B) := by
  unfold createInstance
  simp only [lookup]
  rw [factoryMapOf_getFactoryMapForBaseClass]
  cases hf : (factoryMapOf st B).find n with
  | none => simp
  | some p =>
    simp only [Option.isSome_some, if_true, dynamicCast, getFactoryMapForBaseClass_metaObjects]
    by_cases ht : (st.metaObjects p).typeid_base_class_name = B
    · simp only [ht, if_true, isOwnedBy, owners, decide_eq_true_eq,
        getFactoryMapForBaseClass_metaObjects]
    · simp only [ht, if_false]

/-- C1. For a registry whose directory is well typed, every base identity,
class name and loader reference (null allowed): `createInstance` returns a new
instance exactly when the directory holds at that key a meta-object whose owner
set contains the loader or the null entry, the instance then being made by that
meta-object; in every other case it raises `CreateClassException`. -/
theorem createInstance_returns_iff_owned (st : Registry) (hwt : directoryWellTyped st = true)
    (B : BaseClassName) (n : ClassName) (L : PluginLoaderPtr) :
    ((∃ p st', createInstance st B n L = Outcome.returned p st') ↔
        ∃ p, lookup st B n = some p ∧ (L ∈ owners st p ∨ none ∈ owners st p)) ∧
    ((∃ st', createInstance st B n L =
          Outcome.thrown PluginLoaderException.CreateClassException st') ↔
        ¬ ∃ p, lookup st B n = some p ∧ (L ∈ owners st p ∨ none ∈ owners st p)) ∧
    (∀ p st', createInstance st B n L = Outcome.returned p st' → lookup st B n = some p) := by
  rw [createInstance_eq]
  cases hf : lookup st B n with
  | none => simp
  | some p =>
    have ht := typeid_of_lookup st hwt B n p hf
    simp only [ht, if_true]
    by_cases h1 : L ∈ owners st p
    · simp [h1]
    · by_cases h2 : none ∈ owners st p
      · simp [h1, h2]
      · simp [h1, h2]

/-! ## Registration -/

theorem factoryMapOf_assignFactory (st : Registry) (B B₂ : BaseClassName) (n : ClassName)
    (p : MetaObjectPtr) :
    factoryMapOf (assignFactory st B n p) B₂ =
      if B₂ = B then (factoryMapOf st B).assign n p else factoryMapOf st B₂ := by
  simp only [factoryMapOf, assignFactory, StdMap.find_assign]
  split_ifs <;> rfl

theorem factoryMapOf_congr (st₁ st₂ : Registry) (h : st₁.factoryMapMap = st₂.factoryMapMap)
    (B : BaseClassName) : factoryMapOf st₁ B = factoryMapOf st₂ B := by
  simp only [factoryMapOf, h]

/-- The meta-object memory after a registration. -/
theorem registerPlugin_metaObjects (st : Registry) (B : BaseClassName) (cn bn : String)
    (q : MetaObjectPtr) :
    (registerPlugin st B cn bn).metaObjects q =
      if q = st.nextMetaObject then
        ⟨cn, bn, B, st.currentlyLoadingLibraryName, [st.currentlyActivePluginLoader]⟩
      else st.metaObjects q := by
  simp only [registerPlugin]
  split_ifs <;> simp_all

/-- The inner maps after a registration. -/
theorem registerPlugin_factoryMapOf (st : Registry) (B B₂ : BaseClassName) (cn bn : String) :
    factoryMapOf (registerPlugin st B cn bn) B₂ =
      if B₂ = B then (factoryMapOf st B).assign cn st.nextMetaObject else factoryMapOf st B₂ := by
  simp only [registerPlugin, logDebug_eq, logWarn_eq, factoryMapOf_log,
    factoryMapOf_assignFactory, newMetaObject_fst]
  have key : ∀ X : Registry, X.factoryMapMap = st.factoryMapMap →
      ∀ B₃, factoryMapOf (getFactoryMapForBaseClass X B) B₃ = factoryMapOf st B₃ := by
    intro X hX B₃
    rw [factoryMapOf_getFactoryMapForBaseClass]
    exact factoryMapOf_congr X st hX B₃
  split_ifs <;> simp [key]

theorem registerPlugin_graveyard (st : Registry) (B : BaseClassName) (cn bn : String) :
    (registerPlugin st B cn bn).graveyard = st.graveyard := by
  simp only [registerPlugin]
  split_ifs <;> simp

theorem registerPlugin_loadedLibraryVector (st : Registry) (B : BaseClassName) (cn bn : String) :
    (registerPlugin st B cn bn).loadedLibraryVector = st.loadedLibraryVector := by
  simp only [registerPlugin]
  split_ifs <;> simp

theorem registerPlugin_nextMetaObject (st : Registry) (B : BaseClassName) (cn bn : String) :
    (registerPlugin st B cn bn).nextMetaObject = st.nextMetaObject + 1 := by
  simp only [registerPlugin]
  split_ifs <;> simp

theorem registerPlugin_currentlyLoadingLibraryName (st : Registry) (B : BaseClassName)
    (cn bn : String) :
    (registerPlugin st B cn bn).currentlyLoadingLibraryName = st.currentlyLoadingLibraryName := by
  simp only [registerPlugin]
  split_ifs <;> simp

theorem registerPlugin_currentlyActivePluginLoader (st : Registry) (B : BaseClassName)
    (cn bn : String) :
    (registerPlugin st B cn bn).currentlyActivePluginLoader = st.currentlyActivePluginLoader := by
  simp only [registerPlugin]
  split_ifs <;> simp

theorem registerPlugin_deletedMetaObjects (st : Registry) (B : BaseClassName)
    (cn bn : String) :
    (registerPlugin st B cn bn).deletedMetaObjects = st.deletedMetaObjects := by
  simp only [registerPlugin]
  split_ifs <;> simp

theorem registerPlugin_sharedLibraries (st : Registry) (B : BaseClassName) (cn bn : String) :
    (registerPlugin st B cn bn).sharedLibraries = st.sharedLibraries := by
  simp only [registerPlugin]
  split_ifs <;> simp

theorem registerPlugin_nextSharedLibrary (st : Registry) (B : BaseClassName) (cn bn : String) :
    (registerPlugin st B cn bn).nextSharedLibrary = st.nextSharedLibrary := by
  simp only [registerPlugin]
  split_ifs <;> simp

theorem registerPlugin_deletedSharedLibraries (st : Registry) (B : BaseClassName)
    (cn bn : String) :
    (registerPlugin st B cn bn).deletedSharedLibraries = st.deletedSharedLibraries := by
  simp only [registerPlugin]
  split_ifs <;> simp

theorem registerPlugin_flag (st : Registry) (B : BaseClassName) (cn bn : String) :
    (registerPlugin st B cn bn).hasANonPurePluginLibraryBeenOpened =
      (st.hasANonPurePluginLibraryBeenOpened || decide (st.currentlyActivePluginLoader = none)) := by
  simp only [registerPlugin]
  split_ifs <;> simp_all

theorem lookup_registerPlugin (st : Registry) (B B₂ : BaseClassName) (cn bn : String)
    (n₂ : ClassName) :
    lookup (registerPlugin st B cn bn) B₂ n₂ =
      if B₂ = B ∧ n₂ = cn then some st.nextMetaObject else lookup st B₂ n₂ := by
  simp only [lookup, registerPlugin_factoryMapOf]
  by_cases hB : B₂ = B
  · subst hB
    simp only [if_true, true_and, StdMap.find_assign]
  · simp [hB]

/-- C2. After `registerPlugin<Derived, Base>(class_name, base_class_name)` the
directory entry at (identity of `Base`, `class_name`) is the meta-object just
constructed (at the address `new` returned), whose derived-class name is
`class_name`, whose library path is the currently-loading-library ambient of
the call and whose owner set is exactly the one entry of the
currently-active-loader ambient (null included); every other directory key,
every other meta-object, the graveyard and the loaded-library table are
unchanged. -/
theorem registerPlugin_inserts_new_metaobject (st : Registry) (B : BaseClassName)
    (class_name base_class_name : String) :
    lookup (registerPlugin st B class_name base_class_name) B class_name
        = some st.nextMetaObject ∧
      (registerPlugin st B class_name base_class_name).nextMetaObject
        = st.nextMetaObject + 1 ∧
      (registerPlugin st B class_name base_class_name).metaObjects st.nextMetaObject
        = ⟨class_name, base_class_name, B, st.currentlyLoadingLibraryName,
            [st.currentlyActivePluginLoader]⟩ ∧
      (∀ B₂ n₂, ¬ (B₂ = B ∧ n₂ = class_name) →
        lookup (registerPlugin st B class_name base_class_name) B₂ n₂ = lookup st B₂ n₂) ∧
      (∀ q, q ≠ st.nextMetaObject →
        (registerPlugin st B class_name base_class_name).metaObjects q = st.metaObjects q) ∧
      (registerPlugin st B class_name base_class_name).graveyard = st.graveyard ∧
      (registerPlugin st B class_name base_class_name).loadedLibraryVector
        = st.loadedLibraryVector := by
  refine ⟨?_, registerPlugin_nextMetaObject st B _ _, ?_, ?_, ?_,
    registerPlugin_graveyard st B _ _, registerPlugin_loadedLibraryVector st B _ _⟩
  · simp [lookup_registerPlugin]
  · simp [registerPlugin_metaObjects]
  · intro B₂ n₂ h
    simp [lookup_registerPlugin, h]
  · intro q hq
    simp [registerPlugin_metaObjects, hq]

theorem mapAssign_keys_of_find {β : Type} (l : List (String × β)) (k : String) (v v₀ : β)
    (hl : l.Pairwise (fun a b => keyLt a.1 b.1))
    (h : mapFind l k = some v₀) : (mapAssign l k v).map Prod.fst = l.map Prod.fst := by
  induction l with
  | nil => simp [mapFind] at h
  | cons hd tl ih =>
    obtain ⟨k', v'⟩ := hd
    rw [List.pairwise_cons] at hl
    simp only [mapFind] at h
    simp only [mapAssign]
    split_ifs at h ⊢ with h1 h2
    · simp
    · exfalso
      have hlt : keyLt k' k := hl.1 (k, v₀) (mapFind_mem tl k v₀ h)
      exact keyLt_irrefl k (keyLt_trans h2 hlt)
    · simp [ih hl.2 h]

theorem filter_key_of_find {β : Type} (l : List (String × β)) (k : String) (v : β)
    (hl : l.Pairwise (fun a b => keyLt a.1 b.1)) (h : mapFind l k = some v) :
    l.filter (fun e => decide (e.1 = k)) = [(k, v)] := by
  induction l with
  | nil => simp [mapFind] at h
  | cons hd tl ih =>
    obtain ⟨k', v'⟩ := hd
    rw [List.pairwise_cons] at hl
    simp only [mapFind] at h
    split_ifs at h with h1
    · simp only [Option.some.injEq] at h
      subst h1 h
      have htl : tl.filter (fun e => decide (e.1 = k')) = [] := by
        rw [List.filter_eq_nil_iff]
        intro e he
        have hlt : keyLt k' e.1 := hl.1 e he
        simp only [decide_eq_true_eq]
        intro heq
        exact keyLt_irrefl k' (heq ▸ hlt)
      simp [List.filter_cons, htl]
    · simp [List.filter_cons, h1, ih hl.2 h]

namespace StdMap

theorem keys_assign_of_find {β : Type} (m : StdMap β) (k : String) (v v₀ : β)
    (h : m.find k = some v₀) : (m.assign k v).keys = m.keys :=
  mapAssign_keys_of_find m.entries k v v₀ m.ordered h

theorem entries_at_key {β : Type} (m : StdMap β) (k : String) (v : β) (h : m.find k = some v) :
    m.entries.filter (fun e => decide (e.1 = k)) = [(k, v)] :=
  filter_key_of_find m.entries k v m.ordered h

end StdMap

/-- C3. Registering the same (base identity, derived-class name) twice, the
ambients being set anew before the second call: the inner map of the base then
has exactly one entry at that key, holding the meta-object constructed by the
second registration (another object than the first one), whose library path and
owner set are those of the ambients of the second call; the keys of the inner
map, and so their number, are those after the first registration. -/
theorem registerPlugin_twice_last_writer_wins (st : Registry) (B : BaseClassName)
    (class_name base₁ base₂ : String) (P₂ : LibraryPath) (L₂ : PluginLoaderPtr) :
    (factoryMapOf
        (registerPlugin
          (setCurrentlyActivePluginLoader
            (setCurrentlyLoadingLibraryName (registerPlugin st B class_name base₁) P₂) L₂)
          B class_name base₂) B).entries.filter (fun e => decide (e.1 = class_name))
        = [(class_name, st.nextMetaObject + 1)] ∧
      lookup (registerPlugin st B class_name base₁) B class_name = some st.nextMetaObject ∧
      ((registerPlugin
          (setCurrentlyActivePluginLoader
            (setCurrentlyLoadingLibraryName (registerPlugin st B class_name base₁) P₂) L₂)
          B class_name base₂).metaObjects (st.nextMetaObject + 1)).associated_library_path
        = P₂ ∧
      owners (registerPlugin
          (setCurrentlyActivePluginLoader
            (setCurrentlyLoadingLibraryName (registerPlugin st B class_name base₁) P₂) L₂)
          B class_name base₂) (st.nextMetaObject + 1) = [L₂] ∧
      (factoryMapOf
        (registerPlugin
          (setCurrentlyActivePluginLoader
            (setCurrentlyLoadingLibraryName (registerPlugin st B class_name base₁) P₂) L₂)
          B class_name base₂) B).keys
        = (factoryMapOf (registerPlugin st B class_name base₁) B).keys ∧
      (factoryMapOf
        (registerPlugin
          (setCurrentlyActivePluginLoader
            (setCurrentlyLoadingLibraryName (registerPlugin st B class_name base₁) P₂) L₂)
          B class_name base₂) B).size
        = (factoryMapOf (registerPlugin st B class_name base₁) B).size := by
  have hmid : factoryMapOf (setCurrentlyActivePluginLoader
      (setCurrentlyLoadingLibraryName (registerPlugin st B class_name base₁) P₂) L₂) B
      = factoryMapOf (registerPlugin st B class_name base₁) B := rfl
  have hnext : (setCurrentlyActivePluginLoader
      (setCurrentlyLoadingLibraryName (registerPlugin st B class_name base₁) P₂) L₂).nextMetaObject
      = st.nextMetaObject + 1 := by
    simp [registerPlugin_nextMetaObject]
  have h1 : lookup (registerPlugin st B class_name base₁) B class_name
      = some st.nextMetaObject := by
    simp [lookup_registerPlugin]
  have hkeys : (factoryMapOf
        (registerPlugin
          (setCurrentlyActivePluginLoader
            (setCurrentlyLoadingLibraryName (registerPlugin st B class_name base₁) P₂) L₂)
          B class_name base₂) B).keys
        = (factoryMapOf (registerPlugin st B class_name base₁) B).keys := by
    rw [registerPlugin_factoryMapOf, if_pos rfl, hmid]
    exact StdMap.keys_assign_of_find _ _ _ _ h1
  refine ⟨?_, h1, ?_, ?_, hkeys, ?_⟩
  · apply StdMap.entries_at_key
    have := lookup_registerPlugin (setCurrentlyActivePluginLoader
      (setCurrentlyLoadingLibraryName (registerPlugin st B class_name base₁) P₂) L₂)
      B B class_name base₂ class_name
    rw [hnext] at this
    simpa [lookup] using this
  · rw [registerPlugin_metaObjects, hnext]
    simp
  · simp only [owners]
    rw [registerPlugin_metaObjects, hnext]
    simp
  · have := congrArg List.length hkeys
    simpa [StdMap.keys, StdMap.size] using this

/-! ## Listing -/

theorem getAvailableClassesLoop_eq (st : Registry) (L : PluginLoaderPtr)
    (l : List (ClassName × MetaObjectPtr)) (c n : List String) :
    getAvailableClassesLoop st L l c n =
      (c ++ (l.filter (fun e => isOwnedBy st e.2 L)).map Prod.fst,
        n ++ (l.filter (fun e => !isOwnedBy st e.2 L && isOwnedBy st e.2 none)).map Prod.fst) := by
  induction l generalizing c n with
  | nil => simp [getAvailableClassesLoop]
  | cons hd tl ih =>
    obtain ⟨name, f⟩ := hd
    simp only [getAvailableClassesLoop]
    split_ifs with h1 h2
    · rw [ih]; simp [List.filter_cons, h1]
    · rw [ih]; simp [List.filter_cons, h1, h2]
    · rw [ih]; simp [List.filter_cons, h1, h2]

/-- The vector `getAvailableClasses` returns. -/
theorem getAvailableClasses_eq (st : Registry) (B : BaseClassName) (L : PluginLoaderPtr) :
    (getAvailableClasses st B L).1 =
      ((factoryMapOf st B).entries.filter (fun e => isOwnedBy st e.2 L)).map Prod.fst ++
        ((factoryMapOf st B).entries.filter
          (fun e => !isOwnedBy st e.2 L && isOwnedBy st e.2 none)).map Prod.fst := by
  simp only [getAvailableClasses, getAvailableClassesLoop_eq,
    factoryMapOf_getFactoryMapForBaseClass, List.nil_append]
  simp [isOwnedBy]

theorem getAvailableClasses_snd (st : Registry) (B : BaseClassName) (L : PluginLoaderPtr) :
    (getAvailableClasses st B L).2 = getFactoryMapForBaseClass st B := by
  simp only [getAvailableClasses]

/-- Membership in the listing. -/
theorem mem_getAvailableClasses_iff (st : Registry) (B : BaseClassName) (L : PluginLoaderPtr)
    (n : ClassName) :
    n ∈ (getAvailableClasses st B L).1 ↔
      ∃ p, lookup st B n = some p ∧ (L ∈ owners st p ∨ none ∈ owners st p) := by
  rw [getAvailableClasses_eq]
  simp only [List.mem_append, List.mem_map, List.mem_filter, Bool.and_eq_true,
    Bool.not_eq_true', Prod.exists, exists_and_right, exists_eq_right, lookup,
    StdMap.mem_entries_iff]
  constructor
  · rintro (⟨p, hp, ho⟩ | ⟨p, hp, _, ho⟩)
    · exact ⟨p, hp, Or.inl ((isOwnedBy_iff st p L).mp ho)⟩
    · exact ⟨p, hp, Or.inr ((isOwnedBy_iff st p none).mp ho)⟩
  · rintro ⟨p, hp, ho⟩
    by_cases hL : isOwnedBy st p L = true
    · exact Or.inl ⟨p, hp, hL⟩
    · rcases ho with ho | ho
      · exact absurd ((isOwnedBy_iff st p L).mpr ho) hL
      · exact Or.inr ⟨p, hp, by simpa using hL, (isOwnedBy_iff st p none).mpr ho⟩

/-- C4, as stated, fails: in a registry where `Cat` is owned both by loader 1
and by null, `getAvailableClasses` lists `Cat` once, while the list of the
names owned by the loader followed by the names owned by null has it twice. -/
theorem getAvailableClasses_not_owned_then_null :
    (getAvailableClasses registryNullThenLoader "4Base" (some 1)).1 = ["Cat"] ∧
      listingOwnedThenOwnedByNull registryNullThenLoader "4Base" (some 1) = ["Cat", "Cat"] ∧
      (getAvailableClasses registryNullThenLoader "4Base" (some 1)).1 ≠
        listingOwnedThenOwnedByNull registryNullThenLoader "4Base" (some 1) := by
  decide

/-- C4, amended. `getAvailableClasses<Base>(L)` is the list of the derived
names in the inner map of the base whose meta-object is owned by `L`, followed
by the derived names whose meta-object is not owned by `L` but is owned by
null, each in key order; a name is in the result if and only if its
meta-object under the base is owned by `L` or by null, so no meta-object
registered only under another loader is listed. -/
theorem getAvailableClasses_owned_then_orphans (st : Registry) (B : BaseClassName)
    (L : PluginLoaderPtr) :
    (getAvailableClasses st B L).1 =
        ((factoryMapOf st B).entries.filter (fun e => isOwnedBy st e.2 L)).map Prod.fst ++
          ((factoryMapOf st B).entries.filter
            (fun e => !isOwnedBy st e.2 L && isOwnedBy st e.2 none)).map Prod.fst ∧
      (∀ n, n ∈ (getAvailableClasses st B L).1 ↔
        ∃ p, lookup st B n = some p ∧ (L ∈ owners st p ∨ none ∈ owners st p)) ∧
      (∀ n p, lookup st B n = some p → L ∉ owners st p → none ∉ owners st p →
        n ∉ (getAvailableClasses st B L).1) := by
  refine ⟨getAvailableClasses_eq st B L, mem_getAvailableClasses_iff st B L, ?_⟩
  intro n p hp h1 h2 hmem
  obtain ⟨q, hq, ho⟩ := (mem_getAvailableClasses_iff st B L n).mp hmem
  rw [hp] at hq
  cases hq
  exact ho.elim h1 h2

/-! ## Listing and creation -/

@[simp] theorem owners_getFactoryMapForBaseClass (st : Registry) (B : BaseClassName)
    (p : MetaObjectPtr) : owners (getFactoryMapForBaseClass st B) p = owners st p := by
  simp [owners]

/-- When `createInstance` returns, without a hypothesis on the registry. -/
theorem createInstance_returned_iff (st : Registry) (B : BaseClassName) (n : ClassName)
    (L : PluginLoaderPtr) :
    (∃ p st', createInstance st B n L = Outcome.returned p st') ↔
      ∃ p, lookup st B n = some p ∧ (st.metaObjects p).typeid_base_class_name = B ∧
        (L ∈ owners st p ∨ none ∈ owners st p) := by
  rw [createInstance_eq]
  cases hf : lookup st B n with
  | none => simp
  | some p =>
    by_cases ht : (st.metaObjects p).typeid_base_class_name = B
    · by_cases h1 : L ∈ owners st p
      · simp [ht, h1]
      · by_cases h2 : none ∈ owners st p
        · simp [ht, h1, h2]
        · simp [ht, h1, h2]
    · simp [ht]

/-- When `createInstance` returns in a well-typed registry. -/
theorem createInstance_returned_iff_of_wellTyped (st : Registry)
    (hwt : directoryWellTyped st = true) (B : BaseClassName) (n : ClassName)
    (L : PluginLoaderPtr) :
    (∃ p st', createInstance st B n L = Outcome.returned p st') ↔
      ∃ p, lookup st B n = some p ∧ (L ∈ owners st p ∨ none ∈ owners st p) := by
  rw [createInstance_returned_iff]
  constructor
  · rintro ⟨p, hp, _, ho⟩
    exact ⟨p, hp, ho⟩
  · rintro ⟨p, hp, ho⟩
    exact ⟨p, hp, typeid_of_lookup st hwt B n p hp, ho⟩

/-- C5. Listing and creation agree in a registry whose directory is well
typed: every name `getAvailableClasses<Base>(L)` returns can be created by
`createInstance<Base>(name, L)`, on the registry the listing was made on and on
the one the listing leaves, without raising; and if `createInstance` returns for
a name, the name is in the listing. -/
theorem getAvailableClasses_agrees_with_createInstance (st : Registry)
    (hwt : directoryWellTyped st = true) (B : BaseClassName) (L : PluginLoaderPtr) :
    (∀ n, n ∈ (getAvailableClasses st B L).1 →
        ∃ p st', createInstance st B n L = Outcome.returned p st') ∧
      (∀ n, n ∈ (getAvailableClasses st B L).1 →
        ∃ p st', createInstance (getAvailableClasses st B L).2 B n L = Outcome.returned p st') ∧
      (∀ n p st', createInstance st B n L = Outcome.returned p st' →
        n ∈ (getAvailableClasses st B L).1) := by
  refine ⟨?_, ?_, ?_⟩
  · intro n hn
    exact (createInstance_returned_iff_of_wellTyped st hwt B n L).mpr
      ((mem_getAvailableClasses_iff st B L n).mp hn)
  · intro n hn
    obtain ⟨p, hp, ho⟩ := (mem_getAvailableClasses_iff st B L n).mp hn
    rw [getAvailableClasses_snd, createInstance_returned_iff]
    refine ⟨p, ?_, ?_, ?_⟩
    · simpa using hp
    · simpa using typeid_of_lookup st hwt B n p hp
    · simpa using ho
  · intro n p st' h
    exact (mem_getAvailableClasses_iff st B L n).mpr
      ((createInstance_returned_iff_of_wellTyped st hwt B n L).mp ⟨p, st', h⟩)

/-! ## Base-identity discrimination -/

theorem owners_registerPlugin (st : Registry) (B : BaseClassName) (cn bn : String)
    (q : MetaObjectPtr) :
    owners (registerPlugin st B cn bn) q =
      if q = st.nextMetaObject then [st.currentlyActivePluginLoader] else owners st q := by
  simp only [owners, registerPlugin_metaObjects]
  split_ifs <;> rfl

theorem isOwnedBy_registerPlugin_of_ne (st : Registry) (B : BaseClassName) (cn bn : String)
    (q : MetaObjectPtr) (L : PluginLoaderPtr) (hq : q ≠ st.nextMetaObject) :
    isOwnedBy (registerPlugin st B cn bn) q L = isOwnedBy st q L := by
  simp only [isOwnedBy, registerPlugin_metaObjects, if_neg hq]

/-- C6. Base-identity discrimination, for distinct base identities `B` and
`B'`. A class registered under `B` is listed and creatable under `B` for its
owning loader. If no class of that name is registered under `B'`, it is not
listed by `getAvailableClasses` and not creatable by `createInstance` under
`B'`, for any loader. Registering under `B` leaves the listing for `B'`
unchanged (the address `new` returns being none of the addresses the inner map
of `B'` holds). -/
theorem base_identity_discrimination (st : Registry) (B B' : BaseClassName)
    (class_name base_class_name : String) (hne : B' ≠ B) :
    class_name ∈ (getAvailableClasses (registerPlugin st B class_name base_class_name) B
        st.currentlyActivePluginLoader).1 ∧
      (∃ st', createInstance (registerPlugin st B class_name base_class_name) B class_name
        st.currentlyActivePluginLoader = Outcome.returned st.nextMetaObject st') ∧
      (lookup st B' class_name = none → ∀ L',
        class_name ∉ (getAvailableClasses (registerPlugin st B class_name base_class_name)
          B' L').1 ∧
        ∃ st', createInstance (registerPlugin st B class_name base_class_name) B' class_name L'
          = Outcome.thrown PluginLoaderException.CreateClassException st') ∧
      (st.nextMetaObject ∉ allMetaObjectsOf (factoryMapOf st B') → ∀ L',
        (getAvailableClasses (registerPlugin st B class_name base_class_name) B' L').1
          = (getAvailableClasses st B' L').1) := by
  have hl : lookup (registerPlugin st B class_name base_class_name) B class_name
      = some st.nextMetaObject := by simp [lookup_registerPlugin]
  have hl' : lookup (registerPlugin st B class_name base_class_name) B' class_name
      = lookup st B' class_name := by simp [lookup_registerPlugin, hne]
  refine ⟨?_, ?_, ?_, ?_⟩
  · rw [mem_getAvailableClasses_iff]
    exact ⟨st.nextMetaObject, hl, Or.inl (by simp [owners_registerPlugin])⟩
  · rw [createInstance_eq, hl]
    simp [registerPlugin_metaObjects, owners_registerPlugin]
  · intro hnone L'
    constructor
    · rw [mem_getAvailableClasses_iff]
      rintro ⟨p, hp, _⟩
      rw [hl', hnone] at hp
      cases hp
    · rw [createInstance_eq, hl', hnone]
      exact ⟨_, rfl⟩
  · intro hfresh L'
    rw [getAvailableClasses_eq, getAvailableClasses_eq, registerPlugin_factoryMapOf, if_neg hne]
    have hcongr : ∀ (L : PluginLoaderPtr) (e : ClassName × MetaObjectPtr),
        e ∈ (factoryMapOf st B').entries →
        isOwnedBy (registerPlugin st B class_name base_class_name) e.2 L = isOwnedBy st e.2 L := by
      intro L e he
      apply isOwnedBy_registerPlugin_of_ne
      intro heq
      apply hfresh
      simp only [allMetaObjectsOf, List.mem_map]
      exact ⟨e, he, heq⟩
    congr 2
    · apply List.filter_congr
      intro e he
      rw [hcongr L' e he]
    · apply List.filter_congr
      intro e he
      rw [hcongr L' e he, hcongr none e he]

/-! ## Loading a library that is already open -/

theorem isLibraryLoadedByAnybody_iff (st : Registry) (P : LibraryPath) :
    isLibraryLoadedByAnybody st P = true ↔ P ∈ st.loadedLibraryVector.map Prod.fst := by
  simp only [isLibraryLoadedByAnybody, findLoadedLibrary, List.findIdx?_isSome,
    List.any_eq_true, decide_eq_true_eq, List.mem_map]

theorem isLibraryLoadedByAnybody_congr (st₁ st₂ : Registry)
    (h : st₁.loadedLibraryVector = st₂.loadedLibraryVector) (P : LibraryPath) :
    isLibraryLoadedByAnybody st₁ P = isLibraryLoadedByAnybody st₂ P := by
  simp only [isLibraryLoadedByAnybody, findLoadedLibrary, h]

theorem allMetaObjects_congr (st₁ st₂ : Registry) (h : st₁.factoryMapMap = st₂.factoryMapMap) :
    allMetaObjects st₁ = allMetaObjects st₂ := by
  simp only [allMetaObjects, h]

theorem allMetaObjectsForLibrary_congr (st₁ st₂ : Registry)
    (h : st₁.factoryMapMap = st₂.factoryMapMap) (hm : st₁.metaObjects = st₂.metaObjects)
    (P : LibraryPath) : allMetaObjectsForLibrary st₁ P = allMetaObjectsForLibrary st₂ P := by
  simp only [allMetaObjectsForLibrary, filterAllMetaObjectsAssociatedWithLibrary,
    getAssociatedLibraryPath, allMetaObjects, h, hm]

/-- The owner-tagging loop with a non-null loader: it ends, and adds to each
meta-object one occurrence of the loader per occurrence in the vector. -/
theorem addPluginLoaderOwnerLoop_some (l : Nat) (ps : MetaObjectVector) (st : Registry) :
    ∃ st', addPluginLoaderOwnerLoop (some l) ps st = some st' ∧
      st'.factoryMapMap = st.factoryMapMap ∧ st'.graveyard = st.graveyard ∧
      st'.loadedLibraryVector = st.loadedLibraryVector ∧
      st'.currentlyLoadingLibraryName = st.currentlyLoadingLibraryName ∧
      st'.currentlyActivePluginLoader = st.currentlyActivePluginLoader ∧
      st'.hasANonPurePluginLibraryBeenOpened = st.hasANonPurePluginLibraryBeenOpened ∧
      st'.nextMetaObject = st.nextMetaObject ∧
      st'.deletedMetaObjects = st.deletedMetaObjects ∧
      st'.sharedLibraries = st.sharedLibraries ∧
      st'.nextSharedLibrary = st.nextSharedLibrary ∧
      st'.deletedSharedLibraries = st.deletedSharedLibraries ∧
      st'.logged = st.logged ++ List.replicate ps.length LogLevel.CONSOLE_LOG_DEBUG ∧
      ∀ q, st'.metaObjects q =
        { st.metaObjects q with
          associated_plugin_loaders :=
            (st.metaObjects q).associated_plugin_loaders ++ List.replicate (ps.count q) (some l) } := by
  induction ps generalizing st with
  | nil => exact ⟨st, rfl, by simp⟩
  | cons p ps ih =>
    obtain ⟨st', h, h1, h2, h3, h4, h5, h6, h7, h8, h9, h10, h11, h12, h13⟩ :=
      ih (addOwningPluginLoader st.logDebug p (some l))
    refine ⟨st', by simpa [addPluginLoaderOwnerLoop] using h, ?_⟩
    simp only [addOwningPluginLoader_factoryMapMap, addOwningPluginLoader_graveyard,
      addOwningPluginLoader_loadedLibraryVector, addOwningPluginLoader_currentlyLoadingLibraryName,
      addOwningPluginLoader_currentlyActivePluginLoader,
      addOwningPluginLoader_hasANonPurePluginLibraryBeenOpened,
      addOwningPluginLoader_nextMetaObject, addOwningPluginLoader_deletedMetaObjects,
      addOwningPluginLoader_sharedLibraries, addOwningPluginLoader_nextSharedLibrary,
      addOwningPluginLoader_deletedSharedLibraries, addOwningPluginLoader_logged,
      logDebug_eq, log_factoryMapMap, log_graveyard, log_loadedLibraryVector,
      log_currentlyLoadingLibraryName, log_currentlyActivePluginLoader,
      log_hasANonPurePluginLibraryBeenOpened, log_nextMetaObject, log_deletedMetaObjects,
      log_sharedLibraries, log_nextSharedLibrary, log_deletedSharedLibraries, log_logged,
      addOwningPluginLoader_get, log_metaObjects] at h1 h2 h3 h4 h5 h6 h7 h8 h9 h10 h11 h12 h13
    refine ⟨h1, h2, h3, h4, h5, h6, h7, h8, h9, h10, h11, ?_, ?_⟩
    · rw [h12]
      simp [List.replicate_succ]
    · intro q
      rw [h13 q]
      by_cases hq : q = p
      · subst hq
        simp [List.count_cons_self, List.replicate_succ]
      · have hq' : (p == q) = false := by simpa using Ne.symm hq
        simp [List.count_cons, hq, hq']

/-- The owner-tagging loop with a null loader and a non-empty vector: the null
loader is dereferenced. -/
theorem addPluginLoaderOwnerLoop_none (ps : MetaObjectVector) (st : Registry) (h : ps ≠ []) :
    addPluginLoaderOwnerLoop none ps st = none := by
  cases ps with
  | nil => exact absurd rfl h
  | cons p ps => rfl

/-- C7. When the loaded-library table already contains path `P`,
`loadLibrary(P, L)` for a loader `L` (not null) returns whatever the OS would
do on an open (no open takes place) and only does owner bookkeeping: with every
meta-object of `P` held once by the directory, exactly one occurrence of `L` is
added to the owner set of each of them and nothing else of them changes; the
loaded-library table, the graveyard, the directory, the ambients, the
`SharedLibrary` objects and every meta-object that is not a directory
meta-object of `P` are unchanged. -/
theorem loadLibrary_already_open (st : Registry) (P : LibraryPath) (L : PluginLoaderPtr)
    (hL : L ≠ none) (hP : P ∈ st.loadedLibraryVector.map Prod.fst)
    (hnodup : (allMetaObjectsForLibrary st P).Nodup) :
    ∃ st', (∀ os, loadLibrary st P L os = Outcome.returned () st') ∧
      st'.loadedLibraryVector = st.loadedLibraryVector ∧
      st'.graveyard = st.graveyard ∧
      st'.factoryMapMap = st.factoryMapMap ∧
      st'.currentlyLoadingLibraryName = st.currentlyLoadingLibraryName ∧
      st'.currentlyActivePluginLoader = st.currentlyActivePluginLoader ∧
      st'.sharedLibraries = st.sharedLibraries ∧
      st'.nextSharedLibrary = st.nextSharedLibrary ∧
      st'.nextMetaObject = st.nextMetaObject ∧
      (∀ q, q ∈ allMetaObjectsForLibrary st P →
        st'.metaObjects q =
          { st.metaObjects q with
            associated_plugin_loaders := (st.metaObjects q).associated_plugin_loaders ++ [L] }) ∧
      (∀ q, q ∉ allMetaObjectsForLibrary st P → st'.metaObjects q = st.metaObjects q) := by
  obtain ⟨l, rfl⟩ := Option.ne_none_iff_exists'.mp hL
  have hopen : isLibraryLoadedByAnybody st.logDebug P = true := by
    rw [isLibraryLoadedByAnybody_congr st.logDebug st rfl]
    exact (isLibraryLoadedByAnybody_iff st P).mpr hP
  obtain ⟨st', h, h1, h2, h3, h4, h5, _, h7, _, h9, h10, _, _, h13⟩ :=
    addPluginLoaderOwnerLoop_some l (allMetaObjectsForLibrary st.logDebug.logDebug P)
      st.logDebug.logDebug
  have hall : allMetaObjectsForLibrary st.logDebug.logDebug P = allMetaObjectsForLibrary st P :=
    allMetaObjectsForLibrary_congr _ _ rfl rfl P
  rw [hall] at h h13
  refine ⟨st', ?_, h3, h2, h1, h4, h5, h9, h10, h7, ?_, ?_⟩
  · intro os
    simp only [loadLibrary, hopen, if_true,
      addPluginLoaderOwnerForAllExistingMetaObjectsForLibrary, hall, h]
  · intro q hq
    rw [h13 q, List.count_eq_one_of_mem hnodup hq]
    rfl
  · intro q hq
    rw [h13 q, List.count_eq_zero_of_not_mem hq]
    simp

/-- With a null loader and a directory meta-object of `P`, loading the
already-open `P` dereferences the null loader. -/
theorem loadLibrary_already_open_null (st : Registry) (P : LibraryPath) (os : LoadLibraryA)
    (hP : P ∈ st.loadedLibraryVector.map Prod.fst) (hmo : allMetaObjectsForLibrary st P ≠ []) :
    loadLibrary st P none os = Outcome.nullDereference := by
  have hopen : isLibraryLoadedByAnybody st.logDebug P = true := by
    rw [isLibraryLoadedByAnybody_congr st.logDebug st rfl]
    exact (isLibraryLoadedByAnybody_iff st P).mpr hP
  have hall : allMetaObjectsForLibrary st.logDebug.logDebug P = allMetaObjectsForLibrary st P :=
    allMetaObjectsForLibrary_congr _ _ rfl rfl P
  simp only [loadLibrary, hopen, if_true,
    addPluginLoaderOwnerForAllExistingMetaObjectsForLibrary, hall,
    addPluginLoaderOwnerLoop_none _ _ hmo]

/-! ## Loading: the open fails -/

theorem isLibraryLoadedByAnybody_eq_false (st : Registry) (P : LibraryPath)
    (hP : P ∉ st.loadedLibraryVector.map Prod.fst) : isLibraryLoadedByAnybody st P = false := by
  cases h : isLibraryLoadedByAnybody st P with
  | false => rfl
  | true => exact absurd ((isLibraryLoadedByAnybody_iff st P).mp h) hP

/-- C8. Load is atomic on failure: when `P` is not in the loaded-library
table and the shared-library open of `P` fails, `loadLibrary(P, L)` raises
`LibraryLoadException`, both ambients are cleared (currently-loading library
the empty string, currently-active loader null), and the directory, the
graveyard, the loaded-library table and the meta-objects are exactly as before
the call. -/
theorem loadLibrary_open_fails (st : Registry) (P : LibraryPath) (L : PluginLoaderPtr)
    (hP : P ∉ st.loadedLibraryVector.map Prod.fst) :
    ∃ st', loadLibrary st P L LoadLibraryA.failed
        = Outcome.thrown PluginLoaderException.LibraryLoadException st' ∧
      st'.currentlyLoadingLibraryName = "" ∧
      st'.currentlyActivePluginLoader = none ∧
      st'.factoryMapMap = st.factoryMapMap ∧
      st'.graveyard = st.graveyard ∧
      st'.loadedLibraryVector = st.loadedLibraryVector ∧
      st'.metaObjects = st.metaObjects ∧
      st'.deletedMetaObjects = st.deletedMetaObjects ∧
      st'.sharedLibraries = st.sharedLibraries ∧
      st'.hasANonPurePluginLibraryBeenOpened = st.hasANonPurePluginLibraryBeenOpened := by
  have hclosed : isLibraryLoadedByAnybody st.logDebug P = false := by
    rw [isLibraryLoadedByAnybody_congr st.logDebug st rfl]
    exact isLibraryLoadedByAnybody_eq_false st P hP
  refine ⟨setCurrentlyActivePluginLoader
    (setCurrentlyLoadingLibraryName
      (setCurrentlyLoadingLibraryName (setCurrentlyActivePluginLoader st.logDebug L) P) "")
    none, ?_, ?_⟩
  · simp only [loadLibrary, hclosed, afterOpen, newSharedLibrary]
    rfl
  · simp

/-! ## The static initialisers of a library -/

theorem mem_allMetaObjects_of_lookup (st : Registry) (B : BaseClassName) (n : ClassName)
    (p : MetaObjectPtr) (h : lookup st B n = some p) : p ∈ allMetaObjects st := by
  obtain ⟨fm, h1, h2⟩ := lookup_mem st B n p h
  simp only [allMetaObjects, allMetaObjectsOf, List.mem_flatten, List.mem_map]
  exact ⟨fm.entries.map Prod.snd, ⟨(B, fm), h1, rfl⟩, List.mem_map.mpr ⟨(n, p), h2, rfl⟩⟩

theorem mem_allMetaObjectsForLibrary_iff (st : Registry) (P : LibraryPath) (p : MetaObjectPtr) :
    p ∈ allMetaObjectsForLibrary st P ↔
      p ∈ allMetaObjects st ∧ (st.metaObjects p).associated_library_path = P := by
  simp [allMetaObjectsForLibrary, filterAllMetaObjectsAssociatedWithLibrary,
    getAssociatedLibraryPath]

/-- What the static initialisers leave alone, and where they put their
meta-objects. -/
theorem runInitialisers_frame (regs : List Registration) (st : Registry) :
    (runInitialisers regs st).graveyard = st.graveyard ∧
      (runInitialisers regs st).loadedLibraryVector = st.loadedLibraryVector ∧
      (runInitialisers regs st).currentlyLoadingLibraryName = st.currentlyLoadingLibraryName ∧
      (runInitialisers regs st).currentlyActivePluginLoader = st.currentlyActivePluginLoader ∧
      (runInitialisers regs st).deletedMetaObjects = st.deletedMetaObjects ∧
      (runInitialisers regs st).sharedLibraries = st.sharedLibraries ∧
      (runInitialisers regs st).nextSharedLibrary = st.nextSharedLibrary ∧
      (runInitialisers regs st).deletedSharedLibraries = st.deletedSharedLibraries ∧
      (runInitialisers regs st).nextMetaObject = st.nextMetaObject + regs.length := by
  induction regs generalizing st with
  | nil => simp [runInitialisers]
  | cons r rest ih =>
    obtain ⟨h1, h2, h3, h4, h5, h6, h7, h8, h9⟩ :=
      ih (registerPlugin st r.Base r.class_name r.base_class_name)
    simp only [runInitialisers]
    rw [h1, h2, h3, h4, h5, h6, h7, h8, h9, registerPlugin_graveyard,
      registerPlugin_loadedLibraryVector, registerPlugin_currentlyLoadingLibraryName,
      registerPlugin_currentlyActivePluginLoader, registerPlugin_deletedMetaObjects,
      registerPlugin_sharedLibraries, registerPlugin_nextSharedLibrary,
      registerPlugin_deletedSharedLibraries, registerPlugin_nextMetaObject]
    simp only [List.length_cons, true_and]
    omega

/-- The meta-objects after the static initialisers: the old ones are untouched,
the new ones carry the ambients. -/
theorem runInitialisers_metaObjects (regs : List Registration) (st : Registry) :
    (∀ q : Nat, q < st.nextMetaObject →
        (runInitialisers regs st).metaObjects q = st.metaObjects q) ∧
      (∀ q : Nat, st.nextMetaObject ≤ q → q < st.nextMetaObject + regs.length →
        ((runInitialisers regs st).metaObjects q).associated_library_path
            = st.currentlyLoadingLibraryName ∧
          ((runInitialisers regs st).metaObjects q).associated_plugin_loaders
            = [st.currentlyActivePluginLoader]) := by
  induction regs generalizing st with
  | nil =>
    simp only [runInitialisers, List.length_nil, Nat.add_zero]
    exact ⟨fun _ _ => trivial, fun q h1 h2 => absurd h2 (Nat.not_lt.mpr h1)⟩
  | cons r rest ih =>
    obtain ⟨h1, h2⟩ := ih (registerPlugin st r.Base r.class_name r.base_class_name)
    rw [registerPlugin_nextMetaObject, registerPlugin_currentlyLoadingLibraryName,
      registerPlugin_currentlyActivePluginLoader] at h2
    rw [registerPlugin_nextMetaObject] at h1
    simp only [runInitialisers, List.length_cons]
    constructor
    · intro q hq
      rw [h1 q (by omega), registerPlugin_metaObjects, if_neg (Nat.ne_of_lt hq)]
    · intro q hq1 hq2
      by_cases hq : q = st.nextMetaObject
      · rw [h1 q (by omega), registerPlugin_metaObjects, if_pos hq]
        exact ⟨rfl, rfl⟩
      · exact h2 q (by omega) (by omega)

/-- A library that registers at least one class leaves a directory meta-object
carrying the currently-loading library path. -/
theorem runInitialisers_registers (regs : List Registration) (st : Registry) (h : regs ≠ []) :
    ∃ p, p ∈ allMetaObjects (runInitialisers regs st) ∧
      ((runInitialisers regs st).metaObjects p).associated_library_path
        = st.currentlyLoadingLibraryName := by
  induction regs generalizing st with
  | nil => exact absurd rfl h
  | cons r rest ih =>
    simp only [runInitialisers]
    by_cases hrest : rest = []
    · subst hrest
      simp only [runInitialisers]
      refine ⟨st.nextMetaObject, mem_allMetaObjects_of_lookup _ r.Base r.class_name _ ?_, ?_⟩
      · simp [lookup_registerPlugin]
      · simp [registerPlugin_metaObjects]
    · obtain ⟨p, hp1, hp2⟩ := ih (registerPlugin st r.Base r.class_name r.base_class_name) hrest
      rw [registerPlugin_currentlyLoadingLibraryName] at hp2
      exact ⟨p, hp1, hp2⟩

/-! ## Purging the graveyard -/

/-- What a completed purge loop returns. -/
theorem purgeLoop_spec (P : LibraryPath) (L : PluginLoaderPtr) (d : Bool)
    (all : MetaObjectVector) (gs : MetaObjectVector) (st : Registry)
    (r : MetaObjectVector × Registry) (h : purgeLoop P L d all gs st = some r) :
    r.1 = gs.filter (fun g => !decide ((st.metaObjects g).associated_library_path = P)) ∧
      r.2.metaObjects = st.metaObjects ∧
      r.2.factoryMapMap = st.factoryMapMap ∧
      r.2.graveyard = st.graveyard ∧
      r.2.loadedLibraryVector = st.loadedLibraryVector ∧
      r.2.currentlyLoadingLibraryName = st.currentlyLoadingLibraryName ∧
      r.2.currentlyActivePluginLoader = st.currentlyActivePluginLoader ∧
      r.2.hasANonPurePluginLibraryBeenOpened = st.hasANonPurePluginLibraryBeenOpened ∧
      r.2.nextMetaObject = st.nextMetaObject ∧
      r.2.sharedLibraries = st.sharedLibraries ∧
      r.2.nextSharedLibrary = st.nextSharedLibrary ∧
      r.2.deletedSharedLibraries = st.deletedSharedLibraries ∧
      r.2.deletedMetaObjects = st.deletedMetaObjects ++
        (if d then
          gs.filter (fun g =>
            decide ((st.metaObjects g).associated_library_path = P) && !decide (g ∈ all))
        else []) := by
  induction gs generalizing st r with
  | nil =>
    simp only [purgeLoop, Option.some.injEq] at h
    subst h
    simp
  | cons g rest ih =>
    simp only [purgeLoop, getAssociatedLibraryPath] at h
    by_cases hp : (st.metaObjects g).associated_library_path = P
    · simp only [hp, if_true] at h
      cases L with
      | none => simp at h
      | some l =>
        simp only at h
        obtain ⟨h0, h1, h2, h3, h4, h5, h6, h7, h8, h9, h10, h11, h12⟩ := ih _ r h
        cases d with
        | false =>
          simp only [Bool.false_eq_true, if_false, logDebug_eq, log_metaObjects,
            log_factoryMapMap, log_graveyard, log_loadedLibraryVector,
            log_currentlyLoadingLibraryName, log_currentlyActivePluginLoader,
            log_hasANonPurePluginLibraryBeenOpened, log_nextMetaObject, log_sharedLibraries,
            log_nextSharedLibrary, log_deletedSharedLibraries, log_deletedMetaObjects,
            List.append_nil]
            at h0 h1 h2 h3 h4 h5 h6 h7 h8 h9 h10 h11 h12
          refine ⟨?_, h1, h2, h3, h4, h5, h6, h7, h8, h9, h10, h11, ?_⟩
          · rw [h0]; simp [List.filter_cons, hp]
          · rw [h12]; simp
        | true =>
          by_cases hm : g ∈ all
          · simp only [if_true, hm, decide_True, logDebug_eq, log_metaObjects,
              log_factoryMapMap, log_graveyard, log_loadedLibraryVector,
              log_currentlyLoadingLibraryName, log_currentlyActivePluginLoader,
              log_hasANonPurePluginLibraryBeenOpened, log_nextMetaObject, log_sharedLibraries,
              log_nextSharedLibrary, log_deletedSharedLibraries, log_deletedMetaObjects]
              at h0 h1 h2 h3 h4 h5 h6 h7 h8 h9 h10 h11 h12
            refine ⟨?_, h1, h2, h3, h4, h5, h6, h7, h8, h9, h10, h11, ?_⟩
            · rw [h0]; simp [List.filter_cons, hp]
            · rw [h12]; simp [List.filter_cons, hp, hm]
          · simp only [if_true, hm, decide_False, Bool.false_eq_true, if_false, logDebug_eq,
              log_metaObjects, deleteMetaObject_metaObjects,
              deleteMetaObject_factoryMapMap, deleteMetaObject_graveyard,
              deleteMetaObject_loadedLibraryVector, deleteMetaObject_currentlyLoadingLibraryName,
              deleteMetaObject_currentlyActivePluginLoader,
              deleteMetaObject_hasANonPurePluginLibraryBeenOpened,
              deleteMetaObject_nextMetaObject, deleteMetaObject_sharedLibraries,
              deleteMetaObject_nextSharedLibrary, deleteMetaObject_deletedSharedLibraries,
              deleteMetaObject_deleted,
              log_factoryMapMap, log_graveyard, log_loadedLibraryVector,
              log_currentlyLoadingLibraryName, log_currentlyActivePluginLoader,
              log_hasANonPurePluginLibraryBeenOpened, log_nextMetaObject, log_sharedLibraries,
              log_nextSharedLibrary, log_deletedSharedLibraries, log_deletedMetaObjects]
              at h0 h1 h2 h3 h4 h5 h6 h7 h8 h9 h10 h11 h12
            refine ⟨?_, h1, h2, h3, h4, h5, h6, h7, h8, h9, h10, h11, ?_⟩
            · rw [h0]; simp [List.filter_cons, hp]
            · rw [h12]; simp [List.filter_cons, hp, hm]
    · simp only [hp, if_false, Option.map_eq_some'] at h
      obtain ⟨r', hr', hr⟩ := h
      obtain ⟨h0, h1, h2, h3, h4, h5, h6, h7, h8, h9, h10, h11, h12⟩ := ih st r' hr'
      subst hr
      refine ⟨?_, h1, h2, h3, h4, h5, h6, h7, h8, h9, h10, h11, ?_⟩
      · simp [List.filter_cons, hp, h0]
      · simp only [h12]
        cases d <;> simp [List.filter_cons, hp]

/-- With a non-null loader the purge loop completes. -/
theorem purgeLoop_some (P : LibraryPath) (l : Nat) (d : Bool) (all : MetaObjectVector)
    (gs : MetaObjectVector) (st : Registry) :
    ∃ r, purgeLoop P (some l) d all gs st = some r := by
  induction gs generalizing st with
  | nil => exact ⟨_, rfl⟩
  | cons g rest ih =>
    simp only [purgeLoop]
    by_cases hp : getAssociatedLibraryPath st g = P
    · rw [if_pos hp]
      exact ih _
    · rw [if_neg hp]
      obtain ⟨r, hr⟩ := ih st
      exact ⟨_, by rw [hr]; rfl⟩

/-- With no graveyard entry of the path, the purge loop completes, whatever
the loader. -/
theorem purgeLoop_some_of_no_entry (P : LibraryPath) (L : PluginLoaderPtr) (d : Bool)
    (all : MetaObjectVector) (gs : MetaObjectVector) (st : Registry)
    (hgs : ∀ g ∈ gs, (st.metaObjects g).associated_library_path ≠ P) :
    ∃ r, purgeLoop P L d all gs st = some r := by
  induction gs with
  | nil => exact ⟨_, rfl⟩
  | cons g rest ih =>
    simp only [purgeLoop, getAssociatedLibraryPath]
    rw [if_neg (hgs g (List.mem_cons_self _ _))]
    obtain ⟨r, hr⟩ := ih (fun g' hg' => hgs g' (List.mem_cons_of_mem _ hg'))
    exact ⟨_, by rw [hr]; rfl⟩

/-- What a completed `purgeGraveyardOfMetaobjects` leaves. -/
theorem purgeGraveyardOfMetaobjects_spec (st st' : Registry) (P : LibraryPath)
    (L : PluginLoaderPtr) (d : Bool)
    (h : purgeGraveyardOfMetaobjects st P L d = some st') :
    st'.graveyard
        = st.graveyard.filter (fun g => !decide ((st.metaObjects g).associated_library_path = P)) ∧
      st'.metaObjects = st.metaObjects ∧
      st'.factoryMapMap = st.factoryMapMap ∧
      st'.loadedLibraryVector = st.loadedLibraryVector ∧
      st'.currentlyLoadingLibraryName = st.currentlyLoadingLibraryName ∧
      st'.currentlyActivePluginLoader = st.currentlyActivePluginLoader ∧
      st'.hasANonPurePluginLibraryBeenOpened = st.hasANonPurePluginLibraryBeenOpened ∧
      st'.nextMetaObject = st.nextMetaObject ∧
      st'.sharedLibraries = st.sharedLibraries ∧
      st'.nextSharedLibrary = st.nextSharedLibrary ∧
      st'.deletedSharedLibraries = st.deletedSharedLibraries ∧
      st'.deletedMetaObjects = st.deletedMetaObjects ++
        (if d then
          st.graveyard.filter (fun g =>
            decide ((st.metaObjects g).associated_library_path = P) &&
              !decide (g ∈ allMetaObjects st))
        else []) := by
  simp only [purgeGraveyardOfMetaobjects, Option.map_eq_some'] at h
  obtain ⟨r, hr, hst⟩ := h
  obtain ⟨h0, h1, h2, h3, h4, h5, h6, h7, h8, h9, h10, h11, h12⟩ :=
    purgeLoop_spec P L d (allMetaObjects st) st.graveyard st r hr
  subst hst
  exact ⟨h0, h1, h2, h4, h5, h6, h7, h8, h9, h10, h11, h12⟩

/-- With a non-null loader `purgeGraveyardOfMetaobjects` completes. -/
theorem purgeGraveyardOfMetaobjects_some (st : Registry) (P : LibraryPath) (l : Nat)
    (d : Bool) : ∃ st', purgeGraveyardOfMetaobjects st P (some l) d = some st' := by
  obtain ⟨r, hr⟩ := purgeLoop_some P l d (allMetaObjects st) st.graveyard st
  exact ⟨_, by simp only [purgeGraveyardOfMetaobjects, hr]; rfl⟩

/-! ## Reviving meta-objects from the graveyard -/

theorem lookup_assignFactory (st : Registry) (B B₂ : BaseClassName) (n n₂ : ClassName)
    (p : MetaObjectPtr) :
    lookup (assignFactory st B n p) B₂ n₂ =
      if B₂ = B ∧ n₂ = n then some p else lookup st B₂ n₂ := by
  simp only [lookup, factoryMapOf_assignFactory]
  by_cases hB : B₂ = B
  · subst hB
    simp only [if_true, true_and, StdMap.find_assign]
  · simp [hB]

theorem lookup_congr (st₁ st₂ : Registry) (h : st₁.factoryMapMap = st₂.factoryMapMap)
    (B : BaseClassName) (n : ClassName) : lookup st₁ B n = lookup st₂ B n := by
  simp only [lookup, factoryMapOf, h]

theorem reviveLoop_cons_of_path (P : LibraryPath) (l : Nat) (g : MetaObjectPtr)
    (rest : MetaObjectVector) (st : Registry)
    (hp : (st.metaObjects g).associated_library_path = P) :
    reviveLoop P (some l) (g :: rest) st = reviveLoop P (some l) rest (reviveRound st g l) := by
  simp [reviveLoop, getAssociatedLibraryPath, hp, reviveRound]

theorem reviveLoop_cons_of_not_path (P : LibraryPath) (L : PluginLoaderPtr) (g : MetaObjectPtr)
    (rest : MetaObjectVector) (st : Registry)
    (hp : (st.metaObjects g).associated_library_path ≠ P) :
    reviveLoop P L (g :: rest) st = reviveLoop P L rest st := by
  simp [reviveLoop, getAssociatedLibraryPath, hp]

theorem reviveRound_metaObjects (st : Registry) (g : MetaObjectPtr) (l : Nat)
    (q : MetaObjectPtr) :
    (reviveRound st g l).metaObjects q =
      if q = g then
        { st.metaObjects g with
          associated_plugin_loaders := (st.metaObjects g).associated_plugin_loaders ++ [some l] }
      else st.metaObjects q := by
  simp [reviveRound]

theorem reviveRound_lookup (st : Registry) (g : MetaObjectPtr) (l : Nat) (B : BaseClassName)
    (n : ClassName) :
    lookup (reviveRound st g l) B n =
      if B = (st.metaObjects g).typeid_base_class_name ∧ n = (st.metaObjects g).class_name
      then some g else lookup st B n := by
  simp only [reviveRound, lookup_assignFactory, lookup_getFactoryMapForBaseClass]
  rw [lookup_congr (addOwningPluginLoader st.logDebug g (some l)) st rfl]


theorem revivedAt_reviveRound (st : Registry) (g : MetaObjectPtr) (l : Nat) (P : LibraryPath)
    (B : BaseClassName) (n : ClassName) :
    revivedAt (reviveRound st g l) P B n = revivedAt st P B n := by
  funext q
  simp only [revivedAt, reviveRound_metaObjects]
  split_ifs with h
  · subst h; rfl
  · rfl

/-- The revive loop with a non-null loader: it ends; each graveyard entry of
the path gets one occurrence of the loader per occurrence in the graveyard,
and each key holds the last entry of the path stored at it. -/
theorem reviveLoop_some (P : LibraryPath) (l : Nat) (gs : MetaObjectVector) (st : Registry) :
    ∃ st', reviveLoop P (some l) gs st = some st' ∧
      st'.graveyard = st.graveyard ∧
      st'.loadedLibraryVector = st.loadedLibraryVector ∧
      st'.currentlyLoadingLibraryName = st.currentlyLoadingLibraryName ∧
      st'.currentlyActivePluginLoader = st.currentlyActivePluginLoader ∧
      st'.hasANonPurePluginLibraryBeenOpened = st.hasANonPurePluginLibraryBeenOpened ∧
      st'.nextMetaObject = st.nextMetaObject ∧
      st'.deletedMetaObjects = st.deletedMetaObjects ∧
      st'.sharedLibraries = st.sharedLibraries ∧
      st'.nextSharedLibrary = st.nextSharedLibrary ∧
      st'.deletedSharedLibraries = st.deletedSharedLibraries ∧
      (∀ q, st'.metaObjects q =
        { st.metaObjects q with
          associated_plugin_loaders :=
            (st.metaObjects q).associated_plugin_loaders ++
              List.replicate
                ((gs.filter (fun g =>
                  decide ((st.metaObjects g).associated_library_path = P))).count q)
                (some l) }) ∧
      (∀ B n, lookup st' B n = (gs.reverse.find? (revivedAt st P B n)).or (lookup st B n)) := by
  induction gs generalizing st with
  | nil =>
    refine ⟨st, rfl, rfl, rfl, rfl, rfl, rfl, rfl, rfl, rfl, rfl, rfl, ?_, ?_⟩
    · intro q; simp
    · intro B n; simp
  | cons g rest ih =>
    by_cases hp : (st.metaObjects g).associated_library_path = P
    · obtain ⟨st', h, h1, h2, h3, h4, h5, h6, h7, h8, h9, h10, h11, h12⟩ :=
        ih (reviveRound st g l)
      refine ⟨st', by rw [reviveLoop_cons_of_path P l g rest st hp]; exact h,
        by rw [h1]; simp [reviveRound], by rw [h2]; simp [reviveRound],
        by rw [h3]; simp [reviveRound], by rw [h4]; simp [reviveRound],
        by rw [h5]; simp [reviveRound], by rw [h6]; simp [reviveRound],
        by rw [h7]; simp [reviveRound], by rw [h8]; simp [reviveRound],
        by rw [h9]; simp [reviveRound], by rw [h10]; simp [reviveRound], ?_, ?_⟩
      · intro q
        have hfilter : (rest.filter (fun g' =>
              decide (((reviveRound st g l).metaObjects g').associated_library_path = P)))
            = rest.filter (fun g' => decide ((st.metaObjects g').associated_library_path = P)) := by
          apply List.filter_congr
          intro x _
          rw [reviveRound_metaObjects]
          split_ifs with hx
          · subst hx; rfl
          · rfl
        rw [h11 q, hfilter, reviveRound_metaObjects]
        by_cases hq : q = g
        · subst hq
          simp [List.filter_cons, hp, List.replicate_succ]
        · have hq' : (g == q) = false := by simpa using Ne.symm hq
          simp [List.filter_cons, hp, List.count_cons, hq, hq']
      · intro B n
        rw [h12 B n, revivedAt_reviveRound, reviveRound_lookup]
        simp only [List.reverse_cons, List.find?_append, List.find?_singleton, Option.or_assoc]
        congr 1
        by_cases hk : B = (st.metaObjects g).typeid_base_class_name ∧
            n = (st.metaObjects g).class_name
        · obtain ⟨hB, hn⟩ := hk
          simp [revivedAt, hp, hB, hn]
        · rw [if_neg hk]
          have : revivedAt st P B n g = false := by
            simp only [revivedAt, hp, decide_True, Bool.true_and, Bool.and_eq_false_imp,
              decide_eq_true_eq, decide_eq_false_iff_not]
            intro hB hn
            exact hk ⟨hB.symm, hn.symm⟩
          simp [this]
    · obtain ⟨st', h, h1, h2, h3, h4, h5, h6, h7, h8, h9, h10, h11, h12⟩ := ih st
      refine ⟨st', by rw [reviveLoop_cons_of_not_path P _ g rest st hp]; exact h,
        h1, h2, h3, h4, h5, h6, h7, h8, h9, h10, ?_, ?_⟩
      · intro q
        rw [h11 q]
        simp [List.filter_cons, hp]
      · intro B n
        rw [h12 B n]
        have : revivedAt st P B n g = false := by
          simp [revivedAt, hp]
        simp [List.find?_append, this]

/-! ## Loading: the open succeeds -/

/-- The registry after a successful open. -/
theorem afterOpen_loaded (st : Registry) (P : LibraryPath) (L : PluginLoaderPtr) (hm : Nat)
    (regs : List Registration) :
    ∃ X, afterOpen st P L (LoadLibraryA.loaded hm regs)
        = Outcome.returned st.nextSharedLibrary X ∧
      X.graveyard = st.graveyard ∧
      X.loadedLibraryVector = st.loadedLibraryVector ∧
      X.currentlyLoadingLibraryName = "" ∧
      X.currentlyActivePluginLoader = none ∧
      X.nextMetaObject = st.nextMetaObject + regs.length ∧
      X.deletedMetaObjects = st.deletedMetaObjects ∧
      X.sharedLibraries st.nextSharedLibrary = ⟨some hm, P⟩ ∧
      (∀ q : Nat, q < st.nextMetaObject → X.metaObjects q = st.metaObjects q) ∧
      (∀ q : Nat, st.nextMetaObject ≤ q → q < st.nextMetaObject + regs.length →
        (X.metaObjects q).associated_library_path = P ∧
          (X.metaObjects q).associated_plugin_loaders = [L]) ∧
      (regs ≠ [] → allMetaObjectsForLibrary X P ≠ []) ∧
      (regs = [] → X.metaObjects = st.metaObjects ∧ X.factoryMapMap = st.factoryMapMap) := by
  obtain ⟨f1, f2, f3, f4, f5, f6, f7, f8, f9⟩ := runInitialisers_frame regs
    (setCurrentlyLoadingLibraryName (setCurrentlyActivePluginLoader st L) P)
  obtain ⟨m1, m2⟩ := runInitialisers_metaObjects regs
    (setCurrentlyLoadingLibraryName (setCurrentlyActivePluginLoader st L) P)
  have hreg := runInitialisers_registers regs
    (setCurrentlyLoadingLibraryName (setCurrentlyActivePluginLoader st L) P)
  have hnil : regs = [] → runInitialisers regs
      (setCurrentlyLoadingLibraryName (setCurrentlyActivePluginLoader st L) P)
      = setCurrentlyLoadingLibraryName (setCurrentlyActivePluginLoader st L) P := by
    intro h; subst h; rfl
  have hX : afterOpen st P L (LoadLibraryA.loaded hm regs) = Outcome.returned
      (runInitialisers regs
        (setCurrentlyLoadingLibraryName (setCurrentlyActivePluginLoader st L) P)).nextSharedLibrary
      (setCurrentlyActivePluginLoader
        (setCurrentlyLoadingLibraryName
          { runInitialisers regs
              (setCurrentlyLoadingLibraryName (setCurrentlyActivePluginLoader st L) P) with
            sharedLibraries := fun q =>
              if q = (runInitialisers regs
                (setCurrentlyLoadingLibraryName
                  (setCurrentlyActivePluginLoader st L) P)).nextSharedLibrary
              then ⟨some hm, P⟩
              else (runInitialisers regs
                (setCurrentlyLoadingLibraryName
                  (setCurrentlyActivePluginLoader st L) P)).sharedLibraries q
            nextSharedLibrary :=
              (runInitialisers regs
                (setCurrentlyLoadingLibraryName
                  (setCurrentlyActivePluginLoader st L) P)).nextSharedLibrary + 1 } "")
        none) := rfl
  generalize runInitialisers regs
    (setCurrentlyLoadingLibraryName (setCurrentlyActivePluginLoader st L) P) = R at *
  rw [f7] at hX
  refine ⟨_, hX, ?_, ?_, rfl, rfl, ?_, ?_, ?_, ?_, ?_, ?_, ?_⟩
  · simpa using f1
  · simpa using f2
  · simpa using f9
  · simpa using f5
  · simp [f7]
  · intro q hq
    simpa using m1 q (by simpa using hq)
  · intro q hq1 hq2
    simpa using m2 q (by simpa using hq1) (by simpa using hq2)
  · intro hregs hempty
    obtain ⟨p, hp1, hp2⟩ := hreg hregs
    have hmem : p ∈ allMetaObjectsForLibrary
        (setCurrentlyActivePluginLoader
          (setCurrentlyLoadingLibraryName
            { R with
              sharedLibraries := fun q =>
                if q = R.nextSharedLibrary then ⟨some hm, P⟩ else R.sharedLibraries q
              nextSharedLibrary := R.nextSharedLibrary + 1 } "")
          none) P := by
      rw [mem_allMetaObjectsForLibrary_iff]
      exact ⟨hp1, by simpa using hp2⟩
    rw [f7] at hmem
    rw [hempty] at hmem
    simp at hmem
  · intro hregs
    rw [hnil hregs]
    exact ⟨rfl, rfl⟩


/-- With a null loader a completed revive loop has changed nothing. -/
theorem reviveLoop_null (P : LibraryPath) (gs : MetaObjectVector) (st st' : Registry)
    (h : reviveLoop P none gs st = some st') : st' = st := by
  induction gs with
  | nil =>
    simp only [reviveLoop, Option.some.injEq] at h
    exact h.symm
  | cons g rest ih =>
    by_cases hp : (st.metaObjects g).associated_library_path = P
    · simp [reviveLoop, getAssociatedLibraryPath, hp] at h
    · rw [reviveLoop_cons_of_not_path P none g rest st hp] at h
      exact ih h

/-- What a completed revive loop leaves alone, whatever the loader. -/
theorem reviveLoop_frame (P : LibraryPath) (L : PluginLoaderPtr) (gs : MetaObjectVector)
    (st st' : Registry) (h : reviveLoop P L gs st = some st') :
    st'.graveyard = st.graveyard ∧
      st'.loadedLibraryVector = st.loadedLibraryVector ∧
      st'.currentlyLoadingLibraryName = st.currentlyLoadingLibraryName ∧
      st'.currentlyActivePluginLoader = st.currentlyActivePluginLoader ∧
      st'.sharedLibraries = st.sharedLibraries ∧
      st'.deletedMetaObjects = st.deletedMetaObjects ∧
      (∀ q, (st'.metaObjects q).associated_library_path
        = (st.metaObjects q).associated_library_path) := by
  cases L with
  | none =>
    rw [reviveLoop_null P gs st st' h]
    exact ⟨rfl, rfl, rfl, rfl, rfl, rfl, fun _ => rfl⟩
  | some l =>
    obtain ⟨st'', h', h1, h2, h3, h4, _, _, h7, h8, _, _, h11, _⟩ := reviveLoop_some P l gs st
    rw [h] at h'
    cases h'
    exact ⟨h1, h2, h3, h4, h8, h7, fun q => by rw [h11 q]⟩

/-- What a completed graveyard scenario of `loadLibrary` leaves alone. -/
theorem loadLibraryGraveyard_frame (st st' : Registry) (P : LibraryPath) (L : PluginLoaderPtr)
    (h : loadLibraryGraveyard st P L = some st') :
    st'.loadedLibraryVector = st.loadedLibraryVector ∧
      st'.currentlyLoadingLibraryName = st.currentlyLoadingLibraryName ∧
      st'.currentlyActivePluginLoader = st.currentlyActivePluginLoader ∧
      st'.sharedLibraries = st.sharedLibraries ∧
      (allMetaObjectsForLibrary st P ≠ [] → st'.metaObjects = st.metaObjects) := by
  simp only [loadLibraryGraveyard, List.length_eq_zero] at h
  by_cases hz : allMetaObjectsForLibrary st P = []
  · rw [if_pos hz] at h
    simp only [revivePreviouslyCreateMetaobjectsFromGraveyard] at h
    cases hr : reviveLoop P L st.logDebug.graveyard st.logDebug with
    | none => rw [hr] at h; simp at h
    | some st₁ =>
      rw [hr] at h
      simp only at h
      obtain ⟨_, r2, r3, r4, r5, _, _⟩ := reviveLoop_frame P L _ _ st₁ hr
      obtain ⟨_, _, _, p3, p4, p5, _, _, p8, _, _, _⟩ :=
        purgeGraveyardOfMetaobjects_spec st₁ st' P L false h
      exact ⟨by rw [p3, r2]; rfl, by rw [p4, r3]; rfl, by rw [p5, r4]; rfl,
        by rw [p8, r5]; rfl, fun hne => absurd hz hne⟩
  · rw [if_neg hz] at h
    obtain ⟨_, p1, _, p3, p4, p5, _, _, p8, _, _, _⟩ :=
      purgeGraveyardOfMetaobjects_spec st.logDebug st' P L true h
    exact ⟨by rw [p3]; rfl, by rw [p4]; rfl, by rw [p5]; rfl, by rw [p8]; rfl,
      fun _ => by rw [p1]; rfl⟩

/-- With a non-null loader the graveyard scenario of `loadLibrary` completes. -/
theorem loadLibraryGraveyard_some (st : Registry) (P : LibraryPath) (l : Nat) :
    ∃ st', loadLibraryGraveyard st P (some l) = some st' := by
  simp only [loadLibraryGraveyard, revivePreviouslyCreateMetaobjectsFromGraveyard]
  split_ifs with hz
  · obtain ⟨st₁, h1, _⟩ := reviveLoop_some P l st.logDebug.graveyard st.logDebug
    rw [h1]
    exact purgeGraveyardOfMetaobjects_some st₁ P l false
  · exact purgeGraveyardOfMetaobjects_some st.logDebug P l true

/-- C9. When `P` is not in the loaded-library table and the open of `P`
succeeds: if `loadLibrary(P, L)` returns, the loaded-library table is the old
table with the one entry (`P`, the new `SharedLibrary` handle) appended at the
end, both ambients are cleared, and every meta-object the initialisers of the
library registered during the open (in the directory or replaced there by a
later registration) has library path `P` and owner set exactly the one
entry `L`; and for a loader that is not null the call does return. -/
theorem loadLibrary_open_succeeds (st : Registry) (P : LibraryPath) (L : PluginLoaderPtr)
    (hm : Nat) (regs : List Registration) (hP : P ∉ st.loadedLibraryVector.map Prod.fst) :
    (∀ st', loadLibrary st P L (LoadLibraryA.loaded hm regs) = Outcome.returned () st' →
        st'.loadedLibraryVector = st.loadedLibraryVector ++ [(P, st.nextSharedLibrary)] ∧
        st'.sharedLibraries st.nextSharedLibrary = ⟨some hm, P⟩ ∧
        st'.currentlyLoadingLibraryName = "" ∧
        st'.currentlyActivePluginLoader = none ∧
        ∀ q : Nat, st.nextMetaObject ≤ q → q < st.nextMetaObject + regs.length →
          (st'.metaObjects q).associated_library_path = P ∧ owners st' q = [L]) ∧
      (L ≠ none → ∃ st', loadLibrary st P L (LoadLibraryA.loaded hm regs)
        = Outcome.returned () st') := by
  have hclosed : isLibraryLoadedByAnybody st.logDebug P = false := by
    rw [isLibraryLoadedByAnybody_congr st.logDebug st rfl]
    exact isLibraryLoadedByAnybody_eq_false st P hP
  obtain ⟨X, hX, x1, x2, x3, x4, x5, x6, x7, x8, x9, x10, x11⟩ :=
    afterOpen_loaded st.logDebug P L hm regs
  have hload : loadLibrary st P L (LoadLibraryA.loaded hm regs) =
      match loadLibraryGraveyard X.logDebug P L with
      | none => Outcome.nullDereference
      | some st₂ =>
        Outcome.returned ()
          { st₂ with
            loadedLibraryVector := st₂.loadedLibraryVector ++ [(P, st.nextSharedLibrary)] } := by
    simp only [loadLibrary, hclosed, Bool.false_eq_true, if_false, hX]
    rfl
  rw [hload]
  constructor
  · intro st' h
    cases hg : loadLibraryGraveyard X.logDebug P L with
    | none => rw [hg] at h; cases h
    | some st₂ =>
      rw [hg] at h
      simp only [Outcome.returned.injEq, true_and] at h
      subst h
      obtain ⟨g1, g2, g3, g4, g5⟩ := loadLibraryGraveyard_frame X.logDebug st₂ P L hg
      refine ⟨?_, ?_, ?_, ?_, ?_⟩
      · show st₂.loadedLibraryVector ++ _ = _
        rw [g1]
        show X.loadedLibraryVector ++ _ = _
        rw [x2]
        rfl
      · show st₂.sharedLibraries _ = _
        rw [g4]
        exact x7
      · show st₂.currentlyLoadingLibraryName = _
        rw [g2]
        exact x3
      · show st₂.currentlyActivePluginLoader = _
        rw [g3]
        exact x4
      · intro q hq1 hq2
        have hregs : regs ≠ [] := by
          intro hnil
          subst hnil
          simp only [List.length_nil, Nat.add_zero] at hq2
          omega
        have hall : allMetaObjectsForLibrary X.logDebug P ≠ [] := by
          rw [allMetaObjectsForLibrary_congr X.logDebug X rfl rfl P]
          exact x10 hregs
        have hmo : st₂.metaObjects = X.metaObjects := g5 hall
        have := x9 q hq1 hq2
        simp only [owners]
        show (st₂.metaObjects q).associated_library_path = P ∧
          (st₂.metaObjects q).associated_plugin_loaders = [L]
        rw [hmo]
        exact this
  · intro hL
    obtain ⟨l, rfl⟩ := Option.ne_none_iff_exists'.mp hL
    obtain ⟨st₂, h2⟩ := loadLibraryGraveyard_some X.logDebug P l
    rw [h2]
    exact ⟨_, rfl⟩

/-! ## Graveyard revival -/

/-- Where the keys of the graveyard entries of the path are distinct, the entry
found last at the key of an entry is that entry. -/
theorem find_revivedAt (st : Registry) (P : LibraryPath) (gs : MetaObjectVector)
    (hkeys : ((gs.filter (fun g =>
        decide ((st.metaObjects g).associated_library_path = P))).map
      (fun g => ((st.metaObjects g).typeid_base_class_name, (st.metaObjects g).class_name))).Nodup)
    (g : MetaObjectPtr) (hg : g ∈ gs) (hp : (st.metaObjects g).associated_library_path = P) :
    gs.reverse.find? (revivedAt st P (st.metaObjects g).typeid_base_class_name
      (st.metaObjects g).class_name) = some g := by
  have hgr : revivedAt st P (st.metaObjects g).typeid_base_class_name
      (st.metaObjects g).class_name g = true := by
    simp [revivedAt, hp]
  cases hf : gs.reverse.find? (revivedAt st P (st.metaObjects g).typeid_base_class_name
      (st.metaObjects g).class_name) with
  | none =>
    rw [List.find?_eq_none] at hf
    exact absurd hgr (hf g (List.mem_reverse.mpr hg))
  | some x =>
    have hx := List.find?_some hf
    have hxm : x ∈ gs := List.mem_reverse.mp (List.mem_of_find?_eq_some hf)
    simp only [revivedAt, Bool.and_eq_true, decide_eq_true_eq] at hx
    obtain ⟨hx1, hx2, hx3⟩ := hx
    have hinj := List.inj_on_of_nodup_map hkeys
    have hxf : x ∈ gs.filter (fun g =>
        decide ((st.metaObjects g).associated_library_path = P)) := by
      simp [List.mem_filter, hxm, hx1]
    have hgf : g ∈ gs.filter (fun g =>
        decide ((st.metaObjects g).associated_library_path = P)) := by
      simp [List.mem_filter, hg, hp]
    rw [hinj hxf hgf (by simp [hx2, hx3])]

/-- C10. Graveyard revival. When `loadLibrary(P, L)`, for a loader `L` that is
not null, opens `P` successfully and the directory then holds no meta-object
with path `P`, the graveyard entries of path `P` having distinct (base
identity, derived name) keys: the call returns; every graveyard entry of path
`P` has had `L` added once to its owner set, nothing else of it changed, and is
in the directory under its stored base-interface identity and derived-class
name; the graveyard afterwards is the old one without the entries of path `P`,
the others in their order; no meta-object has been freed; and the meta-objects
of other paths, those in the graveyard included, are unchanged. -/
theorem loadLibrary_revives_graveyard (st : Registry) (P : LibraryPath) (L : PluginLoaderPtr)
    (hm : Nat) (regs : List Registration) (hL : L ≠ none)
    (hP : P ∉ st.loadedLibraryVector.map Prod.fst)
    (hnone : allMetaObjectsForLibrary
      (registryAfterOpen st P L (LoadLibraryA.loaded hm regs)) P = [])
    (hkeys : ((st.graveyard.filter (fun g =>
        decide ((st.metaObjects g).associated_library_path = P))).map
      (fun g => ((st.metaObjects g).typeid_base_class_name, (st.metaObjects g).class_name))).Nodup) :
    ∃ st', loadLibrary st P L (LoadLibraryA.loaded hm regs) = Outcome.returned () st' ∧
      (∀ g, g ∈ st.graveyard → (st.metaObjects g).associated_library_path = P →
        st'.metaObjects g =
            { st.metaObjects g with
              associated_plugin_loaders :=
                (st.metaObjects g).associated_plugin_loaders ++ [L] } ∧
          lookup st' (st.metaObjects g).typeid_base_class_name (st.metaObjects g).class_name
            = some g) ∧
      st'.graveyard = st.graveyard.filter
        (fun g => !decide ((st.metaObjects g).associated_library_path = P)) ∧
      st'.deletedMetaObjects = st.deletedMetaObjects ∧
      (∀ q, (st.metaObjects q).associated_library_path ≠ P →
        st'.metaObjects q = st.metaObjects q) := by
  obtain ⟨l, rfl⟩ := Option.ne_none_iff_exists'.mp hL
  have hclosed : isLibraryLoadedByAnybody st.logDebug P = false := by
    rw [isLibraryLoadedByAnybody_congr st.logDebug st rfl]
    exact isLibraryLoadedByAnybody_eq_false st P hP
  obtain ⟨X, hX, x1, x2, x3, x4, x5, x6, x7, x8, x9, x10, x11⟩ :=
    afterOpen_loaded st.logDebug P (some l) hm regs
  have hXeq : registryAfterOpen st P (some l) (LoadLibraryA.loaded hm regs) = X := by
    simp only [registryAfterOpen, hX, Outcome.registry]
  rw [hXeq] at hnone
  have hregs : regs = [] := by
    by_contra hne
    exact x10 hne hnone
  obtain ⟨hXm, hXf⟩ := x11 hregs
  have hload : loadLibrary st P (some l) (LoadLibraryA.loaded hm regs) =
      match loadLibraryGraveyard X.logDebug P (some l) with
      | none => Outcome.nullDereference
      | some st₂ =>
        Outcome.returned ()
          { st₂ with
            loadedLibraryVector := st₂.loadedLibraryVector ++ [(P, st.nextSharedLibrary)] } := by
    simp only [loadLibrary, hclosed, Bool.false_eq_true, if_false, hX]
    rfl
  have hall : allMetaObjectsForLibrary X.logDebug P = [] := by
    rw [allMetaObjectsForLibrary_congr X.logDebug X rfl rfl P]
    exact hnone
  obtain ⟨st₁, hr, r1, _, _, _, _, _, r7, _, _, _, r11, r12⟩ :=
    reviveLoop_some P l X.logDebug.logDebug.graveyard X.logDebug.logDebug
  obtain ⟨st₂, hpurge⟩ := purgeGraveyardOfMetaobjects_some st₁ P l false
  obtain ⟨p0, p1, p2, _, _, _, _, _, _, _, _, p12⟩ :=
    purgeGraveyardOfMetaobjects_spec st₁ st₂ P (some l) false hpurge
  have hgrave : loadLibraryGraveyard X.logDebug P (some l) = some st₂ := by
    simp only [loadLibraryGraveyard, hall, List.length_nil, if_true,
      revivePreviouslyCreateMetaobjectsFromGraveyard, hr, hpurge]
  have hYm : X.logDebug.logDebug.metaObjects = st.metaObjects := hXm
  have hYg : X.logDebug.logDebug.graveyard = st.graveyard := x1
  have hYd : X.logDebug.logDebug.deletedMetaObjects = st.deletedMetaObjects := x6
  rw [hYm] at r11
  rw [hYg] at r11 r12 r1
  rw [hYd] at r7
  have hrev : ∀ B n, revivedAt X.logDebug.logDebug P B n = revivedAt st P B n := by
    intro B n
    funext q
    simp only [revivedAt, hYm]
  have hlk : ∀ B n, lookup X.logDebug.logDebug B n = lookup st B n :=
    fun B n => lookup_congr _ _ hXf B n
  have hnd : (st.graveyard.filter (fun g =>
      decide ((st.metaObjects g).associated_library_path = P))).Nodup :=
    List.Nodup.of_map _ hkeys
  rw [hload, hgrave]
  refine ⟨_, rfl, ?_, ?_, ?_, ?_⟩
  · intro g hg hp
    constructor
    · show st₂.metaObjects g = _
      rw [p1, r11 g, List.count_eq_one_of_mem hnd (by simp [List.mem_filter, hg, hp])]
      rfl
    · refine Eq.trans (lookup_congr _ st₁ p2 _ _) ?_
      rw [r12, hrev, find_revivedAt st P st.graveyard hkeys g hg hp]
      rfl
  · show st₂.graveyard = _
    rw [p0, r1]
    apply List.filter_congr
    intro x _
    rw [r11 x]
  · show st₂.deletedMetaObjects = _
    rw [p12, r7]
    simp
  · intro q hq
    show st₂.metaObjects q = _
    rw [p1, r11 q, List.count_eq_zero_of_not_mem (by simp [List.mem_filter, hq])]
    simp

/-! ## The theorems at concrete registries -/

/-- C1 at a concrete registry: loader 1 creates a `Cat`. -/
theorem createInstance_returns_iff_owned_witness :
    directoryWellTyped registryCatDog = true ∧
      ∃ p st', createInstance registryCatDog "4Base" "Cat" (some 1) = Outcome.returned p st' :=
  ⟨by decide,
    (createInstance_returns_iff_owned registryCatDog (by decide) "4Base" "Cat" (some 1)).1.mpr
      ⟨2, by decide, Or.inl (by decide)⟩⟩

/-- C5 at a concrete registry: `Cat` is listed for loader 1 and can be created. -/
theorem getAvailableClasses_agrees_with_createInstance_witness :
    directoryWellTyped registryCatDog = true ∧
      "Cat" ∈ (getAvailableClasses registryCatDog "4Base" (some 1)).1 ∧
      ∃ p st', createInstance registryCatDog "4Base" "Cat" (some 1) = Outcome.returned p st' :=
  ⟨by decide, by decide,
    (getAvailableClasses_agrees_with_createInstance registryCatDog (by decide) "4Base"
      (some 1)).1 "Cat" (by decide)⟩

/-- C6 at a concrete registry: `Cat` registered for `4Base` is not listed for
`11InvalidBase`. -/
theorem base_identity_discrimination_witness :
    "11InvalidBase" ≠ "4Base" ∧
      lookup registryWhileLoading "11InvalidBase" "Cat" = none ∧
      "Cat" ∈ (getAvailableClasses (registerPlugin registryWhileLoading "4Base" "Cat" "Base")
        "4Base" (some 1)).1 ∧
      "Cat" ∉ (getAvailableClasses (registerPlugin registryWhileLoading "4Base" "Cat" "Base")
        "11InvalidBase" (some 1)).1 :=
  ⟨by decide, by decide,
    (base_identity_discrimination registryWhileLoading "4Base" "11InvalidBase" "Cat" "Base"
      (by decide)).1,
    ((base_identity_discrimination registryWhileLoading "4Base" "11InvalidBase" "Cat" "Base"
      (by decide)).2.2.1 (by decide) (some 1)).1⟩

/-- C7 at a concrete registry: loader 2 loads `P1`, which loader 1 has open. -/
theorem loadLibrary_already_open_witness :
    (some 2 : PluginLoaderPtr) ≠ none ∧
      "P1" ∈ registryCatDog.loadedLibraryVector.map Prod.fst ∧
      (allMetaObjectsForLibrary registryCatDog "P1").Nodup ∧
      allMetaObjectsForLibrary registryCatDog "P1" = [2, 1] ∧
      ∃ st', (∀ os, loadLibrary registryCatDog "P1" (some 2) os = Outcome.returned () st') ∧
        st'.loadedLibraryVector = registryCatDog.loadedLibraryVector :=
  ⟨by decide, by decide, by decide, by decide,
    Exists.imp (fun _ h => ⟨h.1, h.2.1⟩)
      (loadLibrary_already_open registryCatDog "P1" (some 2) (by decide) (by decide)
        (by decide))⟩

/-- C8 at a concrete registry: a library that does not exist. -/
theorem loadLibrary_open_fails_witness :
    "libDoesNotExist.dll" ∉ Registry.initial.loadedLibraryVector.map Prod.fst ∧
      ∃ st', loadLibrary Registry.initial "libDoesNotExist.dll" (some 1) LoadLibraryA.failed
          = Outcome.thrown PluginLoaderException.LibraryLoadException st' ∧
        st'.currentlyLoadingLibraryName = "" :=
  ⟨by decide,
    Exists.imp (fun _ h => ⟨h.1, h.2.1⟩)
      (loadLibrary_open_fails Registry.initial "libDoesNotExist.dll" (some 1) (by decide))⟩

/-- C9 at a concrete registry: loader 1 loads `P1` into the initial registry. -/
theorem loadLibrary_open_succeeds_witness :
    "P1" ∉ Registry.initial.loadedLibraryVector.map Prod.fst ∧
      ∃ st', loadLibrary Registry.initial "P1" (some 1)
        (LoadLibraryA.loaded 7 [⟨"4Base", "Dog", "Base"⟩, ⟨"4Base", "Cat", "Base"⟩])
          = Outcome.returned () st' :=
  ⟨by decide,
    (loadLibrary_open_succeeds Registry.initial "P1" (some 1) 7
      [⟨"4Base", "Dog", "Base"⟩, ⟨"4Base", "Cat", "Base"⟩] (by decide)).2 (by decide)⟩

/-- C10 at a concrete registry: loader 2 loads `P1`, whose initialisers do not
run again, and `Cat` comes back from the graveyard. -/
theorem loadLibrary_revives_graveyard_witness :
    (some 2 : PluginLoaderPtr) ≠ none ∧
      "P1" ∉ registryCatBuried.loadedLibraryVector.map Prod.fst ∧
      allMetaObjectsForLibrary
        (registryAfterOpen registryCatBuried "P1" (some 2) (LoadLibraryA.loaded 7 [])) "P1" = [] ∧
      1 ∈ registryCatBuried.graveyard ∧
      (registryCatBuried.metaObjects 1).associated_library_path = "P1" ∧
      ∃ st', loadLibrary registryCatBuried "P1" (some 2) (LoadLibraryA.loaded 7 [])
          = Outcome.returned () st' ∧
        lookup st' "4Base" "Cat" = some 1 ∧ st'.graveyard = [] :=
  ⟨by decide, by decide, by decide, by decide, by decide,
    Exists.imp (fun _ h => ⟨h.1, (h.2.1 1 (by decide) (by decide)).2, h.2.2.1⟩)
      (loadLibrary_revives_graveyard registryCatBuried "P1" (some 2) 7 [] (by decide)
        (by decide) (by decide) (by decide))⟩

/-! ## Invariants of the reachable registries -/

theorem directoryOwnKeys_of (st st' : Registry)
    (hl : ∀ B n, lookup st' B n = lookup st B n)
    (hm : ∀ q : Nat, q < st.nextMetaObject → identityOf st' q = identityOf st q)
    (hn : st.nextMetaObject ≤ st'.nextMetaObject) (h : directoryOwnKeys st) :
    directoryOwnKeys st' := by
  intro B n p hp
  rw [hl] at hp
  obtain ⟨h1, h2, h3⟩ := h B n p hp
  have := hm p h3
  simp only [identityOf, Prod.mk.injEq] at this
  exact ⟨by rw [this.1]; exact h1, by rw [this.2.1]; exact h2, Nat.lt_of_lt_of_le h3 hn⟩

theorem lookup_of_mem_entries (st : Registry) (B : BaseClassName) (fm : FactoryMap)
    (n : ClassName) (p : MetaObjectPtr) (h1 : (B, fm) ∈ st.factoryMapMap.entries)
    (h2 : (n, p) ∈ fm.entries) : lookup st B n = some p := by
  have hf : st.factoryMapMap.find B = some fm := (StdMap.mem_entries_iff _ _ _).mp h1
  simp only [lookup, factoryMapOf, hf, Option.getD_some]
  exact (StdMap.mem_entries_iff _ _ _).mp h2

theorem directoryWellTyped_of_ownKeys (st : Registry) (h : directoryOwnKeys st) :
    directoryWellTyped st = true := by
  simp only [directoryWellTyped, List.all_eq_true, decide_eq_true_eq]
  intro it hit f hf
  exact (h it.1 f.1 f.2 (lookup_of_mem_entries st it.1 it.2 f.1 f.2 hit hf)).1

theorem directoryOwnKeys_registerPlugin (st : Registry) (B : BaseClassName) (cn bn : String)
    (h : directoryOwnKeys st) : directoryOwnKeys (registerPlugin st B cn bn) := by
  intro B₂ n₂ p hp
  rw [lookup_registerPlugin] at hp
  rw [registerPlugin_metaObjects, registerPlugin_nextMetaObject]
  split_ifs at hp with hk
  · simp only [Option.some.injEq] at hp
    subst hp
    simp [hk.1, hk.2]
  · obtain ⟨h1, h2, h3⟩ := h B₂ n₂ p hp
    rw [if_neg (Nat.ne_of_lt h3)]
    exact ⟨h1, h2, Nat.lt_succ_of_lt h3⟩

theorem graveyardAllocated_registerPlugin (st : Registry) (B : BaseClassName) (cn bn : String)
    (h : graveyardAllocated st) : graveyardAllocated (registerPlugin st B cn bn) := by
  intro g hg
  rw [registerPlugin_graveyard] at hg
  rw [registerPlugin_nextMetaObject]
  exact Nat.lt_succ_of_lt (h g hg)

theorem runInitialisers_invariants (regs : List Registration) (st : Registry)
    (h1 : directoryOwnKeys st) (h2 : graveyardAllocated st) :
    directoryOwnKeys (runInitialisers regs st) ∧ graveyardAllocated (runInitialisers regs st) := by
  induction regs generalizing st with
  | nil => exact ⟨h1, h2⟩
  | cons r rest ih =>
    exact ih _ (directoryOwnKeys_registerPlugin st _ _ _ h1)
      (graveyardAllocated_registerPlugin st _ _ _ h2)


theorem graveyardAllocated_of (st st' : Registry)
    (hg : ∀ g, g ∈ st'.graveyard → g ∈ st.graveyard)
    (hn : st.nextMetaObject ≤ st'.nextMetaObject) (h : graveyardAllocated st) :
    graveyardAllocated st' :=
  fun g hg' => Nat.lt_of_lt_of_le (h g (hg g hg')) hn

/-- What a completed owner-tagging loop leaves alone, whatever the loader. -/
theorem addPluginLoaderOwnerLoop_frame (L : PluginLoaderPtr) (ps : MetaObjectVector)
    (st st' : Registry) (h : addPluginLoaderOwnerLoop L ps st = some st') :
    st'.factoryMapMap = st.factoryMapMap ∧ st'.graveyard = st.graveyard ∧
      st'.nextMetaObject = st.nextMetaObject ∧
      st'.currentlyLoadingLibraryName = st.currentlyLoadingLibraryName ∧
      st'.currentlyActivePluginLoader = st.currentlyActivePluginLoader ∧
      st'.hasANonPurePluginLibraryBeenOpened = st.hasANonPurePluginLibraryBeenOpened ∧
      ∀ q, identityOf st' q = identityOf st q := by
  cases L with
  | none =>
    cases ps with
    | nil =>
      simp only [addPluginLoaderOwnerLoop, Option.some.injEq] at h
      subst h
      exact ⟨rfl, rfl, rfl, rfl, rfl, rfl, fun _ => rfl⟩
    | cons p ps => simp [addPluginLoaderOwnerLoop] at h
  | some l =>
    obtain ⟨st'', h', h1, h2, _, h4, h5, h6, h7, _, _, _, _, _, h13⟩ :=
      addPluginLoaderOwnerLoop_some l ps st
    rw [h] at h'
    cases h'
    exact ⟨h1, h2, h7, h4, h5, h6, fun q => by simp only [identityOf, h13 q]⟩

/-- The invariants after a successful open. -/
theorem afterOpen_invariants (st X : Registry) (P : LibraryPath) (L : PluginLoaderPtr)
    (os : LoadLibraryA) (lib : SharedLibraryPtr)
    (hX : afterOpen st P L os = Outcome.returned lib X)
    (h1 : directoryOwnKeys st) (h2 : graveyardAllocated st) :
    directoryOwnKeys X ∧ graveyardAllocated X ∧ ambientsCleared X := by
  cases os with
  | failed => simp [afterOpen, newSharedLibrary] at hX
  | loaded hm regs =>
    simp only [afterOpen, newSharedLibrary, Outcome.returned.injEq] at hX
    obtain ⟨_, hX⟩ := hX
    subst hX
    have hA : directoryOwnKeys
        (setCurrentlyLoadingLibraryName (setCurrentlyActivePluginLoader st L) P) :=
      directoryOwnKeys_of st _ (fun _ _ => rfl) (fun _ _ => rfl) (Nat.le_refl _) h1
    have hB : graveyardAllocated
        (setCurrentlyLoadingLibraryName (setCurrentlyActivePluginLoader st L) P) :=
      graveyardAllocated_of st _ (fun _ hg => hg) (Nat.le_refl _) h2
    obtain ⟨r1, r2⟩ := runInitialisers_invariants regs _ hA hB
    exact ⟨directoryOwnKeys_of _ _ (fun _ _ => rfl) (fun _ _ => rfl) (Nat.le_refl _) r1,
      graveyardAllocated_of _ _ (fun _ hg => hg) (Nat.le_refl _) r2, rfl, rfl⟩

/-- The invariants after a failed open. -/
theorem afterOpen_thrown_invariants (st X : Registry) (P : LibraryPath) (L : PluginLoaderPtr)
    (os : LoadLibraryA) (e : PluginLoaderException)
    (hX : afterOpen st P L os = Outcome.thrown e X)
    (h1 : directoryOwnKeys st) (h2 : graveyardAllocated st) :
    directoryOwnKeys X ∧ graveyardAllocated X ∧ ambientsCleared X := by
  cases os with
  | loaded hm regs => simp [afterOpen, newSharedLibrary] at hX
  | failed =>
    simp only [afterOpen, newSharedLibrary, Outcome.thrown.injEq] at hX
    obtain ⟨_, hX⟩ := hX
    subst hX
    exact ⟨directoryOwnKeys_of st _ (fun _ _ => rfl) (fun _ _ => rfl) (Nat.le_refl _) h1,
      graveyardAllocated_of st _ (fun _ hg => hg) (Nat.le_refl _) h2, rfl, rfl⟩

/-- The revive loop keeps the invariants. -/
theorem reviveLoop_invariants (P : LibraryPath) (L : PluginLoaderPtr) (st st' : Registry)
    (h : reviveLoop P L st.graveyard st = some st')
    (h1 : directoryOwnKeys st) (h2 : graveyardAllocated st) :
    directoryOwnKeys st' ∧ graveyardAllocated st' := by
  cases L with
  | none =>
    rw [reviveLoop_null P _ st st' h]
    exact ⟨h1, h2⟩
  | some l =>
    obtain ⟨st'', h', r1, _, _, _, _, r6, _, _, _, _, r11, r12⟩ :=
      reviveLoop_some P l st.graveyard st
    rw [h] at h'
    cases h'
    constructor
    · intro B n p hp
      rw [r12] at hp
      rw [r11 p, r6]
      cases hf : st.graveyard.reverse.find? (revivedAt st P B n) with
      | none =>
        rw [hf] at hp
        exact h1 B n p hp
      | some g =>
        rw [hf] at hp
        simp only [Option.or_some, Option.some.injEq] at hp
        subst hp
        have hg := List.find?_some hf
        have hmem : g ∈ st.graveyard := List.mem_reverse.mp (List.mem_of_find?_eq_some hf)
        simp only [revivedAt, Bool.and_eq_true, decide_eq_true_eq] at hg
        exact ⟨hg.2.1, hg.2.2, h2 g hmem⟩
    · intro g hg
      rw [r1] at hg
      rw [r6]
      exact h2 g hg

/-- The graveyard scenario of `loadLibrary` keeps the invariants. -/
theorem loadLibraryGraveyard_invariants (st st' : Registry) (P : LibraryPath)
    (L : PluginLoaderPtr) (h : loadLibraryGraveyard st P L = some st')
    (h1 : directoryOwnKeys st) (h2 : graveyardAllocated st) :
    directoryOwnKeys st' ∧ graveyardAllocated st' := by
  simp only [loadLibraryGraveyard, List.length_eq_zero] at h
  have hpurge : ∀ (Y : Registry) (d : Bool), directoryOwnKeys Y → graveyardAllocated Y →
      purgeGraveyardOfMetaobjects Y P L d = some st' →
      directoryOwnKeys st' ∧ graveyardAllocated st' := by
    intro Y d hY1 hY2 hp
    obtain ⟨p0, p1, p2, _, _, _, _, p7, _, _, _, _⟩ :=
      purgeGraveyardOfMetaobjects_spec Y st' P L d hp
    constructor
    · exact directoryOwnKeys_of Y st' (fun B n => lookup_congr _ _ p2 B n)
        (fun q _ => by simp only [identityOf, p1]) (Nat.le_of_eq p7.symm) hY1
    · exact graveyardAllocated_of Y st'
        (fun g hg => by rw [p0] at hg; exact (List.mem_filter.mp hg).1)
        (Nat.le_of_eq p7.symm) hY2
  have hlog1 : directoryOwnKeys st.logDebug :=
    directoryOwnKeys_of st _ (fun _ _ => rfl) (fun _ _ => rfl) (Nat.le_refl _) h1
  have hlog2 : graveyardAllocated st.logDebug :=
    graveyardAllocated_of st _ (fun _ hg => hg) (Nat.le_refl _) h2
  by_cases hz : allMetaObjectsForLibrary st P = []
  · rw [if_pos hz] at h
    simp only [revivePreviouslyCreateMetaobjectsFromGraveyard] at h
    cases hr : reviveLoop P L st.logDebug.graveyard st.logDebug with
    | none => rw [hr] at h; simp at h
    | some st₁ =>
      rw [hr] at h
      obtain ⟨a1, a2⟩ := reviveLoop_invariants P L st.logDebug st₁ hr hlog1 hlog2
      exact hpurge st₁ false a1 a2 h
  · rw [if_neg hz] at h
    exact hpurge st.logDebug true hlog1 hlog2 h

/-- Every outcome of `loadLibrary` keeps the invariants. -/
theorem loadLibrary_invariants (st st' : Registry) (P : LibraryPath) (L : PluginLoaderPtr)
    (os : LoadLibraryA) (h : (loadLibrary st P L os).leaves st')
    (h1 : directoryOwnKeys st) (h2 : graveyardAllocated st) (h3 : ambientsCleared st) :
    directoryOwnKeys st' ∧ graveyardAllocated st' ∧ ambientsCleared st' := by
  have hlog1 : directoryOwnKeys st.logDebug :=
    directoryOwnKeys_of st _ (fun _ _ => rfl) (fun _ _ => rfl) (Nat.le_refl _) h1
  have hlog2 : graveyardAllocated st.logDebug :=
    graveyardAllocated_of st _ (fun _ hg => hg) (Nat.le_refl _) h2
  simp only [loadLibrary] at h
  by_cases hopen : isLibraryLoadedByAnybody st.logDebug P = true
  · rw [if_pos hopen] at h
    simp only [addPluginLoaderOwnerForAllExistingMetaObjectsForLibrary] at h
    cases hl : addPluginLoaderOwnerLoop L (allMetaObjectsForLibrary st.logDebug.logDebug P)
        st.logDebug.logDebug with
    | none =>
      rw [hl] at h
      rcases h with ⟨v, hv⟩ | ⟨e, he⟩
      · cases hv
      · cases he
    | some st₂ =>
      rw [hl] at h
      obtain ⟨f1, f2, f3, f4, f5, _, f7⟩ := addPluginLoaderOwnerLoop_frame L _ _ st₂ hl
      have hst : st' = st₂ := by
        rcases h with ⟨v, hv⟩ | ⟨e, he⟩
        · simp only [Outcome.returned.injEq] at hv
          exact hv.2.symm
        · cases he
      subst hst
      refine ⟨directoryOwnKeys_of st _ (fun B n => lookup_congr _ _ f1 B n)
        (fun q _ => f7 q) (Nat.le_of_eq f3.symm) h1,
        graveyardAllocated_of st _ (fun g hg => by rw [f2] at hg; exact hg)
          (Nat.le_of_eq f3.symm) h2, ?_, ?_⟩
      · rw [f5]; exact h3.1
      · rw [f4]; exact h3.2
  · rw [if_neg hopen] at h
    cases ha : afterOpen st.logDebug P L os with
    | nullDereference =>
      rw [ha] at h
      dsimp only at h
      rcases h with ⟨v, hv⟩ | ⟨e, he⟩
      · cases hv
      · cases he
    | thrown e X =>
      rw [ha] at h
      dsimp only at h
      have hst : st' = X := by
        rcases h with ⟨v, hv⟩ | ⟨e', he⟩
        · cases hv
        · simp only [Outcome.thrown.injEq] at he
          exact he.2.symm
      subst hst
      exact afterOpen_thrown_invariants st.logDebug _ P L os e ha hlog1 hlog2
    | returned lib X =>
      rw [ha] at h
      dsimp only at h
      obtain ⟨x1, x2, x3⟩ := afterOpen_invariants st.logDebug X P L os lib ha hlog1 hlog2
      have y1 : directoryOwnKeys X.logDebug :=
        directoryOwnKeys_of X _ (fun _ _ => rfl) (fun _ _ => rfl) (Nat.le_refl _) x1
      have y2 : graveyardAllocated X.logDebug :=
        graveyardAllocated_of X _ (fun _ hg => hg) (Nat.le_refl _) x2
      cases hg : loadLibraryGraveyard X.logDebug P L with
      | none =>
        rw [hg] at h
        rcases h with ⟨v, hv⟩ | ⟨e, he⟩
        · cases hv
        · cases he
      | some st₂ =>
        rw [hg] at h
        obtain ⟨g1, g2⟩ := loadLibraryGraveyard_invariants X.logDebug st₂ P L hg y1 y2
        obtain ⟨_, f2, f3, _, _⟩ := loadLibraryGraveyard_frame X.logDebug st₂ P L hg
        have hst : st' = { st₂ with
            loadedLibraryVector := st₂.loadedLibraryVector ++ [(P, lib)] } := by
          rcases h with ⟨v, hv⟩ | ⟨e, he⟩
          · simp only [Outcome.returned.injEq] at hv
            exact hv.2.symm
          · cases he
        subst hst
        refine ⟨directoryOwnKeys_of st₂ _ (fun _ _ => rfl) (fun _ _ => rfl) (Nat.le_refl _) g1,
          graveyardAllocated_of st₂ _ (fun _ hg => hg) (Nat.le_refl _) g2, ?_, ?_⟩
        · show st₂.currentlyActivePluginLoader = none
          rw [f3]; exact x3.1
        · show st₂.currentlyLoadingLibraryName = ""
          rw [f2]; exact x3.2


/-! ### Unloading keeps the invariants -/

theorem mapFind_filter_ne {β : Type} (l : List (String × β)) (k k₂ : String) :
    mapFind (l.filter (fun e => !decide (e.1 = k))) k₂ = if k₂ = k then none else mapFind l k₂ := by
  induction l with
  | nil => simp [mapFind]
  | cons hd tl ih =>
    obtain ⟨k', v'⟩ := hd
    by_cases h1 : k' = k
    · subst h1
      simp only [List.filter_cons, decide_True, Bool.not_true, Bool.false_eq_true, if_false, ih,
        mapFind]
      by_cases h2 : k₂ = k'
      · simp [h2]
      · have h3 : ¬ k' = k₂ := fun e => h2 e.symm
        simp [h2, h3]
    · simp only [List.filter_cons, h1, decide_False, Bool.not_false, if_true, mapFind, ih]
      by_cases h2 : k' = k₂
      · have h3 : ¬ k₂ = k := fun e => h1 (h2.trans e)
        simp [h2, h3]
      · simp [h2]

theorem StdMap.find_erase {β : Type} (m : StdMap β) (k k₂ : String) :
    (m.erase k).find k₂ = if k₂ = k then none else m.find k₂ :=
  mapFind_filter_ne m.entries k k₂

theorem lookup_eraseFactory (st : Registry) (B B₂ : BaseClassName) (n n₂ : ClassName) :
    lookup (eraseFactory st B n) B₂ n₂ =
      if B₂ = B ∧ n₂ = n then none else lookup st B₂ n₂ := by
  simp only [lookup, factoryMapOf, eraseFactory, StdMap.find_assign]
  by_cases hB : B₂ = B
  · subst hB
    simp only [if_true, true_and, Option.getD_some, StdMap.find_erase]
  · simp [hB]

/-- The loop of `destroyMetaObjectsForLibrary` over one factory map: what it
leaves alone, that it only removes directory entries, and that the graveyard
grows by meta-objects of the entries walked, which are then gone from the
directory. -/
theorem destroyMetaObjectsForLibraryLoop_spec (P : LibraryPath) (B : BaseClassName)
    (L : PluginLoaderPtr) (entries : List (ClassName × MetaObjectPtr)) (st : Registry) :
    (destroyMetaObjectsForLibraryLoop P B L entries st).nextMetaObject = st.nextMetaObject ∧
      (destroyMetaObjectsForLibraryLoop P B L entries st).loadedLibraryVector
        = st.loadedLibraryVector ∧
      (destroyMetaObjectsForLibraryLoop P B L entries st).currentlyLoadingLibraryName
        = st.currentlyLoadingLibraryName ∧
      (destroyMetaObjectsForLibraryLoop P B L entries st).currentlyActivePluginLoader
        = st.currentlyActivePluginLoader ∧
      (destroyMetaObjectsForLibraryLoop P B L entries st).hasANonPurePluginLibraryBeenOpened
        = st.hasANonPurePluginLibraryBeenOpened ∧
      (destroyMetaObjectsForLibraryLoop P B L entries st).sharedLibraries = st.sharedLibraries ∧
      (destroyMetaObjectsForLibraryLoop P B L entries st).deletedMetaObjects
        = st.deletedMetaObjects ∧
      (∀ q, identityOf (destroyMetaObjectsForLibraryLoop P B L entries st) q = identityOf st q) ∧
      (∀ B₂ n₂ p, lookup (destroyMetaObjectsForLibraryLoop P B L entries st) B₂ n₂ = some p →
        lookup st B₂ n₂ = some p) ∧
      (∀ B₂ n₂, B₂ ≠ B → lookup (destroyMetaObjectsForLibraryLoop P B L entries st) B₂ n₂
        = lookup st B₂ n₂) ∧
      ∃ moved, (destroyMetaObjectsForLibraryLoop P B L entries st).graveyard
          = st.graveyard ++ moved ∧
        List.Sublist moved (entries.map Prod.snd) ∧
        ∀ g, g ∈ moved → ∃ n, (n, g) ∈ entries ∧
          lookup (destroyMetaObjectsForLibraryLoop P B L entries st) B n = none := by
  induction entries generalizing st with
  | nil =>
    exact ⟨rfl, rfl, rfl, rfl, rfl, rfl, rfl, fun _ => rfl, fun _ _ _ h => h, fun _ _ _ => rfl,
      [], by simp [destroyMetaObjectsForLibraryLoop], by simp, by simp⟩
  | cons hd tl ih =>
    obtain ⟨n, p⟩ := hd
    simp only [destroyMetaObjectsForLibraryLoop]
    split_ifs with hc ho
    · -- the entry is erased and its meta-object buried
      obtain ⟨i1, i2, i3, i4, i5, i6, i7, i8, i9, i10, moved, i11, i12, i13⟩ :=
        ih (insertMetaObjectIntoGraveyard
          (eraseFactory (removeOwningPluginLoader st p L) B n) p)
      have hlk : ∀ B₂ n₂, lookup (insertMetaObjectIntoGraveyard
          (eraseFactory (removeOwningPluginLoader st p L) B n) p) B₂ n₂
          = if B₂ = B ∧ n₂ = n then none else lookup st B₂ n₂ := by
        intro B₂ n₂
        have e1 : lookup (insertMetaObjectIntoGraveyard
            (eraseFactory (removeOwningPluginLoader st p L) B n) p) B₂ n₂
            = lookup (eraseFactory (removeOwningPluginLoader st p L) B n) B₂ n₂ := rfl
        have e2 := lookup_eraseFactory (removeOwningPluginLoader st p L) B B₂ n n₂
        have e3 : lookup (removeOwningPluginLoader st p L) B₂ n₂ = lookup st B₂ n₂ := rfl
        rw [e1, e2, e3]
      refine ⟨i1, i2, i3, i4, i5, i6, i7, ?_, ?_, ?_, p :: moved, ?_, ?_, ?_⟩
      · intro q
        rw [i8 q]
        simp only [identityOf, insertMetaObjectIntoGraveyard_metaObjects,
          eraseFactory_metaObjects, removeOwningPluginLoader_get]
        split_ifs with hq
        · subst hq; rfl
        · rfl
      · intro B₂ n₂ q hq
        have := i9 B₂ n₂ q hq
        rw [hlk] at this
        split_ifs at this
        exact this
      · intro B₂ n₂ hB
        rw [i10 B₂ n₂ hB, hlk, if_neg (fun h => hB h.1)]
      · rw [i11]
        simp
      · simpa using i12
      · intro g hg
        rcases List.mem_cons.mp hg with rfl | hg'
        · refine ⟨n, List.mem_cons_self _ _, ?_⟩
          cases hfin : lookup (destroyMetaObjectsForLibraryLoop P B L tl
              (insertMetaObjectIntoGraveyard
                (eraseFactory (removeOwningPluginLoader st g L) B n) g)) B n with
          | none => rfl
          | some q =>
            have := i9 B n q hfin
            rw [hlk] at this
            simp at this
        · obtain ⟨n', h1, h2⟩ := i13 g hg'
          exact ⟨n', List.mem_cons_of_mem _ h1, h2⟩
    · -- one owner is removed, the entry stays
      obtain ⟨i1, i2, i3, i4, i5, i6, i7, i8, i9, i10, moved, i11, i12, i13⟩ :=
        ih (removeOwningPluginLoader st p L)
      refine ⟨i1, i2, i3, i4, i5, i6, i7, ?_, ?_, ?_, moved, i11, ?_, ?_⟩
      · intro q
        rw [i8 q]
        simp only [identityOf, removeOwningPluginLoader_get]
        split_ifs with hq
        · subst hq; rfl
        · rfl
      · intro B₂ n₂ q hq
        exact i9 B₂ n₂ q hq
      · intro B₂ n₂ hB
        exact i10 B₂ n₂ hB
      · simpa using List.Sublist.cons p i12
      · intro g hg
        obtain ⟨n', h1, h2⟩ := i13 g hg
        exact ⟨n', List.mem_cons_of_mem _ h1, h2⟩
    · -- the entry is not touched
      obtain ⟨i1, i2, i3, i4, i5, i6, i7, i8, i9, i10, moved, i11, i12, i13⟩ := ih st
      refine ⟨i1, i2, i3, i4, i5, i6, i7, i8, i9, i10, moved, i11, ?_, ?_⟩
      · simpa using List.Sublist.cons p i12
      · intro g hg
        obtain ⟨n', h1, h2⟩ := i13 g hg
        exact ⟨n', List.mem_cons_of_mem _ h1, h2⟩


/-- The walk of `destroyMetaObjectsForLibrary` through the factory maps: what
it leaves alone, that it only removes directory entries, and that the
graveyard grows by meta-objects that were in the directory and are gone from
it. -/
theorem destroyMetaObjectsForLibraryWalk_spec (P : LibraryPath) (L : PluginLoaderPtr)
    (bases : List BaseClassName) (st : Registry) :
    (destroyMetaObjectsForLibraryWalk P L bases st).nextMetaObject = st.nextMetaObject ∧
      (destroyMetaObjectsForLibraryWalk P L bases st).loadedLibraryVector
        = st.loadedLibraryVector ∧
      (destroyMetaObjectsForLibraryWalk P L bases st).currentlyLoadingLibraryName
        = st.currentlyLoadingLibraryName ∧
      (destroyMetaObjectsForLibraryWalk P L bases st).currentlyActivePluginLoader
        = st.currentlyActivePluginLoader ∧
      (destroyMetaObjectsForLibraryWalk P L bases st).hasANonPurePluginLibraryBeenOpened
        = st.hasANonPurePluginLibraryBeenOpened ∧
      (destroyMetaObjectsForLibraryWalk P L bases st).sharedLibraries = st.sharedLibraries ∧
      (destroyMetaObjectsForLibraryWalk P L bases st).deletedMetaObjects
        = st.deletedMetaObjects ∧
      (∀ q, identityOf (destroyMetaObjectsForLibraryWalk P L bases st) q = identityOf st q) ∧
      (∀ B n p, lookup (destroyMetaObjectsForLibraryWalk P L bases st) B n = some p →
        lookup st B n = some p) ∧
      ∃ moved, (destroyMetaObjectsForLibraryWalk P L bases st).graveyard
          = st.graveyard ++ moved ∧
        ∀ g, g ∈ moved → ∃ B n, lookup st B n = some g ∧
          lookup (destroyMetaObjectsForLibraryWalk P L bases st) B n = none := by
  induction bases generalizing st with
  | nil =>
    exact ⟨rfl, rfl, rfl, rfl, rfl, rfl, rfl, fun _ => rfl, fun _ _ _ h => h,
      [], by simp [destroyMetaObjectsForLibraryWalk], by simp⟩
  | cons B rest ih =>
    obtain ⟨l1, l2, l3, l4, l5, l6, l7, l8, l9, _, moved₁, l11, _, l13⟩ :=
      destroyMetaObjectsForLibraryLoop_spec P B L (factoryMapOf st B).entries st
    obtain ⟨w1, w2, w3, w4, w5, w6, w7, w8, w9, moved₂, w10, w11⟩ :=
      ih (destroyMetaObjectsForLibraryIn st P B L)
    simp only [destroyMetaObjectsForLibraryIn] at w1 w2 w3 w4 w5 w6 w7 w8 w9 w10 w11
    simp only [destroyMetaObjectsForLibraryWalk, destroyMetaObjectsForLibraryIn]
    refine ⟨w1.trans l1, w2.trans l2, w3.trans l3, w4.trans l4, w5.trans l5, w6.trans l6,
      w7.trans l7, fun q => (w8 q).trans (l8 q), fun B₂ n p h => l9 B₂ n p (w9 B₂ n p h),
      moved₁ ++ moved₂, ?_, ?_⟩
    · rw [w10, l11, List.append_assoc]
    · intro g hg
      rcases List.mem_append.mp hg with hg | hg
      · obtain ⟨n, h1, h2⟩ := l13 g hg
        refine ⟨B, n, (StdMap.mem_entries_iff _ _ _).mp h1, ?_⟩
        cases hfin : lookup (destroyMetaObjectsForLibraryWalk P L rest
            (destroyMetaObjectsForLibraryLoop P B L (factoryMapOf st B).entries st)) B n with
        | none => rfl
        | some q =>
          have := w9 B n q hfin
          rw [h2] at this
          cases this
      · obtain ⟨B₂, n, h1, h2⟩ := w11 g hg
        exact ⟨B₂, n, l9 B₂ n g h1, h2⟩

/-- What `destroyMetaObjectsForLibrary(library_path, loader)` does to the
invariants. -/
theorem destroyMetaObjectsForLibrary_invariants (st : Registry) (P : LibraryPath)
    (L : PluginLoaderPtr) (h1 : directoryOwnKeys st) (h2 : graveyardAllocated st) :
    directoryOwnKeys (destroyMetaObjectsForLibrary st P L) ∧
      graveyardAllocated (destroyMetaObjectsForLibrary st P L) ∧
      (destroyMetaObjectsForLibrary st P L).currentlyActivePluginLoader
        = st.currentlyActivePluginLoader ∧
      (destroyMetaObjectsForLibrary st P L).currentlyLoadingLibraryName
        = st.currentlyLoadingLibraryName := by
  obtain ⟨w1, _, w3, w4, _, _, _, w8, w9, moved, w10, w11⟩ :=
    destroyMetaObjectsForLibraryWalk_spec P L st.logDebug.factoryMapMap.keys st.logDebug
  refine ⟨?_, ?_, w4, w3⟩
  · intro B n p hp
    have hp' : lookup st B n = some p := w9 B n p hp
    obtain ⟨a1, a2, a3⟩ := h1 B n p hp'
    have hid := w8 p
    simp only [identityOf, Prod.mk.injEq] at hid
    exact ⟨hid.1.trans a1, hid.2.1.trans a2, by
      show p < (destroyMetaObjectsForLibraryWalk P L st.logDebug.factoryMapMap.keys
        st.logDebug).nextMetaObject
      rw [w1]; exact a3⟩
  · intro g hg
    have hg' : g ∈ st.graveyard ++ moved := by
      rw [← show (destroyMetaObjectsForLibraryWalk P L st.logDebug.factoryMapMap.keys
        st.logDebug).graveyard = st.graveyard ++ moved from w10]
      exact hg
    show g < (destroyMetaObjectsForLibraryWalk P L st.logDebug.factoryMapMap.keys
      st.logDebug).nextMetaObject
    rw [w1]
    rcases List.mem_append.mp hg' with hgy | hm
    · exact h2 g hgy
    · obtain ⟨B, n, hl, _⟩ := w11 g hm
      exact (h1 B n g hl).2.2

/-- Every outcome of `unloadLibrary` keeps the invariants. -/
theorem unloadLibrary_invariants (st st' : Registry) (P : LibraryPath) (L : PluginLoaderPtr)
    (r : Bool) (h : (unloadLibrary st P L r).leaves st')
    (h1 : directoryOwnKeys st) (h2 : graveyardAllocated st) (h3 : ambientsCleared st) :
    directoryOwnKeys st' ∧ graveyardAllocated st' ∧ ambientsCleared st' := by
  have key : ∀ (Y Z : Registry), directoryOwnKeys Y → graveyardAllocated Y → ambientsCleared Y →
      Z.factoryMapMap = Y.factoryMapMap → Z.metaObjects = Y.metaObjects →
      Z.nextMetaObject = Y.nextMetaObject → Z.graveyard = Y.graveyard →
      Z.currentlyActivePluginLoader = Y.currentlyActivePluginLoader →
      Z.currentlyLoadingLibraryName = Y.currentlyLoadingLibraryName →
      directoryOwnKeys Z ∧ graveyardAllocated Z ∧ ambientsCleared Z := by
    intro Y Z y1 y2 y3 e1 e2 e3 e4 e5 e6
    exact ⟨directoryOwnKeys_of Y Z (fun B n => lookup_congr _ _ e1 B n)
        (fun q _ => by simp only [identityOf, e2]) (Nat.le_of_eq e3.symm) y1,
      graveyardAllocated_of Y Z (fun g hg => by rw [e4] at hg; exact hg)
        (Nat.le_of_eq e3.symm) y2,
      by rw [ambientsCleared, e5, e6]; exact y3⟩
  have hst : ∀ {o : Outcome Unit}, o.leaves st' → ∀ Z, (o = Outcome.returned () Z ∨
      ∃ e, o = Outcome.thrown e Z) → st' = Z := by
    intro o hl Z hZ
    rcases hl with ⟨v, hv⟩ | ⟨e, he⟩
    · rcases hZ with hZ | ⟨e', hZ⟩
      · rw [hZ] at hv
        simp only [Outcome.returned.injEq] at hv
        exact hv.2.symm
      · rw [hZ] at hv; cases hv
    · rcases hZ with hZ | ⟨e', hZ⟩
      · rw [hZ] at he; cases he
      · rw [hZ] at he
        simp only [Outcome.thrown.injEq] at he
        exact he.2.symm
  simp only [unloadLibrary] at h
  by_cases hflag : st.hasANonPurePluginLibraryBeenOpened = true
  · rw [if_pos hflag] at h
    rw [hst h _ (Or.inl rfl)]
    exact key st _ h1 h2 h3 rfl rfl rfl rfl rfl rfl
  · rw [if_neg hflag] at h
    cases hf : findLoadedLibrary st.logDebug P with
    | none =>
      rw [hf] at h
      dsimp only at h
      rw [hst h _ (Or.inr ⟨_, rfl⟩)]
      exact key st _ h1 h2 h3 rfl rfl rfl rfl rfl rfl
    | some itr =>
      rw [hf] at h
      dsimp only at h
      have hlog := key st st.logDebug h1 h2 h3 rfl rfl rfl rfl rfl rfl
      obtain ⟨d1, d2, d3, d4⟩ := destroyMetaObjectsForLibrary_invariants st.logDebug
        (st.logDebug.loadedLibraryVector.getD itr (P, 0)).1 L hlog.1 hlog.2.1
      have d5 : ambientsCleared (destroyMetaObjectsForLibrary st.logDebug
          (st.logDebug.loadedLibraryVector.getD itr (P, 0)).1 L) := by
        rw [ambientsCleared, d3, d4]; exact hlog.2.2
      split_ifs at h with hc hr
      · rw [hst h _ (Or.inr ⟨_, rfl⟩)]
        exact key _ _ d1 d2 d5 rfl rfl rfl rfl rfl rfl
      · rw [hst h _ (Or.inl rfl)]
        exact key _ _ d1 d2 d5 rfl rfl rfl rfl rfl rfl
      · rw [hst h _ (Or.inl rfl)]
        exact key _ _ d1 d2 d5 rfl rfl rfl rfl rfl rfl


theorem createInstance_invariants (st st' : Registry) (B : BaseClassName) (n : ClassName)
    (L : PluginLoaderPtr) (h : (createInstance st B n L).leaves st')
    (h1 : directoryOwnKeys st) (h2 : graveyardAllocated st) (h3 : ambientsCleared st) :
    directoryOwnKeys st' ∧ graveyardAllocated st' ∧ ambientsCleared st' := by
  have key : ∀ Z : Registry, (∀ B₂ n₂, lookup Z B₂ n₂ = lookup st B₂ n₂) →
      Z.metaObjects = st.metaObjects → Z.nextMetaObject = st.nextMetaObject →
      Z.graveyard = st.graveyard →
      Z.currentlyActivePluginLoader = st.currentlyActivePluginLoader →
      Z.currentlyLoadingLibraryName = st.currentlyLoadingLibraryName →
      directoryOwnKeys Z ∧ graveyardAllocated Z ∧ ambientsCleared Z := by
    intro Z e1 e2 e3 e4 e5 e6
    exact ⟨directoryOwnKeys_of st Z e1 (fun q _ => by simp only [identityOf, e2])
        (Nat.le_of_eq e3.symm) h1,
      graveyardAllocated_of st Z (fun g hg => by rw [e4] at hg; exact hg)
        (Nat.le_of_eq e3.symm) h2,
      by rw [ambientsCleared, e5, e6]; exact h3⟩
  have hk : ∀ Z : Registry, (Z = (getFactoryMapForBaseClass st B).logError ∨
      Z = (getFactoryMapForBaseClass st B).logDebug ∨
      Z = (getFactoryMapForBaseClass st B).logDebug.logDebug ∨
      Z = getFactoryMapForBaseClass st B) →
      directoryOwnKeys Z ∧ graveyardAllocated Z ∧ ambientsCleared Z := by
    intro Z hZ
    rcases hZ with rfl | rfl | rfl | rfl <;>
      exact key _ (fun B₂ n₂ => lookup_getFactoryMapForBaseClass st B B₂ n₂)
        (by simp) (by simp) (by simp) (by simp) (by simp)
  rw [createInstance_eq] at h
  apply hk
  rcases h with ⟨v, hv⟩ | ⟨e, he⟩
  · split at hv
    · cases hv
    · split_ifs at hv <;> simp only [Outcome.returned.injEq] at hv <;> simp [← hv.2]
  · split at he
    · simp only [Outcome.thrown.injEq] at he
      simp [← he.2]
    · split_ifs at he <;> simp only [Outcome.thrown.injEq] at he <;> simp [← he.2]

/-- In every reachable registry each directory entry sits at the key of its
meta-object, directory and graveyard hold allocated meta-objects only, and the
ambients are clear. -/
theorem reachable_invariants (st : Registry) (h : Reachable st) :
    directoryOwnKeys st ∧ graveyardAllocated st ∧ ambientsCleared st := by
  induction h with
  | initial =>
    refine ⟨?_, ?_, rfl, rfl⟩
    · intro B n p hp
      simp [lookup, factoryMapOf, Registry.initial] at hp
    · intro g hg
      simp [Registry.initial] at hg
  | registerPlugin B cn bn _ ih =>
    refine ⟨directoryOwnKeys_registerPlugin _ B cn bn ih.1,
      graveyardAllocated_registerPlugin _ B cn bn ih.2.1, ?_, ?_⟩
    · rw [registerPlugin_currentlyActivePluginLoader]; exact ih.2.2.1
    · rw [registerPlugin_currentlyLoadingLibraryName]; exact ih.2.2.2
  | loadLibrary P L os _ hl ih =>
    exact loadLibrary_invariants _ _ P L os hl ih.1 ih.2.1 ih.2.2
  | unloadLibrary P L r _ hl ih =>
    exact unloadLibrary_invariants _ _ P L r hl ih.1 ih.2.1 ih.2.2
  | createInstance B n L _ hl ih =>
    exact createInstance_invariants _ _ B n L hl ih.1 ih.2.1 ih.2.2
  | @getAvailableClasses st B L _ ih =>
    rw [getAvailableClasses_snd]
    exact ⟨directoryOwnKeys_of st _ (fun B₂ n₂ => lookup_getFactoryMapForBaseClass st B B₂ n₂)
        (fun q _ => by simp [identityOf]) (by simp) ih.1,
      graveyardAllocated_of st _ (fun g hg => by simpa using hg) (by simp) ih.2.1,
      by simpa [ambientsCleared] using ih.2.2⟩

/-- Every reachable registry is well typed: the `dynamic_cast` of
`createInstance` succeeds on every directory entry. -/
theorem reachable_directoryWellTyped (st : Registry) (h : Reachable st) :
    directoryWellTyped st = true :=
  directoryWellTyped_of_ownKeys st (reachable_invariants st h).1


theorem entries_nodup {β : Type} (m : StdMap β) : m.entries.Nodup := by
  have h := m.ordered
  unfold List.Nodup
  refine List.Pairwise.imp ?_ h
  intro a b hab heq
  rw [heq] at hab
  exact keyLt_irrefl b.1 hab

/-- Where every directory entry sits at the key of its meta-object, no
meta-object is held twice by the directory. -/
theorem allMetaObjects_nodup_of_ownKeys (st : Registry) (h : directoryOwnKeys st) :
    (allMetaObjects st).Nodup := by
  simp only [allMetaObjects, allMetaObjectsOf]
  rw [List.nodup_flatten]
  constructor
  · intro l hl
    obtain ⟨it, hit, rfl⟩ := List.mem_map.mp hl
    apply List.Nodup.map_on _ (entries_nodup it.2)
    intro x hx y hy hxy
    have h1 := (h it.1 x.1 x.2 (lookup_of_mem_entries st it.1 it.2 x.1 x.2 hit hx)).2.1
    have h2 := (h it.1 y.1 y.2 (lookup_of_mem_entries st it.1 it.2 y.1 y.2 hit hy)).2.1
    rw [hxy] at h1
    exact Prod.ext (h1.symm.trans h2) hxy
  · rw [List.pairwise_map]
    refine List.Pairwise.imp_of_mem ?_ st.factoryMapMap.ordered
    intro a b ha hb hab
    rw [List.disjoint_left]
    intro p hpa hpb
    obtain ⟨x, hx, hxp⟩ := List.mem_map.mp hpa
    obtain ⟨y, hy, hyp⟩ := List.mem_map.mp hpb
    have h1 := (h a.1 x.1 x.2 (lookup_of_mem_entries st a.1 a.2 x.1 x.2 ha hx)).1
    have h2 := (h b.1 y.1 y.2 (lookup_of_mem_entries st b.1 b.2 y.1 y.2 hb hy)).1
    rw [hxp] at h1
    rw [hyp] at h2
    rw [← h1, ← h2] at hab
    exact keyLt_irrefl _ hab

/-- In every reachable registry the directory holds each meta-object once, and
so each meta-object of a library once. -/
theorem reachable_allMetaObjectsForLibrary_nodup (st : Registry) (h : Reachable st)
    (P : LibraryPath) : (allMetaObjectsForLibrary st P).Nodup := by
  simp only [allMetaObjectsForLibrary, filterAllMetaObjectsAssociatedWithLibrary]
  exact List.Nodup.filter _ (allMetaObjects_nodup_of_ownKeys st (reachable_invariants st h).1)


/-! ### The graveyard holds distinct identities -/

theorem graveyardIdentitiesDistinct_of (st st' : Registry)
    (hg : List.Sublist st'.graveyard st.graveyard)
    (hid : ∀ g, g ∈ st.graveyard → identityOf st' g = identityOf st g)
    (h : graveyardIdentitiesDistinct st) : graveyardIdentitiesDistinct st' := by
  unfold graveyardIdentitiesDistinct at h ⊢
  have e : st'.graveyard.map (identityOf st') = st'.graveyard.map (identityOf st) :=
    List.map_congr_left (fun g hg' => hid g (hg.subset hg'))
  rw [e]
  exact List.Nodup.sublist (List.Sublist.map _ hg) h

theorem graveyardApartFromDirectory_of (st st' : Registry)
    (hflag : st'.hasANonPurePluginLibraryBeenOpened = false →
      st.hasANonPurePluginLibraryBeenOpened = false)
    (hg : ∀ g, g ∈ st'.graveyard → g ∈ st.graveyard)
    (hid : ∀ g, g ∈ st.graveyard → identityOf st' g = identityOf st g)
    (hdir : ∀ B n p, lookup st' B n = some p →
      (lookup st B n = some p ∧ identityOf st' p = identityOf st p) ∨
      (∀ g, g ∈ st'.graveyard → identityOf st' g ≠ identityOf st' p))
    (h : graveyardApartFromDirectory st) : graveyardApartFromDirectory st' := by
  intro hf g hgm B n p hp
  rcases hdir B n p hp with ⟨h1, h2⟩ | h1
  · rw [hid g (hg g hgm), h2]
    exact h (hflag hf) g (hg g hgm) B n p h1
  · exact h1 g hgm

theorem factoryMapOf_eraseFactory (st : Registry) (B B₂ : BaseClassName) (n : ClassName) :
    factoryMapOf (eraseFactory st B n) B₂ =
      if B₂ = B then (factoryMapOf st B).erase n else factoryMapOf st B₂ := by
  simp only [factoryMapOf, eraseFactory, StdMap.find_assign]
  split_ifs <;> rfl

theorem destroyMetaObjectsForLibraryLoop_factoryMapOf (P : LibraryPath) (B B₂ : BaseClassName)
    (L : PluginLoaderPtr) (entries : List (ClassName × MetaObjectPtr)) (st : Registry)
    (hne : B₂ ≠ B) :
    factoryMapOf (destroyMetaObjectsForLibraryLoop P B L entries st) B₂ = factoryMapOf st B₂ := by
  induction entries generalizing st with
  | nil => rfl
  | cons hd tl ih =>
    obtain ⟨n, p⟩ := hd
    simp only [destroyMetaObjectsForLibraryLoop]
    split_ifs with hc ho
    · rw [ih]
      have e1 : factoryMapOf (insertMetaObjectIntoGraveyard
          (eraseFactory (removeOwningPluginLoader st p L) B n) p) B₂
          = factoryMapOf (eraseFactory (removeOwningPluginLoader st p L) B n) B₂ := rfl
      rw [e1, factoryMapOf_eraseFactory, if_neg hne]
      rfl
    · rw [ih]
      rfl
    · exact ih st

/-- The meta-objects the walk of `destroyMetaObjectsForLibrary` buries are some
of those of the factory maps walked, each taken at most once, in order. -/
theorem destroyMetaObjectsForLibraryWalk_sublist (P : LibraryPath) (L : PluginLoaderPtr)
    (bases : List BaseClassName) (hb : bases.Nodup) (st : Registry) :
    ∃ moved, (destroyMetaObjectsForLibraryWalk P L bases st).graveyard
        = st.graveyard ++ moved ∧
      List.Sublist moved
        (bases.map (fun B => (factoryMapOf st B).entries.map Prod.snd)).flatten := by
  induction bases generalizing st with
  | nil => exact ⟨[], by simp [destroyMetaObjectsForLibraryWalk], by simp⟩
  | cons B rest ih =>
    rw [List.nodup_cons] at hb
    obtain ⟨_, _, _, _, _, _, _, _, _, _, moved₁, l11, l12, _⟩ :=
      destroyMetaObjectsForLibraryLoop_spec P B L (factoryMapOf st B).entries st
    obtain ⟨moved₂, w1, w2⟩ := ih hb.2 (destroyMetaObjectsForLibraryIn st P B L)
    simp only [destroyMetaObjectsForLibraryIn] at w1 w2
    have hsame : rest.map (fun B₂ => (factoryMapOf
        (destroyMetaObjectsForLibraryLoop P B L (factoryMapOf st B).entries st) B₂).entries.map
          Prod.snd)
        = rest.map (fun B₂ => (factoryMapOf st B₂).entries.map Prod.snd) := by
      apply List.map_congr_left
      intro B₂ hB₂
      rw [destroyMetaObjectsForLibraryLoop_factoryMapOf P B B₂ L _ st
        (fun e => hb.1 (e ▸ hB₂))]
    rw [hsame] at w2
    refine ⟨moved₁ ++ moved₂, ?_, ?_⟩
    · simp only [destroyMetaObjectsForLibraryWalk, destroyMetaObjectsForLibraryIn]
      rw [w1, l11, List.append_assoc]
    · simp only [List.map_cons, List.flatten_cons]
      exact List.Sublist.append l12 w2

theorem keys_nodup {β : Type} (m : StdMap β) : m.keys.Nodup := by
  have h := m.ordered
  unfold StdMap.keys List.Nodup
  rw [List.pairwise_map]
  refine List.Pairwise.imp ?_ h
  intro a b hab heq
  rw [heq] at hab
  exact keyLt_irrefl b.1 hab

theorem flatten_keys_eq_allMetaObjects (st : Registry) :
    (st.factoryMapMap.keys.map (fun B => (factoryMapOf st B).entries.map Prod.snd)).flatten
      = allMetaObjects st := by
  simp only [allMetaObjects, allMetaObjectsOf, StdMap.keys, List.map_map]
  congr 1
  apply List.map_congr_left
  intro it hit
  have hf : st.factoryMapMap.find it.1 = some it.2 := (StdMap.mem_entries_iff _ _ _).mp hit
  simp [factoryMapOf, hf]


theorem identityOf_eq_of_lookup (st : Registry) (h : directoryOwnKeys st) (B : BaseClassName)
    (n : ClassName) (p : MetaObjectPtr) (hp : lookup st B n = some p) :
    identityOf st p = (B, n, (st.metaObjects p).associated_library_path) := by
  obtain ⟨h1, h2, _⟩ := h B n p hp
  simp only [identityOf, h1, h2]

/-- The walk of `destroyMetaObjectsForLibrary` keeps the graveyard invariants,
when no non-pure library has been opened. -/
theorem destroyMetaObjectsForLibraryWalk_graveyard (st : Registry) (P : LibraryPath)
    (L : PluginLoaderPtr) (hA : directoryOwnKeys st)
    (hC : graveyardIdentitiesDistinct st) (hD : graveyardApartFromDirectory st)
    (hflag : st.hasANonPurePluginLibraryBeenOpened = false) :
    graveyardIdentitiesDistinct
        (destroyMetaObjectsForLibraryWalk P L st.factoryMapMap.keys st) ∧
      graveyardApartFromDirectory
        (destroyMetaObjectsForLibraryWalk P L st.factoryMapMap.keys st) := by
  obtain ⟨_, _, _, _, w5, _, _, w8, w9, moved, w10, w11⟩ :=
    destroyMetaObjectsForLibraryWalk_spec P L st.factoryMapMap.keys st
  obtain ⟨moved', s1, s2⟩ :=
    destroyMetaObjectsForLibraryWalk_sublist P L st.factoryMapMap.keys
      (keys_nodup st.factoryMapMap) st
  have hmm : moved' = moved := List.append_cancel_left (s1.symm.trans w10)
  subst hmm
  rw [flatten_keys_eq_allMetaObjects] at s2
  have hnd : moved'.Nodup := List.Nodup.sublist s2 (allMetaObjects_nodup_of_ownKeys st hA)
  have hidm : ∀ m, m ∈ moved' → ∃ B n, lookup st B n = some m ∧
      lookup (destroyMetaObjectsForLibraryWalk P L st.factoryMapMap.keys st) B n = none ∧
      identityOf st m = (B, n, (st.metaObjects m).associated_library_path) := by
    intro m hm
    obtain ⟨B, n, h1, h2⟩ := w11 m hm
    exact ⟨B, n, h1, h2, identityOf_eq_of_lookup st hA B n m h1⟩
  constructor
  · unfold graveyardIdentitiesDistinct
    rw [w10]
    have e : (st.graveyard ++ moved').map
        (identityOf (destroyMetaObjectsForLibraryWalk P L st.factoryMapMap.keys st))
        = (st.graveyard ++ moved').map (identityOf st) :=
      List.map_congr_left (fun g _ => w8 g)
    rw [e, List.map_append, List.nodup_append]
    refine ⟨hC, ?_, ?_⟩
    · apply List.Nodup.map_on _ hnd
      intro x hx y hy hxy
      obtain ⟨Bx, nx, x1, _, x3⟩ := hidm x hx
      obtain ⟨By, ny, y1, _, y3⟩ := hidm y hy
      rw [x3, y3] at hxy
      simp only [Prod.mk.injEq] at hxy
      rw [hxy.1, hxy.2.1] at x1
      rw [x1] at y1
      exact Option.some.inj y1
    · rw [List.disjoint_left]
      intro i hi1 hi2
      obtain ⟨g, hg, rfl⟩ := List.mem_map.mp hi1
      obtain ⟨m, hm, hmg⟩ := List.mem_map.mp hi2
      obtain ⟨B, n, h1, _, _⟩ := hidm m hm
      exact hD hflag g hg B n m h1 hmg.symm
  · intro _ g hg B n p hp
    rw [w10] at hg
    have hp' : lookup st B n = some p := w9 B n p hp
    rw [w8 g, w8 p]
    rcases List.mem_append.mp hg with hgy | hm
    · exact hD hflag g hgy B n p hp'
    · obtain ⟨Bg, ng, _, g2, g3⟩ := hidm g hm
      rw [g3, identityOf_eq_of_lookup st hA B n p hp']
      intro heq
      simp only [Prod.mk.injEq] at heq
      rw [heq.1, heq.2.1] at g2
      rw [g2] at hp
      cases hp

/-- Every outcome of `unloadLibrary` keeps the graveyard invariants. -/
theorem unloadLibrary_graveyard_invariants (st st' : Registry) (P : LibraryPath)
    (L : PluginLoaderPtr) (r : Bool) (h : (unloadLibrary st P L r).leaves st')
    (hA : directoryOwnKeys st)
    (hC : graveyardIdentitiesDistinct st) (hD : graveyardApartFromDirectory st) :
    graveyardIdentitiesDistinct st' ∧ graveyardApartFromDirectory st' := by
  have key : ∀ (Y Z : Registry), graveyardIdentitiesDistinct Y → graveyardApartFromDirectory Y →
      Z.factoryMapMap = Y.factoryMapMap → Z.metaObjects = Y.metaObjects →
      Z.graveyard = Y.graveyard →
      Z.hasANonPurePluginLibraryBeenOpened = Y.hasANonPurePluginLibraryBeenOpened →
      graveyardIdentitiesDistinct Z ∧ graveyardApartFromDirectory Z := by
    intro Y Z y1 y2 e1 e2 e3 e4
    have hid : ∀ q, identityOf Z q = identityOf Y q := fun q => by simp only [identityOf, e2]
    exact ⟨graveyardIdentitiesDistinct_of Y Z (by rw [e3]) (fun g _ => hid g) y1,
      graveyardApartFromDirectory_of Y Z (fun hf => by rw [← e4]; exact hf)
        (fun g hg => by rw [e3] at hg; exact hg) (fun g _ => hid g)
        (fun B n p hp => Or.inl ⟨by rw [← lookup_congr Z Y e1]; exact hp, hid p⟩) y2⟩
  have hst : ∀ {o : Outcome Unit}, o.leaves st' → ∀ Z, (o = Outcome.returned () Z ∨
      ∃ e, o = Outcome.thrown e Z) → st' = Z := by
    intro o hl Z hZ
    rcases hl with ⟨v, hv⟩ | ⟨e, he⟩
    · rcases hZ with hZ | ⟨e', hZ⟩
      · rw [hZ] at hv
        simp only [Outcome.returned.injEq] at hv
        exact hv.2.symm
      · rw [hZ] at hv; cases hv
    · rcases hZ with hZ | ⟨e', hZ⟩
      · rw [hZ] at he; cases he
      · rw [hZ] at he
        simp only [Outcome.thrown.injEq] at he
        exact he.2.symm
  simp only [unloadLibrary] at h
  by_cases hflag : st.hasANonPurePluginLibraryBeenOpened = true
  · rw [if_pos hflag] at h
    rw [hst h _ (Or.inl rfl)]
    exact key st _ hC hD rfl rfl rfl rfl
  · rw [if_neg hflag] at h
    have hflag' : st.hasANonPurePluginLibraryBeenOpened = false := by
      simpa using hflag
    cases hf : findLoadedLibrary st.logDebug P with
    | none =>
      rw [hf] at h
      dsimp only at h
      rw [hst h _ (Or.inr ⟨_, rfl⟩)]
      exact key st _ hC hD rfl rfl rfl rfl
    | some itr =>
      rw [hf] at h
      dsimp only at h
      have hlog := key st st.logDebug.logDebug hC hD rfl rfl rfl rfl
      have hAlog : directoryOwnKeys st.logDebug.logDebug :=
        directoryOwnKeys_of st _ (fun _ _ => rfl) (fun _ _ => rfl) (Nat.le_refl _) hA
      obtain ⟨d1, d2⟩ := destroyMetaObjectsForLibraryWalk_graveyard st.logDebug.logDebug
        (st.logDebug.loadedLibraryVector.getD itr (P, 0)).1 L hAlog hlog.1 hlog.2 hflag'
      have d3 := key _ (destroyMetaObjectsForLibrary st.logDebug
        (st.logDebug.loadedLibraryVector.getD itr (P, 0)).1 L) d1 d2 rfl rfl rfl rfl
      split_ifs at h with hc hr
      · rw [hst h _ (Or.inr ⟨_, rfl⟩)]
        exact key _ _ d3.1 d3.2 rfl rfl rfl rfl
      · rw [hst h _ (Or.inl rfl)]
        exact key _ _ d3.1 d3.2 rfl rfl rfl rfl
      · rw [hst h _ (Or.inl rfl)]
        exact key _ _ d3.1 d3.2 rfl rfl rfl rfl


theorem runInitialisers_lookup (regs : List Registration) (st : Registry) (B : BaseClassName)
    (n : ClassName) (p : Nat) (h : lookup (runInitialisers regs st) B n = some p) :
    lookup st B n = some p ∨
      (st.nextMetaObject ≤ p ∧ p < st.nextMetaObject + regs.length) := by
  induction regs generalizing st with
  | nil => exact Or.inl h
  | cons r rest ih =>
    simp only [runInitialisers] at h
    rcases ih _ h with h1 | ⟨h1, h2⟩
    · rw [lookup_registerPlugin] at h1
      split_ifs at h1 with hk
      · simp only [Option.some.injEq] at h1
        right
        simp only [List.length_cons]
        omega
      · exact Or.inl h1
    · rw [registerPlugin_nextMetaObject] at h1 h2
      right
      simp only [List.length_cons]
      omega

theorem runInitialisers_flag (regs : List Registration) (st : Registry)
    (h : (runInitialisers regs st).hasANonPurePluginLibraryBeenOpened = false) :
    st.hasANonPurePluginLibraryBeenOpened = false := by
  induction regs generalizing st with
  | nil => exact h
  | cons r rest ih =>
    have := ih _ h
    rw [registerPlugin_flag] at this
    simp only [Bool.or_eq_false_iff] at this
    exact this.1

/-- More on the registry after a successful open: where the directory entries
come from, and the flag. -/
theorem afterOpen_loaded_directory (st X : Registry) (P : LibraryPath) (L : PluginLoaderPtr)
    (hm : Nat) (regs : List Registration) (lib : SharedLibraryPtr)
    (hX : afterOpen st P L (LoadLibraryA.loaded hm regs) = Outcome.returned lib X) :
    (∀ B n (p : Nat), lookup X B n = some p → lookup st B n = some p ∨
        (st.nextMetaObject ≤ p ∧ p < st.nextMetaObject + regs.length)) ∧
      (X.hasANonPurePluginLibraryBeenOpened = false →
        st.hasANonPurePluginLibraryBeenOpened = false) := by
  simp only [afterOpen, newSharedLibrary, Outcome.returned.injEq] at hX
  obtain ⟨_, hX⟩ := hX
  subst hX
  constructor
  · intro B n p hp
    exact runInitialisers_lookup regs
      (setCurrentlyLoadingLibraryName (setCurrentlyActivePluginLoader st L) P) B n p hp
  · intro hf
    exact runInitialisers_flag regs
      (setCurrentlyLoadingLibraryName (setCurrentlyActivePluginLoader st L) P) hf

/-- Where the directory entries come from after a completed revive loop,
whatever the loader. -/
theorem reviveLoop_directory (P : LibraryPath) (L : PluginLoaderPtr) (gs : MetaObjectVector)
    (st st' : Registry) (h : reviveLoop P L gs st = some st') :
    st'.hasANonPurePluginLibraryBeenOpened = st.hasANonPurePluginLibraryBeenOpened ∧
      (∀ q, identityOf st' q = identityOf st q) ∧
      (∀ B n p, lookup st' B n = some p → lookup st B n = some p ∨
        (st.metaObjects p).associated_library_path = P) := by
  cases L with
  | none =>
    rw [reviveLoop_null P gs st st' h]
    exact ⟨rfl, fun _ => rfl, fun _ _ _ hp => Or.inl hp⟩
  | some l =>
    obtain ⟨st'', h', _, _, _, _, r5, _, _, _, _, _, r11, r12⟩ := reviveLoop_some P l gs st
    rw [h] at h'
    cases h'
    refine ⟨r5, fun q => by simp only [identityOf, r11 q], ?_⟩
    intro B n p hp
    rw [r12] at hp
    cases hf : gs.reverse.find? (revivedAt st P B n) with
    | none =>
      rw [hf] at hp
      exact Or.inl hp
    | some g =>
      rw [hf] at hp
      simp only [Option.or_some, Option.some.injEq] at hp
      subst hp
      have hg := List.find?_some hf
      simp only [revivedAt, Bool.and_eq_true, decide_eq_true_eq] at hg
      exact Or.inr hg.1


theorem identityOf_ne_of_path (st : Registry) (g p : MetaObjectPtr)
    (h : (st.metaObjects g).associated_library_path
      ≠ (st.metaObjects p).associated_library_path) :
    identityOf st g ≠ identityOf st p := by
  intro heq
  simp only [identityOf, Prod.mk.injEq] at heq
  exact h heq.2.2

/-- The graveyard invariants after the graveyard scenario of `loadLibrary`,
from those before the open. -/
theorem loadLibraryGraveyard_graveyard_invariants (st X st₂ : Registry) (P : LibraryPath)
    (L : PluginLoaderPtr) (hm : Nat) (regs : List Registration) (lib : SharedLibraryPtr)
    (hX : afterOpen st P L (LoadLibraryA.loaded hm regs) = Outcome.returned lib X)
    (hg : loadLibraryGraveyard X.logDebug P L = some st₂)
    (hA : directoryOwnKeys st) (hB : graveyardAllocated st)
    (hC : graveyardIdentitiesDistinct st) (hD : graveyardApartFromDirectory st) :
    graveyardIdentitiesDistinct st₂ ∧ graveyardApartFromDirectory st₂ := by
  obtain ⟨X', hX', x1, _, _, _, _, _, _, x8, x9, x10, x11⟩ := afterOpen_loaded st P L hm regs
  rw [hX] at hX'
  simp only [Outcome.returned.injEq] at hX'
  obtain ⟨_, hXX⟩ := hX'
  subst hXX
  obtain ⟨x12, x13⟩ := afterOpen_loaded_directory st X P L hm regs lib hX
  have hidX : ∀ q : Nat, q < st.nextMetaObject → identityOf X q = identityOf st q := by
    intro q hq
    simp only [identityOf, x8 q hq]
  simp only [loadLibraryGraveyard, List.length_eq_zero] at hg
  by_cases hz : allMetaObjectsForLibrary X.logDebug P = []
  · -- no registration: revive, then purge without deletion
    rw [if_pos hz] at hg
    have hz' : allMetaObjectsForLibrary X P = [] := by
      rw [← allMetaObjectsForLibrary_congr X.logDebug X rfl rfl P]; exact hz
    have hregs : regs = [] := by
      by_contra hne
      exact x10 hne hz'
    obtain ⟨hXm, hXf⟩ := x11 hregs
    simp only [revivePreviouslyCreateMetaobjectsFromGraveyard] at hg
    cases hr : reviveLoop P L X.logDebug.logDebug.graveyard X.logDebug.logDebug with
    | none => rw [hr] at hg; simp at hg
    | some st₁ =>
      rw [hr] at hg
      dsimp only at hg
      obtain ⟨r1, _, _, _, _, _, _⟩ := reviveLoop_frame P L _ _ st₁ hr
      obtain ⟨r8, r9, r10⟩ := reviveLoop_directory P L _ _ st₁ hr
      obtain ⟨p1, p2, p3, _, _, _, p7, _, _, _, _, _⟩ :=
        purgeGraveyardOfMetaobjects_spec st₁ st₂ P L false hg
      have hid : ∀ q, identityOf st₂ q = identityOf st q := by
        intro q
        have e1 : identityOf st₂ q = identityOf st₁ q := by simp only [identityOf, p2]
        have e2 : identityOf X.logDebug.logDebug q = identityOf st q := by
          show identityOf X q = identityOf st q
          simp only [identityOf, hXm]
        rw [e1, r9 q, e2]
      have hgy : st₂.graveyard = st.graveyard.filter
          (fun g => !decide ((st₁.metaObjects g).associated_library_path = P)) := by
        rw [p1, r1]
        show List.filter _ X.graveyard = _
        rw [x1]
      constructor
      · exact graveyardIdentitiesDistinct_of st st₂ (by rw [hgy]; exact List.filter_sublist _)
          (fun g _ => hid g) hC
      · apply graveyardApartFromDirectory_of st st₂ _ _ (fun g _ => hid g) _ hD
        · intro hf
          rw [p7, r8] at hf
          exact x13 hf
        · intro g hg'
          rw [hgy] at hg'
          exact (List.mem_filter.mp hg').1
        · intro B n p hp
          rw [lookup_congr st₂ st₁ p3] at hp
          rcases r10 B n p hp with h1 | h1
          · left
            exact ⟨by rw [← lookup_congr X.logDebug.logDebug st hXf]; exact h1, hid p⟩
          · right
            intro g hg'
            rw [hgy] at hg'
            have hgp := (List.mem_filter.mp hg').2
            simp only [Bool.not_eq_true', decide_eq_false_iff_not] at hgp
            apply identityOf_ne_of_path
            have e1 : (st₂.metaObjects g).associated_library_path
                = (st₁.metaObjects g).associated_library_path := by rw [p2]
            have e2 : (st₂.metaObjects p).associated_library_path
                = (X.logDebug.logDebug.metaObjects p).associated_library_path := by
              have := hid p
              have h3 := r9 p
              simp only [identityOf, Prod.mk.injEq] at h3
              rw [p2]
              exact h3.2.2
            rw [e1, e2, h1]
            exact hgp
  · -- fresh registrations: purge with deletion
    rw [if_neg hz] at hg
    obtain ⟨p1, p2, p3, _, _, _, p7, _, _, _, _, _⟩ :=
      purgeGraveyardOfMetaobjects_spec X.logDebug.logDebug st₂ P L true hg
    have hgy : st₂.graveyard = st.graveyard.filter
        (fun g => !decide ((X.metaObjects g).associated_library_path = P)) := by
      rw [p1]
      show List.filter _ X.graveyard = _
      rw [x1]
      rfl
    have hidg : ∀ g, g ∈ st.graveyard → identityOf st₂ g = identityOf st g := by
      intro g hg'
      have e1 : identityOf st₂ g = identityOf X g := by
        simp only [identityOf, p2]
        rfl
      rw [e1]
      exact hidX g (hB g hg')
    constructor
    · exact graveyardIdentitiesDistinct_of st st₂ (by rw [hgy]; exact List.filter_sublist _)
        hidg hC
    · apply graveyardApartFromDirectory_of st st₂ _ _ hidg _ hD
      · intro hf
        rw [p7] at hf
        exact x13 hf
      · intro g hg'
        rw [hgy] at hg'
        exact (List.mem_filter.mp hg').1
      · intro B n p hp
        have hp' : lookup X B n = some p := by
          rw [← lookup_congr st₂ X p3]; exact hp
        rcases x12 B n p hp' with h1 | ⟨h1, h2⟩
        · left
          refine ⟨h1, ?_⟩
          have e1 : identityOf st₂ p = identityOf X p := by
            simp only [identityOf, p2]
            rfl
          rw [e1]
          exact hidX p (hA B n p h1).2.2
        · right
          intro g hg'
          rw [hgy] at hg'
          have hgp := (List.mem_filter.mp hg').2
          simp only [Bool.not_eq_true', decide_eq_false_iff_not] at hgp
          apply identityOf_ne_of_path
          have e1 : (st₂.metaObjects g).associated_library_path
              = (X.metaObjects g).associated_library_path := by rw [p2]; rfl
          have e2 : (st₂.metaObjects p).associated_library_path
              = (X.metaObjects p).associated_library_path := by rw [p2]; rfl
          rw [e1, e2, (x9 p h1 h2).1]
          exact hgp


theorem graveyard_invariants_transfer (Y Z : Registry)
    (y1 : graveyardIdentitiesDistinct Y) (y2 : graveyardApartFromDirectory Y)
    (e1 : Z.factoryMapMap = Y.factoryMapMap) (e2 : ∀ q, identityOf Z q = identityOf Y q)
    (e3 : Z.graveyard = Y.graveyard)
    (e4 : Z.hasANonPurePluginLibraryBeenOpened = Y.hasANonPurePluginLibraryBeenOpened) :
    graveyardIdentitiesDistinct Z ∧ graveyardApartFromDirectory Z :=
  ⟨graveyardIdentitiesDistinct_of Y Z (by rw [e3]) (fun g _ => e2 g) y1,
    graveyardApartFromDirectory_of Y Z (fun hf => by rw [← e4]; exact hf)
      (fun g hg => by rw [e3] at hg; exact hg) (fun g _ => e2 g)
      (fun B n p hp => Or.inl ⟨by rw [← lookup_congr Z Y e1]; exact hp, e2 p⟩) y2⟩

/-- Every outcome of `loadLibrary` keeps the graveyard invariants. -/
theorem loadLibrary_graveyard_invariants (st st' : Registry) (P : LibraryPath)
    (L : PluginLoaderPtr) (os : LoadLibraryA) (h : (loadLibrary st P L os).leaves st')
    (hA : directoryOwnKeys st) (hB : graveyardAllocated st)
    (hC : graveyardIdentitiesDistinct st) (hD : graveyardApartFromDirectory st) :
    graveyardIdentitiesDistinct st' ∧ graveyardApartFromDirectory st' := by
  have hlogA : directoryOwnKeys st.logDebug :=
    directoryOwnKeys_of st _ (fun _ _ => rfl) (fun _ _ => rfl) (Nat.le_refl _) hA
  have hlogB : graveyardAllocated st.logDebug :=
    graveyardAllocated_of st _ (fun _ hg => hg) (Nat.le_refl _) hB
  have hlog := graveyard_invariants_transfer st st.logDebug hC hD rfl (fun _ => rfl) rfl rfl
  simp only [loadLibrary] at h
  by_cases hopen : isLibraryLoadedByAnybody st.logDebug P = true
  · rw [if_pos hopen] at h
    simp only [addPluginLoaderOwnerForAllExistingMetaObjectsForLibrary] at h
    cases hl : addPluginLoaderOwnerLoop L (allMetaObjectsForLibrary st.logDebug.logDebug P)
        st.logDebug.logDebug with
    | none =>
      rw [hl] at h
      rcases h with ⟨v, hv⟩ | ⟨e, he⟩
      · cases hv
      · cases he
    | some st₂ =>
      rw [hl] at h
      obtain ⟨f1, f2, _, _, _, f6, f7⟩ := addPluginLoaderOwnerLoop_frame L _ _ st₂ hl
      have hst : st' = st₂ := by
        rcases h with ⟨v, hv⟩ | ⟨e, he⟩
        · simp only [Outcome.returned.injEq] at hv
          exact hv.2.symm
        · cases he
      subst hst
      exact graveyard_invariants_transfer st st' hC hD f1 f7 f2 f6
  · rw [if_neg hopen] at h
    cases ha : afterOpen st.logDebug P L os with
    | nullDereference =>
      rw [ha] at h
      dsimp only at h
      rcases h with ⟨v, hv⟩ | ⟨e, he⟩
      · cases hv
      · cases he
    | thrown e X =>
      rw [ha] at h
      dsimp only at h
      have hst : st' = X := by
        rcases h with ⟨v, hv⟩ | ⟨e', he⟩
        · cases hv
        · simp only [Outcome.thrown.injEq] at he
          exact he.2.symm
      subst hst
      cases os with
      | loaded hm regs => simp [afterOpen, newSharedLibrary] at ha
      | failed =>
        simp only [afterOpen, newSharedLibrary, Outcome.thrown.injEq] at ha
        obtain ⟨_, ha⟩ := ha
        refine graveyard_invariants_transfer st.logDebug st' hlog.1 hlog.2 ?_ ?_ ?_ ?_
        · rw [← ha]; rfl
        · intro q; rw [← ha]; rfl
        · rw [← ha]; rfl
        · rw [← ha]; rfl
    | returned lib X =>
      rw [ha] at h
      dsimp only at h
      cases os with
      | failed => simp [afterOpen, newSharedLibrary] at ha
      | loaded hm regs =>
        cases hg : loadLibraryGraveyard X.logDebug P L with
        | none =>
          rw [hg] at h
          rcases h with ⟨v, hv⟩ | ⟨e, he⟩
          · cases hv
          · cases he
        | some st₂ =>
          rw [hg] at h
          obtain ⟨g1, g2⟩ := loadLibraryGraveyard_graveyard_invariants st.logDebug X st₂ P L hm
            regs lib ha hg hlogA hlogB hlog.1 hlog.2
          have hst : st' = { st₂ with
              loadedLibraryVector := st₂.loadedLibraryVector ++ [(P, lib)] } := by
            rcases h with ⟨v, hv⟩ | ⟨e, he⟩
            · simp only [Outcome.returned.injEq] at hv
              exact hv.2.symm
            · cases he
          subst hst
          exact graveyard_invariants_transfer st₂ _ g1 g2 rfl (fun _ => rfl) rfl rfl

/-- A registration outside any load keeps the graveyard invariants. -/
theorem registerPlugin_graveyard_invariants (st : Registry) (B : BaseClassName)
    (cn bn : String) (hB : graveyardAllocated st) (hE : ambientsCleared st)
    (hC : graveyardIdentitiesDistinct st) :
    graveyardIdentitiesDistinct (registerPlugin st B cn bn) ∧
      graveyardApartFromDirectory (registerPlugin st B cn bn) := by
  constructor
  · apply graveyardIdentitiesDistinct_of st _ (by rw [registerPlugin_graveyard]) _ hC
    intro g hg
    simp only [identityOf, registerPlugin_metaObjects, if_neg (Nat.ne_of_lt (hB g hg))]
  · intro hf
    rw [registerPlugin_flag, hE.1] at hf
    simp at hf

/-- In every reachable registry the graveyard entries have distinct
identities, and none has the identity of a directory meta-object while no
non-pure library has been opened. -/
theorem reachable_graveyard_invariants (st : Registry) (h : Reachable st) :
    graveyardIdentitiesDistinct st ∧ graveyardApartFromDirectory st := by
  induction h with
  | initial =>
    constructor
    · simp [graveyardIdentitiesDistinct, Registry.initial]
    · intro _ g hg
      simp [Registry.initial] at hg
  | @registerPlugin st B cn bn hr ih =>
    obtain ⟨_, b, e⟩ := reachable_invariants st hr
    exact registerPlugin_graveyard_invariants st B cn bn b e ih.1
  | @loadLibrary st st' P L os hr hl ih =>
    obtain ⟨a, b, _⟩ := reachable_invariants st hr
    exact loadLibrary_graveyard_invariants st st' P L os hl a b ih.1 ih.2
  | @unloadLibrary st st' P L r hr hl ih =>
    obtain ⟨a, _, _⟩ := reachable_invariants st hr
    exact unloadLibrary_graveyard_invariants st st' P L r hl a ih.1 ih.2
  | @createInstance st st' B n L hr hl ih =>
    have hk : ∀ Z : Registry, (Z = (getFactoryMapForBaseClass st B).logError ∨
        Z = (getFactoryMapForBaseClass st B).logDebug ∨
        Z = (getFactoryMapForBaseClass st B).logDebug.logDebug ∨
        Z = getFactoryMapForBaseClass st B) →
        graveyardIdentitiesDistinct Z ∧ graveyardApartFromDirectory Z := by
      intro Z hZ
      have hZ' : Z.metaObjects = st.metaObjects ∧ Z.graveyard = st.graveyard ∧
          Z.hasANonPurePluginLibraryBeenOpened = st.hasANonPurePluginLibraryBeenOpened ∧
          ∀ B₂ n₂, lookup Z B₂ n₂ = lookup st B₂ n₂ := by
        rcases hZ with rfl | rfl | rfl | rfl <;>
          exact ⟨by simp, by simp, by simp,
            fun B₂ n₂ => lookup_getFactoryMapForBaseClass st B B₂ n₂⟩
      obtain ⟨z1, z2, z3, z4⟩ := hZ'
      have hid : ∀ q, identityOf Z q = identityOf st q := fun q => by
        simp only [identityOf, z1]
      exact ⟨graveyardIdentitiesDistinct_of st Z (by rw [z2]) (fun g _ => hid g) ih.1,
        graveyardApartFromDirectory_of st Z (fun hf => by rw [← z3]; exact hf)
          (fun g hg => by rw [z2] at hg; exact hg) (fun g _ => hid g)
          (fun B₂ n₂ p hp => Or.inl ⟨by rw [← z4]; exact hp, hid p⟩) ih.2⟩
    rw [createInstance_eq] at hl
    apply hk
    rcases hl with ⟨v, hv⟩ | ⟨e, he⟩
    · split at hv
      · cases hv
      · split_ifs at hv <;> simp only [Outcome.returned.injEq] at hv <;> simp [← hv.2]
    · split at he
      · simp only [Outcome.thrown.injEq] at he
        simp [← he.2]
      · split_ifs at he <;> simp only [Outcome.thrown.injEq] at he <;> simp [← he.2]
  | @getAvailableClasses st B L hr ih =>
    rw [getAvailableClasses_snd]
    have hid : ∀ q, identityOf (getFactoryMapForBaseClass st B) q = identityOf st q :=
      fun q => by simp [identityOf]
    exact ⟨graveyardIdentitiesDistinct_of st _ (by simp) (fun g _ => hid g) ih.1,
      graveyardApartFromDirectory_of st _ (fun hf => by simpa using hf)
        (fun g hg => by simpa using hg) (fun g _ => hid g)
        (fun B₂ n₂ p hp => Or.inl
          ⟨by rw [← lookup_getFactoryMapForBaseClass st B]; exact hp, hid p⟩) ih.2⟩

/-- In every reachable registry the graveyard entries of one library path have
distinct (base identity, derived name) keys. -/
theorem reachable_graveyard_keys_distinct (st : Registry) (h : Reachable st)
    (P : LibraryPath) :
    ((st.graveyard.filter (fun g =>
        decide ((st.metaObjects g).associated_library_path = P))).map
      (fun g => ((st.metaObjects g).typeid_base_class_name, (st.metaObjects g).class_name))).Nodup := by
  have hC := (reachable_graveyard_invariants st h).1
  unfold graveyardIdentitiesDistinct at hC
  have hsub : List.Sublist
      (st.graveyard.filter (fun g => decide ((st.metaObjects g).associated_library_path = P)))
      st.graveyard := List.filter_sublist _
  have hnd : ((st.graveyard.filter (fun g =>
      decide ((st.metaObjects g).associated_library_path = P))).map (identityOf st)).Nodup :=
    List.Nodup.sublist (List.Sublist.map _ hsub) hC
  apply List.Nodup.map_on _ (List.Nodup.of_map _ hnd)
  intro x hx y hy hxy
  apply List.inj_on_of_nodup_map hnd hx hy
  simp only [Prod.mk.injEq] at hxy
  have hxp := (List.mem_filter.mp hx).2
  have hyp := (List.mem_filter.mp hy).2
  simp only [decide_eq_true_eq] at hxp hyp
  simp only [identityOf, hxy.1, hxy.2, hxp, hyp]


/-- In every reachable registry the address the next `new MetaObject` returns
is none of the addresses a factory map holds. -/
theorem reachable_nextMetaObject_fresh (st : Registry) (h : Reachable st)
    (B : BaseClassName) : st.nextMetaObject ∉ allMetaObjectsOf (factoryMapOf st B) := by
  intro hmem
  simp only [allMetaObjectsOf, List.mem_map] at hmem
  obtain ⟨e, he, hp⟩ := hmem
  have hl : lookup st B e.1 = some e.2 := (StdMap.mem_entries_iff _ _ _).mp he
  have := ((reachable_invariants st h).1 B e.1 e.2 hl).2.2
  rw [hp] at this
  exact Nat.lt_irrefl _ this

/-! ## Unloading: the path is unknown, the refusal -/

/-- C15. With the non-pure flag false and `P` not in the loaded-library table,
`unloadLibrary(P, L)` raises `LibraryUnloadException`, whatever the OS would do
on a close, and leaves the directory with every meta-object, the graveyard and
the loaded-library table unchanged. -/
theorem unloadLibrary_unknown_path (st : Registry) (P : LibraryPath) (L : PluginLoaderPtr)
    (r : Bool) (hflag : st.hasANonPurePluginLibraryBeenOpened = false)
    (hP : P ∉ st.loadedLibraryVector.map Prod.fst) :
    ∃ st', unloadLibrary st P L r
        = Outcome.thrown PluginLoaderException.LibraryUnloadException st' ∧
      st'.factoryMapMap = st.factoryMapMap ∧ st'.metaObjects = st.metaObjects ∧
      st'.graveyard = st.graveyard ∧ st'.loadedLibraryVector = st.loadedLibraryVector := by
  have hclosed : findLoadedLibrary st.logDebug P = none := by
    have := isLibraryLoadedByAnybody_eq_false st P hP
    simpa [isLibraryLoadedByAnybody, findLoadedLibrary] using this
  refine ⟨st.logDebug, ?_, rfl, rfl, rfl, rfl⟩
  simp only [unloadLibrary, hflag, Bool.false_eq_true, if_false, hclosed]

/-- C15 at a concrete registry: nothing is loaded, `P1` is unloaded. -/
theorem unloadLibrary_unknown_path_witness :
    ∃ st', unloadLibrary Registry.initial "P1" (some 1) false
        = Outcome.thrown PluginLoaderException.LibraryUnloadException st' ∧
      st'.factoryMapMap = Registry.initial.factoryMapMap ∧
      st'.metaObjects = Registry.initial.metaObjects ∧
      st'.graveyard = Registry.initial.graveyard ∧
      st'.loadedLibraryVector = Registry.initial.loadedLibraryVector :=
  unloadLibrary_unknown_path Registry.initial "P1" (some 1) false rfl (by decide)

/-- C16. In a fresh process, where no library is loaded, `unloadLibrary("P1", L)`
does not return: it raises `LibraryUnloadException`. -/
theorem unloadLibrary_not_loaded_raises :
    unloadLibrary Registry.initial "P1" (some 1) false
      = Outcome.thrown PluginLoaderException.LibraryUnloadException Registry.initial.logDebug :=
  rfl

/-- C17. Unload refusal. With the non-pure flag true, `unloadLibrary(P, L)`
returns normally for every path and loader, whatever the OS would do on a
close: no `SharedLibrary` is closed or deleted, and the directory with every
meta-object (so every owner set), the graveyard, the loaded-library table and
the flag are unchanged. -/
theorem unloadLibrary_refused (st : Registry) (P : LibraryPath) (L : PluginLoaderPtr)
    (r : Bool) (hflag : st.hasANonPurePluginLibraryBeenOpened = true) :
    ∃ st', unloadLibrary st P L r = Outcome.returned () st' ∧
      st'.factoryMapMap = st.factoryMapMap ∧ st'.metaObjects = st.metaObjects ∧
      st'.graveyard = st.graveyard ∧ st'.loadedLibraryVector = st.loadedLibraryVector ∧
      st'.sharedLibraries = st.sharedLibraries ∧
      st'.deletedSharedLibraries = st.deletedSharedLibraries ∧
      st'.hasANonPurePluginLibraryBeenOpened = true := by
  refine ⟨st.logDebug, ?_, rfl, rfl, rfl, rfl, rfl, rfl, hflag⟩
  simp only [unloadLibrary, hflag, if_true]

/-- C17 at a concrete registry: after a registration outside any load, the
unload of the loaded `P1` by its loader is refused. -/
theorem unloadLibrary_refused_witness :
    ∃ st', unloadLibrary (registerPlugin registryCatDog "4Base" "Cow" "Base") "P1" (some 1) false
        = Outcome.returned () st' ∧
      st'.factoryMapMap = (registerPlugin registryCatDog "4Base" "Cow" "Base").factoryMapMap ∧
      st'.metaObjects = (registerPlugin registryCatDog "4Base" "Cow" "Base").metaObjects ∧
      st'.graveyard = (registerPlugin registryCatDog "4Base" "Cow" "Base").graveyard ∧
      st'.loadedLibraryVector
        = (registerPlugin registryCatDog "4Base" "Cow" "Base").loadedLibraryVector ∧
      st'.sharedLibraries = (registerPlugin registryCatDog "4Base" "Cow" "Base").sharedLibraries ∧
      st'.deletedSharedLibraries
        = (registerPlugin registryCatDog "4Base" "Cow" "Base").deletedSharedLibraries ∧
      st'.hasANonPurePluginLibraryBeenOpened = true :=
  unloadLibrary_refused (registerPlugin registryCatDog "4Base" "Cow" "Base") "P1" (some 1) false
    (by decide)

/-! ## Loaded within the scope of a loader -/

/-- C20. Library `P1` is in the loaded-library table, the directory holds
meta-objects with path `P1`, none of them is owned by loader 2, and
`isLibraryLoaded("P1", loader 2)` is true. -/
theorem isLibraryLoaded_true_for_stranger :
    isLibraryLoadedByAnybody registryCatDog "P1" = true ∧
      allMetaObjectsForLibrary registryCatDog "P1" ≠ [] ∧
      allMetaObjectsForLibraryOwnedBy registryCatDog "P1" (some 2) = [] ∧
      isLibraryLoaded registryCatDog "P1" (some 2) = true := by
  decide

/-! ## The loaded-library table -/

theorem addPluginLoaderOwnerLoop_loadedLibraryVector (L : PluginLoaderPtr)
    (ps : MetaObjectVector) (st st' : Registry)
    (h : addPluginLoaderOwnerLoop L ps st = some st') :
    st'.loadedLibraryVector = st.loadedLibraryVector := by
  cases L with
  | none =>
    cases ps with
    | nil =>
      simp only [addPluginLoaderOwnerLoop, Option.some.injEq] at h
      subst h
      rfl
    | cons p ps => simp [addPluginLoaderOwnerLoop] at h
  | some l =>
    obtain ⟨st'', h', _, _, h3, _⟩ := addPluginLoaderOwnerLoop_some l ps st
    rw [h] at h'
    cases h'
    exact h3

/-- What `loadLibrary` does to the loaded-library table: nothing, or, the path
not being in the table, one entry for it appended at the end. -/
theorem loadLibrary_loadedLibraryVector (st st' : Registry) (P : LibraryPath)
    (L : PluginLoaderPtr) (os : LoadLibraryA) (h : (loadLibrary st P L os).leaves st') :
    st'.loadedLibraryVector = st.loadedLibraryVector ∨
      (P ∉ st.loadedLibraryVector.map Prod.fst ∧
        ∃ lib, st'.loadedLibraryVector = st.loadedLibraryVector ++ [(P, lib)]) := by
  simp only [loadLibrary] at h
  by_cases hopen : isLibraryLoadedByAnybody st.logDebug P = true
  · rw [if_pos hopen] at h
    simp only [addPluginLoaderOwnerForAllExistingMetaObjectsForLibrary] at h
    cases hl : addPluginLoaderOwnerLoop L (allMetaObjectsForLibrary st.logDebug.logDebug P)
        st.logDebug.logDebug with
    | none =>
      rw [hl] at h
      rcases h with ⟨v, hv⟩ | ⟨e, he⟩
      · cases hv
      · cases he
    | some st₂ =>
      rw [hl] at h
      have hst : st' = st₂ := by
        rcases h with ⟨v, hv⟩ | ⟨e, he⟩
        · simp only [Outcome.returned.injEq] at hv
          exact hv.2.symm
        · cases he
      subst hst
      left
      exact addPluginLoaderOwnerLoop_loadedLibraryVector L _ st.logDebug.logDebug st' hl
  · rw [if_neg hopen] at h
    have hP : P ∉ st.loadedLibraryVector.map Prod.fst := by
      intro hmem
      apply hopen
      rw [isLibraryLoadedByAnybody_congr st.logDebug st rfl]
      exact (isLibraryLoadedByAnybody_iff st P).mpr hmem
    cases os with
    | failed =>
      left
      simp only [afterOpen, newSharedLibrary] at h
      rcases h with ⟨v, hv⟩ | ⟨e, he⟩
      · cases hv
      · simp only [Outcome.thrown.injEq] at he
        rw [← he.2]
        rfl
    | loaded hm regs =>
      right
      refine ⟨hP, ?_⟩
      obtain ⟨X, hX, _, x2, _⟩ := afterOpen_loaded st.logDebug P L hm regs
      rw [hX] at h
      dsimp only at h
      cases hg : loadLibraryGraveyard X.logDebug P L with
      | none =>
        rw [hg] at h
        rcases h with ⟨v, hv⟩ | ⟨e, he⟩
        · cases hv
        · cases he
      | some st₂ =>
        rw [hg] at h
        obtain ⟨g1, _⟩ := loadLibraryGraveyard_frame X.logDebug st₂ P L hg
        have hst : st' = { st₂ with
            loadedLibraryVector := st₂.loadedLibraryVector
              ++ [(P, st.logDebug.nextSharedLibrary)] } := by
          rcases h with ⟨v, hv⟩ | ⟨e, he⟩
          · simp only [Outcome.returned.injEq] at hv
            exact hv.2.symm
          · cases he
        subst hst
        refine ⟨st.nextSharedLibrary, ?_⟩
        show st₂.loadedLibraryVector ++ _ = _
        rw [g1]
        show X.loadedLibraryVector ++ _ = _
        rw [x2]
        rfl

theorem findIdx?_path (l : LibraryVector) (P : LibraryPath) (i : Nat) (d : LibraryPair)
    (h : l.findIdx? (fun it => decide (it.1 = P)) = some i) :
    (l.getD i d).1 = P ∧ l.getD i d ∈ l ∧
      (l.eraseIdx i).filter (fun it => !decide (it.1 = P))
        = l.filter (fun it => !decide (it.1 = P)) ∧
      ((l.map Prod.fst).Nodup →
        l.eraseIdx i = l.filter (fun it => !decide (it.1 = P))) := by
  induction l generalizing i with
  | nil => simp at h
  | cons x xs ih =>
    rw [List.findIdx?_cons] at h
    by_cases hx : x.1 = P
    · simp only [hx, decide_True, if_true, Option.some.injEq] at h
      subst h
      refine ⟨by simpa using hx, by simp, by simp [hx], ?_⟩
      intro hnd
      simp only [List.map_cons, List.nodup_cons] at hnd
      simp only [List.eraseIdx_cons_zero, List.filter_cons, hx, decide_True, Bool.not_true,
        Bool.false_eq_true, if_false]
      symm
      rw [List.filter_eq_self]
      intro a ha
      have : a.1 ≠ P := by
        intro e
        apply hnd.1
        rw [hx, ← e]
        exact List.mem_map_of_mem _ ha
      simpa using this
    · simp only [hx, decide_False, Bool.false_eq_true, if_false, Nat.zero_add] at h
      rw [List.findIdx?_succ] at h
      simp only [Option.map_eq_some'] at h
      obtain ⟨j, hj, rfl⟩ := h
      obtain ⟨h1, h2, h3, h4⟩ := ih j hj
      refine ⟨by simpa using h1, ?_, ?_, ?_⟩
      · simp only [List.getD_cons_succ]
        exact List.mem_cons_of_mem _ h2
      · simp only [List.eraseIdx_cons_succ, List.filter_cons, hx, decide_False, Bool.not_false,
          if_true, h3]
      · intro hnd
        simp only [List.map_cons, List.nodup_cons] at hnd
        simp only [List.eraseIdx_cons_succ, List.filter_cons, hx, decide_False, Bool.not_false,
          if_true, h4 hnd.2]

/-! ## The sweep of an unload -/

theorem sweptBy_congr (st₁ st₂ : Registry) (P : LibraryPath) (L : PluginLoaderPtr)
    (p : MetaObjectPtr) (h : st₁.metaObjects p = st₂.metaObjects p) :
    sweptBy st₁ P L p = sweptBy st₂ P L p := by
  simp only [sweptBy, getAssociatedLibraryPath, isOwnedBy, h]

theorem buriedBy_congr (st₁ st₂ : Registry) (P : LibraryPath) (L : PluginLoaderPtr)
    (p : MetaObjectPtr) (h : st₁.metaObjects p = st₂.metaObjects p) :
    buriedBy st₁ P L p = buriedBy st₂ P L p := by
  simp only [buriedBy, sweptBy_congr st₁ st₂ P L p h, h]

theorem sweep_metaObjects_step (st st₁ : Registry) (P : LibraryPath) (L : PluginLoaderPtr)
    (p : MetaObjectPtr) (ps : List MetaObjectPtr) (hp : p ∉ ps)
    (h₁ : ∀ q, q ≠ p → st₁.metaObjects q = st.metaObjects q)
    (h₂ : st₁.metaObjects p =
      if sweptBy st P L p = true then
        { st.metaObjects p with
          associated_plugin_loaders := (st.metaObjects p).associated_plugin_loaders.erase L }
      else st.metaObjects p) (q : MetaObjectPtr) :
    (if q ∈ ps ∧ sweptBy st₁ P L q = true then
        { st₁.metaObjects q with
          associated_plugin_loaders := (st₁.metaObjects q).associated_plugin_loaders.erase L }
      else st₁.metaObjects q) =
      if q ∈ p :: ps ∧ sweptBy st P L q = true then
        { st.metaObjects q with
          associated_plugin_loaders := (st.metaObjects q).associated_plugin_loaders.erase L }
      else st.metaObjects q := by
  by_cases hq : q = p
  · subst hq
    rw [if_neg (fun h => hp h.1), h₂]
    by_cases hs : sweptBy st P L q = true
    · rw [if_pos hs, if_pos ⟨List.mem_cons_self _ _, hs⟩]
    · rw [if_neg hs, if_neg (fun h => hs h.2)]
  · rw [h₁ q hq, sweptBy_congr st₁ st P L q (h₁ q hq)]
    apply if_congr _ rfl rfl
    simp [hq]

/-- The loop of `destroyMetaObjectsForLibrary` over one factory map whose
entries hold distinct meta-objects: each entry of the path owned by the loader
loses one occurrence of the loader, and those left without owner leave the
directory for the graveyard, in order. -/
theorem destroyMetaObjectsForLibraryLoop_exact (P : LibraryPath) (B : BaseClassName)
    (L : PluginLoaderPtr) (es : List (ClassName × MetaObjectPtr)) (st : Registry)
    (hnd : (es.map Prod.snd).Nodup) :
    (∀ q, (destroyMetaObjectsForLibraryLoop P B L es st).metaObjects q =
        if q ∈ es.map Prod.snd ∧ sweptBy st P L q = true then
          { st.metaObjects q with
            associated_plugin_loaders := (st.metaObjects q).associated_plugin_loaders.erase L }
        else st.metaObjects q) ∧
      (∀ B₂ n₂, lookup (destroyMetaObjectsForLibraryLoop P B L es st) B₂ n₂ =
        if B₂ = B ∧ n₂ ∈ (es.filter (fun e => buriedBy st P L e.2)).map Prod.fst then none
        else lookup st B₂ n₂) ∧
      (destroyMetaObjectsForLibraryLoop P B L es st).graveyard =
        st.graveyard ++ (es.filter (fun e => buriedBy st P L e.2)).map Prod.snd ∧
      (destroyMetaObjectsForLibraryLoop P B L es st).deletedSharedLibraries
        = st.deletedSharedLibraries ∧
      (destroyMetaObjectsForLibraryLoop P B L es st).nextSharedLibrary
        = st.nextSharedLibrary := by
  induction es generalizing st with
  | nil =>
    refine ⟨fun q => by simp [destroyMetaObjectsForLibraryLoop], fun B₂ n₂ => by
      simp [destroyMetaObjectsForLibraryLoop], by simp [destroyMetaObjectsForLibraryLoop],
      rfl, rfl⟩
  | cons hd tl ih =>
    obtain ⟨n, p⟩ := hd
    simp only [List.map_cons, List.nodup_cons] at hnd
    obtain ⟨hp, hnd'⟩ := hnd
    -- the predicates on the entries to come do not see an edit of `p`
    have hcongr : ∀ st₁ : Registry, (∀ q, q ≠ p → st₁.metaObjects q = st.metaObjects q) →
        tl.filter (fun e => buriedBy st₁ P L e.2) = tl.filter (fun e => buriedBy st P L e.2) := by
      intro st₁ h₁
      apply List.filter_congr
      intro e he
      apply buriedBy_congr
      apply h₁
      intro heq
      exact hp (heq ▸ List.mem_map_of_mem Prod.snd he)
    have hswept : ∀ st₁ : Registry, (∀ q, q ≠ p → st₁.metaObjects q = st.metaObjects q) →
        ∀ q, q ∈ tl.map Prod.snd → sweptBy st₁ P L q = sweptBy st P L q := by
      intro st₁ h₁ q hq
      apply sweptBy_congr
      apply h₁
      intro heq
      exact hp (heq ▸ hq)
    simp only [destroyMetaObjectsForLibraryLoop]
    by_cases hc : getAssociatedLibraryPath st p = P ∧ isOwnedBy st p L = true
    · have hsw : sweptBy st P L p = true := by
        simp only [sweptBy, Bool.and_eq_true, decide_eq_true_eq]
        exact hc
      rw [if_pos hc]
      by_cases ho : (!isOwnedByAnybody (removeOwningPluginLoader st p L) p) = true
      · rw [if_pos ho]
        have hbu : buriedBy st P L p = true := by
          simp only [buriedBy, hsw, Bool.true_and]
          simpa [isOwnedByAnybody, removeOwningPluginLoader_get] using ho
        obtain ⟨i1, i2, i3, i4, i5⟩ := ih (insertMetaObjectIntoGraveyard
          (eraseFactory (removeOwningPluginLoader st p L) B n) p) hnd'
        have hmo : ∀ q, q ≠ p → (insertMetaObjectIntoGraveyard
            (eraseFactory (removeOwningPluginLoader st p L) B n) p).metaObjects q
            = st.metaObjects q := by
          intro q hq
          simp [removeOwningPluginLoader_get, hq]
        rw [hcongr _ hmo] at i2 i3
        have hf : ((n, p) :: tl).filter (fun e => buriedBy st P L e.2)
            = (n, p) :: tl.filter (fun e => buriedBy st P L e.2) := by
          simp [List.filter_cons, hbu]
        refine ⟨?_, ?_, ?_, i4, i5⟩
        · intro q
          rw [i1 q]
          exact sweep_metaObjects_step st _ P L p (tl.map Prod.snd) hp hmo
            (by simp [removeOwningPluginLoader_get, hsw]) q
        · intro B₂ n₂
          rw [i2 B₂ n₂]
          have e1 : lookup (insertMetaObjectIntoGraveyard
              (eraseFactory (removeOwningPluginLoader st p L) B n) p) B₂ n₂
              = lookup (eraseFactory (removeOwningPluginLoader st p L) B n) B₂ n₂ := rfl
          have e3 : lookup (removeOwningPluginLoader st p L) B₂ n₂ = lookup st B₂ n₂ := rfl
          rw [e1, lookup_eraseFactory, e3, hf]
          by_cases hk : B₂ = B ∧ n₂ = n
          · have hr : B₂ = B ∧ n₂ ∈ List.map Prod.fst
                ((n, p) :: tl.filter (fun e => buriedBy st P L e.2)) :=
              ⟨hk.1, by simp [hk.2]⟩
            rw [if_pos hk, if_pos hr, ite_self]
          · rw [if_neg hk]
            apply if_congr _ rfl rfl
            simp only [List.map_cons, List.mem_cons]
            constructor
            · exact fun h => ⟨h.1, Or.inr h.2⟩
            · rintro ⟨h1, h2 | h2⟩
              · exact absurd ⟨h1, h2⟩ hk
              · exact ⟨h1, h2⟩
        · rw [i3, hf]
          simp
      · rw [if_neg ho]
        have hbu : buriedBy st P L p = false := by
          simp only [buriedBy, hsw, Bool.true_and]
          simpa [isOwnedByAnybody, removeOwningPluginLoader_get] using ho
        obtain ⟨i1, i2, i3, i4, i5⟩ := ih (removeOwningPluginLoader st p L) hnd'
        have hmo : ∀ q, q ≠ p → (removeOwningPluginLoader st p L).metaObjects q
            = st.metaObjects q := by
          intro q hq
          simp [removeOwningPluginLoader_get, hq]
        rw [hcongr _ hmo] at i2 i3
        have hf : ((n, p) :: tl).filter (fun e => buriedBy st P L e.2)
            = tl.filter (fun e => buriedBy st P L e.2) := by
          simp [List.filter_cons, hbu]
        refine ⟨?_, ?_, ?_, i4, i5⟩
        · intro q
          rw [i1 q]
          exact sweep_metaObjects_step st _ P L p (tl.map Prod.snd) hp hmo
            (by simp [removeOwningPluginLoader_get, hsw]) q
        · intro B₂ n₂
          rw [i2 B₂ n₂, hf]
          rfl
        · rw [i3, hf]
          rfl
    · rw [if_neg hc]
      have hsw : sweptBy st P L p = false := by
        simp only [sweptBy, Bool.and_eq_false_imp, decide_eq_true_eq]
        intro h1
        simpa using fun h2 => hc ⟨h1, h2⟩
      have hbu : buriedBy st P L p = false := by
        simp [buriedBy, hsw]
      obtain ⟨i1, i2, i3, i4, i5⟩ := ih st hnd'
      have hf : ((n, p) :: tl).filter (fun e => buriedBy st P L e.2)
          = tl.filter (fun e => buriedBy st P L e.2) := by
        simp [List.filter_cons, hbu]
      refine ⟨?_, ?_, ?_, i4, i5⟩
      · intro q
        rw [i1 q]
        exact sweep_metaObjects_step st st P L p (tl.map Prod.snd) hp (fun _ _ => rfl)
          (by simp [hsw]) q
      · intro B₂ n₂
        rw [i2 B₂ n₂, hf]
      · rw [i3, hf]

/-- The sweep of one factory map, on the registry it starts in. -/
theorem destroyMetaObjectsForLibraryIn_exact (P : LibraryPath) (B : BaseClassName)
    (L : PluginLoaderPtr) (st : Registry)
    (hnd : ((factoryMapOf st B).entries.map Prod.snd).Nodup) :
    (∀ q, (destroyMetaObjectsForLibraryIn st P B L).metaObjects q =
        if q ∈ (factoryMapOf st B).entries.map Prod.snd ∧ sweptBy st P L q = true then
          { st.metaObjects q with
            associated_plugin_loaders := (st.metaObjects q).associated_plugin_loaders.erase L }
        else st.metaObjects q) ∧
      (∀ B₂ n₂, lookup (destroyMetaObjectsForLibraryIn st P B L) B₂ n₂ =
        if B₂ = B then (lookup st B₂ n₂).filter (fun p => !buriedBy st P L p)
        else lookup st B₂ n₂) ∧
      (destroyMetaObjectsForLibraryIn st P B L).graveyard =
        st.graveyard ++ ((factoryMapOf st B).entries.map Prod.snd).filter (buriedBy st P L) ∧
      (destroyMetaObjectsForLibraryIn st P B L).deletedSharedLibraries
        = st.deletedSharedLibraries ∧
      (destroyMetaObjectsForLibraryIn st P B L).nextSharedLibrary = st.nextSharedLibrary := by
  obtain ⟨i1, i2, i3, i4, i5⟩ :=
    destroyMetaObjectsForLibraryLoop_exact P B L (factoryMapOf st B).entries st hnd
  refine ⟨i1, ?_, ?_, i4, i5⟩
  · intro B₂ n₂
    simp only [destroyMetaObjectsForLibraryIn]
    rw [i2 B₂ n₂]
    by_cases hB : B₂ = B
    · subst hB
      simp only [true_and, if_true]
      cases hl : lookup st B₂ n₂ with
      | none =>
        simp only [Option.filter, ite_self]
      | some p =>
        have hmem : (n₂, p) ∈ (factoryMapOf st B₂).entries :=
          (StdMap.mem_entries_iff _ _ _).mpr hl
        by_cases hb : buriedBy st P L p = true
        · have : n₂ ∈ ((factoryMapOf st B₂).entries.filter
              (fun e => buriedBy st P L e.2)).map Prod.fst :=
            List.mem_map.mpr ⟨(n₂, p), List.mem_filter.mpr ⟨hmem, hb⟩, rfl⟩
          rw [if_pos this]
          simp [Option.filter, hb]
        · have : n₂ ∉ ((factoryMapOf st B₂).entries.filter
              (fun e => buriedBy st P L e.2)).map Prod.fst := by
            intro hm
            obtain ⟨e, he, hen⟩ := List.mem_map.mp hm
            obtain ⟨he1, he2⟩ := List.mem_filter.mp he
            have hl' : lookup st B₂ e.1 = some e.2 := (StdMap.mem_entries_iff _ _ _).mp he1
            rw [hen, hl] at hl'
            simp only [Option.some.injEq] at hl'
            rw [← hl'] at he2
            exact hb he2
          rw [if_neg this]
          simp [Option.filter, hb]
    · simp [hB]
  · simp only [destroyMetaObjectsForLibraryIn]
    rw [i3, List.filter_map]
    rfl

/-- The walk of `destroyMetaObjectsForLibrary` through distinct factory maps
that hold distinct meta-objects, on the registry it starts in. -/
theorem destroyMetaObjectsForLibraryWalk_exact (P : LibraryPath) (L : PluginLoaderPtr)
    (bases : List BaseClassName) (hb : bases.Nodup) (st : Registry)
    (hnd : (bases.map (fun B => (factoryMapOf st B).entries.map Prod.snd)).flatten.Nodup) :
    (∀ q, (destroyMetaObjectsForLibraryWalk P L bases st).metaObjects q =
        if q ∈ (bases.map (fun B => (factoryMapOf st B).entries.map Prod.snd)).flatten ∧
            sweptBy st P L q = true then
          { st.metaObjects q with
            associated_plugin_loaders := (st.metaObjects q).associated_plugin_loaders.erase L }
        else st.metaObjects q) ∧
      (∀ B₂ n₂, lookup (destroyMetaObjectsForLibraryWalk P L bases st) B₂ n₂ =
        if B₂ ∈ bases then (lookup st B₂ n₂).filter (fun p => !buriedBy st P L p)
        else lookup st B₂ n₂) ∧
      (destroyMetaObjectsForLibraryWalk P L bases st).graveyard =
        st.graveyard ++
          ((bases.map (fun B => (factoryMapOf st B).entries.map Prod.snd)).flatten).filter
            (buriedBy st P L) ∧
      (destroyMetaObjectsForLibraryWalk P L bases st).deletedSharedLibraries
        = st.deletedSharedLibraries ∧
      (destroyMetaObjectsForLibraryWalk P L bases st).nextSharedLibrary
        = st.nextSharedLibrary := by
  induction bases generalizing st with
  | nil =>
    refine ⟨fun q => by simp [destroyMetaObjectsForLibraryWalk], fun B₂ n₂ => by
      simp [destroyMetaObjectsForLibraryWalk], by simp [destroyMetaObjectsForLibraryWalk],
      rfl, rfl⟩
  | cons B rest ih =>
    rw [List.nodup_cons] at hb
    simp only [List.map_cons, List.flatten_cons, List.nodup_append] at hnd
    obtain ⟨hndB, hndR, hdisj⟩ := hnd
    obtain ⟨l1, l2, l3, l4, l5⟩ := destroyMetaObjectsForLibraryIn_exact P B L st hndB
    have hsame : rest.map (fun B₂ => (factoryMapOf
        (destroyMetaObjectsForLibraryIn st P B L) B₂).entries.map Prod.snd)
        = rest.map (fun B₂ => (factoryMapOf st B₂).entries.map Prod.snd) := by
      apply List.map_congr_left
      intro B₂ hB₂
      simp only [destroyMetaObjectsForLibraryIn]
      rw [destroyMetaObjectsForLibraryLoop_factoryMapOf P B B₂ L _ st
        (fun e => hb.1 (e ▸ hB₂))]
    obtain ⟨w1, w2, w3, w4, w5⟩ := ih hb.2 (destroyMetaObjectsForLibraryIn st P B L)
      (by rw [hsame]; exact hndR)
    rw [hsame] at w1 w3
    -- the first map walked edits none of the meta-objects of the others
    have hmo : ∀ q, q ∉ (factoryMapOf st B).entries.map Prod.snd →
        (destroyMetaObjectsForLibraryIn st P B L).metaObjects q = st.metaObjects q := by
      intro q hq
      rw [l1 q, if_neg (fun h => hq h.1)]
    have hrest : ∀ q, q ∈ (rest.map (fun B₂ =>
        (factoryMapOf st B₂).entries.map Prod.snd)).flatten →
        q ∉ (factoryMapOf st B).entries.map Prod.snd :=
      fun q hq hqB => hdisj hqB hq
    simp only [destroyMetaObjectsForLibraryWalk, List.map_cons, List.flatten_cons]
    refine ⟨?_, ?_, ?_, w4.trans l4, w5.trans l5⟩
    · intro q
      rw [w1 q]
      by_cases hqB : q ∈ (factoryMapOf st B).entries.map Prod.snd
      · have hqR : q ∉ (rest.map (fun B₂ =>
            (factoryMapOf st B₂).entries.map Prod.snd)).flatten := fun h => hrest q h hqB
        rw [if_neg (fun h => hqR h.1), l1 q]
        apply if_congr _ rfl rfl
        simp [hqB]
      · rw [hmo q hqB, sweptBy_congr _ st P L q (hmo q hqB)]
        apply if_congr _ rfl rfl
        simp [hqB]
    · intro B₂ n₂
      rw [w2 B₂ n₂, l2 B₂ n₂]
      by_cases hB : B₂ = B
      · subst hB
        rw [if_neg hb.1, if_pos rfl, if_pos (List.mem_cons_self _ _)]
      · rw [if_neg hB]
        by_cases hR : B₂ ∈ rest
        · rw [if_pos hR, if_pos (List.mem_cons_of_mem _ hR)]
          cases hl : lookup st B₂ n₂ with
          | none => rfl
          | some p =>
            have hp : p ∈ (rest.map (fun B₂ =>
                (factoryMapOf st B₂).entries.map Prod.snd)).flatten := by
              simp only [List.mem_flatten, List.mem_map]
              exact ⟨_, ⟨B₂, hR, rfl⟩, List.mem_map.mpr
                ⟨(n₂, p), (StdMap.mem_entries_iff _ _ _).mpr hl, rfl⟩⟩
            simp only [Option.filter,
              buriedBy_congr _ st P L p (hmo p (hrest p hp))]
        · rw [if_neg hR, if_neg (by simp [hB, hR])]
    · rw [w3, l3, List.filter_append, List.append_assoc]
      congr 2
      apply List.filter_congr
      intro q hq
      exact buriedBy_congr _ st P L q (hmo q (hrest q hq))

/-- Function `destroyMetaObjectsForLibrary(P, L)` on a registry whose directory
entries sit at the keys of their meta-objects: every directory meta-object of
path `P` owned by `L` loses one occurrence of `L`; those left without owner
leave the directory for the end of the graveyard, in directory order; nothing
else changes but the log. -/
theorem destroyMetaObjectsForLibrary_exact (st : Registry) (P : LibraryPath)
    (L : PluginLoaderPtr) (hA : directoryOwnKeys st) :
    (∀ q, (destroyMetaObjectsForLibrary st P L).metaObjects q =
        if q ∈ allMetaObjects st ∧ sweptBy st P L q = true then
          { st.metaObjects q with
            associated_plugin_loaders := (st.metaObjects q).associated_plugin_loaders.erase L }
        else st.metaObjects q) ∧
      (∀ B n, lookup (destroyMetaObjectsForLibrary st P L) B n =
        (lookup st B n).filter (fun p => !buriedBy st P L p)) ∧
      (destroyMetaObjectsForLibrary st P L).graveyard =
        st.graveyard ++ (allMetaObjects st).filter (buriedBy st P L) ∧
      (destroyMetaObjectsForLibrary st P L).loadedLibraryVector = st.loadedLibraryVector ∧
      (destroyMetaObjectsForLibrary st P L).hasANonPurePluginLibraryBeenOpened
        = st.hasANonPurePluginLibraryBeenOpened ∧
      (destroyMetaObjectsForLibrary st P L).sharedLibraries = st.sharedLibraries ∧
      (destroyMetaObjectsForLibrary st P L).deletedSharedLibraries
        = st.deletedSharedLibraries ∧
      (destroyMetaObjectsForLibrary st P L).nextSharedLibrary = st.nextSharedLibrary ∧
      (destroyMetaObjectsForLibrary st P L).nextMetaObject = st.nextMetaObject ∧
      (destroyMetaObjectsForLibrary st P L).deletedMetaObjects = st.deletedMetaObjects ∧
      (destroyMetaObjectsForLibrary st P L).currentlyLoadingLibraryName
        = st.currentlyLoadingLibraryName ∧
      (destroyMetaObjectsForLibrary st P L).currentlyActivePluginLoader
        = st.currentlyActivePluginLoader := by
  have hnd : (st.logDebug.factoryMapMap.keys.map
      (fun B => (factoryMapOf st.logDebug B).entries.map Prod.snd)).flatten.Nodup := by
    rw [flatten_keys_eq_allMetaObjects st.logDebug]
    exact allMetaObjects_nodup_of_ownKeys st hA
  obtain ⟨e1, e2, e3, e4, e5⟩ := destroyMetaObjectsForLibraryWalk_exact P L
    st.logDebug.factoryMapMap.keys (keys_nodup _) st.logDebug hnd
  obtain ⟨w1, w2, w3, w4, w5, w6, w7, _⟩ :=
    destroyMetaObjectsForLibraryWalk_spec P L st.logDebug.factoryMapMap.keys st.logDebug
  rw [flatten_keys_eq_allMetaObjects st.logDebug] at e1 e3
  refine ⟨e1, ?_, e3, w2, w5, w6, e4, e5, w1, w7, w3, w4⟩
  intro B n
  have := e2 B n
  by_cases hk : B ∈ st.logDebug.factoryMapMap.keys
  · rw [if_pos hk] at this
    exact this
  · rw [if_neg hk] at this
    have hnone : lookup st B n = none := by
      cases hl : lookup st B n with
      | none => rfl
      | some p =>
        obtain ⟨fm, h1, _⟩ := lookup_mem st B n p hl
        exact absurd (List.mem_map.mpr ⟨(B, fm), h1, rfl⟩) hk
    show lookup (destroyMetaObjectsForLibraryWalk P L st.logDebug.factoryMapMap.keys
      st.logDebug) B n = _
    rw [this]
    show lookup st B n = _
    rw [hnone]
    rfl

theorem destroyMetaObjectsForLibraryLoop_deletedSharedLibraries (P : LibraryPath)
    (B : BaseClassName) (L : PluginLoaderPtr) (es : List (ClassName × MetaObjectPtr))
    (st : Registry) :
    (destroyMetaObjectsForLibraryLoop P B L es st).deletedSharedLibraries
      = st.deletedSharedLibraries := by
  induction es generalizing st with
  | nil => rfl
  | cons hd tl ih =>
    obtain ⟨n, p⟩ := hd
    simp only [destroyMetaObjectsForLibraryLoop]
    split_ifs
    · rw [ih]; rfl
    · rw [ih]; rfl
    · exact ih st

theorem destroyMetaObjectsForLibraryWalk_deletedSharedLibraries (P : LibraryPath)
    (L : PluginLoaderPtr) (bases : List BaseClassName) (st : Registry) :
    (destroyMetaObjectsForLibraryWalk P L bases st).deletedSharedLibraries
      = st.deletedSharedLibraries := by
  induction bases generalizing st with
  | nil => rfl
  | cons B rest ih =>
    simp only [destroyMetaObjectsForLibraryWalk, destroyMetaObjectsForLibraryIn]
    rw [ih, destroyMetaObjectsForLibraryLoop_deletedSharedLibraries]

/-- What `destroyMetaObjectsForLibrary(P, L)` leaves alone in every registry. -/
theorem destroyMetaObjectsForLibrary_frame (st : Registry) (P : LibraryPath)
    (L : PluginLoaderPtr) :
    (destroyMetaObjectsForLibrary st P L).loadedLibraryVector = st.loadedLibraryVector ∧
      (destroyMetaObjectsForLibrary st P L).hasANonPurePluginLibraryBeenOpened
        = st.hasANonPurePluginLibraryBeenOpened ∧
      (destroyMetaObjectsForLibrary st P L).sharedLibraries = st.sharedLibraries ∧
      (destroyMetaObjectsForLibrary st P L).deletedSharedLibraries
        = st.deletedSharedLibraries ∧
      (destroyMetaObjectsForLibrary st P L).nextMetaObject = st.nextMetaObject ∧
      (destroyMetaObjectsForLibrary st P L).deletedMetaObjects = st.deletedMetaObjects ∧
      (destroyMetaObjectsForLibrary st P L).currentlyLoadingLibraryName
        = st.currentlyLoadingLibraryName ∧
      (destroyMetaObjectsForLibrary st P L).currentlyActivePluginLoader
        = st.currentlyActivePluginLoader := by
  obtain ⟨w1, w2, w3, w4, w5, w6, w7, _⟩ :=
    destroyMetaObjectsForLibraryWalk_spec P L st.logDebug.factoryMapMap.keys st.logDebug
  exact ⟨w2, w5, w6,
    destroyMetaObjectsForLibraryWalk_deletedSharedLibraries P L _ st.logDebug, w1, w7, w3, w4⟩

/-- The three ways `unloadLibrary(P, L)` ends when the flag is false and `P` is in
the loaded-library table: after the sweep meta-objects of `P` remain and the
library is kept; none remains and the close raises; none remains and the
library is closed, deleted and taken out of the table. -/
theorem unloadLibrary_loaded (st : Registry) (P : LibraryPath) (L : PluginLoaderPtr) (r : Bool)
    (hflag : st.hasANonPurePluginLibraryBeenOpened = false)
    (hP : P ∈ st.loadedLibraryVector.map Prod.fst) :
    ∃ itr lib st', findLoadedLibrary st P = some itr ∧
      st.loadedLibraryVector.getD itr (P, 0) = (P, lib) ∧
      st'.factoryMapMap = (destroyMetaObjectsForLibrary st.logDebug P L).factoryMapMap ∧
      st'.metaObjects = (destroyMetaObjectsForLibrary st.logDebug P L).metaObjects ∧
      st'.graveyard = (destroyMetaObjectsForLibrary st.logDebug P L).graveyard ∧
      st'.hasANonPurePluginLibraryBeenOpened = false ∧
      st'.nextMetaObject = st.nextMetaObject ∧
      st'.currentlyLoadingLibraryName = st.currentlyLoadingLibraryName ∧
      st'.currentlyActivePluginLoader = st.currentlyActivePluginLoader ∧
      ((allMetaObjectsForLibrary (destroyMetaObjectsForLibrary st.logDebug P L) P ≠ [] ∧
          unloadLibrary st P L r = Outcome.returned () st' ∧
          st'.loadedLibraryVector = st.loadedLibraryVector ∧
          st'.sharedLibraries = st.sharedLibraries ∧
          st'.deletedSharedLibraries = st.deletedSharedLibraries) ∨
        (allMetaObjectsForLibrary (destroyMetaObjectsForLibrary st.logDebug P L) P = [] ∧
          r = true ∧
          unloadLibrary st P L r
            = Outcome.thrown PluginLoaderException.LibraryUnloadException st' ∧
          st'.loadedLibraryVector = st.loadedLibraryVector ∧
          st'.sharedLibraries = st.sharedLibraries ∧
          st'.deletedSharedLibraries = st.deletedSharedLibraries ++ [lib]) ∨
        (allMetaObjectsForLibrary (destroyMetaObjectsForLibrary st.logDebug P L) P = [] ∧
          r = false ∧
          unloadLibrary st P L r = Outcome.returned () st' ∧
          st'.loadedLibraryVector = st.loadedLibraryVector.eraseIdx itr ∧
          (∀ q, st'.sharedLibraries q =
            if q = lib then (st.sharedLibraries lib).unload else st.sharedLibraries q) ∧
          st'.deletedSharedLibraries = st.deletedSharedLibraries ++ [lib])) := by
  have hopen := (isLibraryLoadedByAnybody_iff st P).mpr hP
  simp only [isLibraryLoadedByAnybody, Option.isSome_iff_exists] at hopen
  obtain ⟨itr, hitr⟩ := hopen
  obtain ⟨e1, _, _, _⟩ := findIdx?_path st.loadedLibraryVector P itr (P, 0) hitr
  have hf : findLoadedLibrary st.logDebug P = some itr := hitr
  have e1' : (st.logDebug.loadedLibraryVector.getD itr (P, 0)).1 = P := e1
  obtain ⟨d1, d2, d3, d4, d5, d6, d7, d8⟩ := destroyMetaObjectsForLibrary_frame st.logDebug P L
  have hpair : st.loadedLibraryVector.getD itr (P, 0)
      = (P, (st.loadedLibraryVector.getD itr (P, 0)).2) := Prod.ext e1 rfl
  have hun : unloadLibrary st P L r =
      if (!areThereAnyExistingMetaObjectsForLibrary
          (destroyMetaObjectsForLibrary st.logDebug P L) P) = true then
        if r = true then
          Outcome.thrown PluginLoaderException.LibraryUnloadException
            (deleteSharedLibrary (destroyMetaObjectsForLibrary st.logDebug P L).logDebug
              (st.loadedLibraryVector.getD itr (P, 0)).2)
        else
          Outcome.returned ()
            { deleteSharedLibrary
                { (destroyMetaObjectsForLibrary st.logDebug P L).logDebug with
                  sharedLibraries := fun q =>
                    if q = (st.loadedLibraryVector.getD itr (P, 0)).2 then
                      ((destroyMetaObjectsForLibrary st.logDebug P L).logDebug.sharedLibraries
                        (st.loadedLibraryVector.getD itr (P, 0)).2).unload
                    else (destroyMetaObjectsForLibrary st.logDebug P L).logDebug.sharedLibraries q }
                (st.loadedLibraryVector.getD itr (P, 0)).2 with
              loadedLibraryVector :=
                (destroyMetaObjectsForLibrary st.logDebug P L).loadedLibraryVector.eraseIdx itr }
      else Outcome.returned () (destroyMetaObjectsForLibrary st.logDebug P L).logDebug := by
    simp only [unloadLibrary, hflag, Bool.false_eq_true, if_false, hf, e1']
    rfl
  rw [hun]
  by_cases hany : allMetaObjectsForLibrary (destroyMetaObjectsForLibrary st.logDebug P L) P = []
  · have hc : (!areThereAnyExistingMetaObjectsForLibrary
        (destroyMetaObjectsForLibrary st.logDebug P L) P) = true := by
      simp only [areThereAnyExistingMetaObjectsForLibrary, hany, List.isEmpty_nil, Bool.not_true,
        Bool.not_false]
    rw [if_pos hc]
    cases r with
    | true =>
      rw [if_pos rfl]
      refine ⟨itr, (st.loadedLibraryVector.getD itr (P, 0)).2,
        deleteSharedLibrary (destroyMetaObjectsForLibrary st.logDebug P L).logDebug
          (st.loadedLibraryVector.getD itr (P, 0)).2,
        hitr, hpair, rfl, rfl, rfl, d2.trans hflag, d5, d7, d8,
        Or.inr (Or.inl ⟨hany, rfl, rfl, d1, d3, ?_⟩)⟩
      show (destroyMetaObjectsForLibrary st.logDebug P L).deletedSharedLibraries ++ _ = _
      rw [d4]
      rfl
    | false =>
      rw [if_neg (by simp)]
      refine ⟨itr, (st.loadedLibraryVector.getD itr (P, 0)).2, _,
        hitr, hpair, ?_, ?_, ?_, ?_, ?_, ?_, ?_,
        Or.inr (Or.inr ⟨hany, rfl, rfl, ?_, ?_, ?_⟩)⟩
      · rfl
      · rfl
      · rfl
      · exact d2.trans hflag
      · exact d5
      · exact d7
      · exact d8
      · show (destroyMetaObjectsForLibrary st.logDebug P L).loadedLibraryVector.eraseIdx itr = _
        rw [d1]
        rfl
      · intro q
        show (if q = _ then
          ((destroyMetaObjectsForLibrary st.logDebug P L).sharedLibraries _).unload
          else (destroyMetaObjectsForLibrary st.logDebug P L).sharedLibraries q) = _
        rw [d3]
        rfl
      · show (destroyMetaObjectsForLibrary st.logDebug P L).deletedSharedLibraries ++ _ = _
        rw [d4]
        rfl
  · have hc : ¬ (!areThereAnyExistingMetaObjectsForLibrary
        (destroyMetaObjectsForLibrary st.logDebug P L) P) = true := by
      simp only [areThereAnyExistingMetaObjectsForLibrary, Bool.not_not, List.isEmpty_iff]
      exact hany
    rw [if_neg hc]
    exact ⟨itr, (st.loadedLibraryVector.getD itr (P, 0)).2,
      (destroyMetaObjectsForLibrary st.logDebug P L).logDebug,
      hitr, hpair, rfl, rfl, rfl, d2.trans hflag, d5, d7, d8,
      Or.inl ⟨hany, rfl, d1, d3, d4⟩⟩

theorem leaves_returned {α : Type} (v : α) (Z st' : Registry) :
    (Outcome.returned v Z).leaves st' ↔ st' = Z := by
  constructor
  · rintro (⟨w, hw⟩ | ⟨e, he⟩)
    · simp only [Outcome.returned.injEq] at hw
      exact hw.2.symm
    · cases he
  · rintro rfl
    exact Or.inl ⟨v, rfl⟩

theorem leaves_thrown {α : Type} (e : PluginLoaderException) (Z st' : Registry) :
    (Outcome.thrown e Z : Outcome α).leaves st' ↔ st' = Z := by
  constructor
  · rintro (⟨w, hw⟩ | ⟨e', he⟩)
    · cases hw
    · simp only [Outcome.thrown.injEq] at he
      exact he.2.symm
  · rintro rfl
    exact Or.inr ⟨e, rfl⟩

theorem not_leaves_nullDereference {α : Type} (st' : Registry) :
    ¬ (Outcome.nullDereference : Outcome α).leaves st' := by
  rintro (⟨w, hw⟩ | ⟨e, he⟩)
  · cases hw
  · cases he

theorem unloadLibrary_of_flag (st : Registry) (P : LibraryPath) (L : PluginLoaderPtr)
    (r : Bool) (hflag : st.hasANonPurePluginLibraryBeenOpened = true) :
    unloadLibrary st P L r = Outcome.returned () st.logDebug := by
  simp only [unloadLibrary, hflag, if_true]

theorem unloadLibrary_of_not_loaded (st : Registry) (P : LibraryPath) (L : PluginLoaderPtr)
    (r : Bool) (hflag : st.hasANonPurePluginLibraryBeenOpened = false)
    (hP : P ∉ st.loadedLibraryVector.map Prod.fst) :
    unloadLibrary st P L r
      = Outcome.thrown PluginLoaderException.LibraryUnloadException st.logDebug := by
  have hclosed : findLoadedLibrary st.logDebug P = none := by
    have := isLibraryLoadedByAnybody_eq_false st P hP
    simpa [isLibraryLoadedByAnybody, findLoadedLibrary] using this
  simp only [unloadLibrary, hflag, Bool.false_eq_true, if_false, hclosed]

/-- What `unloadLibrary` does to the loaded-library table: nothing, or the
first entry of the path is taken out. -/
theorem unloadLibrary_loadedLibraryVector (st st' : Registry) (P : LibraryPath)
    (L : PluginLoaderPtr) (r : Bool) (h : (unloadLibrary st P L r).leaves st') :
    st'.loadedLibraryVector = st.loadedLibraryVector ∨
      ∃ itr, findLoadedLibrary st P = some itr ∧
        st'.loadedLibraryVector = st.loadedLibraryVector.eraseIdx itr := by
  by_cases hflag : st.hasANonPurePluginLibraryBeenOpened = true
  · rw [unloadLibrary_of_flag st P L r hflag, leaves_returned] at h
    subst h
    exact Or.inl rfl
  · have hflag' : st.hasANonPurePluginLibraryBeenOpened = false := by simpa using hflag
    by_cases hP : P ∈ st.loadedLibraryVector.map Prod.fst
    · obtain ⟨itr, lib, Z, h1, _, _, _, _, _, _, _, _, hcase⟩ :=
        unloadLibrary_loaded st P L r hflag' hP
      rcases hcase with ⟨_, hu, hl, _⟩ | ⟨_, _, hu, hl, _⟩ | ⟨_, _, hu, hl, _⟩
      · rw [hu, leaves_returned] at h
        subst h
        exact Or.inl hl
      · rw [hu, leaves_thrown] at h
        subst h
        exact Or.inl hl
      · rw [hu, leaves_returned] at h
        subst h
        exact Or.inr ⟨itr, h1, hl⟩
    · rw [unloadLibrary_of_not_loaded st P L r hflag' hP, leaves_thrown] at h
      subst h
      exact Or.inl rfl

theorem createInstance_leaves (st st' : Registry) (B : BaseClassName) (n : ClassName)
    (L : PluginLoaderPtr) (h : (createInstance st B n L).leaves st') :
    st' = (getFactoryMapForBaseClass st B).logError ∨
      st' = (getFactoryMapForBaseClass st B).logDebug ∨
      st' = (getFactoryMapForBaseClass st B).logDebug.logDebug ∨
      st' = getFactoryMapForBaseClass st B := by
  rw [createInstance_eq] at h
  rcases h with ⟨v, hv⟩ | ⟨e, he⟩
  · split at hv
    · cases hv
    · split_ifs at hv <;> simp only [Outcome.returned.injEq] at hv <;> simp [← hv.2]
  · split at he
    · simp only [Outcome.thrown.injEq] at he
      simp [← he.2]
    · split_ifs at he <;> simp only [Outcome.thrown.injEq] at he <;> simp [← he.2]

/-- In every reachable registry no path has two entries in the loaded-library
table. -/
theorem reachable_libraryPathsDistinct (st : Registry) (h : Reachable st) :
    libraryPathsDistinct st := by
  unfold libraryPathsDistinct
  induction h with
  | initial => simp [Registry.initial]
  | registerPlugin B cn bn _ ih =>
    rw [registerPlugin_loadedLibraryVector]
    exact ih
  | @loadLibrary st st' P L os _ hl ih =>
    rcases loadLibrary_loadedLibraryVector st st' P L os hl with h1 | ⟨h1, lib, h2⟩
    · rw [h1]; exact ih
    · rw [h2, List.map_append, List.nodup_append]
      refine ⟨ih, by simp, ?_⟩
      rw [List.disjoint_left]
      intro a ha hb
      simp only [List.map_cons, List.map_nil, List.mem_singleton] at hb
      exact h1 (hb ▸ ha)
  | @unloadLibrary st st' P L r _ hl ih =>
    rcases unloadLibrary_loadedLibraryVector st st' P L r hl with h1 | ⟨itr, _, h1⟩
    · rw [h1]; exact ih
    · rw [h1]
      exact List.Nodup.sublist (List.Sublist.map _ (List.eraseIdx_sublist _ _)) ih
  | @createInstance st st' B n L _ hl ih =>
    rcases createInstance_leaves st st' B n L hl with rfl | rfl | rfl | rfl <;> simpa using ih
  | @getAvailableClasses st B L _ ih =>
    rw [getAvailableClasses_snd]
    simpa using ih

theorem reachable_registryCatDog : Reachable registryCatDog :=
  Reachable.loadLibrary "P1" (some 1)
    (LoadLibraryA.loaded 7 [⟨"4Base", "Dog", "Base"⟩, ⟨"4Base", "Cat", "Base"⟩])
    Reachable.initial (Or.inl ⟨(), rfl⟩)

theorem reachable_registryCatBuried : Reachable registryCatBuried :=
  Reachable.unloadLibrary "P1" (some 1) false
    (Reachable.loadLibrary "P1" (some 1) (LoadLibraryA.loaded 7 [⟨"4Base", "Cat", "Base"⟩])
      Reachable.initial (Or.inl ⟨(), rfl⟩))
    (Or.inl ⟨(), rfl⟩)

/-- C19. In every registry reachable from the initial one by `loadLibrary` and
`unloadLibrary` (and by registrations, instance creations and listings as
well), whatever the OS does on an open or a close, every library path has at
most one entry in the loaded-library table. -/
theorem loadedLibraryVector_one_entry_per_path (st : Registry) (h : Reachable st)
    (P : LibraryPath) : (st.loadedLibraryVector.map Prod.fst).count P ≤ 1 :=
  List.nodup_iff_count_le_one.mp (reachable_libraryPathsDistinct st h) P

/-- C19 at a concrete registry: `P1` loaded by loader 1. -/
theorem loadedLibraryVector_one_entry_per_path_witness :
    Reachable registryCatDog ∧
      (registryCatDog.loadedLibraryVector.map Prod.fst).count "P1" ≤ 1 :=
  ⟨reachable_registryCatDog,
    loadedLibraryVector_one_entry_per_path registryCatDog reachable_registryCatDog "P1"⟩

/-! ## Unloading: the loaded-library table -/

/-- C13. With the non-pure flag false and `P` in the loaded-library table, which
holds one entry per path: whatever way `unloadLibrary(P, L)` ends, the entries
of the other paths stay, in their order; and when the close does not raise the
call returns, and if no meta-object with path `P` remains in the directory
after the sweep, the entry of `P` is out of the table, its `SharedLibrary`
closed and deleted, whereas if one remains the table and the `SharedLibrary`
objects are unchanged. -/
theorem unloadLibrary_table (st : Registry) (P : LibraryPath) (L : PluginLoaderPtr)
    (hflag : st.hasANonPurePluginLibraryBeenOpened = false)
    (hP : P ∈ st.loadedLibraryVector.map Prod.fst) (hnd : libraryPathsDistinct st) :
    (∀ r st', (unloadLibrary st P L r).leaves st' →
        st'.loadedLibraryVector.filter (fun it => !decide (it.1 = P))
          = st.loadedLibraryVector.filter (fun it => !decide (it.1 = P))) ∧
      ∃ lib st', (P, lib) ∈ st.loadedLibraryVector ∧
        unloadLibrary st P L false = Outcome.returned () st' ∧
        (allMetaObjectsForLibrary st' P = [] →
          st'.loadedLibraryVector
              = st.loadedLibraryVector.filter (fun it => !decide (it.1 = P)) ∧
            P ∉ st'.loadedLibraryVector.map Prod.fst ∧
            (st'.sharedLibraries lib).isLoaded = false ∧
            lib ∈ st'.deletedSharedLibraries) ∧
        (allMetaObjectsForLibrary st' P ≠ [] →
          st'.loadedLibraryVector = st.loadedLibraryVector ∧
            st'.sharedLibraries = st.sharedLibraries ∧
            st'.deletedSharedLibraries = st.deletedSharedLibraries) := by
  constructor
  · intro r st' h
    rcases unloadLibrary_loadedLibraryVector st st' P L r h with h1 | ⟨itr, h1, h2⟩
    · rw [h1]
    · rw [h2]
      exact (findIdx?_path st.loadedLibraryVector P itr (P, 0) h1).2.2.1
  · obtain ⟨itr, lib, st', h1, h2, h3, h4, _, _, _, _, _, hcase⟩ :=
      unloadLibrary_loaded st P L false hflag hP
    obtain ⟨_, f2, _, f4⟩ := findIdx?_path st.loadedLibraryVector P itr (P, 0) h1
    have hall : allMetaObjectsForLibrary st' P
        = allMetaObjectsForLibrary (destroyMetaObjectsForLibrary st.logDebug P L) P :=
      allMetaObjectsForLibrary_congr _ _ h3 h4 P
    refine ⟨lib, st', by rw [← h2]; exact f2, ?_⟩
    rcases hcase with ⟨c1, c2, c3, c4, c5⟩ | ⟨_, c2, _⟩ | ⟨c1, _, c3, c4, c5, c6⟩
    · refine ⟨c2, fun h => absurd (hall ▸ h) c1, fun _ => ⟨c3, c4, c5⟩⟩
    · cases c2
    · refine ⟨c3, fun _ => ⟨?_, ?_, ?_, ?_⟩, fun h => absurd (hall.symm ▸ c1) h⟩
      · rw [c4]
        exact f4 hnd
      · rw [c4, f4 hnd]
        intro hmem
        obtain ⟨it, hit, hfst⟩ := List.mem_map.mp hmem
        have := (List.mem_filter.mp hit).2
        simp [hfst] at this
      · rw [c5 lib, if_pos rfl]
        rfl
      · rw [c6]
        simp

/-- C13 at a concrete registry: loader 1, the only owner, unloads `P1`. -/
theorem unloadLibrary_table_witness :
    registryCatDog.hasANonPurePluginLibraryBeenOpened = false ∧
      "P1" ∈ registryCatDog.loadedLibraryVector.map Prod.fst ∧
      libraryPathsDistinct registryCatDog ∧
      (∀ r st', (unloadLibrary registryCatDog "P1" (some 1) r).leaves st' →
        st'.loadedLibraryVector.filter (fun it => !decide (it.1 = "P1"))
          = registryCatDog.loadedLibraryVector.filter (fun it => !decide (it.1 = "P1"))) ∧
      ∃ lib st', ("P1", lib) ∈ registryCatDog.loadedLibraryVector ∧
        unloadLibrary registryCatDog "P1" (some 1) false = Outcome.returned () st' ∧
        (allMetaObjectsForLibrary st' "P1" = [] →
          st'.loadedLibraryVector
              = registryCatDog.loadedLibraryVector.filter (fun it => !decide (it.1 = "P1")) ∧
            "P1" ∉ st'.loadedLibraryVector.map Prod.fst ∧
            (st'.sharedLibraries lib).isLoaded = false ∧
            lib ∈ st'.deletedSharedLibraries) ∧
        (allMetaObjectsForLibrary st' "P1" ≠ [] →
          st'.loadedLibraryVector = registryCatDog.loadedLibraryVector ∧
            st'.sharedLibraries = registryCatDog.sharedLibraries ∧
            st'.deletedSharedLibraries = registryCatDog.deletedSharedLibraries) :=
  ⟨by decide, by decide, reachable_libraryPathsDistinct _ reachable_registryCatDog,
    unloadLibrary_table registryCatDog "P1" (some 1) (by decide) (by decide)
      (reachable_libraryPathsDistinct _ reachable_registryCatDog)⟩

/-! ## Unloading: the sweep -/

theorem sweptBy_iff (st : Registry) (P : LibraryPath) (L : PluginLoaderPtr) (p : MetaObjectPtr) :
    sweptBy st P L p = true ↔
      (st.metaObjects p).associated_library_path = P ∧ L ∈ owners st p := by
  simp [sweptBy, getAssociatedLibraryPath, isOwnedBy, owners]

theorem buriedBy_iff (st : Registry) (P : LibraryPath) (L : PluginLoaderPtr) (p : MetaObjectPtr) :
    buriedBy st P L p = true ↔
      (st.metaObjects p).associated_library_path = P ∧ L ∈ owners st p ∧
        (owners st p).erase L = [] := by
  simp [buriedBy, sweptBy, getAssociatedLibraryPath, isOwnedBy, owners, and_assoc]

theorem directoryOwnKeys_log (st : Registry) (l : LogLevel) (h : directoryOwnKeys st) :
    directoryOwnKeys (st.log l) :=
  directoryOwnKeys_of st _ (fun _ _ => rfl) (fun _ _ => rfl) (Nat.le_refl _) h

/-- The registry `unloadLibrary(P, L)` leaves, by return or exception, when the
flag is false, `P` is in the table and every directory entry sits at the key
of its meta-object: directory, meta-objects and graveyard are those of the
sweep. -/
theorem unloadLibrary_leaves_swept (st : Registry) (P : LibraryPath) (L : PluginLoaderPtr)
    (r : Bool) (hflag : st.hasANonPurePluginLibraryBeenOpened = false)
    (hP : P ∈ st.loadedLibraryVector.map Prod.fst) (hA : directoryOwnKeys st) :
    ∃ st', (unloadLibrary st P L r).leaves st' ∧
      (∀ q, st'.metaObjects q =
        if q ∈ allMetaObjects st ∧ sweptBy st P L q = true then
          { st.metaObjects q with
            associated_plugin_loaders := (st.metaObjects q).associated_plugin_loaders.erase L }
        else st.metaObjects q) ∧
      (∀ B n, lookup st' B n = (lookup st B n).filter (fun p => !buriedBy st P L p)) ∧
      st'.graveyard = st.graveyard ++ (allMetaObjects st).filter (buriedBy st P L) := by
  obtain ⟨itr, lib, st', _, _, h3, h4, h5, _, _, _, _, hcase⟩ :=
    unloadLibrary_loaded st P L r hflag hP
  obtain ⟨e1, e2, e3, _⟩ := destroyMetaObjectsForLibrary_exact st.logDebug P L
    (directoryOwnKeys_log st _ hA)
  refine ⟨st', ?_, ?_, ?_, ?_⟩
  · rcases hcase with ⟨_, hu, _⟩ | ⟨_, _, hu, _⟩ | ⟨_, _, hu, _⟩
    · rw [hu, leaves_returned]
    · rw [hu, leaves_thrown]
    · rw [hu, leaves_returned]
  · intro q
    rw [h4]
    exact e1 q
  · intro B n
    rw [lookup_congr st' _ h3]
    exact e2 B n
  · rw [h5]
    exact e3

/-- C12. Unload sweep. With the non-pure flag false, `P` in the loaded-library
table and every directory entry at the key of its meta-object, the registry
`unloadLibrary(P, L)` leaves (by return, or by exception when the close raises)
is this: every directory meta-object with library path `P` and `L` among its
owners has lost exactly one occurrence of `L` and nothing else; every other
meta-object is unchanged; a directory entry is gone exactly when its
meta-object was one of those and is left without owner, and then it is at
the end of the graveyard, in directory order, with path `P` and no owner; every
other entry is at its key. -/
theorem unloadLibrary_sweep (st : Registry) (P : LibraryPath) (L : PluginLoaderPtr) (r : Bool)
    (hflag : st.hasANonPurePluginLibraryBeenOpened = false)
    (hP : P ∈ st.loadedLibraryVector.map Prod.fst) (hA : directoryOwnKeys st) :
    ∃ st', (unloadLibrary st P L r).leaves st' ∧
      (∀ q, q ∈ allMetaObjects st → (st.metaObjects q).associated_library_path = P →
        L ∈ owners st q →
        st'.metaObjects q =
            { st.metaObjects q with
              associated_plugin_loaders := (st.metaObjects q).associated_plugin_loaders.erase L } ∧
          (owners st' q).count L + 1 = (owners st q).count L) ∧
      (∀ q, ¬ (q ∈ allMetaObjects st ∧ (st.metaObjects q).associated_library_path = P ∧
          L ∈ owners st q) → st'.metaObjects q = st.metaObjects q) ∧
      (∀ B n, lookup st' B n = (lookup st B n).filter (fun p => !buriedBy st P L p)) ∧
      st'.graveyard = st.graveyard ++ (allMetaObjects st).filter (buriedBy st P L) ∧
      (∀ q, q ∈ allMetaObjects st → buriedBy st P L q = true →
        owners st' q = [] ∧ (st'.metaObjects q).associated_library_path = P) := by
  obtain ⟨st', h0, h1, h2, h3⟩ := unloadLibrary_leaves_swept st P L r hflag hP hA
  refine ⟨st', h0, ?_, ?_, h2, h3, ?_⟩
  · intro q hq hpath hown
    have hs : sweptBy st P L q = true := (sweptBy_iff st P L q).mpr ⟨hpath, hown⟩
    have hm := h1 q
    rw [if_pos ⟨hq, hs⟩] at hm
    refine ⟨hm, ?_⟩
    simp only [owners, hm, List.count_erase_self]
    have : 0 < (st.metaObjects q).associated_plugin_loaders.count L :=
      List.count_pos_iff.mpr hown
    omega
  · intro q hq
    have hm := h1 q
    rw [if_neg (fun h => hq ⟨h.1, (sweptBy_iff st P L q).mp h.2⟩)] at hm
    exact hm
  · intro q hq hb
    obtain ⟨b1, b2, b3⟩ := (buriedBy_iff st P L q).mp hb
    have hm := h1 q
    rw [if_pos ⟨hq, (sweptBy_iff st P L q).mpr ⟨b1, b2⟩⟩] at hm
    simp only [owners, hm]
    exact ⟨b3, b1⟩

/-- C12 at a concrete registry: loader 1, the only owner of `Dog` and `Cat`,
unloads `P1`. -/
theorem unloadLibrary_sweep_witness :
    registryCatDog.hasANonPurePluginLibraryBeenOpened = false ∧
      "P1" ∈ registryCatDog.loadedLibraryVector.map Prod.fst ∧
      directoryOwnKeys registryCatDog ∧
      ∃ st', (unloadLibrary registryCatDog "P1" (some 1) false).leaves st' ∧
        (∀ q, q ∈ allMetaObjects registryCatDog →
          (registryCatDog.metaObjects q).associated_library_path = "P1" →
          some 1 ∈ owners registryCatDog q →
          st'.metaObjects q =
              { registryCatDog.metaObjects q with
                associated_plugin_loaders :=
                  (registryCatDog.metaObjects q).associated_plugin_loaders.erase (some 1) } ∧
            (owners st' q).count (some 1) + 1 = (owners registryCatDog q).count (some 1)) ∧
        (∀ q, ¬ (q ∈ allMetaObjects registryCatDog ∧
            (registryCatDog.metaObjects q).associated_library_path = "P1" ∧
            some 1 ∈ owners registryCatDog q) →
          st'.metaObjects q = registryCatDog.metaObjects q) ∧
        (∀ B n, lookup st' B n =
          (lookup registryCatDog B n).filter (fun p => !buriedBy registryCatDog "P1" (some 1) p)) ∧
        st'.graveyard = registryCatDog.graveyard ++
          (allMetaObjects registryCatDog).filter (buriedBy registryCatDog "P1" (some 1)) ∧
        (∀ q, q ∈ allMetaObjects registryCatDog → buriedBy registryCatDog "P1" (some 1) q = true →
          owners st' q = [] ∧ (st'.metaObjects q).associated_library_path = "P1") :=
  ⟨by decide, by decide, (reachable_invariants _ reachable_registryCatDog).1,
    unloadLibrary_sweep registryCatDog "P1" (some 1) false (by decide) (by decide)
      (reachable_invariants _ reachable_registryCatDog).1⟩

/-! ## Every directory meta-object has an owner -/

theorem directoryOwned_of (st st' : Registry)
    (h : ∀ B n p, lookup st' B n = some p →
      (lookup st B n = some p ∧ (owners st p ≠ [] → owners st' p ≠ [])) ∨ owners st' p ≠ [])
    (hd : directoryOwned st) : directoryOwned st' := by
  intro B n p hp
  rcases h B n p hp with ⟨h1, h2⟩ | h1
  · exact h2 (hd B n p h1)
  · exact h1

theorem directoryOwned_congr (st st' : Registry) (h1 : st'.factoryMapMap = st.factoryMapMap)
    (h2 : st'.metaObjects = st.metaObjects) (hd : directoryOwned st) : directoryOwned st' :=
  directoryOwned_of st st'
    (fun B n p hp => Or.inl ⟨by rw [← lookup_congr st' st h1]; exact hp, by
      simp only [owners, h2]
      exact id⟩) hd

theorem directoryOwned_registerPlugin (st : Registry) (B : BaseClassName) (cn bn : String)
    (hA : directoryOwnKeys st) (hd : directoryOwned st) :
    directoryOwned (registerPlugin st B cn bn) := by
  apply directoryOwned_of st _ _ hd
  intro B₂ n₂ p hp
  rw [lookup_registerPlugin] at hp
  split_ifs at hp with hk
  · simp only [Option.some.injEq] at hp
    subst hp
    right
    simp [owners_registerPlugin]
  · left
    have hlt := (hA B₂ n₂ p hp).2.2
    refine ⟨hp, ?_⟩
    rw [owners_registerPlugin, if_neg (Nat.ne_of_lt hlt)]
    exact id

theorem runInitialisers_directoryOwned (regs : List Registration) (st : Registry)
    (hA : directoryOwnKeys st) (hd : directoryOwned st) :
    directoryOwned (runInitialisers regs st) := by
  induction regs generalizing st with
  | nil => exact hd
  | cons r rest ih =>
    exact ih _ (directoryOwnKeys_registerPlugin st _ _ _ hA)
      (directoryOwned_registerPlugin st _ _ _ hA hd)

theorem afterOpen_directoryOwned (st X : Registry) (P : LibraryPath) (L : PluginLoaderPtr)
    (os : LoadLibraryA) (hX : (afterOpen st P L os).leaves X)
    (hA : directoryOwnKeys st) (hd : directoryOwned st) : directoryOwned X := by
  cases os with
  | failed =>
    simp only [afterOpen, newSharedLibrary] at hX
    rw [leaves_thrown] at hX
    subst hX
    exact directoryOwned_congr st _ rfl rfl hd
  | loaded hm regs =>
    simp only [afterOpen, newSharedLibrary] at hX
    rw [leaves_returned] at hX
    subst hX
    have hA' : directoryOwnKeys
        (setCurrentlyLoadingLibraryName (setCurrentlyActivePluginLoader st L) P) :=
      directoryOwnKeys_of st _ (fun _ _ => rfl) (fun _ _ => rfl) (Nat.le_refl _) hA
    have hd' : directoryOwned
        (setCurrentlyLoadingLibraryName (setCurrentlyActivePluginLoader st L) P) :=
      directoryOwned_congr st _ rfl rfl hd
    exact directoryOwned_congr _ _ rfl rfl (runInitialisers_directoryOwned regs _ hA' hd')

theorem addPluginLoaderOwnerLoop_directoryOwned (L : PluginLoaderPtr) (ps : MetaObjectVector)
    (st st' : Registry) (h : addPluginLoaderOwnerLoop L ps st = some st')
    (hd : directoryOwned st) : directoryOwned st' := by
  cases L with
  | none =>
    cases ps with
    | nil =>
      simp only [addPluginLoaderOwnerLoop, Option.some.injEq] at h
      subst h
      exact hd
    | cons p ps => simp [addPluginLoaderOwnerLoop] at h
  | some l =>
    obtain ⟨st'', h', h1, _, _, _, _, _, _, _, _, _, _, _, h13⟩ :=
      addPluginLoaderOwnerLoop_some l ps st
    rw [h] at h'
    cases h'
    apply directoryOwned_of st _ _ hd
    intro B n p hp
    left
    refine ⟨by rw [← lookup_congr st' st h1]; exact hp, ?_⟩
    intro hne hnil
    simp only [owners, h13 p, List.append_eq_nil] at hnil
    exact hne hnil.1

theorem reviveLoop_directoryOwned (P : LibraryPath) (L : PluginLoaderPtr)
    (gs : MetaObjectVector) (st st' : Registry) (h : reviveLoop P L gs st = some st')
    (hd : directoryOwned st) : directoryOwned st' := by
  cases L with
  | none =>
    rw [reviveLoop_null P gs st st' h]
    exact hd
  | some l =>
    obtain ⟨st'', h', _, _, _, _, _, _, _, _, _, _, r11, r12⟩ := reviveLoop_some P l gs st
    rw [h] at h'
    cases h'
    intro B n p hp
    rw [r12] at hp
    simp only [owners, r11 p]
    cases hf : gs.reverse.find? (revivedAt st P B n) with
    | none =>
      rw [hf] at hp
      intro hnil
      simp only [List.append_eq_nil] at hnil
      exact hd B n p hp hnil.1
    | some g =>
      rw [hf] at hp
      simp only [Option.or_some, Option.some.injEq] at hp
      subst hp
      have hg := List.find?_some hf
      have hmem : g ∈ gs := List.mem_reverse.mp (List.mem_of_find?_eq_some hf)
      simp only [revivedAt, Bool.and_eq_true, decide_eq_true_eq] at hg
      have hc : 0 < (gs.filter (fun g =>
          decide ((st.metaObjects g).associated_library_path = P))).count g :=
        List.count_pos_iff.mpr (List.mem_filter.mpr ⟨hmem, by simpa using hg.1⟩)
      intro hnil
      simp only [List.append_eq_nil, List.replicate_eq_nil_iff] at hnil
      omega

theorem loadLibraryGraveyard_directoryOwned (st st' : Registry) (P : LibraryPath)
    (L : PluginLoaderPtr) (h : loadLibraryGraveyard st P L = some st')
    (hd : directoryOwned st) : directoryOwned st' := by
  simp only [loadLibraryGraveyard, List.length_eq_zero] at h
  have hpurge : ∀ (Y : Registry) (d : Bool), directoryOwned Y →
      purgeGraveyardOfMetaobjects Y P L d = some st' → directoryOwned st' := by
    intro Y d hY hp
    obtain ⟨_, p1, p2, _⟩ := purgeGraveyardOfMetaobjects_spec Y st' P L d hp
    exact directoryOwned_congr Y st' p2 p1 hY
  have hlog : directoryOwned st.logDebug := directoryOwned_congr st _ rfl rfl hd
  by_cases hz : allMetaObjectsForLibrary st P = []
  · rw [if_pos hz] at h
    simp only [revivePreviouslyCreateMetaobjectsFromGraveyard] at h
    cases hr : reviveLoop P L st.logDebug.graveyard st.logDebug with
    | none => rw [hr] at h; simp at h
    | some st₁ =>
      rw [hr] at h
      exact hpurge st₁ false (reviveLoop_directoryOwned P L _ _ st₁ hr hlog) h
  · rw [if_neg hz] at h
    exact hpurge st.logDebug true hlog h

/-- Every outcome of `loadLibrary` keeps an owner on every directory
meta-object. -/
theorem loadLibrary_directoryOwned (st st' : Registry) (P : LibraryPath) (L : PluginLoaderPtr)
    (os : LoadLibraryA) (h : (loadLibrary st P L os).leaves st')
    (hA : directoryOwnKeys st) (hd : directoryOwned st) : directoryOwned st' := by
  have hlogA : directoryOwnKeys st.logDebug := directoryOwnKeys_log st _ hA
  have hlog : directoryOwned st.logDebug := directoryOwned_congr st _ rfl rfl hd
  simp only [loadLibrary] at h
  by_cases hopen : isLibraryLoadedByAnybody st.logDebug P = true
  · rw [if_pos hopen] at h
    simp only [addPluginLoaderOwnerForAllExistingMetaObjectsForLibrary] at h
    cases hl : addPluginLoaderOwnerLoop L (allMetaObjectsForLibrary st.logDebug.logDebug P)
        st.logDebug.logDebug with
    | none =>
      rw [hl] at h
      exact absurd h (not_leaves_nullDereference st')
    | some st₂ =>
      rw [hl] at h
      dsimp only at h
      rw [leaves_returned] at h
      subst h
      exact addPluginLoaderOwnerLoop_directoryOwned L _ st.logDebug.logDebug st' hl
        (directoryOwned_congr st _ rfl rfl hd)
  · rw [if_neg hopen] at h
    cases ha : afterOpen st.logDebug P L os with
    | nullDereference =>
      rw [ha] at h
      exact absurd h (not_leaves_nullDereference st')
    | thrown e X =>
      rw [ha] at h
      dsimp only at h
      rw [leaves_thrown] at h
      subst h
      exact afterOpen_directoryOwned st.logDebug st' P L os
        (by rw [ha, leaves_thrown]) hlogA hlog
    | returned lib X =>
      rw [ha] at h
      dsimp only at h
      have hX : directoryOwned X := afterOpen_directoryOwned st.logDebug X P L os
        (by rw [ha, leaves_returned]) hlogA hlog
      cases hg : loadLibraryGraveyard X.logDebug P L with
      | none =>
        rw [hg] at h
        exact absurd h (not_leaves_nullDereference st')
      | some st₂ =>
        rw [hg] at h
        dsimp only at h
        rw [leaves_returned] at h
        subst h
        exact directoryOwned_congr st₂ _ rfl rfl
          (loadLibraryGraveyard_directoryOwned X.logDebug st₂ P L hg
            (directoryOwned_congr X _ rfl rfl hX))

theorem leaves_unique {α : Type} (o : Outcome α) (a b : Registry) (ha : o.leaves a)
    (hb : o.leaves b) : a = b := by
  cases o with
  | returned v Z => rw [leaves_returned] at ha hb; rw [ha, hb]
  | thrown e Z => rw [leaves_thrown] at ha hb; rw [ha, hb]
  | nullDereference => exact absurd ha (not_leaves_nullDereference a)

/-- Every outcome of `unloadLibrary` keeps an owner on every directory
meta-object. -/
theorem unloadLibrary_directoryOwned (st st' : Registry) (P : LibraryPath)
    (L : PluginLoaderPtr) (r : Bool) (h : (unloadLibrary st P L r).leaves st')
    (hA : directoryOwnKeys st) (hd : directoryOwned st) : directoryOwned st' := by
  by_cases hflag : st.hasANonPurePluginLibraryBeenOpened = true
  · rw [unloadLibrary_of_flag st P L r hflag, leaves_returned] at h
    subst h
    exact directoryOwned_congr st _ rfl rfl hd
  · have hflag' : st.hasANonPurePluginLibraryBeenOpened = false := by simpa using hflag
    by_cases hP : P ∈ st.loadedLibraryVector.map Prod.fst
    · obtain ⟨Z, hZ, h1, h2, _⟩ := unloadLibrary_leaves_swept st P L r hflag' hP hA
      have := leaves_unique _ st' Z h hZ
      subst this
      intro B n p hp
      rw [h2] at hp
      cases hl : lookup st B n with
      | none => rw [hl] at hp; simp [Option.filter] at hp
      | some p' =>
        rw [hl] at hp
        simp only [Option.filter] at hp
        split_ifs at hp with hb
        simp only [Option.some.injEq] at hp
        subst hp
        simp only [Bool.not_eq_true', buriedBy, Bool.and_eq_false_imp] at hb
        simp only [owners, h1 p']
        by_cases hs : sweptBy st P L p' = true
        · rw [if_pos ⟨mem_allMetaObjects_of_lookup st B n p' hl, hs⟩]
          have := hb hs
          simpa using this
        · rw [if_neg (fun h => hs h.2)]
          exact hd B n p' hl
    · rw [unloadLibrary_of_not_loaded st P L r hflag' hP, leaves_thrown] at h
      subst h
      exact directoryOwned_congr st _ rfl rfl hd

/-- In every reachable registry every directory meta-object has an owner. -/
theorem reachable_directoryOwned (st : Registry) (h : Reachable st) : directoryOwned st := by
  induction h with
  | initial =>
    intro B n p hp
    simp [lookup, factoryMapOf, Registry.initial] at hp
  | @registerPlugin st B cn bn hr ih =>
    exact directoryOwned_registerPlugin st B cn bn (reachable_invariants st hr).1 ih
  | @loadLibrary st st' P L os hr hl ih =>
    exact loadLibrary_directoryOwned st st' P L os hl (reachable_invariants st hr).1 ih
  | @unloadLibrary st st' P L r hr hl ih =>
    exact unloadLibrary_directoryOwned st st' P L r hl (reachable_invariants st hr).1 ih
  | @createInstance st st' B n L hr hl ih =>
    have hk : ∀ Z : Registry, Z.metaObjects = st.metaObjects →
        (∀ B₂ n₂, lookup Z B₂ n₂ = lookup st B₂ n₂) → directoryOwned Z := by
      intro Z z1 z2
      apply directoryOwned_of st Z _ ih
      intro B₂ n₂ p hp
      exact Or.inl ⟨by rw [← z2]; exact hp, by simp only [owners, z1]; exact id⟩
    rcases createInstance_leaves st st' B n L hl with rfl | rfl | rfl | rfl <;>
      exact hk _ (by simp) (fun B₂ n₂ => lookup_getFactoryMapForBaseClass st B B₂ n₂)
  | @getAvailableClasses st B L hr ih =>
    rw [getAvailableClasses_snd]
    apply directoryOwned_of st _ _ ih
    intro B₂ n₂ p hp
    exact Or.inl ⟨by rw [← lookup_getFactoryMapForBaseClass st B]; exact hp, by
      simp only [owners, getFactoryMapForBaseClass_metaObjects]
      exact id⟩

/-- C18. Directory invariant. In every registry reachable from the initial one
by `registerPlugin`, `loadLibrary`, `unloadLibrary`, `createInstance` and
`getAvailableClasses`, whatever the OS does, every meta-object the directory
holds has a non-empty owner set, a null entry counting as an owner. -/
theorem directory_metaobjects_owned (st : Registry) (h : Reachable st) (B : BaseClassName)
    (n : ClassName) (p : MetaObjectPtr) (hp : lookup st B n = some p) : owners st p ≠ [] :=
  reachable_directoryOwned st h B n p hp

/-- C18 at a concrete registry: `Cat` of `P1`, loaded by loader 1. -/
theorem directory_metaobjects_owned_witness :
    Reachable registryCatDog ∧ lookup registryCatDog "4Base" "Cat" = some 2 ∧
      owners registryCatDog 2 ≠ [] :=
  ⟨reachable_registryCatDog, by decide,
    directory_metaobjects_owned registryCatDog reachable_registryCatDog "4Base" "Cat" 2
      (by decide)⟩

/-! ## The ways a load ends -/

/-- The ways `loadLibrary(P, L)` ends: the library was open and the owner
tagging completed; the open failed; the open succeeded and the graveyard
scenario completed. -/
theorem loadLibrary_cases (st st' : Registry) (P : LibraryPath) (L : PluginLoaderPtr)
    (os : LoadLibraryA) (h : (loadLibrary st P L os).leaves st') :
    (P ∈ st.loadedLibraryVector.map Prod.fst ∧
        addPluginLoaderOwnerLoop L (allMetaObjectsForLibrary st P) st.logDebug.logDebug
          = some st') ∨
      (P ∉ st.loadedLibraryVector.map Prod.fst ∧ os = LoadLibraryA.failed ∧
        st'.factoryMapMap = st.factoryMapMap ∧ st'.metaObjects = st.metaObjects ∧
        st'.graveyard = st.graveyard ∧ st'.loadedLibraryVector = st.loadedLibraryVector ∧
        st'.hasANonPurePluginLibraryBeenOpened = st.hasANonPurePluginLibraryBeenOpened ∧
        st'.nextMetaObject = st.nextMetaObject) ∨
      (P ∉ st.loadedLibraryVector.map Prod.fst ∧
        ∃ hm regs X st₂, os = LoadLibraryA.loaded hm regs ∧
          afterOpen st.logDebug P L os = Outcome.returned st.nextSharedLibrary X ∧
          loadLibraryGraveyard X.logDebug P L = some st₂ ∧
          st' = { st₂ with
            loadedLibraryVector := st₂.loadedLibraryVector ++ [(P, st.nextSharedLibrary)] }) := by
  simp only [loadLibrary] at h
  by_cases hopen : isLibraryLoadedByAnybody st.logDebug P = true
  · have hP : P ∈ st.loadedLibraryVector.map Prod.fst :=
      (isLibraryLoadedByAnybody_iff st P).mp
        (by rw [← isLibraryLoadedByAnybody_congr st.logDebug st rfl]; exact hopen)
    rw [if_pos hopen] at h
    simp only [addPluginLoaderOwnerForAllExistingMetaObjectsForLibrary] at h
    have hall : allMetaObjectsForLibrary st.logDebug.logDebug P = allMetaObjectsForLibrary st P :=
      allMetaObjectsForLibrary_congr _ _ rfl rfl P
    rw [hall] at h
    cases hl : addPluginLoaderOwnerLoop L (allMetaObjectsForLibrary st P)
        st.logDebug.logDebug with
    | none =>
      rw [hl] at h
      exact absurd h (not_leaves_nullDereference st')
    | some st₂ =>
      rw [hl] at h
      dsimp only at h
      rw [leaves_returned] at h
      subst h
      exact Or.inl ⟨hP, rfl⟩
  · have hP : P ∉ st.loadedLibraryVector.map Prod.fst := by
      intro hmem
      apply hopen
      rw [isLibraryLoadedByAnybody_congr st.logDebug st rfl]
      exact (isLibraryLoadedByAnybody_iff st P).mpr hmem
    rw [if_neg hopen] at h
    right
    cases os with
    | failed =>
      left
      have ha : afterOpen st.logDebug P L LoadLibraryA.failed
          = Outcome.thrown PluginLoaderException.LibraryLoadException
            (setCurrentlyActivePluginLoader (setCurrentlyLoadingLibraryName
              (setCurrentlyLoadingLibraryName
                (setCurrentlyActivePluginLoader st.logDebug L) P) "") none) := rfl
      rw [ha] at h
      dsimp only at h
      rw [leaves_thrown] at h
      subst h
      refine ⟨hP, rfl, ?_, ?_, ?_, ?_, ?_, ?_⟩ <;> simp
    | loaded hm regs =>
      right
      obtain ⟨X, hX, _⟩ := afterOpen_loaded st.logDebug P L hm regs
      rw [hX] at h
      dsimp only at h
      cases hg : loadLibraryGraveyard X.logDebug P L with
      | none =>
        rw [hg] at h
        exact absurd h (not_leaves_nullDereference st')
      | some st₂ =>
        rw [hg] at h
        dsimp only at h
        rw [leaves_returned] at h
        refine ⟨hP, hm, regs, X, st₂, rfl, ?_, hg, ?_⟩
        · exact hX
        · exact h

/-- With a loader that is not null, `loadLibrary` returns unless the open
fails. -/
theorem loadLibrary_returns (st : Registry) (P : LibraryPath) (l : Nat) (os : LoadLibraryA)
    (hos : P ∈ st.loadedLibraryVector.map Prod.fst ∨ os ≠ LoadLibraryA.failed) :
    ∃ st', loadLibrary st P (some l) os = Outcome.returned () st' := by
  simp only [loadLibrary]
  by_cases hopen : isLibraryLoadedByAnybody st.logDebug P = true
  · rw [if_pos hopen]
    simp only [addPluginLoaderOwnerForAllExistingMetaObjectsForLibrary]
    obtain ⟨st', h, _⟩ := addPluginLoaderOwnerLoop_some l
      (allMetaObjectsForLibrary st.logDebug.logDebug P) st.logDebug.logDebug
    rw [h]
    exact ⟨st', rfl⟩
  · rw [if_neg hopen]
    have hP : P ∉ st.loadedLibraryVector.map Prod.fst := by
      intro hmem
      apply hopen
      rw [isLibraryLoadedByAnybody_congr st.logDebug st rfl]
      exact (isLibraryLoadedByAnybody_iff st P).mpr hmem
    cases os with
    | failed =>
      rcases hos with h1 | h1
      · exact absurd h1 hP
      · exact absurd rfl h1
    | loaded hm regs =>
      obtain ⟨X, hX, _⟩ := afterOpen_loaded st.logDebug P (some l) hm regs
      rw [hX]
      dsimp only
      obtain ⟨st₂, h2⟩ := loadLibraryGraveyard_some X.logDebug P l
      rw [h2]
      exact ⟨_, rfl⟩

/-! ## Directory paths are loaded, graveyard meta-objects have no owner -/

/-- What a completed graveyard scenario of `loadLibrary` leaves of the flag and
the identities, and where its directory entries come from. -/
theorem loadLibraryGraveyard_directory (st st' : Registry) (P : LibraryPath)
    (L : PluginLoaderPtr) (h : loadLibraryGraveyard st P L = some st') :
    st'.hasANonPurePluginLibraryBeenOpened = st.hasANonPurePluginLibraryBeenOpened ∧
      (∀ q, identityOf st' q = identityOf st q) ∧
      (∀ B n p, lookup st' B n = some p → lookup st B n = some p ∨
        (st.metaObjects p).associated_library_path = P) := by
  simp only [loadLibraryGraveyard, List.length_eq_zero] at h
  by_cases hz : allMetaObjectsForLibrary st P = []
  · rw [if_pos hz] at h
    simp only [revivePreviouslyCreateMetaobjectsFromGraveyard] at h
    cases hr : reviveLoop P L st.logDebug.graveyard st.logDebug with
    | none => rw [hr] at h; simp at h
    | some st₁ =>
      rw [hr] at h
      obtain ⟨r1, r2, r3⟩ := reviveLoop_directory P L _ _ st₁ hr
      obtain ⟨_, p1, p2, _, _, _, p6, _⟩ := purgeGraveyardOfMetaobjects_spec st₁ st' P L false h
      refine ⟨p6.trans r1, fun q => ?_, fun B n p hp => ?_⟩
      · exact (show identityOf st' q = identityOf st₁ q by simp only [identityOf, p1]).trans
          (r2 q)
      · rw [lookup_congr st' st₁ p2] at hp
        exact r3 B n p hp
  · rw [if_neg hz] at h
    obtain ⟨_, p1, p2, _, _, _, p6, _⟩ :=
      purgeGraveyardOfMetaobjects_spec st.logDebug st' P L true h
    refine ⟨p6, fun q => ?_, fun B n p hp => ?_⟩
    · simp only [identityOf, p1]
      rfl
    · rw [lookup_congr st' st.logDebug p2] at hp
      exact Or.inl hp

/-- The flag is a latch for `loadLibrary`: false afterwards, it was false
before. -/
theorem loadLibrary_flag (st st' : Registry) (P : LibraryPath) (L : PluginLoaderPtr)
    (os : LoadLibraryA) (h : (loadLibrary st P L os).leaves st')
    (hf : st'.hasANonPurePluginLibraryBeenOpened = false) :
    st.hasANonPurePluginLibraryBeenOpened = false := by
  rcases loadLibrary_cases st st' P L os h with ⟨_, h1⟩ | ⟨_, _, _, _, _, _, h1, _⟩ |
      ⟨_, hm, regs, X, st₂, rfl, hX, hg, rfl⟩
  · obtain ⟨_, _, _, _, _, f6, _⟩ := addPluginLoaderOwnerLoop_frame L _ _ st' h1
    rw [f6] at hf
    exact hf
  · rw [h1] at hf
    exact hf
  · obtain ⟨g1, _, _⟩ := loadLibraryGraveyard_directory X.logDebug st₂ P L hg
    have hX' : X.hasANonPurePluginLibraryBeenOpened = false := by
      have : st₂.hasANonPurePluginLibraryBeenOpened = false := hf
      rw [g1] at this
      exact this
    exact (afterOpen_loaded_directory st.logDebug X P L hm regs _ hX).2 hX'

/-- Every outcome of `loadLibrary` keeps the paths of the directory
meta-objects in the loaded-library table. -/
theorem loadLibrary_directoryPathsLoaded (st st' : Registry) (P : LibraryPath)
    (L : PluginLoaderPtr) (os : LoadLibraryA) (h : (loadLibrary st P L os).leaves st')
    (hA : directoryOwnKeys st) (hN : directoryPathsLoaded st) : directoryPathsLoaded st' := by
  intro hf B n p hp
  have hf0 := loadLibrary_flag st st' P L os h hf
  rcases loadLibrary_cases st st' P L os h with ⟨_, h1⟩ | ⟨_, _, b1, b2, _, b4, _, _⟩ |
      ⟨_, hm, regs, X, st₂, rfl, hX, hg, rfl⟩
  · obtain ⟨f1, _, _, _, _, _, f7⟩ := addPluginLoaderOwnerLoop_frame L _ _ st' h1
    have f3 := addPluginLoaderOwnerLoop_loadedLibraryVector L _ _ st' h1
    rw [lookup_congr st' _ f1] at hp
    have := hN hf0 B n p hp
    have hid := f7 p
    simp only [identityOf, Prod.mk.injEq] at hid
    rw [hid.2.2, f3]
    exact this
  · rw [lookup_congr st' st b1] at hp
    rw [b2, b4]
    exact hN hf0 B n p hp
  · obtain ⟨X', hX', _, x2, _, _, _, _, _, x8, x9, _, _⟩ :=
      afterOpen_loaded st.logDebug P L hm regs
    rw [hX] at hX'
    simp only [Outcome.returned.injEq] at hX'
    obtain ⟨_, hXX⟩ := hX'
    subst hXX
    obtain ⟨x12, _⟩ := afterOpen_loaded_directory st.logDebug X P L hm regs _ hX
    obtain ⟨_, g2, g3⟩ := loadLibraryGraveyard_directory X.logDebug st₂ P L hg
    obtain ⟨g4, _⟩ := loadLibraryGraveyard_frame X.logDebug st₂ P L hg
    have hp' : lookup st₂ B n = some p := hp
    have hid := g2 p
    simp only [identityOf, Prod.mk.injEq] at hid
    show (st₂.metaObjects p).associated_library_path
      ∈ (st₂.loadedLibraryVector ++ [(P, st.nextSharedLibrary)]).map Prod.fst
    rw [hid.2.2, g4, List.map_append, List.mem_append]
    show (X.metaObjects p).associated_library_path ∈ X.loadedLibraryVector.map Prod.fst ∨
      (X.metaObjects p).associated_library_path ∈ [(P, st.nextSharedLibrary)].map Prod.fst
    have hnew : (X.metaObjects p).associated_library_path = P →
        (X.metaObjects p).associated_library_path ∈ X.loadedLibraryVector.map Prod.fst ∨
          (X.metaObjects p).associated_library_path ∈ [(P, st.nextSharedLibrary)].map Prod.fst :=
      fun e => Or.inr (by simp [e])
    rcases g3 B n p hp' with h1 | h1
    · rcases x12 B n p h1 with h2 | ⟨h2, h3⟩
      · left
        have hlt := (hA B n p h2).2.2
        have : X.metaObjects p = st.metaObjects p := x8 p hlt
        rw [this, x2]
        exact hN hf0 B n p h2
      · exact hnew (x9 p h2 h3).1
    · exact hnew h1

/-- The registry `unloadLibrary(P, L)` leaves when the flag is false, `P` is in
the table and every directory entry sits at the key of its meta-object: the
sweep, and then one of the three endings. -/
theorem unloadLibrary_loaded_exact (st : Registry) (P : LibraryPath) (L : PluginLoaderPtr)
    (r : Bool) (hflag : st.hasANonPurePluginLibraryBeenOpened = false)
    (hP : P ∈ st.loadedLibraryVector.map Prod.fst) (hA : directoryOwnKeys st) :
    ∃ itr lib st', findLoadedLibrary st P = some itr ∧
      st.loadedLibraryVector.getD itr (P, 0) = (P, lib) ∧
      (unloadLibrary st P L r).leaves st' ∧
      (∀ q, st'.metaObjects q =
        if q ∈ allMetaObjects st ∧ sweptBy st P L q = true then
          { st.metaObjects q with
            associated_plugin_loaders := (st.metaObjects q).associated_plugin_loaders.erase L }
        else st.metaObjects q) ∧
      (∀ B n, lookup st' B n = (lookup st B n).filter (fun p => !buriedBy st P L p)) ∧
      st'.graveyard = st.graveyard ++ (allMetaObjects st).filter (buriedBy st P L) ∧
      st'.hasANonPurePluginLibraryBeenOpened = false ∧
      st'.nextMetaObject = st.nextMetaObject ∧
      ((allMetaObjectsForLibrary st' P ≠ [] ∧
          unloadLibrary st P L r = Outcome.returned () st' ∧
          st'.loadedLibraryVector = st.loadedLibraryVector ∧
          st'.sharedLibraries = st.sharedLibraries ∧
          st'.deletedSharedLibraries = st.deletedSharedLibraries) ∨
        (allMetaObjectsForLibrary st' P = [] ∧ r = true ∧
          unloadLibrary st P L r
            = Outcome.thrown PluginLoaderException.LibraryUnloadException st' ∧
          st'.loadedLibraryVector = st.loadedLibraryVector ∧
          st'.sharedLibraries = st.sharedLibraries ∧
          st'.deletedSharedLibraries = st.deletedSharedLibraries ++ [lib]) ∨
        (allMetaObjectsForLibrary st' P = [] ∧ r = false ∧
          unloadLibrary st P L r = Outcome.returned () st' ∧
          st'.loadedLibraryVector = st.loadedLibraryVector.eraseIdx itr ∧
          (∀ q, st'.sharedLibraries q =
            if q = lib then (st.sharedLibraries lib).unload else st.sharedLibraries q) ∧
          st'.deletedSharedLibraries = st.deletedSharedLibraries ++ [lib])) := by
  obtain ⟨itr, lib, st', h1, h2, h3, h4, h5, h6, h7, _, _, hcase⟩ :=
    unloadLibrary_loaded st P L r hflag hP
  obtain ⟨e1, e2, e3, _⟩ := destroyMetaObjectsForLibrary_exact st.logDebug P L
    (directoryOwnKeys_log st _ hA)
  have hall : allMetaObjectsForLibrary st' P
      = allMetaObjectsForLibrary (destroyMetaObjectsForLibrary st.logDebug P L) P :=
    allMetaObjectsForLibrary_congr _ _ h3 h4 P
  refine ⟨itr, lib, st', h1, h2, ?_, ?_, ?_, ?_, h6, h7, ?_⟩
  · rcases hcase with ⟨_, hu, _⟩ | ⟨_, _, hu, _⟩ | ⟨_, _, hu, _⟩
    · rw [hu, leaves_returned]
    · rw [hu, leaves_thrown]
    · rw [hu, leaves_returned]
  · intro q
    rw [h4]
    exact e1 q
  · intro B n
    rw [lookup_congr st' _ h3]
    exact e2 B n
  · rw [h5]
    exact e3
  · rw [hall]
    exact hcase

theorem mem_allMetaObjects_iff (st : Registry) (p : MetaObjectPtr) :
    p ∈ allMetaObjects st ↔ ∃ B n, lookup st B n = some p := by
  constructor
  · intro hp
    simp only [allMetaObjects, allMetaObjectsOf, List.mem_flatten, List.mem_map] at hp
    obtain ⟨l, ⟨it, hit, rfl⟩, hpl⟩ := hp
    obtain ⟨e, he, rfl⟩ := List.mem_map.mp hpl
    exact ⟨it.1, e.1, lookup_of_mem_entries st it.1 it.2 e.1 e.2 hit he⟩
  · rintro ⟨B, n, h⟩
    exact mem_allMetaObjects_of_lookup st B n p h

theorem allMetaObjectsForLibrary_eq_nil_iff (st : Registry) (P : LibraryPath) :
    allMetaObjectsForLibrary st P = [] ↔
      ∀ B n p, lookup st B n = some p → (st.metaObjects p).associated_library_path ≠ P := by
  rw [List.eq_nil_iff_forall_not_mem]
  constructor
  · intro h B n p hp hpath
    exact h p ((mem_allMetaObjectsForLibrary_iff st P p).mpr
      ⟨mem_allMetaObjects_of_lookup st B n p hp, hpath⟩)
  · intro h p hp
    obtain ⟨h1, h2⟩ := (mem_allMetaObjectsForLibrary_iff st P p).mp hp
    obtain ⟨B, n, h3⟩ := (mem_allMetaObjects_iff st p).mp h1
    exact h B n p h3 h2

theorem lookup_filter_some {st : Registry} {B : BaseClassName} {n : ClassName}
    {f : MetaObjectPtr → Bool} {p : MetaObjectPtr}
    (h : (lookup st B n).filter f = some p) : lookup st B n = some p ∧ f p = true := by
  cases hl : lookup st B n with
  | none => rw [hl] at h; simp [Option.filter] at h
  | some q =>
    rw [hl] at h
    simp only [Option.filter] at h
    split_ifs at h with hq
    simp only [Option.some.injEq] at h
    subst h
    exact ⟨rfl, hq⟩

/-- The flag is a latch for `unloadLibrary`, which never sets it. -/
theorem unloadLibrary_flag (st st' : Registry) (P : LibraryPath) (L : PluginLoaderPtr)
    (r : Bool) (h : (unloadLibrary st P L r).leaves st') :
    st'.hasANonPurePluginLibraryBeenOpened = st.hasANonPurePluginLibraryBeenOpened := by
  by_cases hflag : st.hasANonPurePluginLibraryBeenOpened = true
  · rw [unloadLibrary_of_flag st P L r hflag, leaves_returned] at h
    subst h
    rfl
  · have hflag' : st.hasANonPurePluginLibraryBeenOpened = false := by simpa using hflag
    by_cases hP : P ∈ st.loadedLibraryVector.map Prod.fst
    · obtain ⟨itr, lib, Z, _, _, _, _, _, h6, _, _, _, hcase⟩ :=
        unloadLibrary_loaded st P L r hflag' hP
      have hZ : (unloadLibrary st P L r).leaves Z := by
        rcases hcase with ⟨_, hu, _⟩ | ⟨_, _, hu, _⟩ | ⟨_, _, hu, _⟩
        · rw [hu, leaves_returned]
        · rw [hu, leaves_thrown]
        · rw [hu, leaves_returned]
      rw [leaves_unique _ st' Z h hZ, h6, hflag']
    · rw [unloadLibrary_of_not_loaded st P L r hflag' hP, leaves_thrown] at h
      subst h
      rfl

/-- Every outcome of `unloadLibrary` keeps the paths of the directory
meta-objects in the loaded-library table. -/
theorem unloadLibrary_directoryPathsLoaded (st st' : Registry) (P : LibraryPath)
    (L : PluginLoaderPtr) (r : Bool) (h : (unloadLibrary st P L r).leaves st')
    (hA : directoryOwnKeys st) (hN : directoryPathsLoaded st) : directoryPathsLoaded st' := by
  intro hf B n p hp
  have hflag : st.hasANonPurePluginLibraryBeenOpened = false := by
    rw [← unloadLibrary_flag st st' P L r h]; exact hf
  by_cases hP : P ∈ st.loadedLibraryVector.map Prod.fst
  · obtain ⟨itr, lib, Z, z1, _, hZ, z4, z5, _, _, _, hcase⟩ :=
      unloadLibrary_loaded_exact st P L r hflag hP hA
    have := leaves_unique _ st' Z h hZ
    subst this
    rw [z5] at hp
    obtain ⟨hp0, _⟩ := lookup_filter_some hp
    have hpath : (st'.metaObjects p).associated_library_path
        = (st.metaObjects p).associated_library_path := by
      rw [z4 p]
      split_ifs <;> rfl
    have hold := hN hflag B n p hp0
    rcases hcase with ⟨_, _, c3, _⟩ | ⟨_, _, _, c3, _⟩ | ⟨c1, _, _, c3, _⟩
    · rw [hpath, c3]; exact hold
    · rw [hpath, c3]; exact hold
    · have hne : (st'.metaObjects p).associated_library_path ≠ P := by
        have hp' : lookup st' B n = some p := by
          rw [z5, hp0]
          have := lookup_filter_some hp
          simp only [Option.filter, this.2, if_true]
        exact (allMetaObjectsForLibrary_eq_nil_iff st' P).mp c1 B n p hp'
      rw [c3]
      rw [hpath] at hne ⊢
      obtain ⟨it, hit, hfst⟩ := List.mem_map.mp hold
      obtain ⟨_, _, f3, _⟩ := findIdx?_path st.loadedLibraryVector P itr (P, 0) z1
      have hmem : it ∈ st.loadedLibraryVector.filter (fun it => !decide (it.1 = P)) :=
        List.mem_filter.mpr ⟨hit, by simpa [hfst] using hne⟩
      rw [← f3] at hmem
      exact List.mem_map.mpr ⟨it, (List.mem_filter.mp hmem).1, hfst⟩
  · rw [unloadLibrary_of_not_loaded st P L r hflag hP, leaves_thrown] at h
    subst h
    exact hN hflag B n p hp

/-- In every reachable registry, while no non-pure library has been opened,
every directory meta-object carries the path of a loaded library. -/
theorem reachable_directoryPathsLoaded (st : Registry) (h : Reachable st) :
    directoryPathsLoaded st := by
  induction h with
  | initial =>
    intro _ B n p hp
    simp [lookup, factoryMapOf, Registry.initial] at hp
  | @registerPlugin st B cn bn hr ih =>
    intro hf
    rw [registerPlugin_flag, (reachable_invariants st hr).2.2.1] at hf
    simp at hf
  | @loadLibrary st st' P L os hr hl ih =>
    exact loadLibrary_directoryPathsLoaded st st' P L os hl (reachable_invariants st hr).1 ih
  | @unloadLibrary st st' P L r hr hl ih =>
    exact unloadLibrary_directoryPathsLoaded st st' P L r hl (reachable_invariants st hr).1 ih
  | @createInstance st st' B n L hr hl ih =>
    have hk : ∀ Z : Registry, Z.metaObjects = st.metaObjects →
        Z.loadedLibraryVector = st.loadedLibraryVector →
        Z.hasANonPurePluginLibraryBeenOpened = st.hasANonPurePluginLibraryBeenOpened →
        (∀ B₂ n₂, lookup Z B₂ n₂ = lookup st B₂ n₂) → directoryPathsLoaded Z := by
      intro Z z1 z2 z3 z4 hf B₂ n₂ p hp
      rw [z4] at hp
      rw [z1, z2]
      exact ih (z3 ▸ hf) B₂ n₂ p hp
    rcases createInstance_leaves st st' B n L hl with rfl | rfl | rfl | rfl <;>
      exact hk _ (by simp) (by simp) (by simp)
        (fun B₂ n₂ => lookup_getFactoryMapForBaseClass st B B₂ n₂)
  | @getAvailableClasses st B L hr ih =>
    rw [getAvailableClasses_snd]
    intro hf B₂ n₂ p hp
    rw [lookup_getFactoryMapForBaseClass] at hp
    simpa using ih (by simpa using hf) B₂ n₂ p hp

theorem addPluginLoaderOwnerLoop_metaObjects_of_not_mem (L : PluginLoaderPtr)
    (ps : MetaObjectVector) (st st' : Registry)
    (h : addPluginLoaderOwnerLoop L ps st = some st') (q : MetaObjectPtr) (hq : q ∉ ps) :
    st'.metaObjects q = st.metaObjects q := by
  cases L with
  | none =>
    cases ps with
    | nil =>
      simp only [addPluginLoaderOwnerLoop, Option.some.injEq] at h
      subst h
      rfl
    | cons p ps => simp [addPluginLoaderOwnerLoop] at h
  | some l =>
    obtain ⟨st'', h', _, _, _, _, _, _, _, _, _, _, _, _, h13⟩ :=
      addPluginLoaderOwnerLoop_some l ps st
    rw [h] at h'
    cases h'
    rw [h13 q, List.count_eq_zero_of_not_mem hq]
    simp

/-- The graveyard entries a completed graveyard scenario of `loadLibrary`
leaves are entries it found, unchanged. -/
theorem loadLibraryGraveyard_graveyard (st st' : Registry) (P : LibraryPath)
    (L : PluginLoaderPtr) (h : loadLibraryGraveyard st P L = some st') :
    ∀ g, g ∈ st'.graveyard → g ∈ st.graveyard ∧ st'.metaObjects g = st.metaObjects g := by
  simp only [loadLibraryGraveyard, List.length_eq_zero] at h
  by_cases hz : allMetaObjectsForLibrary st P = []
  · rw [if_pos hz] at h
    simp only [revivePreviouslyCreateMetaobjectsFromGraveyard] at h
    cases hr : reviveLoop P L st.logDebug.graveyard st.logDebug with
    | none => rw [hr] at h; simp at h
    | some st₁ =>
      rw [hr] at h
      obtain ⟨p0, p1, _⟩ := purgeGraveyardOfMetaobjects_spec st₁ st' P L false h
      intro g hg
      rw [p0] at hg
      obtain ⟨hg1, hg2⟩ := List.mem_filter.mp hg
      simp only [Bool.not_eq_true', decide_eq_false_iff_not] at hg2
      cases L with
      | none =>
        have := reviveLoop_null P _ _ st₁ hr
        subst this
        exact ⟨hg1, by rw [p1]; rfl⟩
      | some l =>
        obtain ⟨st'', h', r1, _, _, _, _, _, _, _, _, _, r11, _⟩ :=
          reviveLoop_some P l st.logDebug.graveyard st.logDebug
        rw [hr] at h'
        cases h'
        rw [r1] at hg1
        have hpath : (st.metaObjects g).associated_library_path ≠ P := by
          intro e
          apply hg2
          rw [r11 g]
          exact e
        refine ⟨hg1, ?_⟩
        rw [p1, r11 g, List.count_eq_zero_of_not_mem (by
          intro hm
          have := (List.mem_filter.mp hm).2
          simp only [decide_eq_true_eq] at this
          exact hpath this)]
        simp
  · rw [if_neg hz] at h
    obtain ⟨p0, p1, _⟩ := purgeGraveyardOfMetaobjects_spec st.logDebug st' P L true h
    intro g hg
    rw [p0] at hg
    exact ⟨(List.mem_filter.mp hg).1, by rw [p1]; rfl⟩

theorem not_mem_allMetaObjects_of_graveyard (st : Registry)
    (hD : graveyardApartFromDirectory st)
    (hflag : st.hasANonPurePluginLibraryBeenOpened = false) (g : MetaObjectPtr)
    (hg : g ∈ st.graveyard) : g ∉ allMetaObjects st := by
  intro hmem
  obtain ⟨B, n, h⟩ := (mem_allMetaObjects_iff st g).mp hmem
  exact hD hflag g hg B n g h rfl

/-- Every outcome of `loadLibrary` leaves the graveyard meta-objects without
owner. -/
theorem loadLibrary_graveyardUnowned (st st' : Registry) (P : LibraryPath)
    (L : PluginLoaderPtr) (os : LoadLibraryA) (h : (loadLibrary st P L os).leaves st')
    (hB : graveyardAllocated st) (hD : graveyardApartFromDirectory st)
    (hG : graveyardUnowned st) : graveyardUnowned st' := by
  intro hf g hg
  have hf0 := loadLibrary_flag st st' P L os h hf
  rcases loadLibrary_cases st st' P L os h with ⟨_, h1⟩ | ⟨_, _, _, b2, b3, _⟩ |
      ⟨_, hm, regs, X, st₂, rfl, hX, hgr, rfl⟩
  · obtain ⟨_, f2, _⟩ := addPluginLoaderOwnerLoop_frame L _ _ st' h1
    rw [f2] at hg
    have hg' : g ∈ st.graveyard := hg
    have hnot : g ∉ allMetaObjectsForLibrary st P := fun hm =>
      not_mem_allMetaObjects_of_graveyard st hD hf0 g hg'
        ((mem_allMetaObjectsForLibrary_iff st P g).mp hm).1
    simp only [owners,
      addPluginLoaderOwnerLoop_metaObjects_of_not_mem L _ _ st' h1 g hnot]
    exact hG hf0 g hg'
  · rw [b3] at hg
    simp only [owners, b2]
    exact hG hf0 g hg
  · obtain ⟨X', hX', x1, _, _, _, _, _, _, x8, _⟩ :=
      afterOpen_loaded st.logDebug P L hm regs
    rw [hX] at hX'
    simp only [Outcome.returned.injEq] at hX'
    obtain ⟨_, hXX⟩ := hX'
    subst hXX
    obtain ⟨g1, g2⟩ := loadLibraryGraveyard_graveyard X.logDebug st₂ P L hgr g hg
    have hg' : g ∈ st.graveyard := by
      have : g ∈ X.graveyard := g1
      rw [x1] at this
      exact this
    show (st₂.metaObjects g).associated_plugin_loaders = []
    rw [g2]
    show (X.metaObjects g).associated_plugin_loaders = []
    rw [x8 g (hB g hg')]
    exact hG hf0 g hg'

/-- Every outcome of `unloadLibrary` leaves the graveyard meta-objects without
owner. -/
theorem unloadLibrary_graveyardUnowned (st st' : Registry) (P : LibraryPath)
    (L : PluginLoaderPtr) (r : Bool) (h : (unloadLibrary st P L r).leaves st')
    (hA : directoryOwnKeys st) (hD : graveyardApartFromDirectory st)
    (hG : graveyardUnowned st) : graveyardUnowned st' := by
  intro hf g hg
  have hflag : st.hasANonPurePluginLibraryBeenOpened = false := by
    rw [← unloadLibrary_flag st st' P L r h]; exact hf
  by_cases hP : P ∈ st.loadedLibraryVector.map Prod.fst
  · obtain ⟨itr, lib, Z, _, _, hZ, z4, _, z6, _⟩ :=
      unloadLibrary_loaded_exact st P L r hflag hP hA
    have := leaves_unique _ st' Z h hZ
    subst this
    rw [z6] at hg
    simp only [owners, z4 g]
    rcases List.mem_append.mp hg with hg1 | hg1
    · rw [if_neg (fun hc => not_mem_allMetaObjects_of_graveyard st hD hflag g hg1 hc.1)]
      exact hG hflag g hg1
    · obtain ⟨hg2, hg3⟩ := List.mem_filter.mp hg1
      obtain ⟨b1, b2, b3⟩ := (buriedBy_iff st P L g).mp hg3
      rw [if_pos ⟨hg2, (sweptBy_iff st P L g).mpr ⟨b1, b2⟩⟩]
      exact b3
  · rw [unloadLibrary_of_not_loaded st P L r hflag hP, leaves_thrown] at h
    subst h
    exact hG hflag g hg

/-- In every reachable registry, while no non-pure library has been opened, no
graveyard meta-object has an owner. -/
theorem reachable_graveyardUnowned (st : Registry) (h : Reachable st) :
    graveyardUnowned st := by
  induction h with
  | initial =>
    intro _ g hg
    simp [Registry.initial] at hg
  | @registerPlugin st B cn bn hr ih =>
    intro hf
    rw [registerPlugin_flag, (reachable_invariants st hr).2.2.1] at hf
    simp at hf
  | @loadLibrary st st' P L os hr hl ih =>
    exact loadLibrary_graveyardUnowned st st' P L os hl (reachable_invariants st hr).2.1
      (reachable_graveyard_invariants st hr).2 ih
  | @unloadLibrary st st' P L r hr hl ih =>
    exact unloadLibrary_graveyardUnowned st st' P L r hl (reachable_invariants st hr).1
      (reachable_graveyard_invariants st hr).2 ih
  | @createInstance st st' B n L hr hl ih =>
    have hk : ∀ Z : Registry, Z.metaObjects = st.metaObjects →
        Z.graveyard = st.graveyard →
        Z.hasANonPurePluginLibraryBeenOpened = st.hasANonPurePluginLibraryBeenOpened →
        graveyardUnowned Z := by
      intro Z z1 z2 z3 hf g hg
      rw [z2] at hg
      simp only [owners, z1]
      exact ih (z3 ▸ hf) g hg
    rcases createInstance_leaves st st' B n L hl with rfl | rfl | rfl | rfl <;>
      exact hk _ (by simp) (by simp) (by simp)
  | @getAvailableClasses st B L hr ih =>
    rw [getAvailableClasses_snd]
    intro hf g hg
    simpa [owners] using ih (by simpa using hf) g (by simpa using hg)

/-! ## A load that opens the library, for a loader that is not null -/

theorem runInitialisers_flag_of_loader (regs : List Registration) (st : Registry)
    (h : st.currentlyActivePluginLoader ≠ none) :
    (runInitialisers regs st).hasANonPurePluginLibraryBeenOpened
      = st.hasANonPurePluginLibraryBeenOpened := by
  induction regs generalizing st with
  | nil => rfl
  | cons r rest ih =>
    simp only [runInitialisers]
    rw [ih _ (by rw [registerPlugin_currentlyActivePluginLoader]; exact h), registerPlugin_flag]
    simp [h]

theorem afterOpen_flag_of_loader (st X : Registry) (P : LibraryPath) (l : Nat) (hm : Nat)
    (regs : List Registration) (lib : SharedLibraryPtr)
    (hX : afterOpen st P (some l) (LoadLibraryA.loaded hm regs) = Outcome.returned lib X) :
    X.hasANonPurePluginLibraryBeenOpened = st.hasANonPurePluginLibraryBeenOpened := by
  simp only [afterOpen, newSharedLibrary, Outcome.returned.injEq] at hX
  obtain ⟨_, hX⟩ := hX
  subst hX
  exact runInitialisers_flag_of_loader regs
    (setCurrentlyLoadingLibraryName (setCurrentlyActivePluginLoader st (some l)) P)
    (by simp [setCurrentlyLoadingLibraryName, setCurrentlyActivePluginLoader])

/-- The graveyard scenario of `loadLibrary` for a loader that is not null,
when the directory holds meta-objects of the path: only the graveyard
changes. -/
theorem loadLibraryGraveyard_purge (st st' : Registry) (P : LibraryPath) (L : PluginLoaderPtr)
    (h : loadLibraryGraveyard st P L = some st') (hne : allMetaObjectsForLibrary st P ≠ []) :
    st'.metaObjects = st.metaObjects ∧ st'.factoryMapMap = st.factoryMapMap ∧
      st'.graveyard = st.graveyard.filter
        (fun g => !decide ((st.metaObjects g).associated_library_path = P)) := by
  simp only [loadLibraryGraveyard, List.length_eq_zero] at h
  rw [if_neg hne] at h
  obtain ⟨p0, p1, p2, _⟩ := purgeGraveyardOfMetaobjects_spec st.logDebug st' P L true h
  exact ⟨p1, p2, p0⟩

/-- The graveyard scenario of `loadLibrary` for a loader that is not null,
when the directory holds no meta-object of the path: the graveyard entries of
the path get the loader as owner and go to the directory at their keys,
the last one stored at a key staying. -/
theorem loadLibraryGraveyard_revive (st st' : Registry) (P : LibraryPath) (l : Nat)
    (h : loadLibraryGraveyard st P (some l) = some st')
    (hz : allMetaObjectsForLibrary st P = []) :
    (∀ q, st'.metaObjects q =
        { st.metaObjects q with
          associated_plugin_loaders :=
            (st.metaObjects q).associated_plugin_loaders ++
              List.replicate
                ((st.graveyard.filter (fun g =>
                  decide ((st.metaObjects g).associated_library_path = P))).count q)
                (some l) }) ∧
      (∀ B n, lookup st' B n
        = (st.graveyard.reverse.find? (revivedAt st P B n)).or (lookup st B n)) ∧
      st'.graveyard = st.graveyard.filter
        (fun g => !decide ((st.metaObjects g).associated_library_path = P)) := by
  simp only [loadLibraryGraveyard, List.length_eq_zero] at h
  rw [if_pos hz] at h
  simp only [revivePreviouslyCreateMetaobjectsFromGraveyard] at h
  obtain ⟨st₁, hr, r1, _, _, _, _, _, _, _, _, _, r11, r12⟩ :=
    reviveLoop_some P l st.logDebug.graveyard st.logDebug
  rw [hr] at h
  obtain ⟨p0, p1, p2, _⟩ := purgeGraveyardOfMetaobjects_spec st₁ st' P (some l) false h
  refine ⟨fun q => ?_, fun B n => ?_, ?_⟩
  · rw [p1]
    exact r11 q
  · rw [lookup_congr st' st₁ p2]
    exact r12 B n
  · rw [p0, r1]
    apply List.filter_congr
    intro g _
    rw [r11 g]
    rfl

theorem graveyard_nodup_of_distinct (st : Registry) (hC : graveyardIdentitiesDistinct st) :
    st.graveyard.Nodup :=
  List.Nodup.of_map _ hC

/-- After `loadLibrary(P, L)` opened `P` for a loader that is not null, in a
registry that keeps the invariants and whose flag is false: the flag is false,
`P` is in the table, every directory meta-object of `P` is owned by `L` alone,
and there is one when the initialisers registered a class or the graveyard
held an entry of `P`. -/
theorem loadLibrary_opened_owners (st st' : Registry) (P : LibraryPath) (l : Nat) (hm : Nat)
    (regs : List Registration)
    (h : (loadLibrary st P (some l) (LoadLibraryA.loaded hm regs)).leaves st')
    (hflag : st.hasANonPurePluginLibraryBeenOpened = false)
    (hP : P ∉ st.loadedLibraryVector.map Prod.fst)
    (hA : directoryOwnKeys st) (hC : graveyardIdentitiesDistinct st)
    (hN : directoryPathsLoaded st) (hG : graveyardUnowned st) :
    st'.hasANonPurePluginLibraryBeenOpened = false ∧
      P ∈ st'.loadedLibraryVector.map Prod.fst ∧
      (∀ B n p, lookup st' B n = some p → (st'.metaObjects p).associated_library_path = P →
        owners st' p = [some l]) ∧
      ((regs ≠ [] ∨ ∃ g, g ∈ st.graveyard ∧ (st.metaObjects g).associated_library_path = P) →
        allMetaObjectsForLibrary st' P ≠ []) := by
  rcases loadLibrary_cases st st' P (some l) _ h with ⟨h1, _⟩ | ⟨_, h1, _⟩ |
      ⟨_, hm', regs', X, st₂, hos, hX, hg, rfl⟩
  · exact absurd h1 hP
  · cases h1
  · simp only [LoadLibraryA.loaded.injEq] at hos
    obtain ⟨rfl, rfl⟩ := hos
    obtain ⟨X', hX', x1, _, _, _, _, _, _, x8, x9, x10, x11⟩ :=
      afterOpen_loaded st.logDebug P (some l) hm regs
    rw [hX] at hX'
    simp only [Outcome.returned.injEq] at hX'
    obtain ⟨_, hXX⟩ := hX'
    subst hXX
    obtain ⟨x12, _⟩ := afterOpen_loaded_directory st.logDebug X P (some l) hm regs _ hX
    have xflag : X.hasANonPurePluginLibraryBeenOpened = false :=
      (afterOpen_flag_of_loader st.logDebug X P l hm regs _ hX).trans hflag
    obtain ⟨g1, _, _⟩ := loadLibraryGraveyard_directory X.logDebug st₂ P (some l) hg
    -- no directory meta-object of the registry before has path `P`
    have hold : ∀ B n p, lookup st B n = some p →
        (st.metaObjects p).associated_library_path ≠ P := by
      intro B n p hp e
      exact hP (e ▸ hN hflag B n p hp)
    refine ⟨g1.trans xflag, ?_, ?_, ?_⟩
    · show P ∈ (st₂.loadedLibraryVector ++ [(P, st.nextSharedLibrary)]).map Prod.fst
      simp
    · intro B n p hp hpath
      have hp' : lookup st₂ B n = some p := hp
      have hpath' : (st₂.metaObjects p).associated_library_path = P := hpath
      show (st₂.metaObjects p).associated_plugin_loaders = [some l]
      by_cases hz : allMetaObjectsForLibrary X.logDebug P = []
      · -- revival
        have hz' : allMetaObjectsForLibrary X P = [] := by
          rw [← allMetaObjectsForLibrary_congr X.logDebug X rfl rfl P]; exact hz
        have hregs : regs = [] := by
          by_contra hne
          exact x10 hne hz'
        obtain ⟨hXm, hXf⟩ := x11 hregs
        obtain ⟨r1, r2, _⟩ := loadLibraryGraveyard_revive X.logDebug st₂ P l hg hz
        have hXm' : X.logDebug.metaObjects = st.metaObjects := hXm
        have hXg' : X.logDebug.graveyard = st.graveyard := x1
        rw [hXm', hXg'] at r1
        rw [hXg'] at r2
        have hrev : revivedAt X.logDebug P B n = revivedAt st P B n := by
          funext q
          simp only [revivedAt, hXm']
        rw [r2, hrev, lookup_congr X.logDebug st hXf] at hp'
        cases hf : st.graveyard.reverse.find? (revivedAt st P B n) with
        | none =>
          rw [hf] at hp'
          have hp'' : lookup st B n = some p := hp'
          rw [r1 p] at hpath'
          exact absurd hpath' (hold B n p hp'')
        | some g =>
          rw [hf] at hp'
          simp only [Option.or_some, Option.some.injEq] at hp'
          subst hp'
          have hgm : g ∈ st.graveyard := List.mem_reverse.mp (List.mem_of_find?_eq_some hf)
          have hgp := List.find?_some hf
          simp only [revivedAt, Bool.and_eq_true, decide_eq_true_eq] at hgp
          have hcount : (st.graveyard.filter (fun g =>
              decide ((st.metaObjects g).associated_library_path = P))).count g = 1 :=
            List.count_eq_one_of_mem
              (List.Nodup.filter _ (graveyard_nodup_of_distinct st hC))
              (List.mem_filter.mpr ⟨hgm, by simpa using hgp.1⟩)
          have hown : (st.metaObjects g).associated_plugin_loaders = [] := hG hflag g hgm
          rw [r1 g, hcount, hown]
          rfl
      · -- the initialisers registered
        obtain ⟨q1, q2, _⟩ := loadLibraryGraveyard_purge X.logDebug st₂ P (some l) hg hz
        rw [lookup_congr st₂ X.logDebug q2] at hp'
        have hp'' : lookup X B n = some p := hp'
        rw [q1] at hpath' ⊢
        rcases x12 B n p hp'' with h2 | ⟨h2, h3⟩
        · have hlt := (hA B n p h2).2.2
          have e : X.metaObjects p = st.metaObjects p := x8 p hlt
          have hpath'' : (X.metaObjects p).associated_library_path = P := hpath'
          rw [e] at hpath''
          exact absurd hpath'' (hold B n p h2)
        · exact (x9 p h2 h3).2
    · intro hsome
      by_cases hz : allMetaObjectsForLibrary X.logDebug P = []
      · have hz' : allMetaObjectsForLibrary X P = [] := by
          rw [← allMetaObjectsForLibrary_congr X.logDebug X rfl rfl P]; exact hz
        have hregs : regs = [] := by
          by_contra hne
          exact x10 hne hz'
        obtain ⟨hXm, hXf⟩ := x11 hregs
        obtain ⟨r1, r2, _⟩ := loadLibraryGraveyard_revive X.logDebug st₂ P l hg hz
        have hXm' : X.logDebug.metaObjects = st.metaObjects := hXm
        have hXg' : X.logDebug.graveyard = st.graveyard := x1
        rw [hXm', hXg'] at r1
        rw [hXg'] at r2
        rcases hsome with hne | ⟨g, hgm, hgp⟩
        · exact absurd hregs hne
        · have hrev : revivedAt X.logDebug P (st.metaObjects g).typeid_base_class_name
              (st.metaObjects g).class_name
              = revivedAt st P (st.metaObjects g).typeid_base_class_name
                (st.metaObjects g).class_name := by
            funext q
            simp only [revivedAt, hXm']
          have hl := r2 (st.metaObjects g).typeid_base_class_name (st.metaObjects g).class_name
          rw [hrev] at hl
          cases hf : st.graveyard.reverse.find? (revivedAt st P
              (st.metaObjects g).typeid_base_class_name (st.metaObjects g).class_name) with
          | none =>
            rw [List.find?_eq_none] at hf
            have := hf g (List.mem_reverse.mpr hgm)
            simp [revivedAt, hgp] at this
          | some g' =>
            rw [hf] at hl
            simp only [Option.or_some] at hl
            have hg'p := List.find?_some hf
            simp only [revivedAt, Bool.and_eq_true, decide_eq_true_eq] at hg'p
            intro hnil
            have hl' : lookup st₂ (st.metaObjects g).typeid_base_class_name
                (st.metaObjects g).class_name = some g' := hl
            have := (allMetaObjectsForLibrary_eq_nil_iff _ P).mp hnil _ _ g' hl'
            apply this
            show (st₂.metaObjects g').associated_library_path = P
            rw [r1 g']
            exact hg'p.1
      · obtain ⟨q1, q2, _⟩ := loadLibraryGraveyard_purge X.logDebug st₂ P (some l) hg hz
        intro hnil
        apply hz
        rw [← allMetaObjectsForLibrary_congr st₂ X.logDebug q2 q1 P]
        exact (allMetaObjectsForLibrary_congr _ st₂ rfl rfl P).symm.trans hnil

/-! ## An unload removes the library iff no other loader references it -/

/-- C14, as the claim states it, fails for a library that registers no class.
In a fresh process loader 1 loads `P1`, which registers nothing, loader 2 loads
`P1`, loader 1 unloads `P1`: every call returns, the flag is false, and `P1` is
no longer in the loaded-library table; the following unload by loader 2
raises `LibraryUnloadException`. -/
theorem unload_removes_classless_library_of_other_loader :
    ∃ s₁ s₂ s₃,
      loadLibrary Registry.initial "P1" (some 1) (LoadLibraryA.loaded 7 [])
          = Outcome.returned () s₁ ∧
        loadLibrary s₁ "P1" (some 2) (LoadLibraryA.loaded 7 []) = Outcome.returned () s₂ ∧
        s₂.hasANonPurePluginLibraryBeenOpened = false ∧
        unloadLibrary s₂ "P1" (some 1) false = Outcome.returned () s₃ ∧
        isLibraryLoadedByAnybody s₃ "P1" = false ∧
        unloadLibrary s₃ "P1" (some 2) false
          = Outcome.thrown PluginLoaderException.LibraryUnloadException s₃.logDebug :=
  ⟨_, _, _, rfl, rfl, rfl, rfl, rfl, rfl⟩

/-- What the already-open branch of `loadLibrary` does for a loader that is
not null. -/
theorem loadLibrary_open_tagged (st st' : Registry) (P : LibraryPath) (l : Nat)
    (os : LoadLibraryA) (h : (loadLibrary st P (some l) os).leaves st')
    (hP : P ∈ st.loadedLibraryVector.map Prod.fst) :
    st'.factoryMapMap = st.factoryMapMap ∧ st'.graveyard = st.graveyard ∧
      st'.loadedLibraryVector = st.loadedLibraryVector ∧
      st'.hasANonPurePluginLibraryBeenOpened = st.hasANonPurePluginLibraryBeenOpened ∧
      ∀ q, st'.metaObjects q =
        { st.metaObjects q with
          associated_plugin_loaders :=
            (st.metaObjects q).associated_plugin_loaders ++
              List.replicate ((allMetaObjectsForLibrary st P).count q) (some l) } := by
  rcases loadLibrary_cases st st' P (some l) os h with ⟨_, h1⟩ | ⟨h1, _⟩ | ⟨h1, _⟩
  · obtain ⟨st'', h', a1, a2, a3, _, _, a6, _, _, _, _, _, _, a13⟩ :=
      addPluginLoaderOwnerLoop_some l (allMetaObjectsForLibrary st P) st.logDebug.logDebug
    rw [h1] at h'
    cases h'
    exact ⟨a1, a2, a3, a6, a13⟩
  · exact absurd hP h1
  · exact absurd hP h1

/-- C14, amended. In a reachable registry with the non-pure flag false and `P`
not in the loaded-library table, for distinct loaders `l₁` and `l₂` (not null)
and a successful open of `P`: when the load puts a meta-object of `P` into the
directory (the initialisers register at least one class, or the graveyard
holds an entry of `P` to revive), then after `l₁` loads `P`, `l₂` loads `P` and
`l₁` unloads `P` (every call returns, whatever the close would do), `P` is still
in the table and the following unload by `l₂` returns; and when `l₁` alone has
loaded `P`, whatever its initialisers register, its unload removes `P` from the
table. -/
theorem unload_removes_library_iff_unreferenced (st : Registry) (hreach : Reachable st)
    (hflag : st.hasANonPurePluginLibraryBeenOpened = false) (P : LibraryPath)
    (hP : P ∉ st.loadedLibraryVector.map Prod.fst) (l₁ l₂ : Nat) (hne : l₁ ≠ l₂) (hm : Nat)
    (regs : List Registration) (os₂ : LoadLibraryA) :
    ((regs ≠ [] ∨ ∃ g, g ∈ st.graveyard ∧ (st.metaObjects g).associated_library_path = P) →
      ∃ s₁ s₂,
        loadLibrary st P (some l₁) (LoadLibraryA.loaded hm regs) = Outcome.returned () s₁ ∧
        loadLibrary s₁ P (some l₂) os₂ = Outcome.returned () s₂ ∧
        ∀ r, ∃ s₃, unloadLibrary s₂ P (some l₁) r = Outcome.returned () s₃ ∧
          isLibraryLoadedByAnybody s₃ P = true ∧
          ∃ s₄, unloadLibrary s₃ P (some l₂) false = Outcome.returned () s₄) ∧
      ∃ s₁ s₂,
        loadLibrary st P (some l₁) (LoadLibraryA.loaded hm regs) = Outcome.returned () s₁ ∧
        unloadLibrary s₁ P (some l₁) false = Outcome.returned () s₂ ∧
        isLibraryLoadedByAnybody s₂ P = false := by
  obtain ⟨hA, _, _⟩ := reachable_invariants st hreach
  obtain ⟨hC, _⟩ := reachable_graveyard_invariants st hreach
  have hN := reachable_directoryPathsLoaded st hreach
  have hG := reachable_graveyardUnowned st hreach
  obtain ⟨s₁, hs₁⟩ := loadLibrary_returns st P l₁ (LoadLibraryA.loaded hm regs)
    (Or.inr (by simp))
  have hl₁ : (loadLibrary st P (some l₁) (LoadLibraryA.loaded hm regs)).leaves s₁ := by
    rw [hs₁, leaves_returned]
  have hr₁ : Reachable s₁ := Reachable.loadLibrary P (some l₁) _ hreach hl₁
  obtain ⟨o1, o2, o3, o4⟩ :=
    loadLibrary_opened_owners st s₁ P l₁ hm regs hl₁ hflag hP hA hC hN hG
  obtain ⟨hA₁, _, _⟩ := reachable_invariants s₁ hr₁
  constructor
  · intro hsome
    obtain ⟨s₂, hs₂⟩ := loadLibrary_returns s₁ P l₂ os₂ (Or.inl o2)
    have hl₂ : (loadLibrary s₁ P (some l₂) os₂).leaves s₂ := by
      rw [hs₂, leaves_returned]
    have hr₂ : Reachable s₂ := Reachable.loadLibrary P (some l₂) _ hr₁ hl₂
    obtain ⟨t1, _, t3, t4, t5⟩ := loadLibrary_open_tagged s₁ s₂ P l₂ os₂ hl₂ o2
    obtain ⟨hA₂, _, _⟩ := reachable_invariants s₂ hr₂
    have hflag₂ : s₂.hasANonPurePluginLibraryBeenOpened = false := t4.trans o1
    have hP₂ : P ∈ s₂.loadedLibraryVector.map Prod.fst := by rw [t3]; exact o2
    -- a directory meta-object of `P`, owned by `l₂` after the second load
    obtain ⟨p, hp⟩ := List.exists_mem_of_ne_nil _ (o4 hsome)
    obtain ⟨hp1, hp2⟩ := (mem_allMetaObjectsForLibrary_iff s₁ P p).mp hp
    obtain ⟨B, n, hp3⟩ := (mem_allMetaObjects_iff s₁ p).mp hp1
    have hp3' : lookup s₂ B n = some p := by rw [lookup_congr s₂ s₁ t1]; exact hp3
    have hown : some l₂ ∈ (s₂.metaObjects p).associated_plugin_loaders := by
      rw [t5 p]
      have hc : 0 < (allMetaObjectsForLibrary s₁ P).count p := List.count_pos_iff.mpr hp
      apply List.mem_append_right
      rw [List.mem_replicate]
      exact ⟨by omega, rfl⟩
    have hpath₂ : (s₂.metaObjects p).associated_library_path = P := by
      rw [t5 p]; exact hp2
    refine ⟨s₁, s₂, hs₁, hs₂, fun r => ?_⟩
    obtain ⟨itr, lib, s₃, _, _, hl₃, z4, z5, _, z7, _, hcase⟩ :=
      unloadLibrary_loaded_exact s₂ P (some l₁) r hflag₂ hP₂ hA₂
    have hnb : buriedBy s₂ P (some l₁) p = false := by
      cases hb : buriedBy s₂ P (some l₁) p with
      | false => rfl
      | true =>
        obtain ⟨_, _, b3⟩ := (buriedBy_iff s₂ P (some l₁) p).mp hb
        have hmem : some l₂ ∈ (owners s₂ p).erase (some l₁) :=
          (List.mem_erase_of_ne (by
            intro e
            exact hne (Option.some.inj e).symm)).mpr hown
        rw [b3] at hmem
        simp at hmem
    have hp₃ : lookup s₃ B n = some p := by
      rw [z5, hp3']
      simp [Option.filter, hnb]
    have hpath₃ : (s₃.metaObjects p).associated_library_path = P := by
      rw [z4 p]
      split_ifs
      · exact hpath₂
      · exact hpath₂
    have hne₃ : allMetaObjectsForLibrary s₃ P ≠ [] := by
      intro hnil
      exact (allMetaObjectsForLibrary_eq_nil_iff s₃ P).mp hnil B n p hp₃ hpath₃
    rcases hcase with ⟨_, c2, c3, _⟩ | ⟨c1, _⟩ | ⟨c1, _⟩
    · have hP₃ : P ∈ s₃.loadedLibraryVector.map Prod.fst := by rw [c3]; exact hP₂
      refine ⟨s₃, c2, (isLibraryLoadedByAnybody_iff s₃ P).mpr hP₃, ?_⟩
      obtain ⟨_, _, s₄, _, _, _, _, _, _, _, _, _, hcase₄⟩ :=
        unloadLibrary_loaded s₃ P (some l₂) false z7 hP₃
      rcases hcase₄ with ⟨_, d2, _⟩ | ⟨_, d1, _⟩ | ⟨_, _, d2, _⟩
      · exact ⟨s₄, d2⟩
      · cases d1
      · exact ⟨s₄, d2⟩
    · exact absurd c1 hne₃
    · exact absurd c1 hne₃
  · have hnd₁ := reachable_libraryPathsDistinct s₁ hr₁
    obtain ⟨itr, lib, s₂, z1, _, _, z4, z5, _, _, _, hcase⟩ :=
      unloadLibrary_loaded_exact s₁ P (some l₁) false o1 o2 hA₁
    have hnil : allMetaObjectsForLibrary s₂ P = [] := by
      rw [allMetaObjectsForLibrary_eq_nil_iff]
      intro B n p hp hpath
      rw [z5] at hp
      obtain ⟨hp0, hnb⟩ := lookup_filter_some hp
      have hpath₁ : (s₁.metaObjects p).associated_library_path = P := by
        rw [z4 p] at hpath
        split_ifs at hpath
        · exact hpath
        · exact hpath
      have hown := o3 B n p hp0 hpath₁
      have hb : buriedBy s₁ P (some l₁) p = true :=
        (buriedBy_iff s₁ P (some l₁) p).mpr ⟨hpath₁, by rw [hown]; simp, by rw [hown]; simp⟩
      rw [hb] at hnb
      simp at hnb
    rcases hcase with ⟨c1, _⟩ | ⟨_, c1, _⟩ | ⟨_, _, c2, c3, _⟩
    · exact absurd hnil c1
    · cases c1
    · refine ⟨s₁, s₂, hs₁, c2, ?_⟩
      apply isLibraryLoadedByAnybody_eq_false
      rw [c3, (findIdx?_path s₁.loadedLibraryVector P itr (P, 0) z1).2.2.2 hnd₁]
      intro hmem
      obtain ⟨it, hit, hfst⟩ := List.mem_map.mp hmem
      have := (List.mem_filter.mp hit).2
      simp [hfst] at this

/-- C14, amended, at a concrete input: in a fresh process, library `P1`
registers `Cat`; loaders 1 and 2. -/
theorem unload_removes_library_iff_unreferenced_witness :
    Reachable Registry.initial ∧
      Registry.initial.hasANonPurePluginLibraryBeenOpened = false ∧
      "P1" ∉ Registry.initial.loadedLibraryVector.map Prod.fst ∧ (1 : Nat) ≠ 2 ∧
      (∃ s₁ s₂,
        loadLibrary Registry.initial "P1" (some 1)
            (LoadLibraryA.loaded 7 [⟨"4Base", "Cat", "Base"⟩]) = Outcome.returned () s₁ ∧
        loadLibrary s₁ "P1" (some 2) LoadLibraryA.failed = Outcome.returned () s₂ ∧
        ∀ r, ∃ s₃, unloadLibrary s₂ "P1" (some 1) r = Outcome.returned () s₃ ∧
          isLibraryLoadedByAnybody s₃ "P1" = true ∧
          ∃ s₄, unloadLibrary s₃ "P1" (some 2) false = Outcome.returned () s₄) ∧
      ∃ s₁ s₂,
        loadLibrary Registry.initial "P1" (some 1)
            (LoadLibraryA.loaded 7 [⟨"4Base", "Cat", "Base"⟩]) = Outcome.returned () s₁ ∧
        unloadLibrary s₁ "P1" (some 1) false = Outcome.returned () s₂ ∧
        isLibraryLoadedByAnybody s₂ "P1" = false :=
  ⟨Reachable.initial, rfl, by decide, by decide,
    (unload_removes_library_iff_unreferenced Registry.initial Reachable.initial rfl "P1"
      (by decide) 1 2 (by decide) 7 [⟨"4Base", "Cat", "Base"⟩] LoadLibraryA.failed).1
      (Or.inl (by simp)),
    (unload_removes_library_iff_unreferenced Registry.initial Reachable.initial rfl "P1"
      (by decide) 1 2 (by decide) 7 [⟨"4Base", "Cat", "Base"⟩] LoadLibraryA.failed).2⟩

/-! ## Unload and reload -/

/-- The unload of `P` by the loader that alone owns, once, each directory
meta-object of `P`: all of them go to the graveyard, without owner, and `P`
leaves the table. -/
theorem unloadLibrary_sole_owner (st : Registry) (P : LibraryPath) (L : PluginLoaderPtr)
    (hflag : st.hasANonPurePluginLibraryBeenOpened = false)
    (hP : P ∈ st.loadedLibraryVector.map Prod.fst) (hA : directoryOwnKeys st)
    (hnd : libraryPathsDistinct st)
    (howners : ∀ p, p ∈ allMetaObjectsForLibrary st P → owners st p = [L]) :
    ∃ s₁, unloadLibrary st P L false = Outcome.returned () s₁ ∧
      (∀ q, s₁.metaObjects q =
        if q ∈ allMetaObjectsForLibrary st P then
          { st.metaObjects q with associated_plugin_loaders := [] }
        else st.metaObjects q) ∧
      (∀ B n, lookup s₁ B n = (lookup st B n).filter
        (fun p => !decide ((st.metaObjects p).associated_library_path = P))) ∧
      s₁.graveyard = st.graveyard ++ allMetaObjectsForLibrary st P ∧
      s₁.hasANonPurePluginLibraryBeenOpened = false ∧
      P ∉ s₁.loadedLibraryVector.map Prod.fst := by
  obtain ⟨itr, lib, s₁, z1, _, _, z4, z5, z6, z7, _, hcase⟩ :=
    unloadLibrary_loaded_exact st P L false hflag hP hA
  -- on the directory, buried is: of path `P`
  have hbur : ∀ q, q ∈ allMetaObjects st →
      (buriedBy st P L q = true ↔ (st.metaObjects q).associated_library_path = P) := by
    intro q hq
    rw [buriedBy_iff]
    constructor
    · exact fun h => h.1
    · intro hpath
      have := howners q ((mem_allMetaObjectsForLibrary_iff st P q).mpr ⟨hq, hpath⟩)
      exact ⟨hpath, by rw [this]; simp, by rw [this]; simp⟩
  have hlk : ∀ B n, lookup s₁ B n = (lookup st B n).filter
      (fun p => !decide ((st.metaObjects p).associated_library_path = P)) := by
    intro B n
    rw [z5]
    cases hl : lookup st B n with
    | none => rfl
    | some p =>
      have := hbur p (mem_allMetaObjects_of_lookup st B n p hl)
      by_cases hpath : (st.metaObjects p).associated_library_path = P
      · simp [Option.filter, hpath, this.mpr hpath]
      · have hb : buriedBy st P L p = false := by
          cases hb' : buriedBy st P L p with
          | false => rfl
          | true => exact absurd (this.mp hb') hpath
        simp [Option.filter, hpath, hb]
  have hnil : allMetaObjectsForLibrary s₁ P = [] := by
    rw [allMetaObjectsForLibrary_eq_nil_iff]
    intro B n p hp hpath
    rw [hlk] at hp
    obtain ⟨_, hf⟩ := lookup_filter_some hp
    rw [z4 p] at hpath
    have hpath' : (st.metaObjects p).associated_library_path = P := by
      split_ifs at hpath
      · exact hpath
      · exact hpath
    simp [hpath'] at hf
  rcases hcase with ⟨c1, _⟩ | ⟨_, c1, _⟩ | ⟨_, _, c2, c3, _⟩
  · exact absurd hnil c1
  · cases c1
  · refine ⟨s₁, c2, ?_, hlk, ?_, z7, ?_⟩
    · intro q
      rw [z4 q]
      by_cases hq : q ∈ allMetaObjectsForLibrary st P
      · obtain ⟨hq1, hq2⟩ := (mem_allMetaObjectsForLibrary_iff st P q).mp hq
        have hown := howners q hq
        simp only [owners] at hown
        rw [if_pos hq, if_pos ⟨hq1, (sweptBy_iff st P L q).mpr ⟨hq2, by
          simp only [owners, hown]; simp⟩⟩, hown]
        simp
      · rw [if_neg hq, if_neg]
        rintro ⟨hq1, hq2⟩
        exact hq ((mem_allMetaObjectsForLibrary_iff st P q).mpr
          ⟨hq1, ((sweptBy_iff st P L q).mp hq2).1⟩)
    · rw [z6]
      congr 1
      simp only [allMetaObjectsForLibrary, filterAllMetaObjectsAssociatedWithLibrary,
        getAssociatedLibraryPath]
      apply List.filter_congr
      intro q hq
      have := hbur q hq
      by_cases hpath : (st.metaObjects q).associated_library_path = P
      · simp [hpath, this.mpr hpath]
      · have hb : buriedBy st P L q = false := by
          cases hb' : buriedBy st P L q with
          | false => rfl
          | true => exact absurd (this.mp hb') hpath
        simp [hpath, hb]
    · rw [c3, (findIdx?_path st.loadedLibraryVector P itr (P, 0) z1).2.2.2 hnd]
      intro hmem
      obtain ⟨it, hit, hfst⟩ := List.mem_map.mp hmem
      have := (List.mem_filter.mp hit).2
      simp [hfst] at this

/-- The load of `P` whose open registers nothing, while the directory holds no
meta-object of `P`, for a loader that is not null: the revival. -/
theorem loadLibrary_revival (st : Registry) (P : LibraryPath) (l : Nat) (hm : Nat)
    (hP : P ∉ st.loadedLibraryVector.map Prod.fst)
    (hz : allMetaObjectsForLibrary st P = []) :
    ∃ s₂, loadLibrary st P (some l) (LoadLibraryA.loaded hm []) = Outcome.returned () s₂ ∧
      (∀ q, s₂.metaObjects q =
        { st.metaObjects q with
          associated_plugin_loaders :=
            (st.metaObjects q).associated_plugin_loaders ++
              List.replicate
                ((st.graveyard.filter (fun g =>
                  decide ((st.metaObjects g).associated_library_path = P))).count q)
                (some l) }) ∧
      (∀ B n, lookup s₂ B n
        = (st.graveyard.reverse.find? (revivedAt st P B n)).or (lookup st B n)) ∧
      s₂.graveyard = st.graveyard.filter
        (fun g => !decide ((st.metaObjects g).associated_library_path = P)) ∧
      s₂.loadedLibraryVector = st.loadedLibraryVector ++ [(P, st.nextSharedLibrary)] ∧
      s₂.hasANonPurePluginLibraryBeenOpened = st.hasANonPurePluginLibraryBeenOpened := by
  obtain ⟨s₂, hs₂⟩ := loadLibrary_returns st P l (LoadLibraryA.loaded hm []) (Or.inr (by simp))
  have hl : (loadLibrary st P (some l) (LoadLibraryA.loaded hm [])).leaves s₂ := by
    rw [hs₂, leaves_returned]
  rcases loadLibrary_cases st s₂ P (some l) _ hl with ⟨h1, _⟩ | ⟨_, h1, _⟩ |
      ⟨_, hm', regs', X, st₂, hos, hX, hg, rfl⟩
  · exact absurd h1 hP
  · cases h1
  · simp only [LoadLibraryA.loaded.injEq] at hos
    obtain ⟨rfl, rfl⟩ := hos
    obtain ⟨X', hX', x1, x2, _, _, _, _, _, _, _, _, x11⟩ :=
      afterOpen_loaded st.logDebug P (some l) hm []
    rw [hX] at hX'
    simp only [Outcome.returned.injEq] at hX'
    obtain ⟨_, hXX⟩ := hX'
    subst hXX
    obtain ⟨hXm, hXf⟩ := x11 rfl
    have xflag := afterOpen_flag_of_loader st.logDebug X P l hm [] _ hX
    have hz' : allMetaObjectsForLibrary X.logDebug P = [] := by
      rw [allMetaObjectsForLibrary_congr X.logDebug st hXf hXm P]
      exact hz
    obtain ⟨r1, r2, r3⟩ := loadLibraryGraveyard_revive X.logDebug st₂ P l hg hz'
    obtain ⟨g1, _, _⟩ := loadLibraryGraveyard_directory X.logDebug st₂ P (some l) hg
    obtain ⟨g4, _⟩ := loadLibraryGraveyard_frame X.logDebug st₂ P (some l) hg
    have hXm' : X.logDebug.metaObjects = st.metaObjects := hXm
    have hXg' : X.logDebug.graveyard = st.graveyard := x1
    rw [hXm', hXg'] at r1 r3
    rw [hXg'] at r2
    refine ⟨_, hs₂, r1, ?_, r3, ?_, ?_⟩
    · intro B n
      have hrev : revivedAt X.logDebug P B n = revivedAt st P B n := by
        funext q
        simp only [revivedAt, hXm']
      have := r2 B n
      rw [hrev, lookup_congr X.logDebug st hXf] at this
      exact this
    · show st₂.loadedLibraryVector ++ _ = _
      rw [g4]
      show X.loadedLibraryVector ++ _ = _
      rw [x2]
      rfl
    · exact g1.trans xflag

/-- The round trip of an unload and a reload, in a reachable registry whose
graveyard holds no entry of `P`: both calls return, every key of the directory
holds the meta-object it held, the meta-objects of `P` are unchanged but for
the owner set, which is exactly the one entry of the reloading loader, and the
graveyard is the one before. -/
theorem unload_reload_round_trip_of_graveyard (st : Registry) (hreach : Reachable st)
    (hflag : st.hasANonPurePluginLibraryBeenOpened = false) (P : LibraryPath)
    (hP : P ∈ st.loadedLibraryVector.map Prod.fst) (L : PluginLoaderPtr) (l' : Nat) (hm : Nat)
    (howners : ∀ p, p ∈ allMetaObjectsForLibrary st P → owners st p = [L])
    (hgrave : ∀ g, g ∈ st.graveyard → (st.metaObjects g).associated_library_path ≠ P) :
    ∃ s₁ s₂, unloadLibrary st P L false = Outcome.returned () s₁ ∧
      loadLibrary s₁ P (some l') (LoadLibraryA.loaded hm []) = Outcome.returned () s₂ ∧
      (∀ B n, lookup s₂ B n = lookup st B n) ∧
      (∀ p, p ∈ allMetaObjectsForLibrary st P →
        s₂.metaObjects p = { st.metaObjects p with associated_plugin_loaders := [some l'] }) ∧
      (∀ q, q ∉ allMetaObjectsForLibrary st P → s₂.metaObjects q = st.metaObjects q) ∧
      P ∈ s₂.loadedLibraryVector.map Prod.fst ∧
      s₂.graveyard = st.graveyard ∧
      (∀ g, g ∈ s₂.graveyard → (s₂.metaObjects g).associated_library_path ≠ P) := by
  obtain ⟨hA, _, _⟩ := reachable_invariants st hreach
  have hnd := reachable_libraryPathsDistinct st hreach
  have hDnd := reachable_allMetaObjectsForLibrary_nodup st hreach P
  obtain ⟨s₁, hs₁, m1, k1, g1, f1, p1⟩ :=
    unloadLibrary_sole_owner st P L hflag hP hA hnd howners
  -- identities are those of before
  have hpath₁ : ∀ q, (s₁.metaObjects q).associated_library_path
      = (st.metaObjects q).associated_library_path := by
    intro q
    rw [m1 q]
    split_ifs <;> rfl
  have hrev : ∀ B n, revivedAt s₁ P B n = revivedAt st P B n := by
    intro B n
    funext q
    simp only [revivedAt, m1 q]
    split_ifs <;> rfl
  have hz : allMetaObjectsForLibrary s₁ P = [] := by
    rw [allMetaObjectsForLibrary_eq_nil_iff]
    intro B n p hp hpath
    rw [k1] at hp
    obtain ⟨_, hf⟩ := lookup_filter_some hp
    rw [hpath₁ p] at hpath
    simp [hpath] at hf
  obtain ⟨s₂, hs₂, m2, k2, g2, l2, _⟩ := loadLibrary_revival s₁ P l' hm p1 hz
  -- the entries of `P` in the graveyard between the two calls
  have hfil : s₁.graveyard.filter (fun g =>
      decide ((s₁.metaObjects g).associated_library_path = P))
      = allMetaObjectsForLibrary st P := by
    rw [g1, List.filter_append]
    have e1 : st.graveyard.filter (fun g =>
        decide ((s₁.metaObjects g).associated_library_path = P)) = [] := by
      rw [List.filter_eq_nil_iff]
      intro g hg
      rw [hpath₁ g]
      simpa using hgrave g hg
    have e2 : (allMetaObjectsForLibrary st P).filter (fun g =>
        decide ((s₁.metaObjects g).associated_library_path = P))
        = allMetaObjectsForLibrary st P := by
      rw [List.filter_eq_self]
      intro g hg
      rw [hpath₁ g]
      simpa using ((mem_allMetaObjectsForLibrary_iff st P g).mp hg).2
    rw [e1, e2, List.nil_append]
  have hfil' : s₁.graveyard.filter (fun g =>
      !decide ((s₁.metaObjects g).associated_library_path = P)) = st.graveyard := by
    rw [g1, List.filter_append]
    have e1 : st.graveyard.filter (fun g =>
        !decide ((s₁.metaObjects g).associated_library_path = P)) = st.graveyard := by
      rw [List.filter_eq_self]
      intro g hg
      rw [hpath₁ g]
      simpa using hgrave g hg
    have e2 : (allMetaObjectsForLibrary st P).filter (fun g =>
        !decide ((s₁.metaObjects g).associated_library_path = P)) = [] := by
      rw [List.filter_eq_nil_iff]
      intro g hg
      rw [hpath₁ g]
      simpa using ((mem_allMetaObjectsForLibrary_iff st P g).mp hg).2
    rw [e1, e2, List.append_nil]
  rw [hfil] at m2
  rw [hfil'] at g2
  -- a graveyard entry revived at a key is the meta-object the directory held there
  have hfound : ∀ B n g, g ∈ s₁.graveyard → revivedAt st P B n g = true →
      lookup st B n = some g ∧ (st.metaObjects g).associated_library_path = P := by
    intro B n g hg hr
    simp only [revivedAt, Bool.and_eq_true, decide_eq_true_eq] at hr
    obtain ⟨hr1, hr2, hr3⟩ := hr
    rw [g1] at hg
    rcases List.mem_append.mp hg with hg1 | hg1
    · exact absurd hr1 (hgrave g hg1)
    · obtain ⟨hg2, _⟩ := (mem_allMetaObjectsForLibrary_iff st P g).mp hg1
      obtain ⟨B', n', hl⟩ := (mem_allMetaObjects_iff st g).mp hg2
      obtain ⟨a1, a2, _⟩ := hA B' n' g hl
      rw [← hr2, ← hr3, a1, a2]
      exact ⟨hl, hr1⟩
  refine ⟨s₁, s₂, hs₁, hs₂, ?_, ?_, ?_, ?_, g2, ?_⟩
  · intro B n
    rw [k2, hrev, k1]
    cases hf : s₁.graveyard.reverse.find? (revivedAt st P B n) with
    | some g =>
      have hgm : g ∈ s₁.graveyard := List.mem_reverse.mp (List.mem_of_find?_eq_some hf)
      obtain ⟨h1, _⟩ := hfound B n g hgm (List.find?_some hf)
      rw [h1]
      rfl
    | none =>
      rw [List.find?_eq_none] at hf
      cases hl : lookup st B n with
      | none => rfl
      | some p =>
        by_cases hpath : (st.metaObjects p).associated_library_path = P
        · exfalso
          have hpm : p ∈ s₁.graveyard := by
            rw [g1]
            exact List.mem_append_right _ ((mem_allMetaObjectsForLibrary_iff st P p).mpr
              ⟨mem_allMetaObjects_of_lookup st B n p hl, hpath⟩)
          obtain ⟨a1, a2, _⟩ := hA B n p hl
          have := hf p (List.mem_reverse.mpr hpm)
          simp [revivedAt, hpath, a1, a2] at this
        · simp [Option.filter, hpath]
  · intro p hp
    rw [m2 p, List.count_eq_one_of_mem hDnd hp, m1 p, if_pos hp]
    rfl
  · intro q hq
    rw [m2 q, List.count_eq_zero_of_not_mem hq, m1 q, if_neg hq]
    simp
  · rw [l2]
    simp
  · intro g hg
    rw [g2] at hg
    have hgn : g ∉ allMetaObjectsForLibrary st P := fun h =>
      hgrave g hg ((mem_allMetaObjectsForLibrary_iff st P g).mp h).2
    rw [m2 g, List.count_eq_zero_of_not_mem hgn, m1 g, if_neg hgn]
    exact hgrave g hg

/-! ## The owners of the directory meta-objects of one library -/

theorem reachable_of_closing (st : Registry) (h : ReachableClosing st) : Reachable st := by
  induction h with
  | initial => exact Reachable.initial
  | registerPlugin B cn bn _ ih => exact Reachable.registerPlugin B cn bn ih
  | loadLibrary P L os _ hl ih => exact Reachable.loadLibrary P L os ih hl
  | unloadLibrary P L _ hl ih => exact Reachable.unloadLibrary P L false ih hl
  | createInstance B n L _ hl ih => exact Reachable.createInstance B n L ih hl
  | getAvailableClasses B L _ ih => exact Reachable.getAvailableClasses B L ih

/-- The owner-tagging loop, completed, whatever the loader: one occurrence of
the loader per occurrence in the vector. -/
theorem addPluginLoaderOwnerLoop_owners (L : PluginLoaderPtr) (ps : MetaObjectVector)
    (st st' : Registry) (h : addPluginLoaderOwnerLoop L ps st = some st') (q : MetaObjectPtr) :
    owners st' q = owners st q ++ List.replicate (ps.count q) L := by
  cases L with
  | none =>
    cases ps with
    | nil =>
      simp only [addPluginLoaderOwnerLoop, Option.some.injEq] at h
      subst h
      simp
    | cons p ps => simp [addPluginLoaderOwnerLoop] at h
  | some l =>
    obtain ⟨st'', h', _, _, _, _, _, _, _, _, _, _, _, _, h13⟩ :=
      addPluginLoaderOwnerLoop_some l ps st
    rw [h] at h'
    cases h'
    simp only [owners, h13 q]

theorem count_allMetaObjectsForLibrary (st : Registry) (hA : directoryOwnKeys st)
    (P : LibraryPath) (B : BaseClassName) (n : ClassName) (p : MetaObjectPtr)
    (hp : lookup st B n = some p) :
    (allMetaObjectsForLibrary st P).count p
      = if (st.metaObjects p).associated_library_path = P then 1 else 0 := by
  have hnd : (allMetaObjectsForLibrary st P).Nodup := by
    simp only [allMetaObjectsForLibrary, filterAllMetaObjectsAssociatedWithLibrary]
    exact List.Nodup.filter _ (allMetaObjects_nodup_of_ownKeys st hA)
  split_ifs with hpath
  · exact List.count_eq_one_of_mem hnd ((mem_allMetaObjectsForLibrary_iff st P p).mpr
      ⟨mem_allMetaObjects_of_lookup st B n p hp, hpath⟩)
  · exact List.count_eq_zero_of_not_mem
      (fun hm => hpath ((mem_allMetaObjectsForLibrary_iff st P p).mp hm).2)

theorem runInitialisers_flag_of_null (regs : List Registration) (st : Registry)
    (h : st.currentlyActivePluginLoader = none) (hregs : regs ≠ []) :
    (runInitialisers regs st).hasANonPurePluginLibraryBeenOpened = true := by
  cases regs with
  | nil => exact absurd rfl hregs
  | cons r rest =>
    simp only [runInitialisers]
    cases hf : (runInitialisers rest
        (registerPlugin st r.Base r.class_name r.base_class_name)).hasANonPurePluginLibraryBeenOpened with
    | true => rfl
    | false =>
      have := runInitialisers_flag rest _ hf
      rw [registerPlugin_flag, h] at this
      simp at this

/-- A completed graveyard scenario of `loadLibrary` with a null loader has
left directory and meta-objects alone. -/
theorem loadLibraryGraveyard_null (st st' : Registry) (P : LibraryPath)
    (h : loadLibraryGraveyard st P none = some st') :
    st'.metaObjects = st.metaObjects ∧ st'.factoryMapMap = st.factoryMapMap := by
  simp only [loadLibraryGraveyard, List.length_eq_zero] at h
  by_cases hz : allMetaObjectsForLibrary st P = []
  · rw [if_pos hz] at h
    simp only [revivePreviouslyCreateMetaobjectsFromGraveyard] at h
    cases hr : reviveLoop P none st.logDebug.graveyard st.logDebug with
    | none => rw [hr] at h; simp at h
    | some st₁ =>
      rw [hr] at h
      have := reviveLoop_null P _ _ st₁ hr
      subst this
      obtain ⟨_, p1, p2, _⟩ := purgeGraveyardOfMetaobjects_spec _ st' P none false h
      exact ⟨p1, p2⟩
  · rw [if_neg hz] at h
    obtain ⟨_, p1, p2, _⟩ := purgeGraveyardOfMetaobjects_spec _ st' P none true h
    exact ⟨p1, p2⟩

/-- After `loadLibrary(P, L)` opened `P`, the flag being false afterwards, in a
registry that keeps the invariants: a directory entry holds a meta-object of
`P` owned by `L` alone, or the meta-object of another path it held before,
unchanged. -/
theorem loadLibrary_opened_directory (st st' : Registry) (P : LibraryPath)
    (L : PluginLoaderPtr) (hm : Nat) (regs : List Registration)
    (h : (loadLibrary st P L (LoadLibraryA.loaded hm regs)).leaves st')
    (hf' : st'.hasANonPurePluginLibraryBeenOpened = false)
    (hP : P ∉ st.loadedLibraryVector.map Prod.fst)
    (hA : directoryOwnKeys st) (hC : graveyardIdentitiesDistinct st)
    (hN : directoryPathsLoaded st) (hG : graveyardUnowned st) :
    ∀ B n p, lookup st' B n = some p →
      ((st'.metaObjects p).associated_library_path = P ∧ owners st' p = [L]) ∨
      (lookup st B n = some p ∧ st'.metaObjects p = st.metaObjects p ∧
        (st.metaObjects p).associated_library_path ≠ P) := by
  have hflag := loadLibrary_flag st st' P L _ h hf'
  have hold : ∀ B n p, lookup st B n = some p →
      (st.metaObjects p).associated_library_path ≠ P := by
    intro B n p hp e
    exact hP (e ▸ hN hflag B n p hp)
  intro B n p hp
  rcases loadLibrary_cases st st' P L _ h with ⟨h1, _⟩ | ⟨_, h1, _⟩ |
      ⟨_, hm', regs', X, st₂, hos, hX, hg, hst⟩
  · exact absurd h1 hP
  · cases h1
  · simp only [LoadLibraryA.loaded.injEq] at hos
    obtain ⟨rfl, rfl⟩ := hos
    obtain ⟨X', hX', x1, _, _, _, _, _, _, x8, x9, x10, x11⟩ :=
      afterOpen_loaded st.logDebug P L hm regs
    rw [hX] at hX'
    simp only [Outcome.returned.injEq] at hX'
    obtain ⟨_, hXX⟩ := hX'
    subst hXX
    obtain ⟨x12, _⟩ := afterOpen_loaded_directory st.logDebug X P L hm regs _ hX
    have hp₂ : lookup st₂ B n = some p := by rw [hst] at hp; exact hp
    have hmo : st'.metaObjects = st₂.metaObjects := by rw [hst]
    cases L with
    | none =>
      obtain ⟨g1, _, _⟩ := loadLibraryGraveyard_directory X.logDebug st₂ P none hg
      have hXf : X.hasANonPurePluginLibraryBeenOpened = false := by
        have : st₂.hasANonPurePluginLibraryBeenOpened = false := by rw [hst] at hf'; exact hf'
        rw [g1] at this
        exact this
      have hregs : regs = [] := by
        by_contra hne
        have hX2 := hX
        simp only [afterOpen, newSharedLibrary, Outcome.returned.injEq] at hX2
        obtain ⟨_, hX2⟩ := hX2
        have := runInitialisers_flag_of_null regs
          (setCurrentlyLoadingLibraryName (setCurrentlyActivePluginLoader st.logDebug none) P)
          rfl hne
        rw [← hX2] at hXf
        simp only [setCurrentlyActivePluginLoader, setCurrentlyLoadingLibraryName] at hXf this
        rw [this] at hXf
        cases hXf
      obtain ⟨hXm, hXfm⟩ := x11 hregs
      obtain ⟨n1, n2⟩ := loadLibraryGraveyard_null X.logDebug st₂ P hg
      have e1 : lookup st B n = some p := by
        rw [lookup_congr st₂ X.logDebug n2, lookup_congr X.logDebug st hXfm] at hp₂
        exact hp₂
      right
      refine ⟨e1, ?_, hold B n p e1⟩
      rw [hmo, n1]
      exact congrFun hXm p
    | some l =>
      by_cases hpath : (st'.metaObjects p).associated_library_path = P
      · left
        exact ⟨hpath, (loadLibrary_opened_owners st st' P l hm regs h hflag hP hA hC hN hG).2.2.1
          B n p hp hpath⟩
      · right
        rw [hmo] at hpath ⊢
        by_cases hz : allMetaObjectsForLibrary X.logDebug P = []
        · have hz' : allMetaObjectsForLibrary X P = [] := by
            rw [← allMetaObjectsForLibrary_congr X.logDebug X rfl rfl P]; exact hz
          have hregs : regs = [] := by
            by_contra hne
            exact x10 hne hz'
          obtain ⟨hXm, hXf⟩ := x11 hregs
          obtain ⟨r1, r2, _⟩ := loadLibraryGraveyard_revive X.logDebug st₂ P l hg hz
          have hXm' : X.logDebug.metaObjects = st.metaObjects := hXm
          have hXg' : X.logDebug.graveyard = st.graveyard := x1
          rw [hXm', hXg'] at r1
          rw [hXg'] at r2
          have hrev : revivedAt X.logDebug P B n = revivedAt st P B n := by
            funext q
            simp only [revivedAt, hXm']
          rw [r2, hrev, lookup_congr X.logDebug st hXf] at hp₂
          have hpath₀ : (st.metaObjects p).associated_library_path ≠ P := by
            rw [r1 p] at hpath
            exact hpath
          cases hf : st.graveyard.reverse.find? (revivedAt st P B n) with
          | some g =>
            rw [hf] at hp₂
            simp only [Option.or_some, Option.some.injEq] at hp₂
            subst hp₂
            have hgp := List.find?_some hf
            simp only [revivedAt, Bool.and_eq_true, decide_eq_true_eq] at hgp
            exact absurd hgp.1 hpath₀
          | none =>
            rw [hf] at hp₂
            refine ⟨hp₂, ?_, hpath₀⟩
            rw [r1 p, List.count_eq_zero_of_not_mem (by
              intro hm'
              have := (List.mem_filter.mp hm').2
              simp only [decide_eq_true_eq] at this
              exact hpath₀ this)]
            simp
        · obtain ⟨q1, q2, _⟩ := loadLibraryGraveyard_purge X.logDebug st₂ P (some l) hg hz
          rw [lookup_congr st₂ X.logDebug q2] at hp₂
          have hp'' : lookup X B n = some p := hp₂
          rw [q1] at hpath ⊢
          rcases x12 B n p hp'' with h2 | ⟨h2, h3⟩
          · have hlt := (hA B n p h2).2.2
            have e : X.metaObjects p = st.metaObjects p := x8 p hlt
            exact ⟨h2, e, hold B n p h2⟩
          · exact absurd (x9 p h2 h3).1 hpath

/-- Every outcome of `loadLibrary` keeps the owners of the directory
meta-objects of one library the same. -/
theorem loadLibrary_directoryOwnersUniform (st st' : Registry) (P : LibraryPath)
    (L : PluginLoaderPtr) (os : LoadLibraryA) (h : (loadLibrary st P L os).leaves st')
    (hA : directoryOwnKeys st) (hC : graveyardIdentitiesDistinct st)
    (hN : directoryPathsLoaded st) (hG : graveyardUnowned st)
    (hU : directoryOwnersUniform st) : directoryOwnersUniform st' := by
  intro hf B n p B₂ n₂ q hp hq hpq
  have hf0 := loadLibrary_flag st st' P L os h hf
  rcases loadLibrary_cases st st' P L os h with ⟨_, h1⟩ | ⟨_, _, b1, b2, _⟩ |
      ⟨hP, hm, regs, X, st₂, rfl, hX, hg, hst⟩
  · obtain ⟨f1, _, _, _, _, _, f7⟩ := addPluginLoaderOwnerLoop_frame L _ _ st' h1
    have hp0 : lookup st B n = some p := (lookup_congr st' _ f1 B n).symm.trans hp
    have hq0 : lookup st B₂ n₂ = some q := (lookup_congr st' _ f1 B₂ n₂).symm.trans hq
    have hidp := f7 p
    have hidq := f7 q
    simp only [identityOf, Prod.mk.injEq] at hidp hidq
    have hpq0 : (st.metaObjects p).associated_library_path
        = (st.metaObjects q).associated_library_path := by
      have e1 : (st.metaObjects p).associated_library_path
          = (st'.metaObjects p).associated_library_path := hidp.2.2.symm
      have e2 : (st'.metaObjects q).associated_library_path
          = (st.metaObjects q).associated_library_path := hidq.2.2
      exact e1.trans (hpq.trans e2)
    rw [addPluginLoaderOwnerLoop_owners L _ _ st' h1 p,
      addPluginLoaderOwnerLoop_owners L _ _ st' h1 q]
    have ho : owners st.logDebug.logDebug p = owners st.logDebug.logDebug q :=
      hU hf0 B n p B₂ n₂ q hp0 hq0 hpq0
    rw [ho, count_allMetaObjectsForLibrary st hA P B n p hp0,
      count_allMetaObjectsForLibrary st hA P B₂ n₂ q hq0, hpq0]
  · rw [lookup_congr st' st b1] at hp hq
    rw [b2] at hpq
    simp only [owners, b2]
    exact hU hf0 B n p B₂ n₂ q hp hq hpq
  · have hd := loadLibrary_opened_directory st st' P L hm regs h hf hP hA hC hN hG
    rcases hd B n p hp with ⟨p1, p2⟩ | ⟨p1, p2, p3⟩
    · rcases hd B₂ n₂ q hq with ⟨q1, q2⟩ | ⟨q1, q2, q3⟩
      · rw [p2, q2]
      · rw [q2] at hpq
        exact absurd (hpq.symm.trans p1) q3
    · rcases hd B₂ n₂ q hq with ⟨q1, q2⟩ | ⟨q1, q2, q3⟩
      · rw [p2] at hpq
        exact absurd (hpq.trans q1) p3
      · rw [p2, q2] at hpq
        simp only [owners, p2, q2]
        exact hU hf0 B n p B₂ n₂ q p1 q1 hpq

/-- Every outcome of `unloadLibrary` keeps the owners of the directory
meta-objects of one library the same. -/
theorem unloadLibrary_directoryOwnersUniform (st st' : Registry) (P : LibraryPath)
    (L : PluginLoaderPtr) (r : Bool) (h : (unloadLibrary st P L r).leaves st')
    (hA : directoryOwnKeys st) (hU : directoryOwnersUniform st) :
    directoryOwnersUniform st' := by
  intro hf B n p B₂ n₂ q hp hq hpq
  have hflag : st.hasANonPurePluginLibraryBeenOpened = false := by
    rw [← unloadLibrary_flag st st' P L r h]; exact hf
  by_cases hP : P ∈ st.loadedLibraryVector.map Prod.fst
  · obtain ⟨itr, lib, Z, _, _, hZ, z4, z5, _⟩ :=
      unloadLibrary_loaded_exact st P L r hflag hP hA
    have := leaves_unique _ st' Z h hZ
    subst this
    rw [z5] at hp hq
    obtain ⟨hp0, _⟩ := lookup_filter_some hp
    obtain ⟨hq0, _⟩ := lookup_filter_some hq
    have hpath : ∀ x, (st'.metaObjects x).associated_library_path
        = (st.metaObjects x).associated_library_path := by
      intro x
      rw [z4 x]
      split_ifs <;> rfl
    rw [hpath p, hpath q] at hpq
    have ho : owners st p = owners st q := hU hflag B n p B₂ n₂ q hp0 hq0 hpq
    have hsw : sweptBy st P L p = sweptBy st P L q := by
      simp only [sweptBy, getAssociatedLibraryPath, isOwnedBy, hpq]
      simp only [owners] at ho
      rw [ho]
    simp only [owners, z4 p, z4 q]
    simp only [owners] at ho
    by_cases hs : sweptBy st P L q = true
    · rw [if_pos ⟨mem_allMetaObjects_of_lookup st B n p hp0, hsw ▸ hs⟩,
        if_pos ⟨mem_allMetaObjects_of_lookup st B₂ n₂ q hq0, hs⟩]
      simp only [ho]
    · rw [if_neg (fun hc => hs (hsw ▸ hc.2)), if_neg (fun hc => hs hc.2)]
      exact ho
  · rw [unloadLibrary_of_not_loaded st P L r hflag hP, leaves_thrown] at h
    subst h
    exact hU hflag B n p B₂ n₂ q hp hq hpq

/-- In every reachable registry, while no non-pure library has been opened,
the directory meta-objects of one library have the same owners. -/
theorem reachable_directoryOwnersUniform (st : Registry) (h : Reachable st) :
    directoryOwnersUniform st := by
  induction h with
  | initial =>
    intro _ B n p _ _ _ hp
    simp [lookup, factoryMapOf, Registry.initial] at hp
  | @registerPlugin st B cn bn hr ih =>
    intro hf
    rw [registerPlugin_flag, (reachable_invariants st hr).2.2.1] at hf
    simp at hf
  | @loadLibrary st st' P L os hr hl ih =>
    exact loadLibrary_directoryOwnersUniform st st' P L os hl (reachable_invariants st hr).1
      (reachable_graveyard_invariants st hr).1 (reachable_directoryPathsLoaded st hr)
      (reachable_graveyardUnowned st hr) ih
  | @unloadLibrary st st' P L r hr hl ih =>
    exact unloadLibrary_directoryOwnersUniform st st' P L r hl (reachable_invariants st hr).1 ih
  | @createInstance st st' B n L hr hl ih =>
    have hk : ∀ Z : Registry, Z.metaObjects = st.metaObjects →
        Z.hasANonPurePluginLibraryBeenOpened = st.hasANonPurePluginLibraryBeenOpened →
        (∀ B₂ n₂, lookup Z B₂ n₂ = lookup st B₂ n₂) → directoryOwnersUniform Z := by
      intro Z z1 z3 z4 hf B₁ n₁ p B₂ n₂ q hp hq hpq
      rw [z4] at hp hq
      rw [z1] at hpq
      simp only [owners, z1]
      exact ih (z3 ▸ hf) B₁ n₁ p B₂ n₂ q hp hq hpq
    rcases createInstance_leaves st st' B n L hl with rfl | rfl | rfl | rfl <;>
      exact hk _ (by simp) (by simp)
        (fun B₂ n₂ => lookup_getFactoryMapForBaseClass st B B₂ n₂)
  | @getAvailableClasses st B L hr ih =>
    rw [getAvailableClasses_snd]
    intro hf B₁ n₁ p B₂ n₂ q hp hq hpq
    rw [lookup_getFactoryMapForBaseClass] at hp hq
    simpa [owners] using ih (by simpa using hf) B₁ n₁ p B₂ n₂ q hp hq (by simpa using hpq)

/-! ## No graveyard entry of a loaded library, when no close raises -/

/-- A completed graveyard scenario of `loadLibrary` leaves no graveyard entry
of the path. -/
theorem loadLibraryGraveyard_graveyard_path (st st' : Registry) (P : LibraryPath)
    (L : PluginLoaderPtr) (h : loadLibraryGraveyard st P L = some st') :
    ∀ g, g ∈ st'.graveyard → (st'.metaObjects g).associated_library_path ≠ P := by
  simp only [loadLibraryGraveyard, List.length_eq_zero] at h
  have hpurge : ∀ (Y : Registry) (d : Bool), purgeGraveyardOfMetaobjects Y P L d = some st' →
      ∀ g, g ∈ st'.graveyard → (st'.metaObjects g).associated_library_path ≠ P := by
    intro Y d hp g hg
    obtain ⟨p0, p1, _⟩ := purgeGraveyardOfMetaobjects_spec Y st' P L d hp
    rw [p0] at hg
    have := (List.mem_filter.mp hg).2
    rw [p1]
    simpa using this
  by_cases hz : allMetaObjectsForLibrary st P = []
  · rw [if_pos hz] at h
    simp only [revivePreviouslyCreateMetaobjectsFromGraveyard] at h
    cases hr : reviveLoop P L st.logDebug.graveyard st.logDebug with
    | none => rw [hr] at h; simp at h
    | some st₁ =>
      rw [hr] at h
      exact hpurge st₁ false h
  · rw [if_neg hz] at h
    exact hpurge st.logDebug true h

/-- Every outcome of `loadLibrary` keeps the graveyard free of entries of the
loaded libraries. -/
theorem loadLibrary_graveyardPathsClosed (st st' : Registry) (P : LibraryPath)
    (L : PluginLoaderPtr) (os : LoadLibraryA) (h : (loadLibrary st P L os).leaves st')
    (hB : graveyardAllocated st) (hI : graveyardPathsClosed st) :
    graveyardPathsClosed st' := by
  intro hf g hg
  have hf0 := loadLibrary_flag st st' P L os h hf
  rcases loadLibrary_cases st st' P L os h with ⟨_, h1⟩ | ⟨_, _, _, b2, b3, b4, _⟩ |
      ⟨hP, hm, regs, X, st₂, rfl, hX, hgr, rfl⟩
  · obtain ⟨_, f2, _, _, _, _, f7⟩ := addPluginLoaderOwnerLoop_frame L _ _ st' h1
    have f3 := addPluginLoaderOwnerLoop_loadedLibraryVector L _ _ st' h1
    rw [f2] at hg
    have hid := f7 g
    simp only [identityOf, Prod.mk.injEq] at hid
    rw [hid.2.2, f3]
    exact hI hf0 g hg
  · rw [b3] at hg
    rw [b2, b4]
    exact hI hf0 g hg
  · obtain ⟨X', hX', x1, x2, _, _, _, _, _, x8, _⟩ :=
      afterOpen_loaded st.logDebug P L hm regs
    rw [hX] at hX'
    simp only [Outcome.returned.injEq] at hX'
    obtain ⟨_, hXX⟩ := hX'
    subst hXX
    have hg₂ : g ∈ st₂.graveyard := hg
    obtain ⟨g1, g2⟩ := loadLibraryGraveyard_graveyard X.logDebug st₂ P L hgr g hg₂
    have g3 := loadLibraryGraveyard_graveyard_path X.logDebug st₂ P L hgr g hg₂
    obtain ⟨g4, _⟩ := loadLibraryGraveyard_frame X.logDebug st₂ P L hgr
    have hg' : g ∈ st.graveyard := by
      have : g ∈ X.graveyard := g1
      rw [x1] at this
      exact this
    have hmo : st₂.metaObjects g = st.metaObjects g := by
      rw [g2]
      exact x8 g (hB g hg')
    show (st₂.metaObjects g).associated_library_path
      ∉ (st₂.loadedLibraryVector ++ [(P, st.nextSharedLibrary)]).map Prod.fst
    rw [g4]
    show (st₂.metaObjects g).associated_library_path
      ∉ (X.loadedLibraryVector ++ [(P, st.nextSharedLibrary)]).map Prod.fst
    rw [x2, List.map_append, List.mem_append]
    rintro (hm1 | hm1)
    · rw [hmo] at hm1
      exact hI hf0 g hg' hm1
    · simp only [List.map_cons, List.map_nil, List.mem_singleton] at hm1
      exact g3 hm1

theorem eq_singleton_of_erase_eq_nil {α : Type} [DecidableEq α] (l : List α) (a : α)
    (h1 : a ∈ l) (h2 : l.erase a = []) : l = [a] := by
  cases l with
  | nil => simp at h1
  | cons x xs =>
    by_cases hx : x = a
    · subst hx
      simp only [List.erase_cons_head] at h2
      rw [h2]
    · have : (x == a) = false := by simpa using hx
      simp [List.erase_cons, this] at h2

/-- An `unloadLibrary` whose close does not raise keeps the graveyard free of
entries of the loaded libraries. -/
theorem unloadLibrary_graveyardPathsClosed (st st' : Registry) (P : LibraryPath)
    (L : PluginLoaderPtr) (h : (unloadLibrary st P L false).leaves st')
    (hA : directoryOwnKeys st) (hnd : libraryPathsDistinct st)
    (hU : directoryOwnersUniform st) (hI : graveyardPathsClosed st) :
    graveyardPathsClosed st' := by
  intro hf g hg
  have hflag : st.hasANonPurePluginLibraryBeenOpened = false := by
    rw [← unloadLibrary_flag st st' P L false h]; exact hf
  by_cases hP : P ∈ st.loadedLibraryVector.map Prod.fst
  · obtain ⟨itr, lib, Z, z1, _, hZ, z4, z5, z6, _, _, hcase⟩ :=
      unloadLibrary_loaded_exact st P L false hflag hP hA
    have := leaves_unique _ st' Z h hZ
    subst this
    have hpath : ∀ x, (st'.metaObjects x).associated_library_path
        = (st.metaObjects x).associated_library_path := by
      intro x
      rw [z4 x]
      split_ifs <;> rfl
    rw [z6] at hg
    rw [hpath g]
    rcases hcase with ⟨c1, _, c3, _⟩ | ⟨_, c2, _⟩ | ⟨_, _, _, c3, _⟩
    · -- meta-objects of `P` remain: none was buried
      rw [c3]
      rcases List.mem_append.mp hg with hg1 | hg1
      · exact hI hflag g hg1
      · exfalso
        obtain ⟨hg2, hg3⟩ := List.mem_filter.mp hg1
        obtain ⟨b1, b2, b3⟩ := (buriedBy_iff st P L g).mp hg3
        obtain ⟨Bg, ng, hlg⟩ := (mem_allMetaObjects_iff st g).mp hg2
        obtain ⟨p, hp⟩ := List.exists_mem_of_ne_nil _ c1
        obtain ⟨hp1, hp2⟩ := (mem_allMetaObjectsForLibrary_iff st' P p).mp hp
        obtain ⟨Bp, np, hlp⟩ := (mem_allMetaObjects_iff st' p).mp hp1
        rw [z5] at hlp
        obtain ⟨hlp0, hnb⟩ := lookup_filter_some hlp
        rw [hpath p] at hp2
        have ho : owners st p = owners st g :=
          hU hflag Bp np p Bg ng g hlp0 hlg (hp2.trans b1.symm)
        have hb : buriedBy st P L p = true :=
          (buriedBy_iff st P L p).mpr ⟨hp2, by rw [ho]; exact b2, by rw [ho]; exact b3⟩
        rw [hb] at hnb
        simp at hnb
    · cases c2
    · rw [c3, (findIdx?_path st.loadedLibraryVector P itr (P, 0) z1).2.2.2 hnd]
      intro hmem
      obtain ⟨it, hit, hfst⟩ := List.mem_map.mp hmem
      obtain ⟨hit1, hit2⟩ := List.mem_filter.mp hit
      rcases List.mem_append.mp hg with hg1 | hg1
      · exact hI hflag g hg1 (List.mem_map.mpr ⟨it, hit1, hfst⟩)
      · obtain ⟨_, hg3⟩ := List.mem_filter.mp hg1
        obtain ⟨b1, _, _⟩ := (buriedBy_iff st P L g).mp hg3
        rw [b1] at hfst
        simp [hfst] at hit2
  · rw [unloadLibrary_of_not_loaded st P L false hflag hP, leaves_thrown] at h
    subst h
    exact hI hflag g hg

/-- In every registry reached without a failing close, while no non-pure
library has been opened, the graveyard holds no entry of a library of the
loaded-library table. -/
theorem closing_graveyardPathsClosed (st : Registry) (h : ReachableClosing st) :
    graveyardPathsClosed st := by
  induction h with
  | initial =>
    intro _ g hg
    simp [Registry.initial] at hg
  | @registerPlugin st B cn bn hr ih =>
    intro hf
    rw [registerPlugin_flag,
      (reachable_invariants st (reachable_of_closing st hr)).2.2.1] at hf
    simp at hf
  | @loadLibrary st st' P L os hr hl ih =>
    exact loadLibrary_graveyardPathsClosed st st' P L os hl
      (reachable_invariants st (reachable_of_closing st hr)).2.1 ih
  | @unloadLibrary st st' P L hr hl ih =>
    have hR := reachable_of_closing st hr
    exact unloadLibrary_graveyardPathsClosed st st' P L hl (reachable_invariants st hR).1
      (reachable_libraryPathsDistinct st hR) (reachable_directoryOwnersUniform st hR) ih
  | @createInstance st st' B n L hr hl ih =>
    have hk : ∀ Z : Registry, Z.metaObjects = st.metaObjects →
        Z.graveyard = st.graveyard → Z.loadedLibraryVector = st.loadedLibraryVector →
        Z.hasANonPurePluginLibraryBeenOpened = st.hasANonPurePluginLibraryBeenOpened →
        graveyardPathsClosed Z := by
      intro Z z1 z2 z3 z4 hf g hg
      rw [z2] at hg
      rw [z1, z3]
      exact ih (z4 ▸ hf) g hg
    rcases createInstance_leaves st st' B n L hl with rfl | rfl | rfl | rfl <;>
      exact hk _ (by simp) (by simp) (by simp) (by simp)
  | @getAvailableClasses st B L hr ih =>
    rw [getAvailableClasses_snd]
    intro hf g hg
    simpa using ih (by simpa using hf) g (by simpa using hg)

theorem closing_registryCatDog : ReachableClosing registryCatDog :=
  ReachableClosing.loadLibrary "P1" (some 1)
    (LoadLibraryA.loaded 7 [⟨"4Base", "Dog", "Base"⟩, ⟨"4Base", "Cat", "Base"⟩])
    ReachableClosing.initial (Or.inl ⟨(), rfl⟩)

/-- C11. Unload/reload round trip. In a registry reached without a close that
raises, where `P` is loaded, the non-pure flag is false and every directory
meta-object of `P` is owned by exactly one occurrence of the one loader `L`:
`unloadLibrary(P, L)`, its close not raising, and then `loadLibrary(P, L')`
for a loader `L'` (not null) whose open registers nothing both return, and
afterwards the directory holds at every key the meta-object it held before,
each meta-object of `P` unchanged but for its owner set, which is exactly the
one entry `L'`, every other meta-object is unchanged, `P` is in the
loaded-library table, and the graveyard is the one before, with no entry of
`P`. -/
theorem unload_reload_round_trip (st : Registry) (hreach : ReachableClosing st)
    (hflag : st.hasANonPurePluginLibraryBeenOpened = false) (P : LibraryPath)
    (hP : P ∈ st.loadedLibraryVector.map Prod.fst) (L : PluginLoaderPtr) (l' : Nat) (hm : Nat)
    (howners : ∀ p, p ∈ allMetaObjectsForLibrary st P → owners st p = [L]) :
    ∃ s₁ s₂, unloadLibrary st P L false = Outcome.returned () s₁ ∧
      loadLibrary s₁ P (some l') (LoadLibraryA.loaded hm []) = Outcome.returned () s₂ ∧
      (∀ B n, lookup s₂ B n = lookup st B n) ∧
      (∀ p, p ∈ allMetaObjectsForLibrary st P →
        s₂.metaObjects p = { st.metaObjects p with associated_plugin_loaders := [some l'] }) ∧
      (∀ q, q ∉ allMetaObjectsForLibrary st P → s₂.metaObjects q = st.metaObjects q) ∧
      P ∈ s₂.loadedLibraryVector.map Prod.fst ∧
      s₂.graveyard = st.graveyard ∧
      (∀ g, g ∈ s₂.graveyard → (s₂.metaObjects g).associated_library_path ≠ P) :=
  unload_reload_round_trip_of_graveyard st (reachable_of_closing st hreach) hflag P hP L l' hm
    howners
    (fun g hg hpath => closing_graveyardPathsClosed st hreach hflag g hg (hpath ▸ hP))

/-- C11 at a concrete registry: loader 1 has loaded `P1` (classes `Dog` and
`Cat`) and unloads it, loader 2 reloads it. -/
theorem unload_reload_round_trip_witness :
    ReachableClosing registryCatDog ∧
      registryCatDog.hasANonPurePluginLibraryBeenOpened = false ∧
      "P1" ∈ registryCatDog.loadedLibraryVector.map Prod.fst ∧
      (∀ p, p ∈ allMetaObjectsForLibrary registryCatDog "P1" →
        owners registryCatDog p = [some 1]) ∧
      ∃ s₁ s₂, unloadLibrary registryCatDog "P1" (some 1) false = Outcome.returned () s₁ ∧
        loadLibrary s₁ "P1" (some 2) (LoadLibraryA.loaded 9 []) = Outcome.returned () s₂ ∧
        (∀ B n, lookup s₂ B n = lookup registryCatDog B n) ∧
        (∀ p, p ∈ allMetaObjectsForLibrary registryCatDog "P1" →
          s₂.metaObjects p =
            { registryCatDog.metaObjects p with associated_plugin_loaders := [some 2] }) ∧
        (∀ q, q ∉ allMetaObjectsForLibrary registryCatDog "P1" →
          s₂.metaObjects q = registryCatDog.metaObjects q) ∧
        "P1" ∈ s₂.loadedLibraryVector.map Prod.fst ∧
        s₂.graveyard = registryCatDog.graveyard ∧
        (∀ g, g ∈ s₂.graveyard → (s₂.metaObjects g).associated_library_path ≠ "P1") :=
  ⟨closing_registryCatDog, by decide, by decide, by decide,
    unload_reload_round_trip registryCatDog closing_registryCatDog (by decide) "P1"
      (by decide) (some 1) 2 9 (by decide)⟩

/-- C25. Log gating. For every state of the logging, level and message,
`plugin::log` makes exactly one call of `OutputHandler::log`, on the installed
sink and with the level of the message, when a sink is installed and the level
of the message is at least the current level; otherwise it makes none and
changes nothing. In particular nothing is delivered while no sink is installed
and nothing below the current level is delivered. The sinks and the current
level are never changed. -/
theorem log_gating (doh : DefaultOutputHandler) (file : String) (line : Int)
    (level : LogLevel) (m : String) :
    (∀ oh, doh.output_handler_ = some oh → doh.logLevel_.toNat ≤ level.toNat →
      (log doh file line level m).delivered
        = doh.delivered ++ [⟨oh, m.take (MAX_BUFFER_SIZE - 1), level, file, line⟩]) ∧
      (¬ (doh.output_handler_.isSome = true ∧ doh.logLevel_.toNat ≤ level.toNat) →
        log doh file line level m = doh) ∧
      (doh.output_handler_ = none → (log doh file line level m).delivered = doh.delivered) ∧
      (level.toNat < doh.logLevel_.toNat →
        (log doh file line level m).delivered = doh.delivered) ∧
      (log doh file line level m).output_handler_ = doh.output_handler_ ∧
      (log doh file line level m).previous_output_handler_ = doh.previous_output_handler_ ∧
      (log doh file line level m).logLevel_ = doh.logLevel_ := by
  refine ⟨?_, ?_, ?_, ?_, ?_, ?_, ?_⟩
  · intro oh hoh hl
    simp only [log, hoh, if_pos hl]
  · intro hn
    cases hoh : doh.output_handler_ with
    | none => simp only [log, hoh]
    | some oh =>
      have hl : ¬ doh.logLevel_.toNat ≤ level.toNat := fun hl => hn ⟨by simp [hoh], hl⟩
      simp only [log, hoh, if_neg hl]
  · intro hoh
    simp only [log, hoh]
  · intro hl
    cases hoh : doh.output_handler_ with
    | none => simp only [log, hoh]
    | some oh => simp only [log, hoh, if_neg (Nat.not_le.mpr hl)]
  all_goals
    cases hoh : doh.output_handler_ with
    | none => simp only [log, hoh]
    | some oh =>
      by_cases hl : doh.logLevel_.toNat ≤ level.toNat
      · simp only [log, hoh, if_pos hl]
      · simp only [log, hoh, if_neg hl]

/-- C25 with the sink and the level a process starts with: a warning is
delivered once to the standard sink, a debug message is not. -/
theorem log_gating_witness :
    (log DefaultOutputHandler.initial "f.cpp" 7 LogLevel.CONSOLE_LOG_WARN "w").delivered
        = DefaultOutputHandler.initial.delivered ++
          [⟨std_output_handler_, "w".take (MAX_BUFFER_SIZE - 1), LogLevel.CONSOLE_LOG_WARN,
            "f.cpp", 7⟩] ∧
      log DefaultOutputHandler.initial "f.cpp" 7 LogLevel.CONSOLE_LOG_DEBUG "d"
        = DefaultOutputHandler.initial :=
  ⟨(log_gating DefaultOutputHandler.initial "f.cpp" 7 LogLevel.CONSOLE_LOG_WARN "w").1
      std_output_handler_ rfl (by decide),
    (log_gating DefaultOutputHandler.initial "f.cpp" 7 LogLevel.CONSOLE_LOG_DEBUG "d").2.1
      (by decide)⟩

/-- C26. Sink install and restore. For every state of the logging with active
sink `a` and every sink `h` (null allowed), `useOutputHandler(h)` followed by
`restorePreviousOutputHandler()` makes `a` the active sink again, and so does
`noOutputHandler()` followed by it; `noOutputHandler()` is
`useOutputHandler(NULL)`; none of the three changes the current level, nor
delivers anything. -/
theorem useOutputHandler_restore (doh : DefaultOutputHandler) (h : OutputHandlerPtr) :
    getOutputHandler (restorePreviousOutputHandler (useOutputHandler doh h))
        = getOutputHandler doh ∧
      getOutputHandler (restorePreviousOutputHandler (noOutputHandler doh))
        = getOutputHandler doh ∧
      noOutputHandler doh = useOutputHandler doh none ∧
      getOutputHandler (useOutputHandler doh h) = h ∧
      getLogLevel (useOutputHandler doh h) = getLogLevel doh ∧
      getLogLevel (noOutputHandler doh) = getLogLevel doh ∧
      getLogLevel (restorePreviousOutputHandler doh) = getLogLevel doh ∧
      (useOutputHandler doh h).delivered = doh.delivered ∧
      (noOutputHandler doh).delivered = doh.delivered ∧
      (restorePreviousOutputHandler doh).delivered = doh.delivered :=
  ⟨rfl, rfl, rfl, rfl, rfl, rfl, rfl, rfl, rfl, rfl⟩

/-- C24. For every call of `registerPlugin`, the non-pure flag afterwards is
the flag before or-ed with "the currently-active loader is null": a
registration outside any loader context sets the flag, and one made under an
active loader leaves it as it was. -/
theorem registerPlugin_flag_latch (st : Registry) (Base : BaseClassName)
    (class_name base_class_name : String) :
    (registerPlugin st Base class_name base_class_name).hasANonPurePluginLibraryBeenOpened
        = (st.hasANonPurePluginLibraryBeenOpened ||
            decide (st.currentlyActivePluginLoader = none)) ∧
      (st.currentlyActivePluginLoader = none →
        (registerPlugin st Base class_name base_class_name).hasANonPurePluginLibraryBeenOpened
          = true) ∧
      (st.currentlyActivePluginLoader ≠ none →
        (registerPlugin st Base class_name base_class_name).hasANonPurePluginLibraryBeenOpened
          = st.hasANonPurePluginLibraryBeenOpened) := by
  refine ⟨registerPlugin_flag st Base class_name base_class_name, ?_, ?_⟩
  · intro h
    rw [registerPlugin_flag, h]
    simp
  · intro h
    rw [registerPlugin_flag]
    simp [h]

/-- C24 at two concrete registries: a registration in a fresh process, outside
any load, sets the flag; one made while loader 1 opens `P1` leaves it false. -/
theorem registerPlugin_flag_latch_witness :
    (registerPlugin Registry.initial "4Base" "Cat" "Base").hasANonPurePluginLibraryBeenOpened
        = true ∧
      (registerPlugin registryWhileLoading "4Base" "Cat" "Base").hasANonPurePluginLibraryBeenOpened
        = registryWhileLoading.hasANonPurePluginLibraryBeenOpened :=
  ⟨(registerPlugin_flag_latch Registry.initial "4Base" "Cat" "Base").2.1 rfl,
    (registerPlugin_flag_latch registryWhileLoading "4Base" "Cat" "Base").2.2 (by decide)⟩

/-- C28, as the claim has it, fails: in a fresh process, where the directory
holds no meta-object, `createInstance<Base>("Bear", L)` does not return: it logs
an error and raises `CreateClassException` itself. -/
theorem createInstance_missing_raises_initial :
    createInstance Registry.initial "4Base" "Bear" (some 1)
        = Outcome.thrown PluginLoaderException.CreateClassException
            (getFactoryMapForBaseClass Registry.initial "4Base").logError ∧
      ¬ ∃ v st', createInstance Registry.initial "4Base" "Bear" (some 1)
        = Outcome.returned v st' := by
  have h : createInstance Registry.initial "4Base" "Bear" (some 1)
      = Outcome.thrown PluginLoaderException.CreateClassException
          (getFactoryMapForBaseClass Registry.initial "4Base").logError := rfl
  refine ⟨h, ?_⟩
  rintro ⟨v, st', hv⟩
  rw [h] at hv
  cases hv

/-- C28, amended. When the directory holds no meta-object at the key of the
requesting base identity and the derived-class name, `createInstance` of the
registry logs one message, of severity Error, and raises
`CreateClassException` itself, whatever the loader; it changes nothing else
than creating the empty inner map of a base identity that had none. -/
theorem createInstance_missing_raises (st : Registry) (Base : BaseClassName)
    (derived_class_name : ClassName) (loader : PluginLoaderPtr)
    (h : lookup st Base derived_class_name = none) :
    ∃ st', createInstance st Base derived_class_name loader
        = Outcome.thrown PluginLoaderException.CreateClassException st' ∧
      st'.logged = st.logged ++ [LogLevel.CONSOLE_LOG_ERROR] ∧
      (∀ B n, lookup st' B n = lookup st B n) ∧
      st'.metaObjects = st.metaObjects ∧ st'.graveyard = st.graveyard ∧
      st'.loadedLibraryVector = st.loadedLibraryVector ∧
      st'.hasANonPurePluginLibraryBeenOpened = st.hasANonPurePluginLibraryBeenOpened := by
  refine ⟨(getFactoryMapForBaseClass st Base).logError, ?_, ?_, ?_, ?_, ?_, ?_, ?_⟩
  · rw [createInstance_eq, h]
  · simp [Registry.logError, Registry.log, getFactoryMapForBaseClass_logged]
  · intro B n
    exact (lookup_congr _ (getFactoryMapForBaseClass st Base) rfl B n).trans
      (lookup_getFactoryMapForBaseClass st Base B n)
  · simp [Registry.logError, Registry.log, getFactoryMapForBaseClass_metaObjects]
  · simp [Registry.logError, Registry.log, getFactoryMapForBaseClass_graveyard]
  · simp [Registry.logError, Registry.log, getFactoryMapForBaseClass_loadedLibraryVector]
  · simp [Registry.logError, Registry.log,
      getFactoryMapForBaseClass_hasANonPurePluginLibraryBeenOpened]

/-- C28, amended, at a concrete registry: `P1` offers `Dog` and `Cat`, and
`Bear` is asked for. -/
theorem createInstance_missing_raises_witness :
    lookup registryCatDog "4Base" "Bear" = none ∧
      ∃ st', createInstance registryCatDog "4Base" "Bear" (some 1)
          = Outcome.thrown PluginLoaderException.CreateClassException st' ∧
        st'.logged = registryCatDog.logged ++ [LogLevel.CONSOLE_LOG_ERROR] ∧
        (∀ B n, lookup st' B n = lookup registryCatDog B n) ∧
        st'.metaObjects = registryCatDog.metaObjects ∧
        st'.graveyard = registryCatDog.graveyard ∧
        st'.loadedLibraryVector = registryCatDog.loadedLibraryVector ∧
        st'.hasANonPurePluginLibraryBeenOpened
          = registryCatDog.hasANonPurePluginLibraryBeenOpened :=
  ⟨by decide, createInstance_missing_raises registryCatDog "4Base" "Bear" (some 1) (by decide)⟩

/-- C30, as the claim has it, fails: with the non-pure flag set, the refused
`unloadLibrary("P1", L)` submits one message, of severity Debug, which is below
Warn, and with the sink and level a process starts with `plugin::log` delivers
no message of that severity. -/
theorem unloadLibrary_refusal_not_delivered :
    registryOrphan.hasANonPurePluginLibraryBeenOpened = true ∧
      unloadLibrary registryOrphan "P1" (some 1) false
        = Outcome.returned () registryOrphan.logDebug ∧
      registryOrphan.logDebug.logged
        = registryOrphan.logged ++ [LogLevel.CONSOLE_LOG_DEBUG] ∧
      LogLevel.CONSOLE_LOG_DEBUG.toNat < LogLevel.CONSOLE_LOG_WARN.toNat ∧
      ∀ file line m,
        (log DefaultOutputHandler.initial file line LogLevel.CONSOLE_LOG_DEBUG m).delivered
          = [] := by
  refine ⟨by decide, rfl, rfl, by decide, ?_⟩
  intro file line m
  rfl

/-- C30, amended. Once the non-pure flag is true, every call of
`unloadLibrary` returns after submitting exactly one message, of severity
Debug. With the sink and level a process starts with (standard sink, Warn)
`plugin::log` delivers no such message; a sink receives it, once, exactly when
it is installed and the current level is Debug. -/
theorem unloadLibrary_refusal_logs_debug (st : Registry) (P : LibraryPath)
    (L : PluginLoaderPtr) (r : Bool) (hflag : st.hasANonPurePluginLibraryBeenOpened = true) :
    ∃ st', unloadLibrary st P L r = Outcome.returned () st' ∧
      st'.logged = st.logged ++ [LogLevel.CONSOLE_LOG_DEBUG] ∧
      (∀ file line m,
        log DefaultOutputHandler.initial file line LogLevel.CONSOLE_LOG_DEBUG m
          = DefaultOutputHandler.initial) ∧
      ∀ (doh : DefaultOutputHandler) file line m,
        ((∃ oh, doh.output_handler_ = some oh ∧
            (log doh file line LogLevel.CONSOLE_LOG_DEBUG m).delivered
              = doh.delivered ++
                [⟨oh, m.take (MAX_BUFFER_SIZE - 1), LogLevel.CONSOLE_LOG_DEBUG, file, line⟩]) ↔
          (doh.output_handler_.isSome = true ∧
            doh.logLevel_ = LogLevel.CONSOLE_LOG_DEBUG)) := by
  refine ⟨st.logDebug, unloadLibrary_of_flag st P L r hflag, rfl, ?_, ?_⟩
  · intro file line m
    rfl
  · intro doh file line m
    have hlev : doh.logLevel_.toNat ≤ LogLevel.CONSOLE_LOG_DEBUG.toNat ↔
        doh.logLevel_ = LogLevel.CONSOLE_LOG_DEBUG := by
      cases doh.logLevel_ <;> simp [LogLevel.toNat]
    constructor
    · rintro ⟨oh, hoh, hd⟩
      refine ⟨by simp [hoh], ?_⟩
      by_contra hne
      have hl : ¬ doh.logLevel_.toNat ≤ LogLevel.CONSOLE_LOG_DEBUG.toNat :=
        fun hl => hne (hlev.mp hl)
      simp only [log, hoh, if_neg hl] at hd
      have := congrArg List.length hd
      simp at this
    · rintro ⟨hoh, hl⟩
      obtain ⟨oh, hoh'⟩ := Option.isSome_iff_exists.mp hoh
      refine ⟨oh, hoh', ?_⟩
      simp only [log, hoh', if_pos (hlev.mpr hl)]

/-- C30, amended, at a concrete registry: `P1` is loaded by loader 1 and a
registration outside any load has set the flag. -/
theorem unloadLibrary_refusal_logs_debug_witness :
    (registerPlugin registryCatDog "4Base" "Cow" "Base").hasANonPurePluginLibraryBeenOpened
        = true ∧
      ∃ st', unloadLibrary (registerPlugin registryCatDog "4Base" "Cow" "Base") "P1" (some 1)
          false = Outcome.returned () st' ∧
        st'.logged = (registerPlugin registryCatDog "4Base" "Cow" "Base").logged
          ++ [LogLevel.CONSOLE_LOG_DEBUG] ∧
        (∀ file line m,
          log DefaultOutputHandler.initial file line LogLevel.CONSOLE_LOG_DEBUG m
            = DefaultOutputHandler.initial) ∧
        ∀ (doh : DefaultOutputHandler) file line m,
          ((∃ oh, doh.output_handler_ = some oh ∧
              (log doh file line LogLevel.CONSOLE_LOG_DEBUG m).delivered
                = doh.delivered ++
                  [⟨oh, m.take (MAX_BUFFER_SIZE - 1), LogLevel.CONSOLE_LOG_DEBUG, file,
                    line⟩]) ↔
            (doh.output_handler_.isSome = true ∧
              doh.logLevel_ = LogLevel.CONSOLE_LOG_DEBUG)) :=
  ⟨by decide,
    unloadLibrary_refusal_logs_debug (registerPlugin registryCatDog "4Base" "Cow" "Base") "P1"
      (some 1) false (by decide)⟩

theorem reachable_registryCatBuriedOrphan : Reachable registryCatBuriedOrphan :=
  Reachable.registerPlugin "4Base" "Cow" "Base" reachable_registryCatBuried

/-- C23 at a registry the purge can be called in. After loader 1 has loaded
and unloaded `P1` (its `Cat`, at address 1, is in the graveyard), a
registration outside any load sets the non-pure flag; loader 1 then loads `P1`
again and the initialisers of `P1` run again. `loadLibrary` calls
`purgeGraveyardOfMetaobjects("P1", loader 1, true)` with the flag true, the
entry at address 1 in the graveyard and not in the directory: the purge
removes the entry and frees the meta-object at address 1, the flag being true;
and so does the `loadLibrary` that calls it. -/
theorem purge_frees_with_flag_set :
    Reachable registryCatBuriedOrphan ∧
      registryCatBuriedOrphanAtPurge.hasANonPurePluginLibraryBeenOpened = true ∧
      registryCatBuriedOrphanAtPurge.graveyard = [1] ∧
      (registryCatBuriedOrphanAtPurge.metaObjects 1).associated_library_path = "P1" ∧
      1 ∉ allMetaObjects registryCatBuriedOrphanAtPurge ∧
      registryCatBuriedOrphanAtPurge.deletedMetaObjects = [] ∧
      (purgeGraveyardOfMetaobjects registryCatBuriedOrphanAtPurge "P1" (some 1) true).map
          (fun s => (s.deletedMetaObjects, s.graveyard, s.hasANonPurePluginLibraryBeenOpened))
        = some ([1], [], true) ∧
      ((loadLibrary registryCatBuriedOrphan "P1" (some 1)
          (LoadLibraryA.loaded 8 [⟨"4Base", "Cat", "Base"⟩])).registry
            Registry.initial).deletedMetaObjects = [1] :=
  ⟨reachable_registryCatBuriedOrphan, by decide, by decide, by decide, by decide, by decide,
    by decide, by decide⟩

theorem reachable_registryCatOfP2 : Reachable registryCatOfP2 :=
  Reachable.loadLibrary "P2" (some 2) (LoadLibraryA.loaded 8 [⟨"4Base", "Cat", "Base"⟩])
    reachable_registryCatBuried (Or.inl ⟨(), rfl⟩)

/-- The messages one call of `registerPlugin` submits. -/
theorem registerPlugin_logged (st : Registry) (Base : BaseClassName)
    (class_name base_class_name : String) :
    (registerPlugin st Base class_name base_class_name).logged =
      st.logged ++ [LogLevel.CONSOLE_LOG_DEBUG] ++
        (if st.currentlyActivePluginLoader = none then [LogLevel.CONSOLE_LOG_DEBUG] else []) ++
        (if (lookup st Base class_name).isSome then [LogLevel.CONSOLE_LOG_WARN] else []) ++
        [LogLevel.CONSOLE_LOG_DEBUG] := by
  have key : ∀ X : Registry, X.factoryMapMap = st.factoryMapMap →
      factoryMapOf (getFactoryMapForBaseClass X Base) Base = factoryMapOf st Base := by
    intro X hX
    rw [factoryMapOf_getFactoryMapForBaseClass]
    exact factoryMapOf_congr X st hX Base
  simp only [registerPlugin, lookup]
  split_ifs with h1 h2 h3 h4 h5 h6 <;>
    simp_all [key, Registry.logDebug, Registry.logWarn, Registry.log]

/-- A registration at a key the directory already holds a meta-object at
replaces it by the new meta-object and logs a message of severity Warn. -/
theorem registerPlugin_collision_warns (st : Registry) (Base : BaseClassName)
    (class_name base_class_name : String) (p : MetaObjectPtr)
    (h : lookup st Base class_name = some p) :
    lookup (registerPlugin st Base class_name base_class_name) Base class_name
        = some st.nextMetaObject ∧
      LogLevel.CONSOLE_LOG_WARN ∈
        (registerPlugin st Base class_name base_class_name).logged.drop st.logged.length := by
  refine ⟨by simp [lookup_registerPlugin], ?_⟩
  rw [registerPlugin_logged, h]
  simp

/-- C29 at a registry the revival can be called in. Loader 1 has loaded and
unloaded `P1`, whose `Cat` for base `4Base` (address 1) is in the graveyard;
loader 2 has loaded `P2`, which registers `Cat` for the same base (address 2),
so that the key holds the meta-object at address 2. Loader 1 loads `P1` again,
the initialisers not running again: the revival stores the meta-object at
address 1 at the key, replacing the one at address 2, and the five messages
the call submits are all of severity Debug: none is a warning. -/
theorem revival_collision_not_warned :
    Reachable registryCatOfP2 ∧
      lookup registryCatOfP2 "4Base" "Cat" = some 2 ∧
      registryCatOfP2.graveyard = [1] ∧
      loadLibrary registryCatOfP2 "P1" (some 1) (LoadLibraryA.loaded 9 [])
        = Outcome.returned () registryCatRevivedOver ∧
      lookup registryCatRevivedOver "4Base" "Cat" = some 1 ∧
      registryCatRevivedOver.logged.drop registryCatOfP2.logged.length
        = List.replicate 5 LogLevel.CONSOLE_LOG_DEBUG ∧
      LogLevel.CONSOLE_LOG_WARN ∉ registryCatRevivedOver.logged :=
  ⟨reachable_registryCatOfP2, by decide, by decide, rfl, by decide, by decide, by decide⟩

/-! ## The loader handle -/

/-- The count of the meta-objects of a library owned by a loader never exceeds
the count of the meta-objects of the library: `isLibraryLoaded` is
`isLibraryLoadedByAnybody`. -/
theorem isLibraryLoaded_eq (st : Registry) (P : LibraryPath) (L : PluginLoaderPtr) :
    isLibraryLoaded st P L = isLibraryLoadedByAnybody st P := by
  have hle : (allMetaObjectsForLibraryOwnedBy st P L).length
      ≤ (allMetaObjectsForLibrary st P).length := by
    simp only [allMetaObjectsForLibraryOwnedBy, filterAllMetaObjectsOwnedBy]
    exact List.length_filter_le _ _
  simp only [isLibraryLoaded]
  split_ifs <;> simp [hle]

/-- A `loadLibrary` that returns leaves the library in the loaded-library
table. -/
theorem loadLibrary_returned_loaded (st s₁ : Registry) (P : LibraryPath)
    (L : PluginLoaderPtr) (os : LoadLibraryA)
    (h : loadLibrary st P L os = Outcome.returned () s₁) :
    isLibraryLoadedByAnybody s₁ P = true := by
  rw [isLibraryLoadedByAnybody_iff]
  rcases loadLibrary_cases st s₁ P L os (Or.inl ⟨(), h⟩) with ⟨hP, h1⟩ | ⟨hP, hos, _⟩ |
      ⟨_, hm, regs, X, st₂, _, _, _, rfl⟩
  · rw [addPluginLoaderOwnerLoop_loadedLibraryVector L _ _ s₁ h1]
    exact hP
  · exfalso
    subst hos
    have hclosed : isLibraryLoadedByAnybody st.logDebug P = false := by
      rw [isLibraryLoadedByAnybody_congr st.logDebug st rfl]
      exact isLibraryLoadedByAnybody_eq_false st P hP
    simp only [loadLibrary, hclosed, afterOpen, newSharedLibrary, Bool.false_eq_true,
      if_false] at h
    cases h
  · simp

theorem handle_loadLibrary_of_pos (cap : Nat) (lh : PluginLoader) (st : Registry)
    (os : LoadLibraryA) (h : 0 < lh.load_count) :
    lh.loadLibrary cap st os
      = ({ lh with load_count := min (lh.load_count + 1) cap }, Outcome.returned () st) := by
  simp only [PluginLoader.loadLibrary, if_neg (Nat.pos_iff_ne_zero.mp h)]

theorem handle_loadLibrary_of_zero (cap : Nat) (lh : PluginLoader) (st s₁ : Registry)
    (os : LoadLibraryA) (h : lh.load_count = 0)
    (hs : impl.loadLibrary st lh.library_path (some lh.address) os = Outcome.returned () s₁) :
    lh.loadLibrary cap st os
      = ({ lh with load_count := min (lh.load_count + 1) cap }, Outcome.returned () s₁) := by
  simp only [PluginLoader.loadLibrary, if_pos h, hs]

theorem handle_unloadLibrary_of_zero (lh : PluginLoader) (st : Registry) (r : Bool)
    (h : lh.load_count = 0) : lh.unloadLibrary st r = (lh, Outcome.returned () st) := by
  simp [PluginLoader.unloadLibrary, h]

theorem handle_unloadLibrary_of_one (lh : PluginLoader) (st : Registry) (r : Bool)
    (h : lh.load_count = 1) :
    lh.unloadLibrary st r
      = ({ lh with load_count := 0 },
          impl.unloadLibrary st lh.library_path (some lh.address) r) := by
  simp [PluginLoader.unloadLibrary, h]

theorem handle_unloadLibrary_of_many (lh : PluginLoader) (st : Registry) (r : Bool)
    (h : 1 < lh.load_count) :
    lh.unloadLibrary st r
      = ({ lh with load_count := lh.load_count - 1 }, Outcome.returned () st) := by
  have h0 : 0 < lh.load_count := by omega
  have h1 : ¬ lh.load_count - 1 = 0 := by omega
  simp only [PluginLoader.unloadLibrary, if_pos h0, if_neg h1]

/-- Loads in a row on a handle whose count is positive only count. -/
theorem handle_loadLibraryTimes_of_pos (cap : Nat) (os : LoadLibraryA) (n : Nat) (lh : PluginLoader)
    (st : Registry) (h : 0 < lh.load_count) (hcap : lh.load_count + n ≤ cap) :
    PluginLoader.loadLibraryTimes cap os n lh st
      = ({ lh with load_count := lh.load_count + n }, Outcome.returned () st) := by
  induction n generalizing lh with
  | zero => rfl
  | succ n ih =>
    have hmin : min (lh.load_count + 1) cap = lh.load_count + 1 := by omega
    simp only [PluginLoader.loadLibraryTimes, handle_loadLibrary_of_pos cap lh st os h, hmin]
    rw [ih { lh with load_count := lh.load_count + 1 } (by simp) (by simp; omega)]
    simp only [Prod.mk.injEq, and_true]
    congr 1
    omega

/-- Unloads in a row, fewer than the count, only count. -/
theorem handle_unloadLibraryTimes_of_lt (r : Bool) (k : Nat) (lh : PluginLoader) (st : Registry)
    (h : k < lh.load_count) :
    PluginLoader.unloadLibraryTimes r k lh st
      = ({ lh with load_count := lh.load_count - k }, Outcome.returned () st) := by
  induction k generalizing lh with
  | zero => rfl
  | succ k ih =>
    simp only [PluginLoader.unloadLibraryTimes, handle_unloadLibrary_of_many lh st r (by omega)]
    rw [ih { lh with load_count := lh.load_count - 1 } (by simp; omega)]
    simp only [Prod.mk.injEq, and_true]
    congr 1
    omega

/-- Unloads in a row on a handle whose count is 0 do nothing. -/
theorem handle_unloadLibraryTimes_of_zero (r : Bool) (m : Nat) (lh : PluginLoader) (st : Registry)
    (h : lh.load_count = 0) :
    PluginLoader.unloadLibraryTimes r m lh st = (lh, Outcome.returned () st) := by
  induction m with
  | zero => rfl
  | succ m ih => simp only [PluginLoader.unloadLibraryTimes, handle_unloadLibrary_of_zero lh st r h, ih]

/-- As many unloads as the count: the last one is the one that calls the
registry. -/
theorem handle_unloadLibraryTimes_count (r : Bool) (c : Nat) (lh : PluginLoader)
    (st : Registry) (h : lh.load_count = c + 1) :
    PluginLoader.unloadLibraryTimes r (c + 1) lh st
      = ({ lh with load_count := 0 },
          impl.unloadLibrary st lh.library_path (some lh.address) r) := by
  induction c generalizing lh with
  | zero =>
    simp only [PluginLoader.unloadLibraryTimes, handle_unloadLibrary_of_one lh st r h]
    cases impl.unloadLibrary st lh.library_path (some lh.address) r <;> rfl
  | succ c ih =>
    simp only [PluginLoader.unloadLibraryTimes,
      handle_unloadLibrary_of_many lh st r (by omega)]
    exact ih { lh with load_count := lh.load_count - 1 } (by simp; omega)

/-- The library a loader alone has loaded is closed by its unload: in a
reachable registry with the non-pure flag false and `P` not in the table,
after loader `l` loads `P` (the open succeeds), in the registry the load leaves
and in every reachable registry with the same meta-objects, directory, table
and flag, `unloadLibrary(P, l)` returns and `P` has left the table. -/
theorem loaded_alone_then_unloaded (st s₁ : Registry) (hreach : Reachable st)
    (hflag : st.hasANonPurePluginLibraryBeenOpened = false) (P : LibraryPath)
    (hP : P ∉ st.loadedLibraryVector.map Prod.fst) (l hm : Nat) (regs : List Registration)
    (hs : loadLibrary st P (some l) (LoadLibraryA.loaded hm regs) = Outcome.returned () s₁)
    (s₂ : Registry) (hr₂ : Reachable s₂) (hm₂ : s₂.metaObjects = s₁.metaObjects)
    (hl₂ : ∀ B n, lookup s₂ B n = lookup s₁ B n)
    (hv₂ : s₂.loadedLibraryVector = s₁.loadedLibraryVector)
    (hf₂ : s₂.hasANonPurePluginLibraryBeenOpened = s₁.hasANonPurePluginLibraryBeenOpened) :
    ∃ s₃, unloadLibrary s₂ P (some l) false = Outcome.returned () s₃ ∧
      isLibraryLoadedByAnybody s₃ P = false := by
  obtain ⟨hA, _, _⟩ := reachable_invariants st hreach
  obtain ⟨hC, _⟩ := reachable_graveyard_invariants st hreach
  have hN := reachable_directoryPathsLoaded st hreach
  have hG := reachable_graveyardUnowned st hreach
  have hl₁ : (loadLibrary st P (some l) (LoadLibraryA.loaded hm regs)).leaves s₁ := by
    rw [hs, leaves_returned]
  obtain ⟨o1, o2, o3, _⟩ := loadLibrary_opened_owners st s₁ P l hm regs hl₁ hflag hP hA hC hN hG
  obtain ⟨hA₂, _, _⟩ := reachable_invariants s₂ hr₂
  have hnd₂ := reachable_libraryPathsDistinct s₂ hr₂
  have howners : ∀ p, p ∈ allMetaObjectsForLibrary s₂ P → owners s₂ p = [some l] := by
    intro p hp
    obtain ⟨hp1, hp2⟩ := (mem_allMetaObjectsForLibrary_iff s₂ P p).mp hp
    obtain ⟨B, n, hlk⟩ := (mem_allMetaObjects_iff s₂ p).mp hp1
    rw [hl₂] at hlk
    rw [hm₂] at hp2
    have := o3 B n p hlk hp2
    simp only [owners, hm₂]
    exact this
  obtain ⟨s₃, h3, _, _, _, _, h8⟩ := unloadLibrary_sole_owner s₂ P (some l)
    (by rw [hf₂]; exact o1) (by rw [hv₂]; exact o2) hA₂ hnd₂ howners
  exact ⟨s₃, h3, isLibraryLoadedByAnybody_eq_false s₃ P h8⟩

/-- C21 (amended). Loader-handle reference counting, for a handle whose load
count `c` is below the cap. `loadLibrary()` makes the count `c + 1`; it calls the
registry load when `c` is 0 (the count is raised when that call returns) and
leaves the registry untouched otherwise. `unloadLibrary()` makes the count
`c - 1` when `c > 0`, leaving the registry untouched when `c > 1` and calling
the registry unload when `c` is 1; when `c` is 0 it returns with the count 0
and the registry untouched. Hence, for every `n` with `1 ≤ n ≤ cap`, after
`n` loads on a handle with count 0, the first of which calls the registry load
(the others leave the registry as that load left it): through fewer than `n`
unloads the registry is untouched and the library is loaded, for the registry
and for the handle; the `n`-th unload is the one that calls the registry
unload, and leaves the count 0, so that the handle reports the library as not
loaded; when the handle was the only one to load the library in a reachable
registry with the non-pure flag false, that registry unload returns and the
library has left the loaded-library table; and further unloads change nothing. -/
theorem loader_handle_reference_counting (cap : Nat) (lh : PluginLoader) (st : Registry)
    (os : LoadLibraryA) (r : Bool) (hcap : lh.load_count < cap) :
    (lh.load_count = 0 → ∀ s₁,
        impl.loadLibrary st lh.library_path (some lh.address) os = Outcome.returned () s₁ →
        lh.loadLibrary cap st os = ({ lh with load_count := 1 }, Outcome.returned () s₁)) ∧
      (0 < lh.load_count →
        lh.loadLibrary cap st os
          = ({ lh with load_count := lh.load_count + 1 }, Outcome.returned () st)) ∧
      (1 < lh.load_count →
        lh.unloadLibrary st r
          = ({ lh with load_count := lh.load_count - 1 }, Outcome.returned () st)) ∧
      (lh.load_count = 1 →
        lh.unloadLibrary st r
          = ({ lh with load_count := 0 },
              impl.unloadLibrary st lh.library_path (some lh.address) r)) ∧
      (lh.load_count = 0 → lh.unloadLibrary st r = (lh, Outcome.returned () st)) ∧
      (lh.load_count = 0 → ∀ n s₁, 1 ≤ n → n ≤ cap →
        impl.loadLibrary st lh.library_path (some lh.address) os = Outcome.returned () s₁ →
        PluginLoader.loadLibraryTimes cap os n lh st
            = ({ lh with load_count := n }, Outcome.returned () s₁) ∧
          (∀ k, k < n →
            PluginLoader.unloadLibraryTimes r k { lh with load_count := n } s₁
                = ({ lh with load_count := n - k }, Outcome.returned () s₁) ∧
              isLibraryLoadedByAnybody s₁ lh.library_path = true ∧
              PluginLoader.isLibraryLoaded { lh with load_count := n - k } s₁ = true) ∧
          PluginLoader.unloadLibraryTimes r n { lh with load_count := n } s₁
            = ({ lh with load_count := 0 },
                impl.unloadLibrary s₁ lh.library_path (some lh.address) r) ∧
          (∀ s₂, PluginLoader.isLibraryLoaded { lh with load_count := 0 } s₂ = false) ∧
          (Reachable st → st.hasANonPurePluginLibraryBeenOpened = false →
            lh.library_path ∉ st.loadedLibraryVector.map Prod.fst →
            (∃ hm regs, os = LoadLibraryA.loaded hm regs) →
            ∃ s₂, impl.unloadLibrary s₁ lh.library_path (some lh.address) false
                = Outcome.returned () s₂ ∧
              isLibraryLoadedByAnybody s₂ lh.library_path = false) ∧
          ∀ m s₂, PluginLoader.unloadLibraryTimes r m { lh with load_count := 0 } s₂
            = ({ lh with load_count := 0 }, Outcome.returned () s₂)) := by
  refine ⟨?_, ?_, ?_, ?_, ?_, ?_⟩
  · intro h0 s₁ hs
    rw [handle_loadLibrary_of_zero cap lh st s₁ os h0 hs]
    have : min (lh.load_count + 1) cap = 1 := by omega
    rw [this]
  · intro hpos
    rw [handle_loadLibrary_of_pos cap lh st os hpos]
    have : min (lh.load_count + 1) cap = lh.load_count + 1 := by omega
    rw [this]
  · exact handle_unloadLibrary_of_many lh st r
  · exact handle_unloadLibrary_of_one lh st r
  · exact handle_unloadLibrary_of_zero lh st r
  · intro h0 n s₁ hn hncap hs
    have hloaded := loadLibrary_returned_loaded st s₁ lh.library_path (some lh.address) os hs
    refine ⟨?_, ?_, ?_, ?_, ?_, ?_⟩
    · obtain ⟨n', rfl⟩ : ∃ n', n = n' + 1 := ⟨n - 1, by omega⟩
      have hmin : min (lh.load_count + 1) cap = 1 := by omega
      simp only [PluginLoader.loadLibraryTimes,
        handle_loadLibrary_of_zero cap lh st s₁ os h0 hs, hmin]
      rw [handle_loadLibraryTimes_of_pos cap os n' { lh with load_count := 1 } s₁ (by simp)
        (by simp; omega)]
      simp only [Prod.mk.injEq, and_true]
      congr 1
      omega
    · intro k hk
      refine ⟨handle_unloadLibraryTimes_of_lt r k { lh with load_count := n } s₁ hk, hloaded, ?_⟩
      simp only [PluginLoader.isLibraryLoaded, isLibraryLoaded_eq, hloaded, Bool.and_true,
        decide_eq_true_eq]
      omega
    · obtain ⟨n', rfl⟩ : ∃ n', n = n' + 1 := ⟨n - 1, by omega⟩
      exact handle_unloadLibraryTimes_count r n' { lh with load_count := n' + 1 } s₁ rfl
    · intro s₂
      simp [PluginLoader.isLibraryLoaded]
    · rintro hreach hflag hP ⟨hm, regs, rfl⟩
      exact loaded_alone_then_unloaded st s₁ hreach hflag lh.library_path hP lh.address hm regs
        hs s₁ (Reachable.loadLibrary _ _ _ hreach (Or.inl ⟨(), hs⟩)) rfl (fun _ _ => rfl) rfl rfl
    · intro m s₂
      exact handle_unloadLibraryTimes_of_zero r m { lh with load_count := 0 } s₂ rfl

/-- C21 (amended) on the lazy handle of loader 1 over `P1` in a fresh process,
as in the test `loadRefCountingLazy`: two loads, then unloads. -/
theorem loader_handle_reference_counting_witness :
    (0 : Nat) < 10 ∧
      impl.loadLibrary Registry.initial "P1" (some 1)
          (LoadLibraryA.loaded 7 [⟨"4Base", "Dog", "Base"⟩, ⟨"4Base", "Cat", "Base"⟩])
        = Outcome.returned () registryCatDog ∧
      PluginLoader.loadLibraryTimes 10
          (LoadLibraryA.loaded 7 [⟨"4Base", "Dog", "Base"⟩, ⟨"4Base", "Cat", "Base"⟩]) 2
          ⟨1, "P1", true, 0⟩ Registry.initial
        = (⟨1, "P1", true, 2⟩, Outcome.returned () registryCatDog) ∧
      (∀ k, k < 2 →
        PluginLoader.unloadLibraryTimes false k ⟨1, "P1", true, 2⟩ registryCatDog
            = (⟨1, "P1", true, 2 - k⟩, Outcome.returned () registryCatDog) ∧
          isLibraryLoadedByAnybody registryCatDog "P1" = true ∧
          PluginLoader.isLibraryLoaded ⟨1, "P1", true, 2 - k⟩ registryCatDog = true) ∧
      PluginLoader.unloadLibraryTimes false 2 ⟨1, "P1", true, 2⟩ registryCatDog
        = (⟨1, "P1", true, 0⟩, impl.unloadLibrary registryCatDog "P1" (some 1) false) ∧
      (∀ s₂, PluginLoader.isLibraryLoaded ⟨1, "P1", true, 0⟩ s₂ = false) ∧
      (Reachable Registry.initial →
        Registry.initial.hasANonPurePluginLibraryBeenOpened = false →
        "P1" ∉ Registry.initial.loadedLibraryVector.map Prod.fst →
        (∃ hm regs,
          LoadLibraryA.loaded 7 [⟨"4Base", "Dog", "Base"⟩, ⟨"4Base", "Cat", "Base"⟩]
            = LoadLibraryA.loaded hm regs) →
        ∃ s₂, impl.unloadLibrary registryCatDog "P1" (some 1) false
            = Outcome.returned () s₂ ∧
          isLibraryLoadedByAnybody s₂ "P1" = false) ∧
      ∀ m s₂, PluginLoader.unloadLibraryTimes false m ⟨1, "P1", true, 0⟩ s₂
        = (⟨1, "P1", true, 0⟩, Outcome.returned () s₂) :=
  ⟨by decide, rfl,
    (loader_handle_reference_counting 10 ⟨1, "P1", true, 0⟩ Registry.initial
      (LoadLibraryA.loaded 7 [⟨"4Base", "Dog", "Base"⟩, ⟨"4Base", "Cat", "Base"⟩]) false
      (by decide)).2.2.2.2.2 rfl 2 registryCatDog (by decide) (by decide) rfl⟩

/-- What `createInstance` leaves as it was. -/
theorem createInstance_frame (st st' : Registry) (B : BaseClassName) (n : ClassName)
    (L : PluginLoaderPtr) (h : (createInstance st B n L).leaves st') :
    st'.metaObjects = st.metaObjects ∧ (∀ B₂ n₂, lookup st' B₂ n₂ = lookup st B₂ n₂) ∧
      st'.loadedLibraryVector = st.loadedLibraryVector ∧
      st'.hasANonPurePluginLibraryBeenOpened = st.hasANonPurePluginLibraryBeenOpened ∧
      st'.graveyard = st.graveyard := by
  have hk : ∀ Z : Registry, Z.metaObjects = (getFactoryMapForBaseClass st B).metaObjects →
      Z.factoryMapMap = (getFactoryMapForBaseClass st B).factoryMapMap →
      Z.loadedLibraryVector = (getFactoryMapForBaseClass st B).loadedLibraryVector →
      Z.hasANonPurePluginLibraryBeenOpened
        = (getFactoryMapForBaseClass st B).hasANonPurePluginLibraryBeenOpened →
      Z.graveyard = (getFactoryMapForBaseClass st B).graveyard →
      Z.metaObjects = st.metaObjects ∧ (∀ B₂ n₂, lookup Z B₂ n₂ = lookup st B₂ n₂) ∧
        Z.loadedLibraryVector = st.loadedLibraryVector ∧
        Z.hasANonPurePluginLibraryBeenOpened = st.hasANonPurePluginLibraryBeenOpened ∧
        Z.graveyard = st.graveyard := by
    intro Z z1 z2 z3 z4 z5
    refine ⟨by rw [z1]; simp, ?_, by rw [z3]; simp, by rw [z4]; simp, by rw [z5]; simp⟩
    intro B₂ n₂
    exact (lookup_congr Z _ z2 B₂ n₂).trans (lookup_getFactoryMapForBaseClass st B B₂ n₂)
  rcases createInstance_leaves st st' B n L h with rfl | rfl | rfl | rfl <;>
    exact hk _ rfl rfl rfl rfl rfl

/-- C22 (amended). Lazy self-unload. For a lazy loader handle over `P` with
load count 0 (the cap being positive), in a reachable registry in which `P` is
not loaded by anybody, when the open of `P` succeeds and makes the class
available to the handle: `createInstance` and `createUniqueInstance` load `P`,
make the count 1 and return an instance; while the instance lives
`isLibraryLoadedByAnybody(P)` and the `isLibraryLoaded()` of the handle are
true; the destruction of that only instance returns the count to 0 and calls
the registry unload; when the non-pure flag is false that unload, the close
not raising, removes `P` from the loaded-library table, and when the flag is
set it refuses and `P` stays in the table. -/
theorem lazy_self_unload (cap : Nat) (lh : PluginLoader) (st s₁ : Registry)
    (Base : BaseClassName) (name : ClassName) (hm : Nat) (regs : List Registration)
    (hcap : 0 < cap) (hlazy : lh.lazy = true) (hcount : lh.load_count = 0)
    (hreach : Reachable st)
    (hP : isLibraryLoadedByAnybody st lh.library_path = false)
    (hs : impl.loadLibrary st lh.library_path (some lh.address) (LoadLibraryA.loaded hm regs)
      = Outcome.returned () s₁)
    (havail : name ∈ (getAvailableClasses s₁ Base (some lh.address)).1) :
    ∃ p s₂,
      lh.createInstance cap st Base name (LoadLibraryA.loaded hm regs)
        = ({ lh with load_count := 1 }, Outcome.returned p s₂) ∧
      lh.createUniqueInstance cap st Base name (LoadLibraryA.loaded hm regs)
        = ({ lh with load_count := 1 }, Outcome.returned p s₂) ∧
      isLibraryLoadedByAnybody s₂ lh.library_path = true ∧
      PluginLoader.isLibraryLoaded { lh with load_count := 1 } s₂ = true ∧
      (∀ r, PluginLoader.destroyInstance { lh with load_count := 1 } s₂ r
        = ({ lh with load_count := 0 },
            impl.unloadLibrary s₂ lh.library_path (some lh.address) r)) ∧
      (st.hasANonPurePluginLibraryBeenOpened = false →
        ∃ s₃,
          PluginLoader.destroyInstance { lh with load_count := 1 } s₂ false
            = ({ lh with load_count := 0 }, Outcome.returned () s₃) ∧
          isLibraryLoadedByAnybody s₃ lh.library_path = false ∧
          lh.library_path ∉ s₃.loadedLibraryVector.map Prod.fst) ∧
      (st.hasANonPurePluginLibraryBeenOpened = true →
        ∀ r, PluginLoader.destroyInstance { lh with load_count := 1 } s₂ r
            = ({ lh with load_count := 0 }, Outcome.returned () s₂.logDebug) ∧
          isLibraryLoadedByAnybody s₂.logDebug lh.library_path = true ∧
          lh.library_path ∈ s₂.logDebug.loadedLibraryVector.map Prod.fst) := by
  have hP' : lh.library_path ∉ st.loadedLibraryVector.map Prod.fst := by
    intro hmem
    rw [(isLibraryLoadedByAnybody_iff st lh.library_path).mpr hmem] at hP
    cases hP
  have hl₁ : (impl.loadLibrary st lh.library_path (some lh.address)
      (LoadLibraryA.loaded hm regs)).leaves s₁ := Or.inl ⟨(), hs⟩
  have hr₁ : Reachable s₁ := Reachable.loadLibrary _ _ _ hreach hl₁
  have hloaded := loadLibrary_returned_loaded st s₁ lh.library_path (some lh.address) _ hs
  -- the registry creates the instance
  obtain ⟨q, hq, hown⟩ := (mem_getAvailableClasses_iff s₁ Base (some lh.address) name).mp havail
  obtain ⟨p, s₂, hcreate⟩ :=
    (createInstance_returned_iff_of_wellTyped s₁ (reachable_directoryWellTyped s₁ hr₁) Base name
      (some lh.address)).mpr ⟨q, hq, hown⟩
  have hl₂ : (impl.createInstance s₁ Base name (some lh.address)).leaves s₂ :=
    Or.inl ⟨p, hcreate⟩
  have hr₂ : Reachable s₂ := Reachable.createInstance _ _ _ hr₁ hl₂
  obtain ⟨f1, f2, f3, f4, _⟩ := createInstance_frame s₁ s₂ Base name (some lh.address) hl₂
  have hloaded₂ : isLibraryLoadedByAnybody s₂ lh.library_path = true := by
    rw [isLibraryLoadedByAnybody_congr s₂ s₁ f3]
    exact hloaded
  have hmin : min (lh.load_count + 1) cap = 1 := by omega
  have hci : lh.createInstance cap st Base name (LoadLibraryA.loaded hm regs)
      = ({ lh with load_count := 1 }, Outcome.returned p s₂) := by
    rw [PluginLoader.createInstance, if_pos ⟨hlazy, hcount⟩,
      handle_loadLibrary_of_zero cap lh st s₁ _ hcount hs, hmin]
    simp only [hcreate]
  have hdestroy : ∀ r, PluginLoader.destroyInstance { lh with load_count := 1 } s₂ r
      = ({ lh with load_count := 0 },
          impl.unloadLibrary s₂ lh.library_path (some lh.address) r) := by
    intro r
    rw [PluginLoader.destroyInstance,
      handle_unloadLibrary_of_one { lh with load_count := 1 } s₂ r rfl]
  refine ⟨p, s₂, hci, hci, hloaded₂, ?_, hdestroy, ?_, ?_⟩
  · simp [PluginLoader.isLibraryLoaded, isLibraryLoaded_eq, hloaded₂]
  · intro hflag
    obtain ⟨s₃, hs₃, hclosed⟩ := loaded_alone_then_unloaded st s₁ hreach hflag lh.library_path
      hP' lh.address hm regs hs s₂ hr₂ f1 f2 f3 f4
    refine ⟨s₃, ?_, hclosed, ?_⟩
    · rw [hdestroy false]
      simp only [hs₃]
    · intro hmem
      rw [(isLibraryLoadedByAnybody_iff s₃ lh.library_path).mpr hmem] at hclosed
      cases hclosed
  · intro hflag r
    have hflag₁ : s₁.hasANonPurePluginLibraryBeenOpened = true := by
      cases hf : s₁.hasANonPurePluginLibraryBeenOpened with
      | true => rfl
      | false =>
        rw [loadLibrary_flag st s₁ _ _ _ hl₁ hf] at hflag
        cases hflag
    have hflag₂ : s₂.hasANonPurePluginLibraryBeenOpened = true := by rw [f4]; exact hflag₁
    have hloaded₃ : isLibraryLoadedByAnybody s₂.logDebug lh.library_path = true := hloaded₂
    refine ⟨?_, hloaded₃, (isLibraryLoadedByAnybody_iff _ _).mp hloaded₃⟩
    rw [hdestroy r, unloadLibrary_of_flag s₂ _ _ r hflag₂]

/-- C22 (amended) on the lazy handle of loader 1 over `P1` in a fresh process,
as in the test `correctLazyLoadUnload`: an instance of `Cat` is created and
destroyed. -/
theorem lazy_self_unload_witness :
    (0 : Nat) < 10 ∧ Reachable Registry.initial ∧
      isLibraryLoadedByAnybody Registry.initial "P1" = false ∧
      impl.loadLibrary Registry.initial "P1" (some 1)
          (LoadLibraryA.loaded 7 [⟨"4Base", "Dog", "Base"⟩, ⟨"4Base", "Cat", "Base"⟩])
        = Outcome.returned () registryCatDog ∧
      "Cat" ∈ (getAvailableClasses registryCatDog "4Base" (some 1)).1 ∧
      ∃ p s₂,
        PluginLoader.createInstance 10 ⟨1, "P1", true, 0⟩ Registry.initial "4Base" "Cat"
            (LoadLibraryA.loaded 7 [⟨"4Base", "Dog", "Base"⟩, ⟨"4Base", "Cat", "Base"⟩])
          = (⟨1, "P1", true, 1⟩, Outcome.returned p s₂) ∧
        PluginLoader.createUniqueInstance 10 ⟨1, "P1", true, 0⟩ Registry.initial "4Base" "Cat"
            (LoadLibraryA.loaded 7 [⟨"4Base", "Dog", "Base"⟩, ⟨"4Base", "Cat", "Base"⟩])
          = (⟨1, "P1", true, 1⟩, Outcome.returned p s₂) ∧
        isLibraryLoadedByAnybody s₂ "P1" = true ∧
        PluginLoader.isLibraryLoaded ⟨1, "P1", true, 1⟩ s₂ = true ∧
        ∃ s₃,
          PluginLoader.destroyInstance ⟨1, "P1", true, 1⟩ s₂ false
            = (⟨1, "P1", true, 0⟩, Outcome.returned () s₃) ∧
          isLibraryLoadedByAnybody s₃ "P1" = false ∧
          "P1" ∉ s₃.loadedLibraryVector.map Prod.fst :=
  ⟨by decide, Reachable.initial, by decide, rfl, by decide,
    match lazy_self_unload 10 ⟨1, "P1", true, 0⟩ Registry.initial registryCatDog "4Base"
      "Cat" 7 [⟨"4Base", "Dog", "Base"⟩, ⟨"4Base", "Cat", "Base"⟩] (by decide) rfl rfl
      Reachable.initial (by decide) rfl (by decide) with
    | ⟨p, s₂, a, b, c, d, _, e, _⟩ => ⟨p, s₂, a, b, c, d, e rfl⟩⟩

/-- Two loads of one library, one after the other. In a reachable registry
with the non-pure flag false and `P` not in the table, after loader `l₁` loads
`P` (the open succeeds) and loader `l₂` loads `P` (whatever the OS would do on
an open): both calls return, the second opens nothing, the table has gained
exactly one entry, the one of `P`, and every directory meta-object of `P` is
owned by `l₁` and by `l₂`. -/
theorem loadLibrary_twice_in_sequence (st : Registry) (hreach : Reachable st)
    (hflag : st.hasANonPurePluginLibraryBeenOpened = false) (P : LibraryPath)
    (hP : P ∉ st.loadedLibraryVector.map Prod.fst) (l₁ l₂ hm : Nat)
    (regs : List Registration) (os₂ : LoadLibraryA) :
    ∃ s₁ s₂ lib,
      loadLibrary st P (some l₁) (LoadLibraryA.loaded hm regs) = Outcome.returned () s₁ ∧
      loadLibrary s₁ P (some l₂) os₂ = Outcome.returned () s₂ ∧
      s₁.loadedLibraryVector = st.loadedLibraryVector ++ [(P, lib)] ∧
      s₂.loadedLibraryVector = s₁.loadedLibraryVector ∧
      s₂.nextSharedLibrary = s₁.nextSharedLibrary ∧
      (s₂.loadedLibraryVector.map Prod.fst).count P = 1 ∧
      ∀ B n p, lookup s₂ B n = some p → (s₂.metaObjects p).associated_library_path = P →
        owners s₂ p = [some l₁, some l₂] := by
  obtain ⟨hA, _, _⟩ := reachable_invariants st hreach
  obtain ⟨hC, _⟩ := reachable_graveyard_invariants st hreach
  have hN := reachable_directoryPathsLoaded st hreach
  have hG := reachable_graveyardUnowned st hreach
  obtain ⟨s₁, hs₁⟩ := loadLibrary_returns st P l₁ (LoadLibraryA.loaded hm regs)
    (Or.inr (by simp))
  have hl₁ : (loadLibrary st P (some l₁) (LoadLibraryA.loaded hm regs)).leaves s₁ := by
    rw [hs₁, leaves_returned]
  have hr₁ : Reachable s₁ := Reachable.loadLibrary P (some l₁) _ hreach hl₁
  obtain ⟨_, o2, o3, _⟩ :=
    loadLibrary_opened_owners st s₁ P l₁ hm regs hl₁ hflag hP hA hC hN hG
  obtain ⟨s₂, hs₂⟩ := loadLibrary_returns s₁ P l₂ os₂ (Or.inl o2)
  have hl₂ : (loadLibrary s₁ P (some l₂) os₂).leaves s₂ := by
    rw [hs₂, leaves_returned]
  have hr₂ : Reachable s₂ := Reachable.loadLibrary P (some l₂) _ hr₁ hl₂
  obtain ⟨t1, _, t3, _, t5⟩ := loadLibrary_open_tagged s₁ s₂ P l₂ os₂ hl₂ o2
  have hlib : ∃ lib, s₁.loadedLibraryVector = st.loadedLibraryVector ++ [(P, lib)] := by
    rcases loadLibrary_loadedLibraryVector st s₁ P (some l₁) _ hl₁ with h | ⟨_, h⟩
    · rw [h] at o2
      exact absurd o2 hP
    · exact h
  obtain ⟨lib, hlib⟩ := hlib
  have hnext : s₂.nextSharedLibrary = s₁.nextSharedLibrary := by
    rcases loadLibrary_cases s₁ s₂ P (some l₂) os₂ hl₂ with ⟨_, h1⟩ | ⟨h1, _⟩ | ⟨h1, _⟩
    · obtain ⟨st'', h', _, _, _, _, _, _, _, _, _, a10, _⟩ :=
        addPluginLoaderOwnerLoop_some l₂ (allMetaObjectsForLibrary s₁ P) s₁.logDebug.logDebug
      rw [h1] at h'
      cases h'
      exact a10
    · exact absurd o2 h1
    · exact absurd o2 h1
  refine ⟨s₁, s₂, lib, hs₁, hs₂, hlib, t3, hnext, ?_, ?_⟩
  · have hnd := reachable_libraryPathsDistinct s₂ hr₂
    have hle := List.nodup_iff_count_le_one.mp hnd P
    have hpos : 0 < (s₂.loadedLibraryVector.map Prod.fst).count P :=
      List.count_pos_iff.mpr (by rw [t3]; exact o2)
    omega
  · intro B n p hp hpath
    have hp₁ : lookup s₁ B n = some p := by
      rw [← lookup_congr s₂ s₁ t1 B n]
      exact hp
    have hpath₁ : (s₁.metaObjects p).associated_library_path = P := by
      rw [t5 p] at hpath
      exact hpath
    have hmem : p ∈ allMetaObjectsForLibrary s₁ P :=
      (mem_allMetaObjectsForLibrary_iff s₁ P p).mpr
        ⟨mem_allMetaObjects_of_lookup s₁ B n p hp₁, hpath₁⟩
    have hcount := List.count_eq_one_of_mem
      (reachable_allMetaObjectsForLibrary_nodup s₁ hr₁ P) hmem
    have ho := o3 B n p hp₁ hpath₁
    simp only [owners] at ho ⊢
    rw [t5 p, hcount, ho]
    rfl

/-- C34. For every registry, path `P` and loader `L`, `isLibraryLoaded(P, L)`
equals `isLibraryLoadedByAnybody(P)`: the count of the meta-objects of `P`
owned by `L` never exceeds the count of the meta-objects of `P`, so the result
depends neither on `L` nor on what `L` owns. -/
theorem isLibraryLoaded_eq_isLibraryLoadedByAnybody (st : Registry) (P : LibraryPath)
    (L : PluginLoaderPtr) :
    (allMetaObjectsForLibraryOwnedBy st P L).length ≤ (allMetaObjectsForLibrary st P).length ∧
      isLibraryLoaded st P L = isLibraryLoadedByAnybody st P ∧
      ∀ L₂, isLibraryLoaded st P L = isLibraryLoaded st P L₂ := by
  refine ⟨?_, isLibraryLoaded_eq st P L, ?_⟩
  · simp only [allMetaObjectsForLibraryOwnedBy, filterAllMetaObjectsOwnedBy]
    exact List.length_filter_le _ _
  · intro L₂
    rw [isLibraryLoaded_eq, isLibraryLoaded_eq]

/-- C35 at registries the calls can be made in. With `P1` open and holding
meta-objects, `loadLibrary("P1", NULL)` goes through the null loader while it
builds the log arguments of the owner tagging; with an entry of `P1` in the
graveyard, so do `purgeGraveyardOfMetaobjects("P1", NULL, d)`, for both `d`,
and the `loadLibrary("P1", NULL)` that revives; and with a loader that is not
null the same calls complete. -/
theorem loadLibrary_null_loader_dereferenced :
    loadLibrary registryCatDog "P1" none LoadLibraryA.failed = Outcome.nullDereference ∧
      purgeGraveyardOfMetaobjects registryCatBuried "P1" none true = none ∧
      purgeGraveyardOfMetaobjects registryCatBuried "P1" none false = none ∧
      loadLibrary registryCatBuried "P1" none (LoadLibraryA.loaded 9 [])
        = Outcome.nullDereference ∧
      (∃ st', loadLibrary registryCatDog "P1" (some 2) LoadLibraryA.failed
        = Outcome.returned () st') ∧
      (purgeGraveyardOfMetaobjects registryCatBuried "P1" (some 2) true).isSome = true ∧
      (∃ st', loadLibrary registryCatBuried "P1" (some 2) (LoadLibraryA.loaded 9 [])
        = Outcome.returned () st') :=
  ⟨rfl, rfl, rfl, rfl, ⟨_, rfl⟩, rfl, ⟨_, rfl⟩⟩

/-- What `getFactoryMapForBaseClass` does to the directory: nothing when the
base identity has an inner map, the creation of an empty one otherwise. -/
theorem getFactoryMapForBaseClass_factoryMapMap (st : Registry) (B : BaseClassName) :
    ((st.factoryMapMap.find B).isSome = true ∧
        (getFactoryMapForBaseClass st B).factoryMapMap = st.factoryMapMap) ∨
      (st.factoryMapMap.find B = none ∧
        (getFactoryMapForBaseClass st B).factoryMapMap
          = st.factoryMapMap.assign B StdMap.empty) := by
  unfold getFactoryMapForBaseClass
  cases h : st.factoryMapMap.find B with
  | none => exact Or.inr ⟨rfl, rfl⟩
  | some m => exact Or.inl ⟨rfl, rfl⟩

/-- The insertion of a key that the entries do not hold, with a value that
contributes nothing, changes nothing in what the entries contribute. -/
theorem flatten_mapAssign_of_nil {β γ : Type} (f : String × β → List γ)
    (l : List (String × β)) (k : String) (v : β) (hf : f (k, v) = [])
    (hk : mapFind l k = none) :
    ((mapAssign l k v).map f).flatten = (l.map f).flatten := by
  induction l with
  | nil => simp [mapAssign, hf]
  | cons hd tl ih =>
    obtain ⟨k', v'⟩ := hd
    simp only [mapFind] at hk
    split_ifs at hk with h1
    simp only [mapAssign, if_neg h1]
    split_ifs with h2
    · simp [hf]
    · simp only [List.map_cons, List.flatten_cons, ih hk]

/-- The meta-objects of the directory after `getFactoryMapForBaseClass`. -/
theorem allMetaObjects_getFactoryMapForBaseClass (st : Registry) (B : BaseClassName) :
    allMetaObjects (getFactoryMapForBaseClass st B) = allMetaObjects st := by
  unfold getFactoryMapForBaseClass
  cases h : st.factoryMapMap.find B with
  | none =>
    simp only [allMetaObjects, StdMap.assign]
    exact flatten_mapAssign_of_nil (fun it => allMetaObjectsOf it.2) _ B StdMap.empty rfl h
  | some m => rfl

/-- C36. Lookups are read-only. For every registry, `createInstance`, however
it ends, and `getAvailableClasses` leave every meta-object (so its library path
and owner set), the meta-object at every key of the directory, the graveyard,
the loaded-library table, the two ambients and the non-pure flag as they were,
free nothing and allocate nothing; the directory itself is unchanged, or has
gained the empty inner map of the base identity asked for, which had none.
The queries `isLibraryLoaded`, `isLibraryLoadedByAnybody` and
`getAllLibrariesUsedByPluginLoader` read the registry and write nothing: they
are functions of the registry, and their values are the same before and after
such a lookup. -/
theorem lookups_read_only (st : Registry) (Base : BaseClassName) (name : ClassName)
    (loader : PluginLoaderPtr) :
    (∀ st', (st' = (getAvailableClasses st Base loader).2 ∨
          (createInstance st Base name loader).leaves st') →
        st'.metaObjects = st.metaObjects ∧
        (∀ B n, lookup st' B n = lookup st B n) ∧
        allMetaObjects st' = allMetaObjects st ∧
        st'.graveyard = st.graveyard ∧
        st'.loadedLibraryVector = st.loadedLibraryVector ∧
        st'.currentlyLoadingLibraryName = st.currentlyLoadingLibraryName ∧
        st'.currentlyActivePluginLoader = st.currentlyActivePluginLoader ∧
        st'.hasANonPurePluginLibraryBeenOpened = st.hasANonPurePluginLibraryBeenOpened ∧
        st'.nextMetaObject = st.nextMetaObject ∧
        st'.deletedMetaObjects = st.deletedMetaObjects ∧
        st'.sharedLibraries = st.sharedLibraries ∧
        st'.deletedSharedLibraries = st.deletedSharedLibraries ∧
        (st'.factoryMapMap = st.factoryMapMap ∨
          (st.factoryMapMap.find Base = none ∧
            st'.factoryMapMap = st.factoryMapMap.assign Base StdMap.empty)) ∧
        (∀ P L, isLibraryLoaded st' P L = isLibraryLoaded st P L) ∧
        (∀ P, isLibraryLoadedByAnybody st' P = isLibraryLoadedByAnybody st P) ∧
        (∀ L, getAllLibrariesUsedByPluginLoader st' L
          = getAllLibrariesUsedByPluginLoader st L)) := by
  have hk : ∀ Z : Registry, Z.metaObjects = (getFactoryMapForBaseClass st Base).metaObjects →
      Z.factoryMapMap = (getFactoryMapForBaseClass st Base).factoryMapMap →
      Z.graveyard = (getFactoryMapForBaseClass st Base).graveyard →
      Z.loadedLibraryVector = (getFactoryMapForBaseClass st Base).loadedLibraryVector →
      Z.currentlyLoadingLibraryName
        = (getFactoryMapForBaseClass st Base).currentlyLoadingLibraryName →
      Z.currentlyActivePluginLoader
        = (getFactoryMapForBaseClass st Base).currentlyActivePluginLoader →
      Z.hasANonPurePluginLibraryBeenOpened
        = (getFactoryMapForBaseClass st Base).hasANonPurePluginLibraryBeenOpened →
      Z.nextMetaObject = (getFactoryMapForBaseClass st Base).nextMetaObject →
      Z.deletedMetaObjects = (getFactoryMapForBaseClass st Base).deletedMetaObjects →
      Z.sharedLibraries = (getFactoryMapForBaseClass st Base).sharedLibraries →
      Z.deletedSharedLibraries = (getFactoryMapForBaseClass st Base).deletedSharedLibraries →
      Z.metaObjects = st.metaObjects ∧
        (∀ B n, lookup Z B n = lookup st B n) ∧
        allMetaObjects Z = allMetaObjects st ∧
        Z.graveyard = st.graveyard ∧
        Z.loadedLibraryVector = st.loadedLibraryVector ∧
        Z.currentlyLoadingLibraryName = st.currentlyLoadingLibraryName ∧
        Z.currentlyActivePluginLoader = st.currentlyActivePluginLoader ∧
        Z.hasANonPurePluginLibraryBeenOpened = st.hasANonPurePluginLibraryBeenOpened ∧
        Z.nextMetaObject = st.nextMetaObject ∧
        Z.deletedMetaObjects = st.deletedMetaObjects ∧
        Z.sharedLibraries = st.sharedLibraries ∧
        Z.deletedSharedLibraries = st.deletedSharedLibraries ∧
        (Z.factoryMapMap = st.factoryMapMap ∨
          (st.factoryMapMap.find Base = none ∧
            Z.factoryMapMap = st.factoryMapMap.assign Base StdMap.empty)) ∧
        (∀ P L, isLibraryLoaded Z P L = isLibraryLoaded st P L) ∧
        (∀ P, isLibraryLoadedByAnybody Z P = isLibraryLoadedByAnybody st P) ∧
        (∀ L, getAllLibrariesUsedByPluginLoader Z L
          = getAllLibrariesUsedByPluginLoader st L) := by
    intro Z z1 z2 z3 z4 z5 z6 z7 z8 z9 z10 z11
    have hm : Z.metaObjects = st.metaObjects := by rw [z1]; simp
    have hv : Z.loadedLibraryVector = st.loadedLibraryVector := by rw [z4]; simp
    have hall : allMetaObjects Z = allMetaObjects st := by
      rw [allMetaObjects_congr Z _ z2]
      exact allMetaObjects_getFactoryMapForBaseClass st Base
    refine ⟨hm, ?_, hall, by rw [z3]; simp, hv, by rw [z5]; simp, by rw [z6]; simp,
      by rw [z7]; simp, by rw [z8]; simp, by rw [z9]; simp, by rw [z10]; simp,
      by rw [z11]; simp, ?_, ?_, ?_, ?_⟩
    · intro B n
      exact (lookup_congr Z _ z2 B n).trans (lookup_getFactoryMapForBaseClass st Base B n)
    · rcases getFactoryMapForBaseClass_factoryMapMap st Base with ⟨_, h⟩ | ⟨hn, h⟩
      · exact Or.inl (z2.trans h)
      · exact Or.inr ⟨hn, z2.trans h⟩
    · intro P L
      rw [isLibraryLoaded_eq, isLibraryLoaded_eq]
      exact isLibraryLoadedByAnybody_congr Z st hv P
    · intro P
      exact isLibraryLoadedByAnybody_congr Z st hv P
    · intro L
      simp only [getAllLibrariesUsedByPluginLoader, allMetaObjectsForPluginLoader,
        filterAllMetaObjectsOwnedBy, isOwnedBy, getAssociatedLibraryPath, hall, hm]
  intro st' h
  rcases h with rfl | h
  · rw [getAvailableClasses_snd]
    exact hk _ rfl rfl rfl rfl rfl rfl rfl rfl rfl rfl rfl
  · rcases createInstance_leaves st st' Base name loader h with rfl | rfl | rfl | rfl <;>
      exact hk _ rfl rfl rfl rfl rfl rfl rfl rfl rfl rfl rfl

/-- C36 at a concrete registry: a listing for a base identity that has no
inner map, and the creation of a `Cat`, with `P1` loaded by loader 1. -/
theorem lookups_read_only_witness :
    ((getAvailableClasses registryCatDog "7Other" (some 1)).2.metaObjects
          = registryCatDog.metaObjects ∧
        (∀ B n, lookup (getAvailableClasses registryCatDog "7Other" (some 1)).2 B n
          = lookup registryCatDog B n)) ∧
      ∀ st', (createInstance registryCatDog "4Base" "Cat" (some 1)).leaves st' →
        st'.metaObjects = registryCatDog.metaObjects ∧
          (∀ B n, lookup st' B n = lookup registryCatDog B n) ∧
          st'.graveyard = registryCatDog.graveyard ∧
          st'.loadedLibraryVector = registryCatDog.loadedLibraryVector :=
  ⟨⟨(lookups_read_only registryCatDog "7Other" "Cat" (some 1) _ (Or.inl rfl)).1,
      (lookups_read_only registryCatDog "7Other" "Cat" (some 1) _ (Or.inl rfl)).2.1⟩,
    fun st' h =>
      ⟨(lookups_read_only registryCatDog "4Base" "Cat" (some 1) st' (Or.inr h)).1,
        (lookups_read_only registryCatDog "4Base" "Cat" (some 1) st' (Or.inr h)).2.1,
        (lookups_read_only registryCatDog "4Base" "Cat" (some 1) st' (Or.inr h)).2.2.2.1,
        (lookups_read_only registryCatDog "4Base" "Cat" (some 1) st' (Or.inr h)).2.2.2.2.1⟩⟩

/-- A step keeps a non-pure flag that is true. -/
theorem step_flag (st st' : Registry) (h : Step st st')
    (hflag : st.hasANonPurePluginLibraryBeenOpened = true) :
    st'.hasANonPurePluginLibraryBeenOpened = true := by
  cases h with
  | registerPlugin B cn bn =>
    rw [registerPlugin_flag, hflag]
    rfl
  | loadLibrary P L os hl =>
    cases hf : st'.hasANonPurePluginLibraryBeenOpened with
    | true => rfl
    | false =>
      rw [loadLibrary_flag st st' P L os hl hf] at hflag
      cases hflag
  | unloadLibrary P L r hl =>
    rw [unloadLibrary_flag st st' P L r hl]
    exact hflag
  | createInstance B n L hl =>
    obtain ⟨_, _, _, f4, _⟩ := createInstance_frame st st' B n L hl
    rw [f4]
    exact hflag
  | getAvailableClasses B L =>
    rw [getAvailableClasses_snd]
    simpa using hflag
  | isLibraryLoaded P L => exact hflag
  | isLibraryLoadedByAnybody P => exact hflag

/-- C31. The non-pure flag is a latch. Once the flag is true, it is true after
any number of steps (registrations, loads, unloads, instance creations,
listings, `isLibraryLoaded` queries, however each ends), and then every call
of `unloadLibrary`, for every path and loader and whatever a close would do,
returns having closed and deleted no library and moved no meta-object: the
loaded-library table, the `SharedLibrary` objects, the graveyard, the
directory and the meta-objects are as before the call. -/
theorem flag_latch (st st' : Registry) (hsteps : Relation.ReflTransGen Step st st')
    (hflag : st.hasANonPurePluginLibraryBeenOpened = true) :
    st'.hasANonPurePluginLibraryBeenOpened = true ∧
      ∀ P L r, ∃ s, unloadLibrary st' P L r = Outcome.returned () s ∧
        s.loadedLibraryVector = st'.loadedLibraryVector ∧
        s.sharedLibraries = st'.sharedLibraries ∧
        s.deletedSharedLibraries = st'.deletedSharedLibraries ∧
        s.graveyard = st'.graveyard ∧
        s.factoryMapMap = st'.factoryMapMap ∧
        s.metaObjects = st'.metaObjects ∧
        s.hasANonPurePluginLibraryBeenOpened = true := by
  have hf : st'.hasANonPurePluginLibraryBeenOpened = true := by
    induction hsteps with
    | refl => exact hflag
    | tail _ hstep ih => exact step_flag _ _ hstep ih
  refine ⟨hf, fun P L r => ⟨st'.logDebug, unloadLibrary_of_flag st' P L r hf, rfl, rfl, rfl, rfl,
    rfl, rfl, hf⟩⟩

theorem step_registryOrphanLoaded :
    Relation.ReflTransGen Step registryOrphan registryOrphanLoaded :=
  Relation.ReflTransGen.single
    (Step.loadLibrary "P1" (some 1) (LoadLibraryA.loaded 7 [⟨"4Base", "Cat", "Base"⟩])
      (Or.inl ⟨(), rfl⟩))

/-- C31 at a concrete run: a registration outside any load sets the flag, then
loader 1 loads `P1`. -/
theorem flag_latch_witness :
    registryOrphan.hasANonPurePluginLibraryBeenOpened = true ∧
      Relation.ReflTransGen Step registryOrphan registryOrphanLoaded ∧
      registryOrphanLoaded.hasANonPurePluginLibraryBeenOpened = true ∧
      ∀ P L r, ∃ s, unloadLibrary registryOrphanLoaded P L r = Outcome.returned () s ∧
        s.loadedLibraryVector = registryOrphanLoaded.loadedLibraryVector ∧
        s.sharedLibraries = registryOrphanLoaded.sharedLibraries ∧
        s.deletedSharedLibraries = registryOrphanLoaded.deletedSharedLibraries ∧
        s.graveyard = registryOrphanLoaded.graveyard ∧
        s.factoryMapMap = registryOrphanLoaded.factoryMapMap ∧
        s.metaObjects = registryOrphanLoaded.metaObjects ∧
        s.hasANonPurePluginLibraryBeenOpened = true :=
  ⟨by decide, step_registryOrphanLoaded,
    flag_latch registryOrphan registryOrphanLoaded step_registryOrphanLoaded (by decide)⟩

/-- C32 at a registry the call can be made in. Loader 1 has loaded `P1`
(`Dog` at address 1, `Cat` at address 2) and unloads it, the close raising: the
call raises `LibraryUnloadException`; the sweep is kept (both meta-objects have
lost their owner, have left the directory and are in the graveyard); the
`SharedLibrary` at address 1 is deleted by the handler of the exception, and
the entry of `P1` that points to it stays in the loaded-library table, so that
`isLibraryLoadedByAnybody("P1")` still finds it. -/
theorem unload_close_raises_dangling_entry :
    Reachable registryCatDog ∧
      unloadLibrary registryCatDog "P1" (some 1) true
        = Outcome.thrown PluginLoaderException.LibraryUnloadException
            registryCatDogCloseRaised ∧
      allMetaObjects registryCatDog = [2, 1] ∧
      owners registryCatDog 1 = [some 1] ∧ owners registryCatDog 2 = [some 1] ∧
      allMetaObjects registryCatDogCloseRaised = [] ∧
      registryCatDogCloseRaised.graveyard = [2, 1] ∧
      owners registryCatDogCloseRaised 1 = [] ∧ owners registryCatDogCloseRaised 2 = [] ∧
      registryCatDog.loadedLibraryVector = [("P1", 1)] ∧
      registryCatDogCloseRaised.loadedLibraryVector = [("P1", 1)] ∧
      registryCatDogCloseRaised.deletedSharedLibraries = [1] ∧
      isLibraryLoadedByAnybody registryCatDogCloseRaised "P1" = true :=
  ⟨reachable_registryCatDog, rfl, by decide, by decide, by decide, by decide, by decide,
    by decide, by decide, by decide, by decide, by decide, by decide⟩

/-- The purge frees something exactly when it reaches the statement before
`delete (obj)`. -/
theorem purgeReachesDelete_iff (st st' : Registry) (P : LibraryPath) (L : PluginLoaderPtr)
    (d : Bool) (h : purgeGraveyardOfMetaobjects st P L d = some st') :
    purgeReachesDelete st P d = true ↔ st'.deletedMetaObjects ≠ st.deletedMetaObjects := by
  obtain ⟨_, _, _, _, _, _, _, _, _, _, _, p11⟩ := purgeGraveyardOfMetaobjects_spec st st' P L d h
  rw [p11]
  cases d with
  | false => simp [purgeReachesDelete]
  | true =>
    simp only [purgeReachesDelete, Bool.true_and, if_true, List.any_eq_true, ne_eq,
      List.append_right_eq_self, List.filter_eq_nil_iff, getAssociatedLibraryPath]
    push_neg
    rfl

/-- C39 at a registry the purge can be called in. After loader 1 has loaded
and unloaded `P1` and a registration outside any load has set the non-pure
flag, loader 1 loads `P1` again, the initialisers running again: the graveyard
scenario of that `loadLibrary` is the call
`purgeGraveyardOfMetaobjects("P1", loader 1, true)` in a registry where the
flag is true, and that purge reaches
`assert(hasANonPurePluginLibraryBeenOpened() == false)`. -/
theorem purge_assertion_reached_with_flag_set :
    Reachable registryCatBuriedOrphan ∧
      loadLibraryGraveyard
          (registryAfterOpen registryCatBuriedOrphan "P1" (some 1)
            (LoadLibraryA.loaded 8 [⟨"4Base", "Cat", "Base"⟩])).logDebug "P1" (some 1)
        = purgeGraveyardOfMetaobjects registryCatBuriedOrphanAtPurge "P1" (some 1) true ∧
      purgeReachesDelete registryCatBuriedOrphanAtPurge "P1" true = true ∧
      registryCatBuriedOrphanAtPurge.hasANonPurePluginLibraryBeenOpened = true :=
  ⟨reachable_registryCatBuriedOrphan, rfl, by decide, by decide⟩

/-- C40 at a message `plugin::log` lets through. With the sink and level a
process starts with, `log(file, line, CONSOLE_LOG_NONE, m)` passes the gate and
calls the sink with level `CONSOLE_LOG_NONE`, whose value is 4; the table
`LogLevelString` has 4 entries, and both `OutputHandlerSTD::log` and
`OutputHandlerFile::log` read `LogLevelString[4]`, outside the table. For the
four other levels the index is below 4. -/
theorem logLevelString_index_outside_table :
    (log DefaultOutputHandler.initial "f.cpp" 7 LogLevel.CONSOLE_LOG_NONE "m").delivered
        = [⟨std_output_handler_, "m".take (MAX_BUFFER_SIZE - 1), LogLevel.CONSOLE_LOG_NONE,
            "f.cpp", 7⟩] ∧
      LogLevel.CONSOLE_LOG_NONE.toNat = 4 ∧ LogLevelString.length = 4 ∧
      LogLevelString[LogLevel.CONSOLE_LOG_NONE.toNat]? = none ∧
      OutputHandlerSTD.log ⟨[], []⟩ "m" LogLevel.CONSOLE_LOG_NONE "f.cpp" 7 = none ∧
      OutputHandlerFile.log ⟨some []⟩ "m" LogLevel.CONSOLE_LOG_NONE "f.cpp" 7 = none ∧
      ∀ level : LogLevel, level ≠ LogLevel.CONSOLE_LOG_NONE →
        level.toNat < LogLevelString.length := by
  refine ⟨rfl, rfl, rfl, rfl, rfl, rfl, ?_⟩
  intro level h
  cases level <;> first | decide | exact absurd rfl h

/-! ## The `SharedLibrary` objects of the loaded-library table -/

theorem destroyMetaObjectsForLibraryLoop_nextSharedLibrary (P : LibraryPath)
    (B : BaseClassName) (L : PluginLoaderPtr) (es : List (ClassName × MetaObjectPtr))
    (st : Registry) :
    (destroyMetaObjectsForLibraryLoop P B L es st).nextSharedLibrary
      = st.nextSharedLibrary := by
  induction es generalizing st with
  | nil => rfl
  | cons hd tl ih =>
    obtain ⟨n, p⟩ := hd
    simp only [destroyMetaObjectsForLibraryLoop]
    split_ifs
    · rw [ih]; rfl
    · rw [ih]; rfl
    · exact ih st

theorem destroyMetaObjectsForLibraryWalk_nextSharedLibrary (P : LibraryPath)
    (L : PluginLoaderPtr) (bases : List BaseClassName) (st : Registry) :
    (destroyMetaObjectsForLibraryWalk P L bases st).nextSharedLibrary
      = st.nextSharedLibrary := by
  induction bases generalizing st with
  | nil => rfl
  | cons B rest ih =>
    simp only [destroyMetaObjectsForLibraryWalk, destroyMetaObjectsForLibraryIn]
    rw [ih, destroyMetaObjectsForLibraryLoop_nextSharedLibrary]

theorem destroyMetaObjectsForLibrary_nextSharedLibrary (st : Registry) (P : LibraryPath)
    (L : PluginLoaderPtr) :
    (destroyMetaObjectsForLibrary st P L).nextSharedLibrary = st.nextSharedLibrary := by
  show (destroyMetaObjectsForLibraryWalk P L st.logDebug.factoryMapMap.keys
    st.logDebug).nextSharedLibrary = _
  rw [destroyMetaObjectsForLibraryWalk_nextSharedLibrary]
  rfl

/-- No unload allocates a `SharedLibrary` or frees a meta-object. -/
theorem unloadLibrary_allocations (st st' : Registry) (P : LibraryPath) (L : PluginLoaderPtr)
    (r : Bool) (h : (unloadLibrary st P L r).leaves st') :
    st'.nextSharedLibrary = st.nextSharedLibrary ∧
      st'.deletedMetaObjects = st.deletedMetaObjects ∧
      st'.nextMetaObject = st.nextMetaObject := by
  by_cases hflag : st.hasANonPurePluginLibraryBeenOpened = true
  · rw [unloadLibrary_of_flag st P L r hflag, leaves_returned] at h
    subst h
    exact ⟨rfl, rfl, rfl⟩
  have hflag' : st.hasANonPurePluginLibraryBeenOpened = false := by simpa using hflag
  by_cases hP : P ∈ st.loadedLibraryVector.map Prod.fst
  · have hopen := (isLibraryLoadedByAnybody_iff st P).mpr hP
    simp only [isLibraryLoadedByAnybody, Option.isSome_iff_exists] at hopen
    obtain ⟨itr, hitr⟩ := hopen
    obtain ⟨e1, _, _, _⟩ := findIdx?_path st.loadedLibraryVector P itr (P, 0) hitr
    have hf : findLoadedLibrary st.logDebug P = some itr := hitr
    have e1' : (st.logDebug.loadedLibraryVector.getD itr (P, 0)).1 = P := e1
    obtain ⟨_, _, _, _, d5, d6, _, _⟩ := destroyMetaObjectsForLibrary_frame st.logDebug P L
    have d9 := destroyMetaObjectsForLibrary_nextSharedLibrary st.logDebug P L
    simp only [unloadLibrary, hflag', Bool.false_eq_true, if_false, hf, e1'] at h
    split_ifs at h
    · rw [leaves_thrown] at h
      subst h
      exact ⟨d9, d6, d5⟩
    · rw [leaves_returned] at h
      subst h
      exact ⟨d9, d6, d5⟩
    · rw [leaves_returned] at h
      subst h
      exact ⟨d9, d6, d5⟩
  · rw [unloadLibrary_of_not_loaded st P L r hflag' hP, leaves_thrown] at h
    subst h
    exact ⟨rfl, rfl, rfl⟩

theorem addPluginLoaderOwnerLoop_allocations (L : PluginLoaderPtr) (ps : MetaObjectVector)
    (st st' : Registry) (h : addPluginLoaderOwnerLoop L ps st = some st') :
    st'.sharedLibraries = st.sharedLibraries ∧
      st'.nextSharedLibrary = st.nextSharedLibrary ∧
      st'.deletedSharedLibraries = st.deletedSharedLibraries ∧
      st'.deletedMetaObjects = st.deletedMetaObjects ∧
      st'.nextMetaObject = st.nextMetaObject := by
  cases L with
  | none =>
    cases ps with
    | nil =>
      simp only [addPluginLoaderOwnerLoop, Option.some.injEq] at h
      subst h
      exact ⟨rfl, rfl, rfl, rfl, rfl⟩
    | cons p ps => simp [addPluginLoaderOwnerLoop] at h
  | some l =>
    obtain ⟨st'', h', _, _, _, _, _, _, a7, a8, a9, a10, a11, _⟩ :=
      addPluginLoaderOwnerLoop_some l ps st
    rw [h] at h'
    cases h'
    exact ⟨a9, a10, a11, a8, a7⟩

theorem reviveLoop_allocations (P : LibraryPath) (L : PluginLoaderPtr) (gs : MetaObjectVector)
    (st st' : Registry) (h : reviveLoop P L gs st = some st') :
    st'.sharedLibraries = st.sharedLibraries ∧
      st'.nextSharedLibrary = st.nextSharedLibrary ∧
      st'.deletedSharedLibraries = st.deletedSharedLibraries ∧
      st'.deletedMetaObjects = st.deletedMetaObjects ∧
      st'.nextMetaObject = st.nextMetaObject ∧
      st'.graveyard = st.graveyard := by
  cases L with
  | none =>
    rw [reviveLoop_null P gs st st' h]
    exact ⟨rfl, rfl, rfl, rfl, rfl, rfl⟩
  | some l =>
    obtain ⟨st'', h', r1, _, _, _, _, r6, r7, r8, r9, r10, _⟩ := reviveLoop_some P l gs st
    rw [h] at h'
    cases h'
    exact ⟨r8, r9, r10, r7, r6, r1⟩

/-- The graveyard scenario of `loadLibrary` allocates nothing and touches no
`SharedLibrary`; what it frees are graveyard entries. -/
theorem loadLibraryGraveyard_allocations (st st' : Registry) (P : LibraryPath)
    (L : PluginLoaderPtr) (h : loadLibraryGraveyard st P L = some st') :
    st'.sharedLibraries = st.sharedLibraries ∧
      st'.nextSharedLibrary = st.nextSharedLibrary ∧
      st'.deletedSharedLibraries = st.deletedSharedLibraries ∧
      st'.nextMetaObject = st.nextMetaObject ∧
      (∀ p, p ∈ st.deletedMetaObjects → p ∈ st'.deletedMetaObjects) := by
  simp only [loadLibraryGraveyard, List.length_eq_zero] at h
  by_cases hz : allMetaObjectsForLibrary st P = []
  · rw [if_pos hz] at h
    simp only [revivePreviouslyCreateMetaobjectsFromGraveyard] at h
    cases hr : reviveLoop P L st.logDebug.graveyard st.logDebug with
    | none => rw [hr] at h; simp at h
    | some st₁ =>
      rw [hr] at h
      obtain ⟨r1, r2, r3, r4, r5, _⟩ := reviveLoop_allocations P L _ _ st₁ hr
      obtain ⟨_, _, _, _, _, _, _, p7, p8, p9, p10, p11⟩ :=
        purgeGraveyardOfMetaobjects_spec st₁ st' P L false h
      refine ⟨p8.trans r1, p9.trans r2, p10.trans r3, p7.trans r5, ?_⟩
      intro p hp
      rw [p11, r4]
      simpa using hp
  · rw [if_neg hz] at h
    obtain ⟨_, _, _, _, _, _, _, p7, p8, p9, p10, p11⟩ :=
      purgeGraveyardOfMetaobjects_spec st.logDebug st' P L true h
    refine ⟨p8, p9, p10, p7, ?_⟩
    intro p hp
    rw [p11]
    exact List.mem_append_left _ hp

/-- What a successful open does to the `SharedLibrary` objects: a new one, at
the next address, holding the module handle. -/
theorem afterOpen_sharedLibraries (st X : Registry) (P : LibraryPath) (L : PluginLoaderPtr)
    (hm : Nat) (regs : List Registration) (lib : SharedLibraryPtr)
    (h : afterOpen st P L (LoadLibraryA.loaded hm regs) = Outcome.returned lib X) :
    lib = st.nextSharedLibrary ∧
      X.nextSharedLibrary = st.nextSharedLibrary + 1 ∧
      X.deletedSharedLibraries = st.deletedSharedLibraries ∧
      (∀ q, q ≠ st.nextSharedLibrary → X.sharedLibraries q = st.sharedLibraries q) ∧
      X.sharedLibraries st.nextSharedLibrary = ⟨some hm, P⟩ := by
  obtain ⟨_, _, _, _, _, f6, f7, f8, _⟩ := runInitialisers_frame regs
    (setCurrentlyLoadingLibraryName (setCurrentlyActivePluginLoader st L) P)
  simp only [afterOpen, newSharedLibrary, Outcome.returned.injEq] at h
  obtain ⟨h1, h2⟩ := h
  subst h2
  refine ⟨?_, ?_, ?_, ?_, ?_⟩
  · rw [← h1, f7]; rfl
  · show (runInitialisers regs _).nextSharedLibrary + 1 = _
    rw [f7]; rfl
  · show (runInitialisers regs _).deletedSharedLibraries = _
    rw [f8]; rfl
  · intro q hq
    show (if q = (runInitialisers regs _).nextSharedLibrary then _
      else (runInitialisers regs _).sharedLibraries q) = _
    rw [f7, f6]
    rw [if_neg]
    · rfl
    · exact hq
  · show (if st.nextSharedLibrary = (runInitialisers regs _).nextSharedLibrary then _
      else (runInitialisers regs _).sharedLibraries st.nextSharedLibrary) = _
    rw [f7]
    rw [if_pos]
    rfl

/-- What a load does to the loaded-library table and the `SharedLibrary`
objects: nothing, or, when it opens the library, one new object, loaded, at
the next address, and its entry at the end of the table. -/
theorem loadLibrary_sharedLibraries (st st' : Registry) (P : LibraryPath)
    (L : PluginLoaderPtr) (os : LoadLibraryA) (h : (loadLibrary st P L os).leaves st') :
    (st'.loadedLibraryVector = st.loadedLibraryVector ∧
        st'.sharedLibraries = st.sharedLibraries ∧
        st'.nextSharedLibrary = st.nextSharedLibrary ∧
        st'.deletedSharedLibraries = st.deletedSharedLibraries) ∨
      (P ∉ st.loadedLibraryVector.map Prod.fst ∧
        st'.loadedLibraryVector = st.loadedLibraryVector ++ [(P, st.nextSharedLibrary)] ∧
        st'.nextSharedLibrary = st.nextSharedLibrary + 1 ∧
        st'.deletedSharedLibraries = st.deletedSharedLibraries ∧
        (∀ q, q ≠ st.nextSharedLibrary → st'.sharedLibraries q = st.sharedLibraries q) ∧
        (st'.sharedLibraries st.nextSharedLibrary).isLoaded = true) := by
  rcases loadLibrary_cases st st' P L os h with ⟨_, h1⟩ | ⟨hP, hos, _⟩ |
      ⟨hP, hm, regs, X, st₂, rfl, hX, hg, rfl⟩
  · obtain ⟨a1, a2, a3, _, _⟩ := addPluginLoaderOwnerLoop_allocations L _ _ st' h1
    have a0 := addPluginLoaderOwnerLoop_loadedLibraryVector L _ _ st' h1
    exact Or.inl ⟨a0, a1, a2, a3⟩
  · subst hos
    have hclosed : isLibraryLoadedByAnybody st.logDebug P = false := by
      rw [isLibraryLoadedByAnybody_congr st.logDebug st rfl]
      exact isLibraryLoadedByAnybody_eq_false st P hP
    have hthrown : loadLibrary st P L LoadLibraryA.failed
        = Outcome.thrown PluginLoaderException.LibraryLoadException
            (setCurrentlyActivePluginLoader
              (setCurrentlyLoadingLibraryName
                (setCurrentlyLoadingLibraryName
                  (setCurrentlyActivePluginLoader st.logDebug L) P) "") none) := by
      simp only [loadLibrary, hclosed, afterOpen, newSharedLibrary, Bool.false_eq_true,
        if_false]
    rw [hthrown, leaves_thrown] at h
    left
    rw [h]
    refine ⟨?_, ?_, ?_, ?_⟩ <;> rfl
  · obtain ⟨_, x2, x3, x4, x5⟩ := afterOpen_sharedLibraries st.logDebug X P L hm regs _ hX
    obtain ⟨g1, g2, g3, _, _⟩ := loadLibraryGraveyard_allocations X.logDebug st₂ P L hg
    obtain ⟨g4, _⟩ := loadLibraryGraveyard_frame X.logDebug st₂ P L hg
    obtain ⟨_, y2, _⟩ := afterOpen_loaded st.logDebug P L hm regs
    refine Or.inr ⟨hP, ?_, ?_, ?_, ?_, ?_⟩
    · show st₂.loadedLibraryVector ++ _ = _
      rw [g4]
      obtain ⟨X', hX', _, x2', _⟩ := afterOpen_loaded st.logDebug P L hm regs
      rw [hX] at hX'
      simp only [Outcome.returned.injEq] at hX'
      obtain ⟨_, hXX⟩ := hX'
      subst hXX
      show X.loadedLibraryVector ++ _ = _
      rw [x2']
      rfl
    · show st₂.nextSharedLibrary = _
      rw [g2]
      exact x2
    · show st₂.deletedSharedLibraries = _
      rw [g3]
      exact x3
    · intro q hq
      show st₂.sharedLibraries q = _
      rw [g1]
      exact x4 q hq
    · show (st₂.sharedLibraries _).isLoaded = true
      rw [g1]
      show (X.sharedLibraries st.nextSharedLibrary).isLoaded = true
      have := x5
      simp only [Registry.logDebug, Registry.log] at this
      rw [this]
      rfl

theorem tableHandlesLive_congr (st st' : Registry)
    (h1 : st'.loadedLibraryVector = st.loadedLibraryVector)
    (h2 : st'.sharedLibraries = st.sharedLibraries)
    (h3 : st'.nextSharedLibrary = st.nextSharedLibrary)
    (h4 : st'.deletedSharedLibraries = st.deletedSharedLibraries)
    (h : tableHandlesLive st) : tableHandlesLive st' := by
  unfold tableHandlesLive
  rw [h1, h2, h3, h4]
  exact h

theorem loadLibrary_tableHandlesLive (st st' : Registry) (P : LibraryPath)
    (L : PluginLoaderPtr) (os : LoadLibraryA) (h : (loadLibrary st P L os).leaves st')
    (hT : tableHandlesLive st) : tableHandlesLive st' := by
  rcases loadLibrary_sharedLibraries st st' P L os h with ⟨h1, h2, h3, h4⟩ |
      ⟨_, h1, h2, h3, h4, h5⟩
  · exact tableHandlesLive_congr st st' h1 h2 h3 h4 hT
  · obtain ⟨t1, t2, t3⟩ := hT
    refine ⟨?_, ?_, ?_⟩
    · intro e he
      rw [h1] at he
      rw [h2, h3]
      rcases List.mem_append.mp he with he | he
      · obtain ⟨e1, e2, e3⟩ := t1 e he
        refine ⟨Nat.lt_succ_of_lt e1, ?_, e3⟩
        rw [h4 e.2 (Nat.ne_of_lt e1)]
        exact e2
      · simp only [List.mem_singleton] at he
        subst he
        refine ⟨Nat.lt_succ_self _, h5, ?_⟩
        intro hd
        exact absurd (t3 _ hd) (Nat.lt_irrefl _)
    · rw [h1, List.map_append, List.nodup_append]
      refine ⟨t2, by simp, ?_⟩
      intro a ha hb
      simp only [List.map_cons, List.map_nil, List.mem_singleton] at hb
      subst hb
      obtain ⟨e, he, hea⟩ := List.mem_map.mp ha
      have := (t1 e he).1
      rw [hea] at this
      exact absurd this (Nat.lt_irrefl _)
    · intro d hd
      rw [h3] at hd
      rw [h2]
      exact Nat.lt_succ_of_lt (t3 d hd)

theorem unloadLibrary_tableHandlesLive (st st' : Registry) (P : LibraryPath)
    (L : PluginLoaderPtr) (h : (unloadLibrary st P L false).leaves st')
    (hnd : libraryPathsDistinct st) (hT : tableHandlesLive st) : tableHandlesLive st' := by
  obtain ⟨n1, _, _⟩ := unloadLibrary_allocations st st' P L false h
  by_cases hflag : st.hasANonPurePluginLibraryBeenOpened = true
  · rw [unloadLibrary_of_flag st P L false hflag, leaves_returned] at h
    subst h
    exact tableHandlesLive_congr st _ rfl rfl rfl rfl hT
  have hflag' : st.hasANonPurePluginLibraryBeenOpened = false := by simpa using hflag
  by_cases hP : P ∈ st.loadedLibraryVector.map Prod.fst
  · obtain ⟨itr, lib, Z, z1, z2, _, _, _, _, _, _, _, hcase⟩ :=
      unloadLibrary_loaded st P L false hflag' hP
    rcases hcase with ⟨_, hu, c1, c2, c3⟩ | ⟨_, c0, _⟩ | ⟨_, _, hu, c1, c2, c3⟩
    · rw [hu, leaves_returned] at h
      subst h
      exact tableHandlesLive_congr st _ c1 c2 n1 c3 hT
    · cases c0
    · rw [hu, leaves_returned] at h
      subst h
      obtain ⟨t1, t2, t3⟩ := hT
      obtain ⟨_, e2, _, e4⟩ := findIdx?_path st.loadedLibraryVector P itr (P, 0) z1
      rw [z2] at e2
      have hfil := e4 hnd
      have hother : ∀ e, e ∈ st'.loadedLibraryVector →
          e ∈ st.loadedLibraryVector ∧ e.2 ≠ lib := by
        intro e he
        rw [c1, hfil] at he
        obtain ⟨he1, he2⟩ := List.mem_filter.mp he
        refine ⟨he1, ?_⟩
        intro heq
        have := List.inj_on_of_nodup_map t2 he1 e2 heq
        rw [this] at he2
        simp at he2
      refine ⟨?_, ?_, ?_⟩
      · intro e he
        obtain ⟨he1, he2⟩ := hother e he
        obtain ⟨a1, a2, a3⟩ := t1 e he1
        rw [n1, c2 e.2, if_neg he2, c3]
        refine ⟨a1, a2, ?_⟩
        intro hmem
        rcases List.mem_append.mp hmem with hmem | hmem
        · exact a3 hmem
        · simp only [List.mem_singleton] at hmem
          exact he2 hmem
      · rw [c1, hfil]
        exact List.Nodup.sublist (List.Sublist.map _ (List.filter_sublist _)) t2
      · intro d hd
        rw [c3] at hd
        rw [n1]
        rcases List.mem_append.mp hd with hd | hd
        · exact t3 d hd
        · simp only [List.mem_singleton] at hd
          subst hd
          exact (t1 _ e2).1
  · rw [unloadLibrary_of_not_loaded st P L false hflag' hP, leaves_thrown] at h
    subst h
    exact tableHandlesLive_congr st _ rfl rfl rfl rfl hT

/-- In every registry reached without a failing close, the entries of the
loaded-library table point to distinct, live, loaded `SharedLibrary` objects. -/
theorem closing_tableHandlesLive (st : Registry) (h : ReachableClosing st) :
    tableHandlesLive st := by
  induction h with
  | initial =>
    refine ⟨?_, ?_, ?_⟩
    · intro e he
      simp [Registry.initial] at he
    · simp [Registry.initial]
    · intro d hd
      simp [Registry.initial] at hd
  | @registerPlugin st B cn bn hr ih =>
    exact tableHandlesLive_congr st _ (registerPlugin_loadedLibraryVector st B cn bn)
      (registerPlugin_sharedLibraries st B cn bn) (registerPlugin_nextSharedLibrary st B cn bn)
      (registerPlugin_deletedSharedLibraries st B cn bn) ih
  | @loadLibrary st st' P L os hr hl ih =>
    exact loadLibrary_tableHandlesLive st st' P L os hl ih
  | @unloadLibrary st st' P L hr hl ih =>
    exact unloadLibrary_tableHandlesLive st st' P L hl
      (reachable_libraryPathsDistinct st (reachable_of_closing st hr)) ih
  | @createInstance st st' B n L hr hl ih =>
    rcases createInstance_leaves st st' B n L hl with rfl | rfl | rfl | rfl <;>
      exact tableHandlesLive_congr st _ (by simp) (by simp) (by simp) (by simp) ih
  | @getAvailableClasses st B L hr ih =>
    rw [getAvailableClasses_snd]
    exact tableHandlesLive_congr st _ (by simp) (by simp) (by simp) (by simp) ih

/-- The assertions on the loaded-library table hold in every registry
reached without a close that raises. Every entry of the table points to a
`SharedLibrary` whose `isLoaded()` is true and that has not been deleted, so
the entry `isLibraryLoadedByAnybody(P)` finds passes
`assert(itr->second->isLoaded() == true)`. `SharedLibrary::unload` always
leaves `isLoaded()` false and changes nothing on an object that is not loaded,
so when `unloadLibrary(P, L)` takes `P` out of the table, the object it has
closed passes `assert(library->isLoaded() == false)`. -/
theorem loadedLibraryVector_assertions_hold (st : Registry) (hreach : ReachableClosing st) :
    (∀ e, e ∈ st.loadedLibraryVector →
        (st.sharedLibraries e.2).isLoaded = true ∧ e.2 ∉ st.deletedSharedLibraries) ∧
      (∀ P, isLibraryLoadedByAnybody st P = true →
        ∃ itr, findLoadedLibrary st P = some itr ∧
          (st.sharedLibraries (st.loadedLibraryVector.getD itr (P, 0)).2).isLoaded = true ∧
          (st.loadedLibraryVector.getD itr (P, 0)).2 ∉ st.deletedSharedLibraries) ∧
      (∀ lib : SharedLibrary,
        lib.unload.isLoaded = false ∧ (lib.isLoaded = false → lib.unload = lib)) ∧
      (∀ P L st', P ∈ st.loadedLibraryVector.map Prod.fst →
        unloadLibrary st P L false = Outcome.returned () st' →
        P ∉ st'.loadedLibraryVector.map Prod.fst →
        ∃ lib, (P, lib) ∈ st.loadedLibraryVector ∧
          (st'.sharedLibraries lib).isLoaded = false) := by
  obtain ⟨t1, _, _⟩ := closing_tableHandlesLive st hreach
  refine ⟨fun e he => ⟨(t1 e he).2.1, (t1 e he).2.2⟩, ?_, ?_, ?_⟩
  · intro P hP
    simp only [isLibraryLoadedByAnybody, Option.isSome_iff_exists] at hP
    obtain ⟨itr, hitr⟩ := hP
    obtain ⟨_, e2, _⟩ := findIdx?_path st.loadedLibraryVector P itr (P, 0) hitr
    exact ⟨itr, hitr, (t1 _ e2).2.1, (t1 _ e2).2.2⟩
  · intro lib
    refine ⟨rfl, ?_⟩
    intro h
    cases lib with
    | mk handle path =>
      cases handle with
      | none => rfl
      | some v => cases h
  · intro P L st' hP hu hP'
    by_cases hflag : st.hasANonPurePluginLibraryBeenOpened = true
    · rw [unloadLibrary_of_flag st P L false hflag] at hu
      simp only [Outcome.returned.injEq, true_and] at hu
      subst hu
      exact absurd hP hP'
    have hflag' : st.hasANonPurePluginLibraryBeenOpened = false := by simpa using hflag
    obtain ⟨itr, lib, Z, z1, z2, _, _, _, _, _, _, _, hcase⟩ :=
      unloadLibrary_loaded st P L false hflag' hP
    obtain ⟨_, e2, _⟩ := findIdx?_path st.loadedLibraryVector P itr (P, 0) z1
    rw [z2] at e2
    rcases hcase with ⟨_, hu', c1, _⟩ | ⟨_, c0, _⟩ | ⟨_, _, hu', _, c2, _⟩
    · rw [hu] at hu'
      simp only [Outcome.returned.injEq, true_and] at hu'
      subst hu'
      rw [c1] at hP'
      exact absurd hP hP'
    · cases c0
    · rw [hu] at hu'
      simp only [Outcome.returned.injEq, true_and] at hu'
      subst hu'
      refine ⟨lib, e2, ?_⟩
      rw [c2 lib, if_pos rfl]
      rfl

/-- The assertions on the loaded-library table at a concrete registry: `P1`
loaded by loader 1, which then unloads it. -/
theorem loadedLibraryVector_assertions_hold_witness :
    ReachableClosing registryCatDog ∧
      (∀ e, e ∈ registryCatDog.loadedLibraryVector →
        (registryCatDog.sharedLibraries e.2).isLoaded = true ∧
          e.2 ∉ registryCatDog.deletedSharedLibraries) ∧
      ∀ st', "P1" ∈ registryCatDog.loadedLibraryVector.map Prod.fst →
        unloadLibrary registryCatDog "P1" (some 1) false = Outcome.returned () st' →
        "P1" ∉ st'.loadedLibraryVector.map Prod.fst →
        ∃ lib, ("P1", lib) ∈ registryCatDog.loadedLibraryVector ∧
          (st'.sharedLibraries lib).isLoaded = false :=
  ⟨closing_registryCatDog,
    (loadedLibraryVector_assertions_hold registryCatDog closing_registryCatDog).1,
    (loadedLibraryVector_assertions_hold registryCatDog closing_registryCatDog).2.2.2 "P1"
      (some 1)⟩

/-- With a null loader the purge loop completes only when it meets no entry of
the path: it then changes nothing. -/
theorem purgeLoop_null (P : LibraryPath) (d : Bool) (all gs : MetaObjectVector)
    (st : Registry) (r : MetaObjectVector × Registry)
    (h : purgeLoop P none d all gs st = some r) : r = (gs, st) := by
  induction gs generalizing r with
  | nil =>
    simp only [purgeLoop, Option.some.injEq] at h
    exact h.symm
  | cons g rest ih =>
    simp only [purgeLoop] at h
    split_ifs at h with hc
    cases hp : purgeLoop P none d all rest st with
    | none => rw [hp] at h; cases h
    | some r' =>
      rw [hp] at h
      have := ih r' hp
      subst this
      simp only [Option.map_some', Option.some.injEq] at h
      exact h.symm

/-- With a null loader a completed purge leaves graveyard and freed addresses. -/
theorem purgeGraveyardOfMetaobjects_null (st st' : Registry) (P : LibraryPath) (d : Bool)
    (h : purgeGraveyardOfMetaobjects st P none d = some st') :
    st'.graveyard = st.graveyard ∧ st'.deletedMetaObjects = st.deletedMetaObjects := by
  simp only [purgeGraveyardOfMetaobjects] at h
  cases hp : purgeLoop P none d (allMetaObjects st) st.graveyard st with
  | none => rw [hp] at h; cases h
  | some r =>
    rw [hp] at h
    have := purgeLoop_null P d _ _ st r hp
    subst this
    simp only [Option.map_some', Option.some.injEq] at h
    subst h
    exact ⟨rfl, rfl⟩

/-- With a null loader a completed graveyard scenario leaves graveyard and
freed addresses. -/
theorem loadLibraryGraveyard_null_graveyard (st st' : Registry) (P : LibraryPath)
    (h : loadLibraryGraveyard st P none = some st') :
    st'.graveyard = st.graveyard ∧ st'.deletedMetaObjects = st.deletedMetaObjects := by
  simp only [loadLibraryGraveyard, List.length_eq_zero] at h
  by_cases hz : allMetaObjectsForLibrary st P = []
  · rw [if_pos hz] at h
    simp only [revivePreviouslyCreateMetaobjectsFromGraveyard] at h
    cases hr : reviveLoop P none st.logDebug.graveyard st.logDebug with
    | none => rw [hr] at h; simp at h
    | some st₁ =>
      rw [hr] at h
      have := reviveLoop_null P _ _ st₁ hr
      subst this
      exact purgeGraveyardOfMetaobjects_null st.logDebug st' P false h
  · rw [if_neg hz] at h
    exact purgeGraveyardOfMetaobjects_null st.logDebug st' P true h

/-- C37, counterexample. After `registerPlugin<Cat, Base>` twice, starting
from the initial registry, the meta-object the first registration constructed
(at address 1) was the directory entry of its key before the second
registration; after it, that meta-object is registered and has not been freed,
and it is neither in the directory nor in the graveyard. -/
theorem colliding_registration_drops_replaced :
    Reachable registryCatTwice ∧
      lookup (registerPlugin Registry.initial "4Base" "Cat" "Base") "4Base" "Cat" = some 1 ∧
      registered registryCatTwice 1 ∧
      1 ∉ registryCatTwice.deletedMetaObjects ∧
      1 ∉ allMetaObjects registryCatTwice ∧
      1 ∉ registryCatTwice.graveyard :=
  ⟨Reachable.registerPlugin _ _ _ (Reachable.registerPlugin _ _ _ Reachable.initial),
    by decide, ⟨by decide, by decide⟩, by decide, by decide, by decide⟩

/-- Tracking the overwritten meta-objects adds nothing to reachability. -/
theorem reachable_of_replacing (st : Registry) (replaced : List MetaObjectPtr)
    (h : ReachableReplacing st replaced) : Reachable st := by
  induction h with
  | initial => exact Reachable.initial
  | registerPlugin B cn bn _ ih => exact Reachable.registerPlugin B cn bn ih
  | loadLibrary P L os _ hl ih => exact Reachable.loadLibrary P L os ih hl
  | unloadLibrary P L r _ hl ih => exact Reachable.unloadLibrary P L r ih hl
  | createInstance B n L _ hl ih => exact Reachable.createInstance B n L ih hl
  | getAvailableClasses B L _ ih => exact Reachable.getAvailableClasses B L ih

/-- Every reachable registry is reached with some list of overwritten
meta-objects. -/
theorem replacing_of_reachable (st : Registry) (h : Reachable st) :
    ∃ replaced, ReachableReplacing st replaced := by
  induction h with
  | initial => exact ⟨[], ReachableReplacing.initial⟩
  | registerPlugin B cn bn _ ih =>
    obtain ⟨ow, h⟩ := ih
    exact ⟨_, ReachableReplacing.registerPlugin B cn bn h⟩
  | loadLibrary P L os _ hl ih =>
    obtain ⟨ow, h⟩ := ih
    exact ⟨_, ReachableReplacing.loadLibrary P L os h hl⟩
  | unloadLibrary P L r _ hl ih =>
    obtain ⟨ow, h⟩ := ih
    exact ⟨_, ReachableReplacing.unloadLibrary P L r h hl⟩
  | createInstance B n L _ hl ih =>
    obtain ⟨ow, h⟩ := ih
    exact ⟨_, ReachableReplacing.createInstance B n L h hl⟩
  | getAvailableClasses B L _ ih =>
    obtain ⟨ow, h⟩ := ih
    exact ⟨_, ReachableReplacing.getAvailableClasses B L h⟩

/-- What carries `registeredKept` over from one registry to another. -/
theorem registeredKept_transfer (st st' : Registry) (ow ow' : List MetaObjectPtr)
    (hdel : ∀ p, p ∈ st.deletedMetaObjects → p ∈ st'.deletedMetaObjects)
    (how : ∀ p, p ∈ ow → p ∈ ow')
    (hold : ∀ p, registered st p → (p ∈ allMetaObjects st ∨ p ∈ st.graveyard) →
      p ∈ allMetaObjects st' ∨ p ∈ st'.graveyard ∨ p ∈ st'.deletedMetaObjects ∨ p ∈ ow')
    (hnew : ∀ p : Nat, st.nextMetaObject ≤ p → p < st'.nextMetaObject →
      p ∈ allMetaObjects st' ∨ p ∈ st'.graveyard ∨ p ∈ st'.deletedMetaObjects ∨ p ∈ ow')
    (h : registeredKept st ow) : registeredKept st' ow' := by
  intro p hp
  by_cases hlt : p < st.nextMetaObject
  · have hr : registered st p := ⟨hp.1, hlt⟩
    rcases h p hr with h1 | h1 | h1 | h1
    · exact hold p hr (Or.inl h1)
    · exact hold p hr (Or.inr h1)
    · exact Or.inr (Or.inr (Or.inl (hdel p h1)))
    · exact Or.inr (Or.inr (Or.inr (how p h1)))
  · exact hnew p (Nat.le_of_not_lt hlt) hp.2

/-- The property `registeredKept` depends on the directory, the graveyard, the
freed addresses and the allocator only. -/
theorem registeredKept_congr (st st' : Registry) (ow : List MetaObjectPtr)
    (hall : allMetaObjects st' = allMetaObjects st)
    (hg : st'.graveyard = st.graveyard)
    (hd : st'.deletedMetaObjects = st.deletedMetaObjects)
    (hn : st'.nextMetaObject = st.nextMetaObject)
    (h : registeredKept st ow) : registeredKept st' ow := by
  intro p hp
  have hp' : registered st p := ⟨hp.1, by rw [← hn]; exact hp.2⟩
  rw [hall, hg, hd]
  exact h p hp'

/-- A registration keeps every registered meta-object but the one it
overwrites. -/
theorem registerPlugin_kept (st : Registry) (ow : List MetaObjectPtr) (B : BaseClassName)
    (cn bn : String) (h : registeredKept st ow) :
    registeredKept (registerPlugin st B cn bn) (ow ++ registerPluginReplaced st B cn) := by
  have hnext : (registerPlugin st B cn bn).nextMetaObject = st.nextMetaObject + 1 :=
    registerPlugin_nextMetaObject st B cn bn
  have hgrave : (registerPlugin st B cn bn).graveyard = st.graveyard :=
    registerPlugin_graveyard st B cn bn
  have hdel : (registerPlugin st B cn bn).deletedMetaObjects = st.deletedMetaObjects :=
    registerPlugin_deletedMetaObjects st B cn bn
  refine registeredKept_transfer st _ ow _
    (fun p hp => by rw [hdel]; exact hp) (fun p hp => List.mem_append_left _ hp) ?_ ?_ h
  · intro p _ hp
    rcases hp with hp | hp
    · obtain ⟨B₂, n₂, hl⟩ := (mem_allMetaObjects_iff st p).mp hp
      by_cases hc : B₂ = B ∧ n₂ = cn
      · refine Or.inr (Or.inr (Or.inr (List.mem_append_right _ ?_)))
        obtain ⟨rfl, rfl⟩ := hc
        simp only [registerPluginReplaced, hl, Option.toList_some, List.mem_singleton]
      · refine Or.inl ((mem_allMetaObjects_iff _ p).mpr ⟨B₂, n₂, ?_⟩)
        rw [lookup_registerPlugin, if_neg hc]
        exact hl
    · exact Or.inr (Or.inl (by rw [hgrave]; exact hp))
  · intro p h1 h2
    rw [hnext] at h2
    have hp : p = st.nextMetaObject := Nat.le_antisymm (Nat.le_of_lt_succ h2) h1
    subst hp
    refine Or.inl ((mem_allMetaObjects_iff _ _).mpr ⟨B, cn, ?_⟩)
    rw [lookup_registerPlugin, if_pos ⟨rfl, rfl⟩]

/-- The static initialisers of a library keep every registered meta-object
but those they overwrite. -/
theorem runInitialisers_kept (regs : List Registration) (st : Registry)
    (ow : List MetaObjectPtr) (h : registeredKept st ow) :
    registeredKept (runInitialisers regs st) (ow ++ runInitialisersReplaced regs st) := by
  induction regs generalizing st ow with
  | nil => simpa [runInitialisers, runInitialisersReplaced] using h
  | cons r rest ih =>
    have h' := ih _ _ (registerPlugin_kept st ow r.Base r.class_name r.base_class_name h)
    simp only [runInitialisers, runInitialisersReplaced]
    rw [← List.append_assoc]
    exact h'

/-- The open of a library keeps every registered meta-object but those its
initialisers overwrite, whether the open succeeds or not. -/
theorem afterOpen_kept (st X : Registry) (ow : List MetaObjectPtr) (P : LibraryPath)
    (L : PluginLoaderPtr) (os : LoadLibraryA) (hX : (afterOpen st P L os).leaves X)
    (h : registeredKept st ow) : registeredKept X (ow ++ afterOpenReplaced st P L os) := by
  cases os with
  | failed =>
    simp only [afterOpen, newSharedLibrary] at hX
    rw [leaves_thrown] at hX
    subst hX
    simp only [afterOpenReplaced, List.append_nil]
    exact registeredKept_congr st _ ow rfl rfl rfl rfl h
  | loaded hm regs =>
    simp only [afterOpen, newSharedLibrary] at hX
    rw [leaves_returned] at hX
    subst hX
    have h' := runInitialisers_kept regs
      (setCurrentlyLoadingLibraryName (setCurrentlyActivePluginLoader st L) P) ow
      (registeredKept_congr st _ ow rfl rfl rfl rfl h)
    exact registeredKept_congr _ _ _ rfl rfl rfl rfl h'

/-- The revive loop keeps every directory entry but those it overwrites, and
puts every graveyard entry of the path it walks over in the directory, where
it stays unless a later round overwrites it. -/
theorem reviveLoop_replaced (P : LibraryPath) (l : Nat) (gs : MetaObjectVector)
    (st st' : Registry) (h : reviveLoop P (some l) gs st = some st') :
    (∀ p, p ∈ allMetaObjects st →
        p ∈ allMetaObjects st' ∨ p ∈ reviveLoopReplaced P (some l) gs st) ∧
      (∀ g, g ∈ gs → (st.metaObjects g).associated_library_path = P →
        g ∈ allMetaObjects st' ∨ g ∈ reviveLoopReplaced P (some l) gs st) := by
  induction gs generalizing st with
  | nil =>
    simp only [reviveLoop, Option.some.injEq] at h
    subst h
    exact ⟨fun p hp => Or.inl hp, fun g hg => absurd hg (List.not_mem_nil g)⟩
  | cons g rest ih =>
    by_cases hp : (st.metaObjects g).associated_library_path = P
    · rw [reviveLoop_cons_of_path P l g rest st hp] at h
      obtain ⟨ih1, ih2⟩ := ih (reviveRound st g l) h
      have hrep : reviveLoopReplaced P (some l) (g :: rest) st
          = ((lookup st (st.metaObjects g).typeid_base_class_name
              (st.metaObjects g).class_name).filter fun q => decide (q ≠ g)).toList ++
            reviveLoopReplaced P (some l) rest (reviveRound st g l) := by
        simp only [reviveLoopReplaced, getAssociatedLibraryPath, hp, if_true]
      have hg : g ∈ allMetaObjects (reviveRound st g l) :=
        (mem_allMetaObjects_iff _ g).mpr ⟨_, _, by rw [reviveRound_lookup, if_pos ⟨rfl, rfl⟩]⟩
      have lift : ∀ q, (q ∈ allMetaObjects st' ∨
            q ∈ reviveLoopReplaced P (some l) rest (reviveRound st g l)) →
          q ∈ allMetaObjects st' ∨ q ∈ reviveLoopReplaced P (some l) (g :: rest) st := by
        intro q hq
        rcases hq with hq | hq
        · exact Or.inl hq
        · exact Or.inr (by rw [hrep]; exact List.mem_append_right _ hq)
      refine ⟨?_, ?_⟩
      · intro p hpd
        obtain ⟨B, n, hl⟩ := (mem_allMetaObjects_iff st p).mp hpd
        by_cases hc : B = (st.metaObjects g).typeid_base_class_name ∧
            n = (st.metaObjects g).class_name
        · obtain ⟨rfl, rfl⟩ := hc
          by_cases hpg : p = g
          · subst hpg
            exact lift p (ih1 p hg)
          · refine Or.inr ?_
            rw [hrep]
            refine List.mem_append_left _ ?_
            rw [hl]
            simp [Option.filter, hpg]
        · refine lift p (ih1 p ((mem_allMetaObjects_iff _ p).mpr ⟨B, n, ?_⟩))
          rw [reviveRound_lookup, if_neg hc]
          exact hl
      · intro g' hg' hp'
        rcases List.mem_cons.mp hg' with rfl | hmem
        · exact lift g' (ih1 g' hg)
        · refine lift g' (ih2 g' hmem ?_)
          rw [reviveRound_metaObjects]
          split_ifs with e
          · subst e; exact hp
          · exact hp'
    · rw [reviveLoop_cons_of_not_path P (some l) g rest st hp] at h
      obtain ⟨ih1, ih2⟩ := ih st h
      have hrep : reviveLoopReplaced P (some l) (g :: rest) st
          = reviveLoopReplaced P (some l) rest st := by
        simp only [reviveLoopReplaced, getAssociatedLibraryPath, hp, if_false]
      rw [hrep]
      refine ⟨ih1, ?_⟩
      intro g' hg' hp'
      rcases List.mem_cons.mp hg' with rfl | hmem
      · exact absurd hp' hp
      · exact ih2 g' hmem hp'

/-- The graveyard scenario of a load keeps every registered meta-object but
those the revive loop overwrites: what the purge takes out of the graveyard is
in the directory or freed. -/
theorem loadLibraryGraveyard_kept (st st' : Registry) (ow : List MetaObjectPtr)
    (P : LibraryPath) (L : PluginLoaderPtr) (h : loadLibraryGraveyard st P L = some st')
    (hN : registeredKept st ow) :
    registeredKept st' (ow ++ loadLibraryGraveyardReplaced st P L) := by
  obtain ⟨_, _, _, hnext, hdel⟩ := loadLibraryGraveyard_allocations st st' P L h
  cases L with
  | none =>
    obtain ⟨_, n2⟩ := loadLibraryGraveyard_null st st' P h
    obtain ⟨n3, n4⟩ := loadLibraryGraveyard_null_graveyard st st' P h
    have h' := registeredKept_congr st st' ow (allMetaObjects_congr _ _ n2) n3 n4 hnext hN
    intro p hp
    rcases h' p hp with a | a | a | a
    · exact Or.inl a
    · exact Or.inr (Or.inl a)
    · exact Or.inr (Or.inr (Or.inl a))
    · exact Or.inr (Or.inr (Or.inr (List.mem_append_left _ a)))
  | some l =>
    have hnone : ∀ p : Nat, st.nextMetaObject ≤ p → p < st'.nextMetaObject →
        p ∈ allMetaObjects st' ∨ p ∈ st'.graveyard ∨ p ∈ st'.deletedMetaObjects ∨
          p ∈ ow ++ loadLibraryGraveyardReplaced st P (some l) := by
      intro p h1 h2
      rw [hnext] at h2
      exact absurd h2 (Nat.not_lt.mpr h1)
    by_cases hz : allMetaObjectsForLibrary st P = []
    · have hrep : loadLibraryGraveyardReplaced st P (some l)
          = reviveLoopReplaced P (some l) st.logDebug.graveyard st.logDebug := by
        simp only [loadLibraryGraveyardReplaced, hz, List.length_nil, if_true]
      simp only [loadLibraryGraveyard, List.length_eq_zero] at h
      rw [if_pos hz] at h
      simp only [revivePreviouslyCreateMetaobjectsFromGraveyard] at h
      cases hr : reviveLoop P (some l) st.logDebug.graveyard st.logDebug with
      | none => rw [hr] at h; simp at h
      | some st₁ =>
        rw [hr] at h
        obtain ⟨r1, r2⟩ := reviveLoop_replaced P l _ _ st₁ hr
        obtain ⟨f1, _, _, _, _, _, f7⟩ := reviveLoop_frame P (some l) _ _ st₁ hr
        obtain ⟨p0, _, p2, _⟩ := purgeGraveyardOfMetaobjects_spec st₁ st' P (some l) false h
        have hall : allMetaObjects st' = allMetaObjects st₁ := allMetaObjects_congr _ _ p2
        refine registeredKept_transfer st st' ow _ hdel
          (fun p hp => List.mem_append_left _ hp) ?_ hnone hN
        intro p _ hp
        rw [hrep]
        rcases hp with hp | hp
        · rcases r1 p hp with a | a
          · exact Or.inl (by rw [hall]; exact a)
          · exact Or.inr (Or.inr (Or.inr (List.mem_append_right _ a)))
        · by_cases hpath : (st.metaObjects p).associated_library_path = P
          · rcases r2 p hp hpath with a | a
            · exact Or.inl (by rw [hall]; exact a)
            · exact Or.inr (Or.inr (Or.inr (List.mem_append_right _ a)))
          · refine Or.inr (Or.inl ?_)
            rw [p0, f1]
            refine List.mem_filter.mpr ⟨hp, ?_⟩
            have e := f7 p
            simp only [Bool.not_eq_true', decide_eq_false_iff_not]
            rw [e]
            exact hpath
    · simp only [loadLibraryGraveyard, List.length_eq_zero] at h
      rw [if_neg hz] at h
      obtain ⟨p0, _, p2, _, _, _, _, _, _, _, _, p11⟩ :=
        purgeGraveyardOfMetaobjects_spec st.logDebug st' P (some l) true h
      have hall : allMetaObjects st' = allMetaObjects st := allMetaObjects_congr _ _ p2
      refine registeredKept_transfer st st' ow _ hdel
        (fun p hp => List.mem_append_left _ hp) ?_ hnone hN
      intro p _ hp
      rcases hp with hp | hp
      · exact Or.inl (by rw [hall]; exact hp)
      · by_cases hpath : (st.metaObjects p).associated_library_path = P
        · by_cases hdir : p ∈ allMetaObjects st
          · exact Or.inl (by rw [hall]; exact hdir)
          · refine Or.inr (Or.inr (Or.inl ?_))
            rw [p11, if_pos rfl]
            refine List.mem_append_right _ (List.mem_filter.mpr ⟨hp, ?_⟩)
            have hdir' : p ∉ allMetaObjects st.logDebug := hdir
            simp only [Bool.and_eq_true, decide_eq_true_eq, Bool.not_eq_true',
              decide_eq_false_iff_not]
            exact ⟨hpath, hdir'⟩
        · refine Or.inr (Or.inl ?_)
          rw [p0]
          exact List.mem_filter.mpr ⟨hp, by simpa using hpath⟩

/-- A load keeps every registered meta-object but those it overwrites. -/
theorem loadLibrary_kept (st st' : Registry) (ow : List MetaObjectPtr) (P : LibraryPath)
    (L : PluginLoaderPtr) (os : LoadLibraryA) (h : (loadLibrary st P L os).leaves st')
    (hN : registeredKept st ow) :
    registeredKept st' (ow ++ loadLibraryReplaced st P L os) := by
  have hlogN : registeredKept st.logDebug ow := registeredKept_congr st _ ow rfl rfl rfl rfl hN
  simp only [loadLibrary] at h
  by_cases hopen : isLibraryLoadedByAnybody st.logDebug P = true
  · have hrep : loadLibraryReplaced st P L os = [] := by
      simp only [loadLibraryReplaced, hopen, if_true]
    rw [hrep, List.append_nil]
    rw [if_pos hopen] at h
    simp only [addPluginLoaderOwnerForAllExistingMetaObjectsForLibrary] at h
    cases hl : addPluginLoaderOwnerLoop L (allMetaObjectsForLibrary st.logDebug.logDebug P)
        st.logDebug.logDebug with
    | none =>
      rw [hl] at h
      rcases h with ⟨v, hv⟩ | ⟨e, he⟩
      · cases hv
      · cases he
    | some st₂ =>
      rw [hl] at h
      obtain ⟨f1, f2, f3, _⟩ := addPluginLoaderOwnerLoop_frame L _ _ st₂ hl
      obtain ⟨_, _, _, a4, _⟩ := addPluginLoaderOwnerLoop_allocations L _ _ st₂ hl
      have hst : st' = st₂ := by
        rcases h with ⟨v, hv⟩ | ⟨e, he⟩
        · simp only [Outcome.returned.injEq] at hv
          exact hv.2.symm
        · cases he
      subst hst
      exact registeredKept_congr st st' ow (allMetaObjects_congr _ _ f1) f2 a4 f3 hN
  · rw [if_neg hopen] at h
    cases ha : afterOpen st.logDebug P L os with
    | nullDereference =>
      rw [ha] at h
      dsimp only at h
      rcases h with ⟨v, hv⟩ | ⟨e, he⟩
      · cases hv
      · cases he
    | thrown e X =>
      have hrep : loadLibraryReplaced st P L os = afterOpenReplaced st.logDebug P L os := by
        simp only [loadLibraryReplaced, hopen, ha, List.append_nil, Bool.false_eq_true, if_false]
      rw [ha] at h
      dsimp only at h
      have hst : st' = X := by
        rcases h with ⟨v, hv⟩ | ⟨e', he⟩
        · cases hv
        · simp only [Outcome.thrown.injEq] at he
          exact he.2.symm
      subst hst
      rw [hrep]
      exact afterOpen_kept st.logDebug st' ow P L os (by rw [ha]; exact Or.inr ⟨e, rfl⟩) hlogN
    | returned lib X =>
      have hrep : loadLibraryReplaced st P L os
          = afterOpenReplaced st.logDebug P L os ++ loadLibraryGraveyardReplaced X.logDebug P L := by
        simp only [loadLibraryReplaced, hopen, ha, Bool.false_eq_true, if_false]
      rw [ha] at h
      dsimp only at h
      have xN := afterOpen_kept st.logDebug X ow P L os
        (by rw [ha]; exact Or.inl ⟨lib, rfl⟩) hlogN
      have yN : registeredKept X.logDebug (ow ++ afterOpenReplaced st.logDebug P L os) :=
        registeredKept_congr X _ _ rfl rfl rfl rfl xN
      cases hg : loadLibraryGraveyard X.logDebug P L with
      | none =>
        rw [hg] at h
        rcases h with ⟨v, hv⟩ | ⟨e, he⟩
        · cases hv
        · cases he
      | some st₂ =>
        rw [hg] at h
        have gN := loadLibraryGraveyard_kept X.logDebug st₂ _ P L hg yN
        have hst : st' = { st₂ with
            loadedLibraryVector := st₂.loadedLibraryVector ++ [(P, lib)] } := by
          rcases h with ⟨v, hv⟩ | ⟨e, he⟩
          · simp only [Outcome.returned.injEq] at hv
            exact hv.2.symm
          · cases he
        subst hst
        rw [hrep, ← List.append_assoc]
        exact registeredKept_congr st₂ _ _ rfl rfl rfl rfl gN

/-- An unload keeps every registered meta-object: what it takes out of the
directory it puts in the graveyard, and it overwrites nothing. -/
theorem unloadLibrary_kept (st st' : Registry) (ow : List MetaObjectPtr) (P : LibraryPath)
    (L : PluginLoaderPtr) (r : Bool) (h : (unloadLibrary st P L r).leaves st')
    (hA : directoryOwnKeys st) (hN : registeredKept st ow) : registeredKept st' ow := by
  obtain ⟨_, hdel, hnext⟩ := unloadLibrary_allocations st st' P L r h
  cases hflag : st.hasANonPurePluginLibraryBeenOpened with
  | true =>
    rw [unloadLibrary_of_flag st P L r hflag, leaves_returned] at h
    subst h
    exact registeredKept_congr st _ ow rfl rfl rfl rfl hN
  | false =>
    by_cases hP : P ∈ st.loadedLibraryVector.map Prod.fst
    · obtain ⟨itr, lib, st₀, _, _, hleaves, hmeta, hl, hg, _, _, hcases⟩ :=
        unloadLibrary_loaded_exact st P L r hflag hP hA
      have hst : st' = st₀ := by
        rcases hcases with ⟨_, e, _⟩ | ⟨_, _, e, _⟩ | ⟨_, _, e, _⟩
        · rw [e, leaves_returned] at h; exact h
        · rw [e, leaves_thrown] at h; exact h
        · rw [e, leaves_returned] at h; exact h
      subst hst
      refine registeredKept_transfer st st' ow ow (fun p hp => by rw [hdel]; exact hp)
        (fun p hp => hp) ?_ ?_ hN
      · intro p _ hp
        rcases hp with hp | hp
        · cases hb : buriedBy st P L p with
          | true =>
            refine Or.inr (Or.inl ?_)
            rw [hg]
            exact List.mem_append_right _ (List.mem_filter.mpr ⟨hp, hb⟩)
          | false =>
            obtain ⟨B, n, hlk⟩ := (mem_allMetaObjects_iff st p).mp hp
            refine Or.inl ((mem_allMetaObjects_iff _ p).mpr ⟨B, n, ?_⟩)
            rw [hl, hlk]
            simp [Option.filter, hb]
        · refine Or.inr (Or.inl ?_)
          rw [hg]
          exact List.mem_append_left _ hp
      · intro p h1 h2
        rw [hnext] at h2
        exact absurd h2 (Nat.not_lt.mpr h1)
    · rw [unloadLibrary_of_not_loaded st P L r hflag hP, leaves_thrown] at h
      subst h
      exact registeredKept_congr st _ ow rfl rfl rfl rfl hN

/-- A lookup that makes sure a base class has an inner map keeps every
registered meta-object. -/
theorem getFactoryMapForBaseClass_kept (st st' : Registry) (ow : List MetaObjectPtr)
    (B : BaseClassName)
    (hall : allMetaObjects st' = allMetaObjects (getFactoryMapForBaseClass st B))
    (hg : st'.graveyard = (getFactoryMapForBaseClass st B).graveyard)
    (hd : st'.deletedMetaObjects = (getFactoryMapForBaseClass st B).deletedMetaObjects)
    (hn : st'.nextMetaObject = (getFactoryMapForBaseClass st B).nextMetaObject)
    (h : registeredKept st ow) : registeredKept st' ow := by
  have e : (getFactoryMapForBaseClass st B).graveyard = st.graveyard ∧
      (getFactoryMapForBaseClass st B).deletedMetaObjects = st.deletedMetaObjects ∧
      (getFactoryMapForBaseClass st B).nextMetaObject = st.nextMetaObject := by
    unfold getFactoryMapForBaseClass
    split <;> exact ⟨rfl, rfl, rfl⟩
  exact registeredKept_congr st st' ow
    (hall.trans (allMetaObjects_getFactoryMapForBaseClass st B)) (hg.trans e.1)
    (hd.trans e.2.1) (hn.trans e.2.2) h

/-- In every reachable registry, every registered meta-object is in the
directory, in the graveyard, freed by the purge, or was overwritten in the
directory on the way. -/
theorem replacing_registeredKept (st : Registry) (replaced : List MetaObjectPtr)
    (h : ReachableReplacing st replaced) : registeredKept st replaced := by
  induction h with
  | initial =>
    intro p hp
    exact absurd hp.2 (Nat.not_lt.mpr hp.1)
  | registerPlugin B cn bn _ ih => exact registerPlugin_kept _ _ B cn bn ih
  | loadLibrary P L os _ hl ih => exact loadLibrary_kept _ _ _ P L os hl ih
  | unloadLibrary P L r hr hl ih =>
    exact unloadLibrary_kept _ _ _ P L r hl
      (reachable_invariants _ (reachable_of_replacing _ _ hr)).1 ih
  | createInstance B n L _ hl ih =>
    rcases createInstance_leaves _ _ B n L hl with e | e | e | e <;> subst e <;>
      exact getFactoryMapForBaseClass_kept _ _ _ B rfl rfl rfl rfl ih
  | getAvailableClasses B L _ ih =>
    exact getFactoryMapForBaseClass_kept _ _ _ B rfl rfl rfl rfl ih

/-- The registry `registryCatReloaded` is reached without any directory entry
being overwritten: the unload had taken `Cat` out of the directory before the
initialisers registered it again. -/
theorem replacing_registryCatReloaded : ReachableReplacing registryCatReloaded [] :=
  have e : ([] ++ loadLibraryReplaced Registry.initial "P1" (some 1)
        (LoadLibraryA.loaded 7 [⟨"4Base", "Cat", "Base"⟩])) ++
      loadLibraryReplaced registryCatBuried "P1" (some 1)
        (LoadLibraryA.loaded 8 [⟨"4Base", "Cat", "Base"⟩]) = [] := by decide
  e ▸ ReachableReplacing.loadLibrary "P1" (some 1) (LoadLibraryA.loaded 8 [⟨"4Base", "Cat", "Base"⟩])
    (ReachableReplacing.unloadLibrary "P1" (some 1) false
      (ReachableReplacing.loadLibrary "P1" (some 1)
        (LoadLibraryA.loaded 7 [⟨"4Base", "Cat", "Base"⟩])
        ReachableReplacing.initial (Or.inl ⟨(), rfl⟩))
      (Or.inl ⟨(), rfl⟩))
    (Or.inl ⟨(), rfl⟩)

/-- C37 (amended). In every registry reachable by `registerPlugin`,
`loadLibrary`, `unloadLibrary`, `createInstance` and `getAvailableClasses`,
every meta-object that was registered and has not been freed by the purge is
in the directory or in the graveyard, unless it has been overwritten in the
directory on the way, by a colliding registration or by the revival of a
graveyard meta-object of its key (`replaced` lists the meta-objects
overwritten, and a registration at a key that is free overwrites none). A
colliding registration overwrites exactly the meta-object at the key: it
takes it out of the directory and puts it neither in the graveyard nor among
the freed ones. -/
theorem registered_metaobject_kept_unless_overwritten (st : Registry)
    (replaced : List MetaObjectPtr) (hreach : ReachableReplacing st replaced) :
    (∀ p, registered st p → p ∉ st.deletedMetaObjects → p ∉ replaced →
      p ∈ allMetaObjects st ∨ p ∈ st.graveyard) ∧
    (∀ (Base : BaseClassName) (class_name : String),
      lookup st Base class_name = none → registerPluginReplaced st Base class_name = []) ∧
    ∀ (Base : BaseClassName) (class_name base_class_name : String) (p : MetaObjectPtr),
      lookup st Base class_name = some p →
      registerPluginReplaced st Base class_name = [p] ∧
        p ∉ allMetaObjects (registerPlugin st Base class_name base_class_name) ∧
        (registerPlugin st Base class_name base_class_name).graveyard = st.graveyard ∧
        (registerPlugin st Base class_name base_class_name).deletedMetaObjects
          = st.deletedMetaObjects := by
  refine ⟨?_, ?_, ?_⟩
  · intro p hp hfreed hrep
    rcases replacing_registeredKept st replaced hreach p hp with h | h | h | h
    · exact Or.inl h
    · exact Or.inr h
    · exact absurd h hfreed
    · exact absurd h hrep
  · intro B cn hl
    simp only [registerPluginReplaced, hl, Option.toList_none]
  · intro B cn bn p hl
    have hA := (reachable_invariants st (reachable_of_replacing st replaced hreach)).1
    obtain ⟨k1, k2, k3⟩ := hA B cn p hl
    refine ⟨by simp only [registerPluginReplaced, hl, Option.toList_some], ?_,
      registerPlugin_graveyard st B cn bn, registerPlugin_deletedMetaObjects st B cn bn⟩
    intro hmem
    obtain ⟨B₂, n₂, hl₂⟩ := (mem_allMetaObjects_iff _ p).mp hmem
    rw [lookup_registerPlugin] at hl₂
    split_ifs at hl₂ with hc
    · cases hl₂
      exact Nat.lt_irrefl _ k3
    · obtain ⟨j1, j2, _⟩ := hA B₂ n₂ p hl₂
      exact hc ⟨j1.symm.trans k1, j2.symm.trans k2⟩

/-- C37 (amended) after an unload and a reload of `P1` whose initialisers run
again: nothing was overwritten; `Cat` of the first load (address 1) has been
freed by the purge and `Cat` of the reload (address 2) is in the directory. A
further registration of `Cat` would overwrite the meta-object at address 2. -/
theorem registered_metaobject_kept_unless_overwritten_witness :
    ReachableReplacing registryCatReloaded [] ∧
      registered registryCatReloaded 1 ∧ 1 ∈ registryCatReloaded.deletedMetaObjects ∧
      registered registryCatReloaded 2 ∧ 2 ∉ registryCatReloaded.deletedMetaObjects ∧
      2 ∉ ([] : List MetaObjectPtr) ∧
      (2 ∈ allMetaObjects registryCatReloaded ∨ 2 ∈ registryCatReloaded.graveyard) ∧
      lookup registryCatReloaded "4Base" "Cat" = some 2 ∧
      registerPluginReplaced registryCatReloaded "4Base" "Cat" = [2] ∧
      2 ∉ allMetaObjects (registerPlugin registryCatReloaded "4Base" "Cat" "Base") ∧
      (registerPlugin registryCatReloaded "4Base" "Cat" "Base").graveyard
        = registryCatReloaded.graveyard ∧
      (registerPlugin registryCatReloaded "4Base" "Cat" "Base").deletedMetaObjects
        = registryCatReloaded.deletedMetaObjects :=
  ⟨replacing_registryCatReloaded, ⟨by decide, by decide⟩, by decide,
    ⟨by decide, by decide⟩, by decide, by decide,
    (registered_metaobject_kept_unless_overwritten registryCatReloaded []
      replacing_registryCatReloaded).1 2 ⟨by decide, by decide⟩ (by decide) (by decide),
    by decide,
    (registered_metaobject_kept_unless_overwritten registryCatReloaded []
      replacing_registryCatReloaded).2.2 "4Base" "Cat" "Base" 2 (by decide)⟩

/-- The revival overwrites as the colliding registration does. From
`registryCatOfP2` (`Cat` of `P1`, address 1, in the graveyard; `Cat` of `P2`,
address 2, in the directory), the load of `P1` whose initialisers do not run
again revives the meta-object at address 1 over the one at address 2, which
is then in neither the directory nor the graveyard and has not been freed. -/
theorem revival_overwrites_directory_entry :
    ReachableReplacing registryCatRevivedOver [2] ∧
      loadLibraryReplaced registryCatOfP2 "P1" (some 1) (LoadLibraryA.loaded 9 []) = [2] ∧
      registered registryCatRevivedOver 2 ∧
      2 ∉ allMetaObjects registryCatRevivedOver ∧
      2 ∉ registryCatRevivedOver.graveyard ∧
      2 ∉ registryCatRevivedOver.deletedMetaObjects :=
  have e : ((([] ++ loadLibraryReplaced Registry.initial "P1" (some 1)
          (LoadLibraryA.loaded 7 [⟨"4Base", "Cat", "Base"⟩])) ++
        loadLibraryReplaced registryCatBuried "P2" (some 2)
          (LoadLibraryA.loaded 8 [⟨"4Base", "Cat", "Base"⟩])) ++
      loadLibraryReplaced registryCatOfP2 "P1" (some 1) (LoadLibraryA.loaded 9 [])) = [2] := by
    decide
  ⟨e ▸ ReachableReplacing.loadLibrary "P1" (some 1) (LoadLibraryA.loaded 9 [])
      (ReachableReplacing.loadLibrary "P2" (some 2)
        (LoadLibraryA.loaded 8 [⟨"4Base", "Cat", "Base"⟩])
        (ReachableReplacing.unloadLibrary "P1" (some 1) false
          (ReachableReplacing.loadLibrary "P1" (some 1)
            (LoadLibraryA.loaded 7 [⟨"4Base", "Cat", "Base"⟩])
            ReachableReplacing.initial (Or.inl ⟨(), rfl⟩))
          (Or.inl ⟨(), rfl⟩))
        (Or.inl ⟨(), rfl⟩))
      (Or.inl ⟨(), rfl⟩),
    by decide, ⟨by decide, by decide⟩, by decide, by decide, by decide⟩

/-- The registry `registryCatDogCloseRaised` is reachable: loader 1 loads `P1`
and unloads it, the close raising. -/
theorem reachable_registryCatDogCloseRaised : Reachable registryCatDogCloseRaised :=
  Reachable.unloadLibrary "P1" (some 1) true reachable_registryCatDog
    (Or.inr ⟨PluginLoaderException.LibraryUnloadException, rfl⟩)

/-- C38 at a registry reached by `loadLibrary` and `unloadLibrary`. After
loader 1 has loaded `P1` and unloaded it with a close that raises
(`registryCatDogCloseRaised`), the loaded-library table still holds the entry
of `P1`, whose `SharedLibrary` (address 1) the handler of the exception has
deleted: `isLibraryLoadedByAnybody("P1")` finds that entry and evaluates
`assert(itr->second->isLoaded() == true)` on a deleted object, so not every
entry of the table holds a live handle whose `isLoaded()` is true. A further
`unloadLibrary("P1", loader 1)` finds the entry, calls `unload()` on the
deleted object and deletes it a second time. -/
theorem loadedLibraryVector_entry_on_deleted_handle :
    Reachable registryCatDogCloseRaised ∧
      registryCatDogCloseRaised.loadedLibraryVector = [("P1", 1)] ∧
      1 ∈ registryCatDogCloseRaised.deletedSharedLibraries ∧
      findLoadedLibrary registryCatDogCloseRaised "P1" = some 0 ∧
      isLibraryLoadedByAnybody registryCatDogCloseRaised "P1" = true ∧
      ¬ (∀ e, e ∈ registryCatDogCloseRaised.loadedLibraryVector →
          (registryCatDogCloseRaised.sharedLibraries e.2).isLoaded = true ∧
            e.2 ∉ registryCatDogCloseRaised.deletedSharedLibraries) ∧
      ((unloadLibrary registryCatDogCloseRaised "P1" (some 1) false).registry
          Registry.initial).deletedSharedLibraries = [1, 1] :=
  ⟨reachable_registryCatDogCloseRaised, by decide, by decide, by decide, by decide,
    fun h => (h ("P1", 1) (by decide)).2 (by decide), by decide⟩

/-- C21, counterexample. With the cap of §4.6 at 2, three `loadLibrary()` on
the lazy handle of loader 1 over `P1`, in a fresh process, leave the count 2
(the third load does not make the count 3), and the second `unloadLibrary()`
already returns the count to 0 and calls the registry unload, after which `P1`
is not loaded: the library does not stay loaded through the first two of three
unloads. And with the non-pure flag set (`registryOrphan`), after one
`loadLibrary()` the one `unloadLibrary()` returns the count to 0 and calls the
registry unload, which refuses: `P1` stays in the loaded-library table. And
with the flag false, when loader 2 has loaded `P1` before
(`registryCatDogOfLoader2`), after one `loadLibrary()` the one
`unloadLibrary()` returns the count to 0 and calls the registry unload, which
returns and leaves `P1` in the table, its meta-objects being owned by loader
2. -/
theorem loadLibrary_beyond_cap_unloads_early :
    PluginLoader.loadLibraryTimes 2
          (LoadLibraryA.loaded 7 [⟨"4Base", "Dog", "Base"⟩, ⟨"4Base", "Cat", "Base"⟩]) 3
          ⟨1, "P1", true, 0⟩ Registry.initial
        = (⟨1, "P1", true, 2⟩, Outcome.returned () registryCatDog) ∧
      PluginLoader.unloadLibraryTimes false 2 ⟨1, "P1", true, 2⟩ registryCatDog
        = (⟨1, "P1", true, 0⟩, impl.unloadLibrary registryCatDog "P1" (some 1) false) ∧
      isLibraryLoadedByAnybody
          ((impl.unloadLibrary registryCatDog "P1" (some 1) false).registry Registry.initial)
          "P1" = false ∧
      Reachable registryOrphan ∧
      registryOrphan.hasANonPurePluginLibraryBeenOpened = true ∧
      PluginLoader.loadLibraryTimes 10 (LoadLibraryA.loaded 7 [⟨"4Base", "Cat", "Base"⟩]) 1
          ⟨1, "P1", true, 0⟩ registryOrphan
        = (⟨1, "P1", true, 1⟩, Outcome.returned () registryOrphanLoaded) ∧
      PluginLoader.unloadLibraryTimes false 1 ⟨1, "P1", true, 1⟩ registryOrphanLoaded
        = (⟨1, "P1", true, 0⟩, Outcome.returned () registryOrphanLoaded.logDebug) ∧
      isLibraryLoadedByAnybody registryOrphanLoaded.logDebug "P1" = true ∧
      Reachable registryCatDogOfLoader2 ∧
      registryCatDogOfLoader2.hasANonPurePluginLibraryBeenOpened = false ∧
      PluginLoader.loadLibraryTimes 10
          (LoadLibraryA.loaded 7 [⟨"4Base", "Dog", "Base"⟩, ⟨"4Base", "Cat", "Base"⟩]) 1
          ⟨1, "P1", true, 0⟩ registryCatDogOfLoader2
        = (⟨1, "P1", true, 1⟩, Outcome.returned () registryCatDogOfBoth) ∧
      PluginLoader.unloadLibraryTimes false 1 ⟨1, "P1", true, 1⟩ registryCatDogOfBoth
        = (⟨1, "P1", true, 0⟩, impl.unloadLibrary registryCatDogOfBoth "P1" (some 1) false) ∧
      isLibraryLoadedByAnybody
          ((impl.unloadLibrary registryCatDogOfBoth "P1" (some 1) false).registry
            Registry.initial) "P1" = true :=
  ⟨rfl, rfl, by decide, Reachable.registerPlugin _ _ _ Reachable.initial, by decide, rfl, rfl,
    by decide,
    Reachable.loadLibrary "P1" (some 2)
      (LoadLibraryA.loaded 7 [⟨"4Base", "Dog", "Base"⟩, ⟨"4Base", "Cat", "Base"⟩])
      Reachable.initial (Or.inl ⟨(), rfl⟩),
    by decide, rfl, rfl, by decide⟩

/-- C22, counterexample. With the non-pure flag set (`registryOrphan`: a
library opened outside the registry has registered `Cow`) and `P1` not loaded
by anybody, `createInstance("Cat")` on the lazy handle of loader 1 over `P1`,
count 0, loads `P1` and returns an instance, the count being 1; destroying
that only instance returns the count to 0 and calls the registry unload, which
refuses: `P1` is still in the loaded-library table. -/
theorem lazy_self_unload_refused_with_flag_set :
    Reachable registryOrphan ∧
      registryOrphan.hasANonPurePluginLibraryBeenOpened = true ∧
      isLibraryLoadedByAnybody registryOrphan "P1" = false ∧
      "Cat" ∈ (getAvailableClasses registryOrphanLoaded "4Base" (some 1)).1 ∧
      PluginLoader.createInstance 10 ⟨1, "P1", true, 0⟩ registryOrphan "4Base" "Cat"
          (LoadLibraryA.loaded 7 [⟨"4Base", "Cat", "Base"⟩])
        = (⟨1, "P1", true, 1⟩, Outcome.returned 2
            ((impl.createInstance registryOrphanLoaded "4Base" "Cat" (some 1)).registry
              Registry.initial)) ∧
      PluginLoader.destroyInstance ⟨1, "P1", true, 1⟩
          ((impl.createInstance registryOrphanLoaded "4Base" "Cat" (some 1)).registry
            Registry.initial) false
        = (⟨1, "P1", true, 0⟩, Outcome.returned ()
            ((impl.createInstance registryOrphanLoaded "4Base" "Cat" (some 1)).registry
              Registry.initial).logDebug) ∧
      "P1" ∈ (((impl.createInstance registryOrphanLoaded "4Base" "Cat" (some 1)).registry
          Registry.initial).logDebug.loadedLibraryVector.map Prod.fst) ∧
      isLibraryLoadedByAnybody
        ((impl.createInstance registryOrphanLoaded "4Base" "Cat" (some 1)).registry
          Registry.initial).logDebug "P1" = true :=
  ⟨Reachable.registerPlugin _ _ _ Reachable.initial, by decide, by decide, by decide, rfl, rfl,
    by decide, by decide⟩

/-- Every instance after the first holds one unit of the load count. On a
handle whose count is positive and below the cap, `createInstance` raises the
count by one when the registry creates the instance, and leaves the registry
as the registry creation left it; destroying that instance gives the unit back
and leaves the registry untouched, so the library stays loaded under the
instances that remain. -/
theorem instance_holds_load_count (cap : Nat) (lh : PluginLoader) (st s₁ : Registry)
    (Base : BaseClassName) (name : ClassName) (os : LoadLibraryA) (r : Bool)
    (p : MetaObjectPtr) (hpos : 0 < lh.load_count) (hcap : lh.load_count < cap)
    (hc : impl.createInstance st Base name (some lh.address) = Outcome.returned p s₁) :
    lh.createInstance cap st Base name os
        = ({ lh with load_count := lh.load_count + 1 }, Outcome.returned p s₁) ∧
      PluginLoader.destroyInstance { lh with load_count := lh.load_count + 1 } s₁ r
        = (lh, Outcome.returned () s₁) := by
  have hne : ¬ (lh.lazy = true ∧ lh.load_count = 0) := fun h => by omega
  have hmin : min (lh.load_count + 1) cap = lh.load_count + 1 := by omega
  refine ⟨?_, ?_⟩
  · rw [PluginLoader.createInstance, if_neg hne]
    simp only [hc, hmin]
  · rw [PluginLoader.destroyInstance,
      handle_unloadLibrary_of_many { lh with load_count := lh.load_count + 1 } s₁ r
        (by simp; omega)]
    simp

end impl
end plugin
